import Mathlib

/-!
# The SQL AST builder, its join reconstruction, and the analyzer

A shallow embedding of `parser/node.go` (the AST node model with its rendering
`ToString` and its `Clone`), of
`parser/visitor.go` (the tree builder `SqlNodeBuilderVisitor`), of
`parser/parser.go` (the entry point `ParseSQLWithAntlr` and the name extractors) and
of `analyzer/analyzer.go` (the analyzer `SQLAnalyzer`), followed by theorems about the
join reconstruction (`dealJoinList2Node`, `appendJoinFromConditions`,
`buildCartesianProduct`), the filter folding (`dealFilterConditions`), the predicate
classification (`VisitComparison`), the hints (`VisitHint`,
`visitPrimaryExpressionAsNode`), the analysis (`AnalyzeSQL`), the extractors
(`ExtractTableNames`, `ExtractColumns`), the rejection of empty input, the productions
the builder has no case for, and the rendering and cloning of nodes.

Conventions of the embedding:
* a Go pointer or interface value that may be `nil` is an `Option`;
* a Go `map[string]T` is an association list read with `List.lookup`
  (a later write shadows an earlier one); a `map[string]bool` used as a set is
  a list of its keys;
* a Go `int` / `int64` is an `Int`;
* a Go string-typed constant family (`SqlKind`, `JoinType`) is a `String`;
* a Go call that panics on a nil dereference gives `none`.
-/

namespace SqlParser

/-! ## node.go: the AST node model -/

/-- The Go type `SqlKind` is a string type. -/
abbrev SqlKind := String

abbrev SqlKindSelect : SqlKind := "SELECT"
abbrev SqlKindIdentifier : SqlKind := "IDENTIFIER"
abbrev SqlKindLiteral : SqlKind := "LITERAL"
abbrev SqlKindCall : SqlKind := "CALL"
abbrev SqlKindPlus : SqlKind := "PLUS"
abbrev SqlKindMinus : SqlKind := "MINUS"
abbrev SqlKindTimes : SqlKind := "TIMES"
abbrev SqlKindDivide : SqlKind := "DIVIDE"
abbrev SqlKindEquals : SqlKind := "EQUALS"
abbrev SqlKindNotEquals : SqlKind := "NOT_EQUALS"
abbrev SqlKindGreaterThan : SqlKind := "GREATER_THAN"
abbrev SqlKindLessThan : SqlKind := "LESS_THAN"
abbrev SqlKindAnd : SqlKind := "AND"
abbrev SqlKindOr : SqlKind := "OR"
abbrev SqlKindNot : SqlKind := "NOT"
abbrev SqlKindJoin : SqlKind := "JOIN"
abbrev SqlKindOrderBy : SqlKind := "ORDER_BY"
abbrev SqlKindAs : SqlKind := "AS"
abbrev SqlKindOther : SqlKind := "OTHER"

/-- Source span of a node (`SqlParserPos`). -/
structure SqlParserPos where
  LineNumber : Int
  ColumnNumber : Int
  EndLine : Int
  EndColumn : Int
deriving DecidableEq, Repr

/-- The value `&SqlParserPos{}` the join reconstruction gives to the nodes it creates. -/
abbrev zeroPos : Option SqlParserPos := some ⟨0, 0, 0, 0⟩

/-- The fields every node embeds (`BaseSqlNode`). -/
structure BaseSqlNode where
  Kind : SqlKind
  Pos : Option SqlParserPos
deriving DecidableEq, Repr

/-- `SqlLiteralType`, an `iota` enumeration. -/
inductive SqlLiteralType where
  | LiteralNull
  | LiteralBoolean
  | LiteralInteger
  | LiteralDecimal
  | LiteralString
  | LiteralDate
  | LiteralTime
  | LiteralTimestamp
deriving DecidableEq, Repr

/-- A `float64`, kept as its IEEE-754 bit pattern; no arithmetic is done on it. -/
structure Float64 where
  bits : Nat
deriving DecidableEq, Repr

/-- The `interface{}` held by `SqlLiteral.Value`: nil, bool, int64, float64 or string. -/
inductive LitValue where
  | null
  | bool (b : Bool)
  | int (i : Int)
  | float (f : Float64)
  | string (s : String)
deriving DecidableEq, Repr

/-- `SqlSyntax`, an `iota` enumeration. -/
inductive SqlSyntax where
  | SyntaxFunction
  | SyntaxPrefix
  | SyntaxPostfix
  | SyntaxBinary
  | SyntaxSpecial
deriving DecidableEq, Repr

/-- `SqlOperator`; a field the builder leaves out holds Go's zero value. -/
structure SqlOperator where
  Name : String
  Kind : SqlKind
  Syntax : SqlSyntax
  LeftPrec : Int := 0
  RightPrec : Int := 0
deriving DecidableEq, Repr

/-- The Go type `JoinType` is a string type. -/
abbrev JoinType := String

abbrev JoinInner : JoinType := "INNER"
abbrev JoinLeft : JoinType := "LEFT"
abbrev JoinRight : JoinType := "RIGHT"
abbrev JoinFull : JoinType := "FULL"
abbrev JoinCross : JoinType := "CROSS"

mutual
/-- The closed set of AST node kinds (`SqlNode` and its implementations). -/
inductive SqlNode where
  | identifier (base : BaseSqlNode) (Names : List String)
  | literal (base : BaseSqlNode) (Value : LitValue) (ValueType : SqlLiteralType)
      (TypeName : String)
  | call (base : BaseSqlNode) (Operator : Option SqlOperator) (Operands : List SqlNode)
  | hint (h : SqlHint)
  | select (base : BaseSqlNode) (Hints : List SqlHint) (KeywordList : List String)
      (SelectList : List SqlNode) (From : Option SqlNode) (Where : Option SqlNode)
      (GroupBy : List SqlNode) (Having : Option SqlNode) (WindowDecls : List SqlNode)
      (OrderBy : List SqlNode) (Offset : Option SqlNode) (Fetch : Option SqlNode)
  | join (base : BaseSqlNode) (Left : Option SqlNode) (Right : Option SqlNode)
      (JoinType : JoinType) (Condition : Option SqlNode) (Using : List SqlNode)
  | basicCall (base : BaseSqlNode) (Operand : Option SqlNode) (Alias : String)
  | nodeList (base : BaseSqlNode) (List : List SqlNode)
/-- `SqlHint`, kept apart because `SqlSelect.Hints` is a `[]*SqlHint`. -/
inductive SqlHint where
  | mk (base : BaseSqlNode) (Name : String) (Parameters : List SqlNode)
end

mutual
/-- Decidable equality of AST nodes, by structural comparison. -/
def SqlNode.decEq : (a b : SqlNode) → Decidable (a = b)
  | .identifier x0 x1, .identifier y0 y1 =>
    if h0 : x0 = y0 then
      if h1 : x1 = y1 then
        isTrue (by rw [h0, h1])
      else isFalse (by intro e; injection e with e0 e1; exact h1 e1)
    else isFalse (by intro e; injection e with e0 e1; exact h0 e0)
  | .identifier _ _, .literal _ _ _ _ => isFalse (by intro e; cases e)
  | .identifier _ _, .call _ _ _ => isFalse (by intro e; cases e)
  | .identifier _ _, .hint _ => isFalse (by intro e; cases e)
  | .identifier _ _, .select _ _ _ _ _ _ _ _ _ _ _ _ => isFalse (by intro e; cases e)
  | .identifier _ _, .join _ _ _ _ _ _ => isFalse (by intro e; cases e)
  | .identifier _ _, .basicCall _ _ _ => isFalse (by intro e; cases e)
  | .identifier _ _, .nodeList _ _ => isFalse (by intro e; cases e)
  | .literal _ _ _ _, .identifier _ _ => isFalse (by intro e; cases e)
  | .literal x0 x1 x2 x3, .literal y0 y1 y2 y3 =>
    if h0 : x0 = y0 then
      if h1 : x1 = y1 then
        if h2 : x2 = y2 then
          if h3 : x3 = y3 then
            isTrue (by rw [h0, h1, h2, h3])
          else isFalse (by intro e; injection e with e0 e1 e2 e3; exact h3 e3)
        else isFalse (by intro e; injection e with e0 e1 e2 e3; exact h2 e2)
      else isFalse (by intro e; injection e with e0 e1 e2 e3; exact h1 e1)
    else isFalse (by intro e; injection e with e0 e1 e2 e3; exact h0 e0)
  | .literal _ _ _ _, .call _ _ _ => isFalse (by intro e; cases e)
  | .literal _ _ _ _, .hint _ => isFalse (by intro e; cases e)
  | .literal _ _ _ _, .select _ _ _ _ _ _ _ _ _ _ _ _ => isFalse (by intro e; cases e)
  | .literal _ _ _ _, .join _ _ _ _ _ _ => isFalse (by intro e; cases e)
  | .literal _ _ _ _, .basicCall _ _ _ => isFalse (by intro e; cases e)
  | .literal _ _ _ _, .nodeList _ _ => isFalse (by intro e; cases e)
  | .call _ _ _, .identifier _ _ => isFalse (by intro e; cases e)
  | .call _ _ _, .literal _ _ _ _ => isFalse (by intro e; cases e)
  | .call x0 x1 x2, .call y0 y1 y2 =>
    if h0 : x0 = y0 then
      if h1 : x1 = y1 then
        match SqlNode.decEqList x2 y2 with
        | isTrue h2 =>
          isTrue (by rw [h0, h1, h2])
        | isFalse h2 => isFalse (by intro e; injection e with e0 e1 e2; exact h2 e2)
      else isFalse (by intro e; injection e with e0 e1 e2; exact h1 e1)
    else isFalse (by intro e; injection e with e0 e1 e2; exact h0 e0)
  | .call _ _ _, .hint _ => isFalse (by intro e; cases e)
  | .call _ _ _, .select _ _ _ _ _ _ _ _ _ _ _ _ => isFalse (by intro e; cases e)
  | .call _ _ _, .join _ _ _ _ _ _ => isFalse (by intro e; cases e)
  | .call _ _ _, .basicCall _ _ _ => isFalse (by intro e; cases e)
  | .call _ _ _, .nodeList _ _ => isFalse (by intro e; cases e)
  | .hint _, .identifier _ _ => isFalse (by intro e; cases e)
  | .hint _, .literal _ _ _ _ => isFalse (by intro e; cases e)
  | .hint _, .call _ _ _ => isFalse (by intro e; cases e)
  | .hint x0, .hint y0 =>
    match SqlHint.decEq x0 y0 with
    | isTrue h0 =>
      isTrue (by rw [h0])
    | isFalse h0 => isFalse (by intro e; injection e with e0; exact h0 e0)
  | .hint _, .select _ _ _ _ _ _ _ _ _ _ _ _ => isFalse (by intro e; cases e)
  | .hint _, .join _ _ _ _ _ _ => isFalse (by intro e; cases e)
  | .hint _, .basicCall _ _ _ => isFalse (by intro e; cases e)
  | .hint _, .nodeList _ _ => isFalse (by intro e; cases e)
  | .select _ _ _ _ _ _ _ _ _ _ _ _, .identifier _ _ => isFalse (by intro e; cases e)
  | .select _ _ _ _ _ _ _ _ _ _ _ _, .literal _ _ _ _ => isFalse (by intro e; cases e)
  | .select _ _ _ _ _ _ _ _ _ _ _ _, .call _ _ _ => isFalse (by intro e; cases e)
  | .select _ _ _ _ _ _ _ _ _ _ _ _, .hint _ => isFalse (by intro e; cases e)
  | .select x0 x1 x2 x3 x4 x5 x6 x7 x8 x9 x10 x11, .select y0 y1 y2 y3 y4 y5 y6 y7 y8 y9 y10 y11 =>
    if h0 : x0 = y0 then
      match SqlHint.decEqList x1 y1 with
      | isTrue h1 =>
        if h2 : x2 = y2 then
          match SqlNode.decEqList x3 y3 with
          | isTrue h3 =>
            match SqlNode.decEqOption x4 y4 with
            | isTrue h4 =>
              match SqlNode.decEqOption x5 y5 with
              | isTrue h5 =>
                match SqlNode.decEqList x6 y6 with
                | isTrue h6 =>
                  match SqlNode.decEqOption x7 y7 with
                  | isTrue h7 =>
                    match SqlNode.decEqList x8 y8 with
                    | isTrue h8 =>
                      match SqlNode.decEqList x9 y9 with
                      | isTrue h9 =>
                        match SqlNode.decEqOption x10 y10 with
                        | isTrue h10 =>
                          match SqlNode.decEqOption x11 y11 with
                          | isTrue h11 =>
                            isTrue (by rw [h0, h1, h2, h3, h4, h5, h6, h7, h8, h9, h10, h11])
                          | isFalse h11 => isFalse (by intro e; injection e with e0 e1 e2 e3 e4 e5 e6 e7 e8 e9 e10 e11; exact h11 e11)
                        | isFalse h10 => isFalse (by intro e; injection e with e0 e1 e2 e3 e4 e5 e6 e7 e8 e9 e10 e11; exact h10 e10)
                      | isFalse h9 => isFalse (by intro e; injection e with e0 e1 e2 e3 e4 e5 e6 e7 e8 e9 e10 e11; exact h9 e9)
                    | isFalse h8 => isFalse (by intro e; injection e with e0 e1 e2 e3 e4 e5 e6 e7 e8 e9 e10 e11; exact h8 e8)
                  | isFalse h7 => isFalse (by intro e; injection e with e0 e1 e2 e3 e4 e5 e6 e7 e8 e9 e10 e11; exact h7 e7)
                | isFalse h6 => isFalse (by intro e; injection e with e0 e1 e2 e3 e4 e5 e6 e7 e8 e9 e10 e11; exact h6 e6)
              | isFalse h5 => isFalse (by intro e; injection e with e0 e1 e2 e3 e4 e5 e6 e7 e8 e9 e10 e11; exact h5 e5)
            | isFalse h4 => isFalse (by intro e; injection e with e0 e1 e2 e3 e4 e5 e6 e7 e8 e9 e10 e11; exact h4 e4)
          | isFalse h3 => isFalse (by intro e; injection e with e0 e1 e2 e3 e4 e5 e6 e7 e8 e9 e10 e11; exact h3 e3)
        else isFalse (by intro e; injection e with e0 e1 e2 e3 e4 e5 e6 e7 e8 e9 e10 e11; exact h2 e2)
      | isFalse h1 => isFalse (by intro e; injection e with e0 e1 e2 e3 e4 e5 e6 e7 e8 e9 e10 e11; exact h1 e1)
    else isFalse (by intro e; injection e with e0 e1 e2 e3 e4 e5 e6 e7 e8 e9 e10 e11; exact h0 e0)
  | .select _ _ _ _ _ _ _ _ _ _ _ _, .join _ _ _ _ _ _ => isFalse (by intro e; cases e)
  | .select _ _ _ _ _ _ _ _ _ _ _ _, .basicCall _ _ _ => isFalse (by intro e; cases e)
  | .select _ _ _ _ _ _ _ _ _ _ _ _, .nodeList _ _ => isFalse (by intro e; cases e)
  | .join _ _ _ _ _ _, .identifier _ _ => isFalse (by intro e; cases e)
  | .join _ _ _ _ _ _, .literal _ _ _ _ => isFalse (by intro e; cases e)
  | .join _ _ _ _ _ _, .call _ _ _ => isFalse (by intro e; cases e)
  | .join _ _ _ _ _ _, .hint _ => isFalse (by intro e; cases e)
  | .join _ _ _ _ _ _, .select _ _ _ _ _ _ _ _ _ _ _ _ => isFalse (by intro e; cases e)
  | .join x0 x1 x2 x3 x4 x5, .join y0 y1 y2 y3 y4 y5 =>
    if h0 : x0 = y0 then
      match SqlNode.decEqOption x1 y1 with
      | isTrue h1 =>
        match SqlNode.decEqOption x2 y2 with
        | isTrue h2 =>
          if h3 : x3 = y3 then
            match SqlNode.decEqOption x4 y4 with
            | isTrue h4 =>
              match SqlNode.decEqList x5 y5 with
              | isTrue h5 =>
                isTrue (by rw [h0, h1, h2, h3, h4, h5])
              | isFalse h5 => isFalse (by intro e; injection e with e0 e1 e2 e3 e4 e5; exact h5 e5)
            | isFalse h4 => isFalse (by intro e; injection e with e0 e1 e2 e3 e4 e5; exact h4 e4)
          else isFalse (by intro e; injection e with e0 e1 e2 e3 e4 e5; exact h3 e3)
        | isFalse h2 => isFalse (by intro e; injection e with e0 e1 e2 e3 e4 e5; exact h2 e2)
      | isFalse h1 => isFalse (by intro e; injection e with e0 e1 e2 e3 e4 e5; exact h1 e1)
    else isFalse (by intro e; injection e with e0 e1 e2 e3 e4 e5; exact h0 e0)
  | .join _ _ _ _ _ _, .basicCall _ _ _ => isFalse (by intro e; cases e)
  | .join _ _ _ _ _ _, .nodeList _ _ => isFalse (by intro e; cases e)
  | .basicCall _ _ _, .identifier _ _ => isFalse (by intro e; cases e)
  | .basicCall _ _ _, .literal _ _ _ _ => isFalse (by intro e; cases e)
  | .basicCall _ _ _, .call _ _ _ => isFalse (by intro e; cases e)
  | .basicCall _ _ _, .hint _ => isFalse (by intro e; cases e)
  | .basicCall _ _ _, .select _ _ _ _ _ _ _ _ _ _ _ _ => isFalse (by intro e; cases e)
  | .basicCall _ _ _, .join _ _ _ _ _ _ => isFalse (by intro e; cases e)
  | .basicCall x0 x1 x2, .basicCall y0 y1 y2 =>
    if h0 : x0 = y0 then
      match SqlNode.decEqOption x1 y1 with
      | isTrue h1 =>
        if h2 : x2 = y2 then
          isTrue (by rw [h0, h1, h2])
        else isFalse (by intro e; injection e with e0 e1 e2; exact h2 e2)
      | isFalse h1 => isFalse (by intro e; injection e with e0 e1 e2; exact h1 e1)
    else isFalse (by intro e; injection e with e0 e1 e2; exact h0 e0)
  | .basicCall _ _ _, .nodeList _ _ => isFalse (by intro e; cases e)
  | .nodeList _ _, .identifier _ _ => isFalse (by intro e; cases e)
  | .nodeList _ _, .literal _ _ _ _ => isFalse (by intro e; cases e)
  | .nodeList _ _, .call _ _ _ => isFalse (by intro e; cases e)
  | .nodeList _ _, .hint _ => isFalse (by intro e; cases e)
  | .nodeList _ _, .select _ _ _ _ _ _ _ _ _ _ _ _ => isFalse (by intro e; cases e)
  | .nodeList _ _, .join _ _ _ _ _ _ => isFalse (by intro e; cases e)
  | .nodeList _ _, .basicCall _ _ _ => isFalse (by intro e; cases e)
  | .nodeList x0 x1, .nodeList y0 y1 =>
    if h0 : x0 = y0 then
      match SqlNode.decEqList x1 y1 with
      | isTrue h1 =>
        isTrue (by rw [h0, h1])
      | isFalse h1 => isFalse (by intro e; injection e with e0 e1; exact h1 e1)
    else isFalse (by intro e; injection e with e0 e1; exact h0 e0)
termination_by structural a => a
/-- Decidable equality of lists of AST nodes. -/
def SqlNode.decEqList : (as bs : List SqlNode) → Decidable (as = bs)
  | [], [] => isTrue rfl
  | [], _ :: _ => isFalse (by intro e; cases e)
  | _ :: _, [] => isFalse (by intro e; cases e)
  | a :: as, b :: bs =>
    match SqlNode.decEq a b with
    | isTrue h0 =>
      match SqlNode.decEqList as bs with
      | isTrue h1 => isTrue (by rw [h0, h1])
      | isFalse h1 => isFalse (by intro e; injection e with e0 e1; exact h1 e1)
    | isFalse h0 => isFalse (by intro e; injection e with e0 e1; exact h0 e0)
termination_by structural as => as
/-- Decidable equality of optional AST nodes. -/
def SqlNode.decEqOption : (a b : Option SqlNode) → Decidable (a = b)
  | none, none => isTrue rfl
  | none, some _ => isFalse (by intro e; cases e)
  | some _, none => isFalse (by intro e; cases e)
  | some a, some b =>
    match SqlNode.decEq a b with
    | isTrue h0 => isTrue (by rw [h0])
    | isFalse h0 => isFalse (by intro e; injection e with e0; exact h0 e0)
termination_by structural a => a
/-- Decidable equality of hints. -/
def SqlHint.decEq : (a b : SqlHint) → Decidable (a = b)
  | .mk x0 x1 x2, .mk y0 y1 y2 =>
    if h0 : x0 = y0 then
      if h1 : x1 = y1 then
        match SqlNode.decEqList x2 y2 with
        | isTrue h2 =>
          isTrue (by rw [h0, h1, h2])
        | isFalse h2 => isFalse (by intro e; injection e with e0 e1 e2; exact h2 e2)
      else isFalse (by intro e; injection e with e0 e1 e2; exact h1 e1)
    else isFalse (by intro e; injection e with e0 e1 e2; exact h0 e0)
termination_by structural a => a
/-- Decidable equality of lists of hints. -/
def SqlHint.decEqList : (as bs : List SqlHint) → Decidable (as = bs)
  | [], [] => isTrue rfl
  | [], _ :: _ => isFalse (by intro e; cases e)
  | _ :: _, [] => isFalse (by intro e; cases e)
  | a :: as, b :: bs =>
    match SqlHint.decEq a b with
    | isTrue h0 =>
      match SqlHint.decEqList as bs with
      | isTrue h1 => isTrue (by rw [h0, h1])
      | isFalse h1 => isFalse (by intro e; injection e with e0 e1; exact h1 e1)
    | isFalse h0 => isFalse (by intro e; injection e with e0 e1; exact h0 e0)
termination_by structural as => as
end

instance : DecidableEq SqlNode := SqlNode.decEq

instance : DecidableEq SqlHint := SqlHint.decEq

/-- `*SqlCall`, the element type of the builder's two predicate lists. -/
structure SqlCall where
  base : BaseSqlNode
  Operator : Option SqlOperator
  Operands : List SqlNode
deriving DecidableEq

/-- A `*SqlCall` used where a `SqlNode` is expected. -/
def SqlCall.toNode (c : SqlCall) : SqlNode :=
  .call c.base c.Operator c.Operands

def NewSqlIdentifier (names : List String) (pos : Option SqlParserPos) : SqlNode :=
  .identifier ⟨SqlKindIdentifier, pos⟩ names

def NewSqlLiteral (value : LitValue) (valueType : SqlLiteralType)
    (pos : Option SqlParserPos) : SqlNode :=
  .literal ⟨SqlKindLiteral, pos⟩ value valueType ""

def NewSqlCall (operator : Option SqlOperator) (operands : List SqlNode)
    (pos : Option SqlParserPos) : SqlCall :=
  let kind :=
    match operator with
    | some op => if op.Kind ≠ "" then op.Kind else SqlKindCall
    | none => SqlKindCall
  ⟨⟨kind, pos⟩, operator, operands⟩

def NewSqlHint (name : String) (parameters : List SqlNode) (pos : Option SqlParserPos) :
    SqlHint :=
  .mk ⟨SqlKindOther, pos⟩ name parameters

def NewSqlJoin (left right : Option SqlNode) (joinType : JoinType)
    (condition : Option SqlNode) (pos : Option SqlParserPos) : SqlNode :=
  .join ⟨SqlKindJoin, pos⟩ left right joinType condition []

/-- `SqlIdentifier.GetSimple`: the last name part, or the empty string. -/
def GetSimple (names : List String) : String :=
  match names.getLast? with
  | some n => n
  | none => ""

/-! ## visitor.go: the builder's accumulator state -/

/-- The mutable fields of `SqlNodeBuilderVisitor` (the parser handle is not state). -/
structure SqlNodeBuilderVisitor where
  allDerefFields : List String
  columnNameSet : List String
  subQueryTables : List (String × SqlNode)
  assetMap : List (String × String)
  currentAssetKey : String
  currentIdentifiers : List String
  joinConditions : List SqlCall
  filterConditions : List SqlCall
  variableSet : List String
deriving DecidableEq

def NewSqlNodeBuilderVisitor : SqlNodeBuilderVisitor :=
  { allDerefFields := []
    columnNameSet := []
    subQueryTables := []
    assetMap := []
    currentAssetKey := ""
    currentIdentifiers := []
    joinConditions := []
    filterConditions := []
    variableSet := [] }

/-! ## visitor.go: join reconstruction -/

/-- The condition `1 = 1` built at lines 1207-1212, 1220-1225 and 1298-1303. -/
def cartesianCondition : SqlNode :=
  let oneLiteral := NewSqlLiteral (.int 1) .LiteralInteger zeroPos
  (NewSqlCall (some { Name := "=", Kind := SqlKindEquals, Syntax := .SyntaxBinary })
    [oneLiteral, oneLiteral] zeroPos).toNode

/-- `extractTableName`: the relation key of a from-item. -/
def extractTableName (node : Option SqlNode) : String :=
  match node with
  | some (.identifier _ (n :: _)) => n
  | some (.call _ (some op) (_ :: .identifier _ aliasNames :: _)) =>
    if op.Kind = SqlKindAs then GetSimple aliasNames else ""
  | _ => ""

/-- The first loop of `getConditionTables`: the first name part of every operand
that is an identifier of at least two parts. -/
def conditionOperandTables : List SqlNode → List String
  | [] => []
  | .identifier _ (n :: _ :: _) :: rest => n :: conditionOperandTables rest
  | _ :: rest => conditionOperandTables rest

/-- The second loop of `getConditionTables`: order-preserving deduplication. -/
def uniqueTablesLoop : List String → List String → List String
  | [], result => result
  | table :: rest, result =>
    if result.contains table then uniqueTablesLoop rest result
    else uniqueTablesLoop rest (result ++ [table])

/-- `getConditionTables`: the relation keys a join condition names. -/
def getConditionTables (condition : SqlCall) : List String :=
  if condition.Operands.length < 2 then []
  else uniqueTablesLoop (conditionOperandTables condition.Operands) []

/-- `buildCartesianProduct`. -/
def buildCartesianProduct (fromList : List SqlNode) : Option SqlNode :=
  match fromList with
  | [] => none
  | first :: rest =>
    some (rest.foldl
      (fun result item =>
        NewSqlJoin (some result) (some item) JoinInner (some cartesianCondition) zeroPos)
      first)

/-- The loop variables of `appendJoinFromConditions`. -/
structure JoinLoop where
  joinBuilder : Option SqlNode
  usedTables : List String
deriving DecidableEq

/-- The node standing for a relation key: the registered subquery, else a fresh identifier
(lines 1252-1260). -/
def tableNode (v : SqlNodeBuilderVisitor) (table : String) : SqlNode :=
  match v.subQueryTables.lookup table with
  | some subQuery => subQuery
  | none => NewSqlIdentifier [table] zeroPos

/-- One iteration of the loop of `appendJoinFromConditions`. -/
def appendJoinStep (v : SqlNodeBuilderVisitor) (s : JoinLoop) (condition : SqlCall) :
    JoinLoop :=
  match getConditionTables condition with
  | leftTable :: rightTable :: _ =>
    let leftNode := tableNode v leftTable
    let rightNode := tableNode v rightTable
    let seeded : JoinLoop :=
      match s.joinBuilder with
      | none => ⟨some leftNode, leftTable :: s.usedTables⟩
      | some _ => s
    let connectNode := if seeded.usedTables.contains rightTable then leftNode else rightNode
    ⟨some (NewSqlJoin seeded.joinBuilder (some connectNode) JoinInner
        (some condition.toNode) zeroPos),
      rightTable :: leftTable :: seeded.usedTables⟩
  | _ => s

/-- `appendJoinFromConditions`. -/
def appendJoinFromConditions (v : SqlNodeBuilderVisitor) (joinConditions : List SqlCall) :
    Option SqlNode :=
  if joinConditions.length = 0 then none
  else (joinConditions.foldl (appendJoinStep v) ⟨none, []⟩).joinBuilder

/-- The `fromTables` loop of `dealJoinList2Node`: the non-empty relation keys of F. -/
def fromTables (fromList : List SqlNode) : List String :=
  (fromList.map fun node => extractTableName (some node)).filter fun name => name ≠ ""

/-- The `joinTables` loop of `dealJoinList2Node`: every key some condition names. -/
def joinTables (joinConditions : List SqlCall) : List String :=
  joinConditions.foldl (fun acc condition => acc ++ getConditionTables condition) []

/-- The `extraTables` loop of `dealJoinList2Node`. -/
def extraTables (fromList : List SqlNode) (joinConditions : List SqlCall) : List String :=
  (fromTables fromList).filter fun table => !(joinTables joinConditions).contains table

/-- One `1 = 1` join over a fresh identifier (lines 1205-1213 and 1219-1226). -/
def cartesianJoin (joinBuilder : SqlNode) (extraTable : String) : SqlNode :=
  NewSqlJoin (some joinBuilder) (some (NewSqlIdentifier [extraTable] zeroPos)) JoinInner
    (some cartesianCondition) zeroPos

/-- `dealJoinList2Node`. -/
def dealJoinList2Node (v : SqlNodeBuilderVisitor) (fromList : List SqlNode) :
    Option SqlNode :=
  if fromList.length ≤ 1 then fromList.head?
  else if v.joinConditions.length = 0 then buildCartesianProduct fromList
  else
    let extra := extraTables fromList v.joinConditions
    match appendJoinFromConditions v v.joinConditions with
    | some joinBuilder => some (extra.foldl cartesianJoin joinBuilder)
    | none =>
      match extra with
      | first :: rest => some (rest.foldl cartesianJoin (NewSqlIdentifier [first] zeroPos))
      | [] => none

/-- `dealFilterConditions`. -/
def dealFilterConditions (v : SqlNodeBuilderVisitor) : Option SqlNode :=
  match v.filterConditions with
  | [] => none
  | [only] => some only.toNode
  | first :: rest =>
    some (rest.foldl
      (fun result condition =>
        (NewSqlCall (some { Name := "AND", Kind := SqlKindAnd, Syntax := .SyntaxBinary })
          [result, condition.toNode] zeroPos).toNode)
      first.toNode)

/-! ## Go library functions the builder calls -/

/-- The loop of `strings.Split(s, ".")` over the characters still to read,
`cur` holding the part being read, reversed. -/
def splitDotChars : List Char → List Char → List String
  | [], cur => [String.mk cur.reverse]
  | c :: cs, cur =>
    if c = '.' then String.mk cur.reverse :: splitDotChars cs []
    else splitDotChars cs (c :: cur)

/-- `strings.Split(s, ".")`. -/
def splitDot (s : String) : List String :=
  splitDotChars s.toList []

/-- Modelled from the spec: `unicode.ToUpper`, whose case tables belong to the Go
library and are not among the sources. An ASCII letter is upper-cased; the two runes
outside ASCII whose upper case is an ASCII letter, U+017F (long s, to `S`) and U+0131
(dotless i, to `I`), are mapped to it; every other rune is left as it is, where the
library gives a rune outside ASCII as well. So an upper-cased text equals a given ASCII
text here exactly when it does in the code. -/
def upperRune (c : Char) : Char :=
  if c.toNat = 0x17F then 'S'
  else if c.toNat = 0x131 then 'I'
  else Char.toUpper c

/-- Modelled from the spec: `unicode.ToLower`, as `upperRune`: an ASCII letter is
lower-cased, the two runes outside ASCII whose lower case is an ASCII letter, U+0130
(dotted capital I, to `i`) and U+212A (Kelvin sign, to `k`), are mapped to it, and every
other rune is left as it is. -/
def lowerRune (c : Char) : Char :=
  if c.toNat = 0x130 then 'i'
  else if c.toNat = 0x212A then 'k'
  else Char.toLower c

/-- `strings.ToUpper`: `unicode.ToUpper` on every rune. -/
def toUpper (s : String) : String :=
  String.mk (s.toList.map upperRune)

/-- `strings.ToLower`: `unicode.ToLower` on every rune. -/
def toLower (s : String) : String :=
  String.mk (s.toList.map lowerRune)

/-- `strings.Trim(s, cutset)`. -/
def trim (s : String) (cutset : List Char) : String :=
  String.mk
    (((s.toList.dropWhile fun c => cutset.contains c).reverse.dropWhile
      fun c => cutset.contains c).reverse)

/-- `strconv.ParseInt(s, 10, 64)`: an optional sign, then one or more decimal digits,
the value within the int64 range; `none` stands for a returned error. -/
def ParseInt (s : String) : Option Int :=
  let cs := s.toList
  let (neg, digits) :=
    match cs with
    | '+' :: rest => (false, rest)
    | '-' :: rest => (true, rest)
    | _ => (false, cs)
  if digits.isEmpty then none
  else if digits.all Char.isDigit then
    let n : Int := digits.foldl (fun acc c => 10 * acc + ((c.toNat : Int) - 48)) 0
    let value : Int := if neg then -n else n
    if -9223372036854775808 ≤ value ∧ value ≤ 9223372036854775807 then some value else none
  else none

/-- Writing a key into a `map[string]bool` used as a set. -/
def setAdd (set : List String) (key : String) : List String :=
  if set.contains key then set else set ++ [key]

/-! ## The concrete syntax tree of the grammar front end -/

/-- Modelled from the spec: a token of the external grammar front end (the generated
`antlr` package is not among the sources), with the line, column and text the
builder reads from it. -/
structure Token where
  Line : Int
  Column : Int
  Text : String
deriving DecidableEq, Repr

/-- Modelled from the spec: the `number` productions of the front end's tree. The
builder converts a decimal literal with `strconv.ParseFloat`; floating point is
outside this embedding, so the node carries what that call yields for its text
(`none` when it reports an error). -/
inductive NumberContext where
  | integerLiteral (start : Option Token) (text : String)
  | decimalLiteral (start : Option Token) (text : String) (parseFloat : Option Float64)
  | other

/-- Modelled from the spec: the `constant` productions of the front end's tree, one
constructor per production kind the builder dispatches on and `other` for the
rest. -/
inductive ConstantContext where
  | stringLiteral (start : Option Token) (allStringLit : List String)
  | numericLiteral (number : NumberContext)
  | booleanLiteral (start : Option Token) (booleanValue : String)
  | nullLiteral (start : Option Token)
  | other

/-- Modelled from the spec: a `predicate` of the front end's tree; the builder reads
only the text of its first token. -/
structure PredicateContext where
  startText : String

mutual
/-- Modelled from the spec: the `booleanExpression` productions of the front end's
tree (an `expression` is one `booleanExpression`). Children the grammar makes
mandatory are present in every tree parsed without syntax error, the only trees the
builder visits. -/
inductive BooleanExpressionContext where
  | logicalBinary (start : Option Token) (left right : BooleanExpressionContext)
      (operator : String)
  | logicalNot (start : Option Token) (booleanExpression : BooleanExpressionContext)
  | predicated (start : Option Token) (valueExpression : ValueExpressionContext)
      (predicate : Option PredicateContext)
  | other
/-- Modelled from the spec: the `valueExpression` productions of the front end's
tree. -/
inductive ValueExpressionContext where
  | valueExpressionDefault (primaryExpression : PrimaryExpressionContext)
  | arithmeticBinary (start : Option Token) (left right : ValueExpressionContext)
      (operator : String)
  | arithmeticUnary (start : Option Token) (valueExpression : ValueExpressionContext)
      (operator : String)
  | comparison (start : Option Token) (left right : ValueExpressionContext)
      (comparisonOperator : String)
  | other
/-- Modelled from the spec: the `primaryExpression` productions of the front end's
tree; `dereference` carries the text of the whole dotted reference. -/
inductive PrimaryExpressionContext where
  | star (start : Option Token) (qualifiedName : Option String)
  | columnReference (start : Option Token) (identifier : String)
  | dereference (start : Option Token) (text : String)
  | constantDefault (constant : ConstantContext)
  | functionCall (start : Option Token) (functionName : String)
      (allExpression : List BooleanExpressionContext)
  | parenthesizedExpression (expression : BooleanExpressionContext)
  | other
end

/-- Modelled from the spec: a parameter of a hint statement, a `primaryExpression` of
which the builder reads only the span and the text; `parseFloat` is what
`strconv.ParseFloat` yields for the text once trimmed of quotes. -/
structure HintParameterContext where
  start : Option Token
  stop : Option Token
  text : String
  parseFloat : Option Float64

/-- Modelled from the spec: a `hintStatement` of the front end's tree. -/
structure HintStatementContext where
  start : Option Token
  stop : Option Token
  hintName : Option String
  allPrimaryExpression : List HintParameterContext

/-- Modelled from the spec: a `hint` comment of the front end's tree. -/
structure HintContext where
  allHintStatement : List HintStatementContext

/-- Modelled from the spec: a `namedExpression` (select item) of the front end's
tree; `aliasText` is the text of its alias identifier, when it has one. -/
structure NamedExpressionContext where
  start : Option Token
  expression : BooleanExpressionContext
  aliasText : Option String

/-- Modelled from the spec: the `namedExpressionSeq` productions of the front end's
tree. -/
inductive NamedExpressionSeqContext where
  | federatedQueryExpression (allNamedExpression : List NamedExpressionContext)
  | other

/-- Modelled from the spec: the `selectClause` of the front end's tree. -/
structure SelectClauseContext where
  allHint : List HintContext
  namedExpressionSeq : NamedExpressionSeqContext

/-- Modelled from the spec: a `groupByClause` of the front end's tree; it has no
expression when it is a grouping-analytics clause. -/
structure GroupByClauseContext where
  expression : Option BooleanExpressionContext

/-- Modelled from the spec: the `aggregationClause` of the front end's tree. -/
structure AggregationClauseContext where
  allGroupByClause : List GroupByClauseContext

/-- Modelled from the spec: a `tableAlias` of the front end's tree: its whole text and
the text of its strict identifier, when it has one. -/
structure TableAliasContext where
  text : String
  strictIdentifier : Option String

mutual
/-- Modelled from the spec: the `query` production of the front end's tree. -/
inductive QueryContext where
  | mk (queryTerm : QueryTermContext)
/-- Modelled from the spec: the `queryTerm` productions of the front end's tree. -/
inductive QueryTermContext where
  | queryTermDefault (queryPrimary : QueryPrimaryContext)
  | other
/-- Modelled from the spec: the `queryPrimary` productions of the front end's tree. -/
inductive QueryPrimaryContext where
  | queryPrimaryDefault (querySpecification : QuerySpecificationContext)
  | other
/-- Modelled from the spec: the `querySpecification` productions of the front end's
tree; the WHERE and HAVING clauses are given by their boolean expression. -/
inductive QuerySpecificationContext where
  | regularQuerySpecification (start : Option Token) (selectClause : SelectClauseContext)
      (fromClause : Option FromClauseContext)
      (whereClause : Option BooleanExpressionContext)
      (aggregationClause : Option AggregationClauseContext)
      (havingClause : Option BooleanExpressionContext)
  | other
/-- Modelled from the spec: the `fromClause` of the front end's tree. -/
inductive FromClauseContext where
  | mk (allRelation : List RelationContext)
/-- Modelled from the spec: a `relation` of the front end's tree: its primary and
the explicit-join extensions that follow it. -/
inductive RelationContext where
  | mk (relationPrimary : RelationPrimaryContext)
      (allRelationExtension : List RelationExtensionContext)
/-- Modelled from the spec: a `relationExtension` of the front end's tree. -/
inductive RelationExtensionContext where
  | joinRelation (joinType : String) (right : RelationPrimaryContext)
      (joinCriteria : Option BooleanExpressionContext)
  | other
/-- Modelled from the spec: the `relationPrimary` productions of the front end's
tree. -/
inductive RelationPrimaryContext where
  | tableName (start : Option Token) (multipartIdentifier : String)
      (tableAlias : Option TableAliasContext)
  | aliasedQuery (start : Option Token) (query : QueryContext)
      (tableAlias : Option TableAliasContext)
  | aliasedRelation (relation : RelationContext)
  | other
end

/-- Modelled from the spec: the `statement` productions of the front end's tree. -/
inductive StatementContext where
  | statementDefault (query : QueryContext)
  | other

/-- Modelled from the spec: the root `singleStatement` of the front end's tree. -/
structure SingleStatementContext where
  statement : StatementContext

/-! ## visitor.go: building the AST from the tree -/

/-- What a `Visit...` method of the query level returns as `interface{}`: nil, a
`SqlNode`, or the `error` of `newError` (its message without the printed context). -/
inductive VisitResult where
  | nil
  | node (n : SqlNode)
  | error (message : String)
deriving DecidableEq

/-- The type assertion `result.(SqlNode)`. -/
def VisitResult.asNode : VisitResult → Option SqlNode
  | .node n => some n
  | _ => none

/-- `getPosition`. -/
def getPosition (token : Option Token) : Option SqlParserPos :=
  match token with
  | none => some ⟨0, 0, 0, 0⟩
  | some t => some ⟨t.Line, t.Column, t.Line, t.Column + t.Text.utf8ByteSize⟩

/-- `getPositionFromContext`. -/
def getPositionFromContext (start stop : Option Token) : Option SqlParserPos :=
  match start with
  | none => some ⟨0, 0, 0, 0⟩
  | some st =>
    match stop with
    | some sp => some ⟨st.Line, st.Column, sp.Line, sp.Column + sp.Text.utf8ByteSize⟩
    | none => some ⟨st.Line, st.Column, st.Line, st.Column + st.Text.utf8ByteSize⟩

/-- `getOperatorKind`. -/
def getOperatorKind (op : String) : SqlKind :=
  if op = "+" then SqlKindPlus
  else if op = "-" then SqlKindMinus
  else if op = "*" then SqlKindTimes
  else if op = "/" then SqlKindDivide
  else if op = "=" ∨ op = "==" then SqlKindEquals
  else if op = "!=" ∨ op = "<>" then SqlKindNotEquals
  else if op = ">" then SqlKindGreaterThan
  else if op = "<" then SqlKindLessThan
  else SqlKindOther

/-- The type assertion `node.(*SqlIdentifier)`. -/
def isIdentifier : SqlNode → Bool
  | .identifier .. => true
  | _ => false

/-- The type assertion `node.(*SqlLiteral)`. -/
def isLiteral : SqlNode → Bool
  | .literal .. => true
  | _ => false

/-- `VisitStar`. -/
def VisitStar (start : Option Token) (qualifiedName : Option String) : SqlNode :=
  match qualifiedName with
  | some tableName => NewSqlIdentifier [tableName, "*"] (getPosition start)
  | none => NewSqlIdentifier ["*"] (getPosition start)

/-- `VisitColumnReference`. -/
def VisitColumnReference (start : Option Token) (identifier : String)
    (v : SqlNodeBuilderVisitor) : SqlNode × SqlNodeBuilderVisitor :=
  let fullName := v.currentAssetKey ++ "." ++ identifier
  (NewSqlIdentifier [identifier] (getPosition start),
    { v with
      allDerefFields := setAdd v.allDerefFields fullName
      columnNameSet := setAdd v.columnNameSet fullName
      variableSet := setAdd v.variableSet identifier })

/-- `VisitDereference`. -/
def VisitDereference (start : Option Token) (text : String) (v : SqlNodeBuilderVisitor) :
    SqlNode × SqlNodeBuilderVisitor :=
  let parts := splitDot text
  (NewSqlIdentifier parts (getPosition start),
    if 2 ≤ parts.length then
      { v with
        allDerefFields := setAdd v.allDerefFields text
        columnNameSet := setAdd v.columnNameSet text }
    else v)

/-- `VisitIntegerLiteral`. -/
def VisitIntegerLiteral (start : Option Token) (text : String) : Option SqlNode :=
  match ParseInt text with
  | some value => some (NewSqlLiteral (.int value) .LiteralInteger (getPosition start))
  | none => none

/-- `VisitDecimalLiteral`. -/
def VisitDecimalLiteral (start : Option Token) (parseFloat : Option Float64) :
    Option SqlNode :=
  match parseFloat with
  | some value => some (NewSqlLiteral (.float value) .LiteralDecimal (getPosition start))
  | none => none

/-- `VisitNumericLiteral`. -/
def VisitNumericLiteral : NumberContext → Option SqlNode
  | .integerLiteral start text => VisitIntegerLiteral start text
  | .decimalLiteral start _ parseFloat => VisitDecimalLiteral start parseFloat
  | .other => none

/-- The quote stripping of `VisitStringLiteral` (`text[1 : len(text)-1]`); a string
token starts and ends with a one-byte quote. -/
def stripQuotes (text : String) : String :=
  if 2 ≤ text.utf8ByteSize then String.mk (text.toList.drop 1).dropLast else text

/-- `VisitStringLiteral`. -/
def VisitStringLiteral (start : Option Token) (allStringLit : List String) :
    Option SqlNode :=
  if allStringLit.length = 0 then none
  else
    some (NewSqlLiteral
      (.string (allStringLit.foldl (fun sb text => sb ++ stripQuotes text) ""))
      .LiteralString (getPosition start))

/-- `VisitBooleanLiteral`. -/
def VisitBooleanLiteral (start : Option Token) (booleanValue : String) : SqlNode :=
  NewSqlLiteral (.bool (decide (toUpper booleanValue = "TRUE"))) .LiteralBoolean
    (getPosition start)

/-- `VisitNullLiteral`. -/
def VisitNullLiteral (start : Option Token) : SqlNode :=
  NewSqlLiteral .null .LiteralNull (getPosition start)

/-- `VisitConstantDefault`. -/
def VisitConstantDefault : ConstantContext → Option SqlNode
  | .stringLiteral start allStringLit => VisitStringLiteral start allStringLit
  | .numericLiteral number => VisitNumericLiteral number
  | .booleanLiteral start booleanValue => some (VisitBooleanLiteral start booleanValue)
  | .nullLiteral start => some (VisitNullLiteral start)
  | .other => none

/-- Lines 816-851 of `VisitComparison`: build the comparison call and append it to
the join-predicate list or to the filter-predicate list. -/
def classifyComparison (pos : Option SqlParserPos) (opText : String)
    (leftNode rightNode : SqlNode) (v : SqlNodeBuilderVisitor) :
    SqlCall × SqlNodeBuilderVisitor :=
  let op : SqlOperator :=
    { Name := opText, Kind := getOperatorKind opText, Syntax := .SyntaxBinary }
  let basicCall := NewSqlCall (some op) [leftNode, rightNode] pos
  let leftIsIdentifier := isIdentifier leftNode
  let rightIsIdentifier := isIdentifier rightNode
  let rightIsLiteral := isLiteral rightNode
  if leftIsIdentifier && rightIsIdentifier then
    (basicCall, { v with joinConditions := v.joinConditions ++ [basicCall] })
  else if leftIsIdentifier && rightIsLiteral then
    (basicCall, { v with filterConditions := v.filterConditions ++ [basicCall] })
  else
    (basicCall, { v with filterConditions := v.filterConditions ++ [basicCall] })

/-- Lines 669-691 of `VisitPredicated`: the value expression has been built and the
expression has a predicate. -/
def applyPredicate (pos : Option SqlParserPos) (predicate : PredicateContext)
    (valueNode : SqlNode) (v : SqlNodeBuilderVisitor) : SqlNode × SqlNodeBuilderVisitor :=
  let kindTokenUpper := toUpper predicate.startText
  if kindTokenUpper = "NULL" then
    let callNode := NewSqlCall
      (some { Name := "IS NULL", Kind := SqlKindOther, Syntax := .SyntaxPostfix })
      [valueNode] pos
    (callNode.toNode, { v with filterConditions := v.filterConditions ++ [callNode] })
  else if kindTokenUpper = "NOT" then
    let callNode := NewSqlCall
      (some { Name := "IS NOT NULL", Kind := SqlKindOther, Syntax := .SyntaxPostfix })
      [valueNode] pos
    (callNode.toNode, { v with filterConditions := v.filterConditions ++ [callNode] })
  else (valueNode, v)

mutual
/-- `visitBooleanExpressionInternal`, with `VisitLogicalBinary`, `VisitLogicalNot` and
`VisitPredicated` in its branches; `VisitExpression`, `VisitWhereClause` and
`VisitHavingClause` hand their boolean expression to it. -/
def visitBooleanExpressionInternal :
    BooleanExpressionContext → SqlNodeBuilderVisitor → Option SqlNode × SqlNodeBuilderVisitor
  | .logicalBinary start left right operator, v =>
    let pos := getPosition start
    let (leftResult, v1) := visitBooleanExpressionInternal left v
    let (rightResult, v2) := visitBooleanExpressionInternal right v1
    match leftResult, rightResult with
    | some leftNode, some rightNode =>
      let opName := toUpper operator
      let kind := if opName = "OR" then SqlKindOr else SqlKindAnd
      (some (NewSqlCall (some { Name := opName, Kind := kind, Syntax := .SyntaxBinary })
        [leftNode, rightNode] pos).toNode, v2)
    | _, _ => (none, v2)
  | .logicalNot start booleanExpression, v =>
    let pos := getPosition start
    let (operand, v1) := visitBooleanExpressionInternal booleanExpression v
    match operand with
    | some operandNode =>
      (some (NewSqlCall (some { Name := "NOT", Kind := SqlKindNot, Syntax := .SyntaxPrefix })
        [operandNode] pos).toNode, v1)
    | none => (none, v1)
  | .predicated start valueExpression predicate, v =>
    match predicate with
    | none => visitValueExpressionInternal valueExpression v
    | some predicate =>
      let (valueExpr, v1) := visitValueExpressionInternal valueExpression v
      match valueExpr with
      | none => (none, v1)
      | some valueNode =>
        let (node, v2) := applyPredicate (getPosition start) predicate valueNode v1
        (some node, v2)
  | .other, v => (none, v)
termination_by structural ctx => ctx
/-- `visitValueExpressionInternal`, with `VisitValueExpressionDefault`,
`VisitArithmeticBinary`, `VisitArithmeticUnary` and `VisitComparison` in its
branches. -/
def visitValueExpressionInternal :
    ValueExpressionContext → SqlNodeBuilderVisitor → Option SqlNode × SqlNodeBuilderVisitor
  | .valueExpressionDefault primaryExpression, v =>
    visitPrimaryExpressionInternal primaryExpression v
  | .arithmeticBinary start left right operator, v =>
    let pos := getPosition start
    let (leftResult, v1) := visitValueExpressionInternal left v
    let (rightResult, v2) := visitValueExpressionInternal right v1
    match leftResult, rightResult with
    | some leftNode, some rightNode =>
      (some (NewSqlCall
        (some { Name := operator, Kind := getOperatorKind operator, Syntax := .SyntaxBinary })
        [leftNode, rightNode] pos).toNode, v2)
    | _, _ => (none, v2)
  | .arithmeticUnary start valueExpression operator, v =>
    let pos := getPosition start
    let (operand, v1) := visitValueExpressionInternal valueExpression v
    match operand with
    | some operandNode =>
      (some (NewSqlCall
        (some { Name := operator, Kind := getOperatorKind operator, Syntax := .SyntaxPrefix })
        [operandNode] pos).toNode, v1)
    | none => (none, v1)
  | .comparison start left right comparisonOperator, v =>
    let pos := getPosition start
    let (leftResult, v1) := visitValueExpressionInternal left v
    let (rightResult, v2) := visitValueExpressionInternal right v1
    match leftResult, rightResult with
    | some leftNode, some rightNode =>
      let (basicCall, v3) := classifyComparison pos comparisonOperator leftNode rightNode v2
      (some basicCall.toNode, v3)
    | _, _ => (none, v2)
  | .other, v => (none, v)
termination_by structural ctx => ctx
/-- `visitPrimaryExpressionInternal`, with `VisitFunctionCall` and
`VisitParenthesizedExpression` in its branches. -/
def visitPrimaryExpressionInternal :
    PrimaryExpressionContext → SqlNodeBuilderVisitor → Option SqlNode × SqlNodeBuilderVisitor
  | .star start qualifiedName, v => (some (VisitStar start qualifiedName), v)
  | .columnReference start identifier, v =>
    let (node, v1) := VisitColumnReference start identifier v
    (some node, v1)
  | .dereference start text, v =>
    let (node, v1) := VisitDereference start text v
    (some node, v1)
  | .constantDefault constant, v => (VisitConstantDefault constant, v)
  | .functionCall start functionName allExpression, v =>
    let pos := getPosition start
    let (operands, v1) := visitFunctionArguments allExpression v
    (some (NewSqlCall
      (some { Name := toUpper functionName, Kind := SqlKindCall, Syntax := .SyntaxFunction })
      operands pos).toNode, v1)
  | .parenthesizedExpression expression, v => visitBooleanExpressionInternal expression v
  | .other, v => (none, v)
termination_by structural ctx => ctx
/-- The argument loop of `VisitFunctionCall`. -/
def visitFunctionArguments :
    List BooleanExpressionContext → SqlNodeBuilderVisitor →
      List SqlNode × SqlNodeBuilderVisitor
  | [], v => ([], v)
  | arg :: rest, v =>
    let (argNode, v1) := visitBooleanExpressionInternal arg v
    let (operands, v2) := visitFunctionArguments rest v1
    (match argNode with
      | some sqlNode => sqlNode :: operands
      | none => operands, v2)
termination_by structural ctx => ctx
end

/-- `VisitExpression`. -/
def VisitExpression (ctx : BooleanExpressionContext) (v : SqlNodeBuilderVisitor) :
    Option SqlNode × SqlNodeBuilderVisitor :=
  visitBooleanExpressionInternal ctx v

/-- `VisitWhereClause`. -/
def VisitWhereClause (ctx : BooleanExpressionContext) (v : SqlNodeBuilderVisitor) :
    Option SqlNode × SqlNodeBuilderVisitor :=
  visitBooleanExpressionInternal ctx v

/-- `VisitHavingClause`. -/
def VisitHavingClause (ctx : BooleanExpressionContext) (v : SqlNodeBuilderVisitor) :
    Option SqlNode × SqlNodeBuilderVisitor :=
  visitBooleanExpressionInternal ctx v

/-- `VisitComparison`. -/
def VisitComparison (start : Option Token) (left right : ValueExpressionContext)
    (comparisonOperator : String) (v : SqlNodeBuilderVisitor) :
    Option SqlNode × SqlNodeBuilderVisitor :=
  visitValueExpressionInternal (.comparison start left right comparisonOperator) v

/-- `visitPrimaryExpressionAsNode`: a hint parameter reduced to a literal or an
identifier. -/
def visitPrimaryExpressionAsNode (ctx : HintParameterContext) : SqlNode :=
  let pos := getPositionFromContext ctx.start ctx.stop
  let text := trim ctx.text ['\'', '"']
  match ParseInt text with
  | some intVal => NewSqlLiteral (.int intVal) .LiteralInteger pos
  | none =>
    match ctx.parseFloat with
    | some floatVal => NewSqlLiteral (.float floatVal) .LiteralDecimal pos
    | none =>
      let lowerText := toLower text
      if lowerText = "true" ∨ lowerText = "false" then
        NewSqlLiteral (.bool (decide (lowerText = "true"))) .LiteralBoolean pos
      else if toUpper text = "NULL" then NewSqlLiteral .null .LiteralNull pos
      else NewSqlIdentifier [text] pos

/-- `VisitHintStatement`. -/
def VisitHintStatement (ctx : HintStatementContext) : Option SqlHint :=
  match ctx.hintName with
  | none => none
  | some hintName =>
    if hintName = "" then none
    else
      some (NewSqlHint hintName (ctx.allPrimaryExpression.map visitPrimaryExpressionAsNode)
        (getPositionFromContext ctx.start ctx.stop))

/-- `VisitHint`. -/
def VisitHint (ctx : HintContext) : List SqlHint :=
  ctx.allHintStatement.filterMap VisitHintStatement

/-- `VisitNamedExpression`. -/
def VisitNamedExpression (ctx : NamedExpressionContext) (v : SqlNodeBuilderVisitor) :
    Option SqlNode × SqlNodeBuilderVisitor :=
  let (node, v1) := VisitExpression ctx.expression v
  match node with
  | none => (none, v1)
  | some sqlNode =>
    match ctx.aliasText with
    | some aliasText =>
      if aliasText ≠ "" then
        let pos := getPosition ctx.start
        (some (NewSqlCall
          (some { Name := "AS", Kind := SqlKindAs, Syntax := .SyntaxSpecial })
          [sqlNode, NewSqlIdentifier [aliasText] pos] pos).toNode, v1)
      else (some sqlNode, v1)
    | none => (some sqlNode, v1)

/-- `VisitFederatedQueryExpression`. -/
def VisitFederatedQueryExpression :
    List NamedExpressionContext → SqlNodeBuilderVisitor →
      List SqlNode × SqlNodeBuilderVisitor
  | [], v => ([], v)
  | namedExpr :: rest, v =>
    let (node, v1) := VisitNamedExpression namedExpr v
    let (result, v2) := VisitFederatedQueryExpression rest v1
    (match node with
      | some sqlNode => sqlNode :: result
      | none => result, v2)

/-- `SelectClauseResult`. -/
structure SelectClauseResult where
  Hints : List SqlHint
  SelectList : List SqlNode
deriving DecidableEq

/-- `VisitSelectClause`. -/
def VisitSelectClause (ctx : SelectClauseContext) (v : SqlNodeBuilderVisitor) :
    SelectClauseResult × SqlNodeBuilderVisitor :=
  let hints := ctx.allHint.foldl (fun acc hintCtx => acc ++ VisitHint hintCtx) []
  match ctx.namedExpressionSeq with
  | .federatedQueryExpression allNamedExpression =>
    let (selectList, v1) := VisitFederatedQueryExpression allNamedExpression v
    (⟨hints, selectList⟩, v1)
  | .other => (⟨hints, []⟩, v)

/-- `VisitAggregationClause`. -/
def VisitAggregationClause :
    List GroupByClauseContext → SqlNodeBuilderVisitor →
      List SqlNode × SqlNodeBuilderVisitor
  | [], v => ([], v)
  | groupByClause :: rest, v =>
    match groupByClause.expression with
    | some expr =>
      let (node, v1) := VisitExpression expr v
      let (groupByNodes, v2) := VisitAggregationClause rest v1
      (match node with
        | some sqlNode => sqlNode :: groupByNodes
        | none => groupByNodes, v2)
    | none => VisitAggregationClause rest v

/-- `VisitTableName`. -/
def VisitTableName (start : Option Token) (tableName : String)
    (tableAlias : Option TableAliasContext) (v : SqlNodeBuilderVisitor) :
    SqlNode × SqlNodeBuilderVisitor :=
  let pos := getPosition start
  let parts := splitDot tableName
  let v1 : SqlNodeBuilderVisitor :=
    match parts.getLast? with
    | some last => { v with currentAssetKey := last }
    | none => v
  let tableNode := NewSqlIdentifier parts pos
  match tableAlias.bind fun a => a.strictIdentifier with
  | some aliasText =>
    if aliasText ≠ "" then
      ((NewSqlCall (some { Name := "AS", Kind := SqlKindAs, Syntax := .SyntaxSpecial })
          [tableNode, NewSqlIdentifier [aliasText] pos] pos).toNode,
        { v1 with
          currentAssetKey := aliasText
          assetMap := (aliasText, tableName) :: v1.assetMap })
    else (tableNode, v1)
  | none => (tableNode, { v1 with assetMap := (tableName, tableName) :: v1.assetMap })

/-- Lines 508-523 of `VisitAliasedQuery`: the sub-select has been built. -/
def aliasSubquery (pos : Option SqlParserPos) (sqlNode : SqlNode)
    (tableAlias : Option TableAliasContext) (v : SqlNodeBuilderVisitor) :
    SqlNode × SqlNodeBuilderVisitor :=
  match tableAlias with
  | some tableAlias =>
    let aliasText := tableAlias.text
    if aliasText ≠ "" then
      let subQueryCall :=
        (NewSqlCall (some { Name := "AS", Kind := SqlKindAs, Syntax := .SyntaxSpecial })
          [sqlNode, NewSqlIdentifier [aliasText] pos] pos).toNode
      (subQueryCall,
        { v with
          currentAssetKey := aliasText
          subQueryTables := (aliasText, subQueryCall) :: v.subQueryTables })
    else (sqlNode, v)
  | none => (sqlNode, v)

/-- Lines 165-170 of `VisitRegularQuerySpecification`: the WHERE clause, when the
query has one, is visited for its predicates; the node it builds is not kept. -/
def visitWhereIfPresent (whereClause : Option BooleanExpressionContext)
    (v : SqlNodeBuilderVisitor) : SqlNodeBuilderVisitor :=
  match whereClause with
  | some whereCtx => (VisitWhereClause whereCtx v).2
  | none => v

/-- Lines 172-181 of `VisitRegularQuerySpecification`: the relation tree and the
folded filter, from the from-items and the two predicate lists. -/
def buildFromAndWhere (fromList : List SqlNode) (v : SqlNodeBuilderVisitor) :
    Option SqlNode × Option SqlNode :=
  let fromNode :=
    if 1 < fromList.length then dealJoinList2Node v fromList
    else if fromList.length = 1 then fromList.head?
    else none
  (fromNode, dealFilterConditions v)

/-- Lines 190-230 of `VisitRegularQuerySpecification`: the select list and hints, the
GROUP BY list and HAVING, and the finished `SqlSelect`. -/
def finishSelect (pos : Option SqlParserPos) (fromNode whereNode : Option SqlNode)
    (selectClause : SelectClauseContext) (aggregationClause : Option AggregationClauseContext)
    (havingClause : Option BooleanExpressionContext) (v : SqlNodeBuilderVisitor) :
    SqlNode × SqlNodeBuilderVisitor :=
  let (selectResult, v1) := VisitSelectClause selectClause v
  let (groupBy, v2) :=
    match aggregationClause with
    | some aggClause => VisitAggregationClause aggClause.allGroupByClause v1
    | none => ([], v1)
  let (having, v3) :=
    match havingClause with
    | some havingCtx => VisitHavingClause havingCtx v2
    | none => (none, v2)
  (.select ⟨SqlKindSelect, pos⟩ selectResult.Hints [] selectResult.SelectList fromNode
    whereNode groupBy having [] [] none none, v3)

mutual
/-- `VisitQuery`. -/
def VisitQuery : QueryContext → SqlNodeBuilderVisitor → VisitResult × SqlNodeBuilderVisitor
  | .mk queryTerm, v =>
    match queryTerm with
    | .queryTermDefault queryPrimary => VisitQueryTermDefault queryPrimary v
    | .other => (.error "不支持的查询项类型", v)
termination_by structural ctx => ctx
/-- `VisitQueryTermDefault`, given the query primary of the term. -/
def VisitQueryTermDefault :
    QueryPrimaryContext → SqlNodeBuilderVisitor → VisitResult × SqlNodeBuilderVisitor
  | .queryPrimaryDefault querySpecification, v =>
    VisitQueryPrimaryDefault querySpecification v
  | .other, v => (.error "不支持的查询主体类型", v)
termination_by structural ctx => ctx
/-- `VisitQueryPrimaryDefault`, given the query specification of the primary, with
`VisitRegularQuerySpecification` in its first branch. -/
def VisitQueryPrimaryDefault :
    QuerySpecificationContext → SqlNodeBuilderVisitor →
      VisitResult × SqlNodeBuilderVisitor
  | .regularQuerySpecification start selectClause fromClause whereClause aggregationClause
      havingClause, v =>
    let pos := getPosition start
    let v0 := { v with currentIdentifiers := [] }
    match fromClause with
    | some fromCtx =>
      let (fromList, v1) := VisitFromClause fromCtx v0
      let v2 := visitWhereIfPresent whereClause v1
      let (fromNode, whereNode) := buildFromAndWhere fromList v2
      let (sqlSelect, v3) :=
        finishSelect pos fromNode whereNode selectClause aggregationClause havingClause v2
      (.node sqlSelect, v3)
    | none =>
      let (sqlSelect, v3) :=
        finishSelect pos (some (NewSqlIdentifier ["DUAL"] pos)) none selectClause
          aggregationClause havingClause v0
      (.node sqlSelect, v3)
  | .other, v => (.error "不支持的查询规范类型", v)
termination_by structural ctx => ctx
/-- `VisitFromClause`. -/
def VisitFromClause :
    FromClauseContext → SqlNodeBuilderVisitor → List SqlNode × SqlNodeBuilderVisitor
  | .mk allRelation, v => visitRelations allRelation v
termination_by structural ctx => ctx
/-- The relation loop of `VisitFromClause`. -/
def visitRelations :
    List RelationContext → SqlNodeBuilderVisitor → List SqlNode × SqlNodeBuilderVisitor
  | [], v => ([], v)
  | relation :: rest, v =>
    let (nodeResult, v1) := VisitRelation relation v
    let (result, v2) := visitRelations rest v1
    (match nodeResult with
      | some node => node :: result
      | none => result, v2)
termination_by structural ctx => ctx
/-- `VisitRelation`: the relation primary is built, the join extensions are not
read. -/
def VisitRelation :
    RelationContext → SqlNodeBuilderVisitor → Option SqlNode × SqlNodeBuilderVisitor
  | .mk relationPrimary _, v => visitRelationPrimaryInternal relationPrimary v
termination_by structural ctx => ctx
/-- `visitRelationPrimaryInternal`, with `VisitAliasedQuery` and
`VisitAliasedRelation` in its branches. -/
def visitRelationPrimaryInternal :
    RelationPrimaryContext → SqlNodeBuilderVisitor →
      Option SqlNode × SqlNodeBuilderVisitor
  | .tableName start multipartIdentifier tableAlias, v =>
    let (node, v1) := VisitTableName start multipartIdentifier tableAlias v
    (some node, v1)
  | .aliasedQuery start query tableAlias, v =>
    let pos := getPosition start
    let (subqueryNode, v1) := VisitQuery query v
    match subqueryNode.asNode with
    | none => (none, v1)
    | some sqlNode =>
      let (node, v2) := aliasSubquery pos sqlNode tableAlias v1
      (some node, v2)
  | .aliasedRelation relation, v => VisitRelation relation v
  | .other, v => (none, v)
termination_by structural ctx => ctx
end

/-- `VisitRegularQuerySpecification`. -/
def VisitRegularQuerySpecification (start : Option Token) (selectClause : SelectClauseContext)
    (fromClause : Option FromClauseContext) (whereClause : Option BooleanExpressionContext)
    (aggregationClause : Option AggregationClauseContext)
    (havingClause : Option BooleanExpressionContext) (v : SqlNodeBuilderVisitor) :
    VisitResult × SqlNodeBuilderVisitor :=
  VisitQueryPrimaryDefault
    (.regularQuerySpecification start selectClause fromClause whereClause aggregationClause
      havingClause) v

/-- `VisitStatementDefault` and `VisitSingleStatement`. -/
def VisitSingleStatement (ctx : SingleStatementContext) (v : SqlNodeBuilderVisitor) :
    VisitResult × SqlNodeBuilderVisitor :=
  match ctx.statement with
  | .statementDefault query => VisitQuery query v
  | .other => (.error "不支持的语句类型", v)

/-- Steps 9-10 of `ParseSQLWithAntlr`: a fresh builder visits the tree. -/
def buildSqlNode (tree : SingleStatementContext) : VisitResult :=
  (VisitSingleStatement tree NewSqlNodeBuilderVisitor).1

/-- The `From` field of a `SqlSelect`. -/
def selectFrom : SqlNode → Option SqlNode
  | .select _ _ _ _ from_ _ _ _ _ _ _ _ => from_
  | _ => none

/-- The `Where` field of a `SqlSelect`. -/
def selectWhere : SqlNode → Option SqlNode
  | .select _ _ _ _ _ where_ _ _ _ _ _ _ => where_
  | _ => none

/-- The `From` of the Select a parse of the tree returns, if it returns one. -/
def builtFrom (tree : SingleStatementContext) : Option SqlNode :=
  (buildSqlNode tree).asNode.bind selectFrom

/-- The `Where` of the Select a parse of the tree returns, if it returns one. -/
def builtWhere (tree : SingleStatementContext) : Option SqlNode :=
  (buildSqlNode tree).asNode.bind selectWhere

/-! ## Reading a reconstructed join tree -/

/-- What one Join node adds on top of its left child. -/
structure JoinLevel where
  Right : Option SqlNode
  JoinType : JoinType
  Condition : Option SqlNode
deriving DecidableEq

/-- Descend `n` Join nodes along the left children: the node reached, and the
levels passed, listed bottom-up. `none` when fewer than `n` Join nodes are stacked. -/
def leftSpine : Nat → SqlNode → Option (SqlNode × List JoinLevel)
  | 0, node => some (node, [])
  | n + 1, .join _ (some left) right joinType condition _ =>
    match leftSpine n left with
    | some (leaf, levels) => some (leaf, levels ++ [⟨right, joinType, condition⟩])
    | none => none
  | _ + 1, _ => none

/-- The level of a `1 = 1` INNER join whose right child is `item`. -/
def cartesianLevel (item : SqlNode) : JoinLevel :=
  ⟨some item, JoinInner, some cartesianCondition⟩

/-- The ON-conditions of all Join nodes of a join tree (the Join nodes reached from
the root through left and right children), left subtree first. -/
def treeJoinConditions : SqlNode → List (Option SqlNode)
  | .join _ left right _ condition _ =>
    (match left with
      | some l => treeJoinConditions l
      | none => []) ++ [condition] ++
    (match right with
      | some r => treeJoinConditions r
      | none => [])
  | _ => []

/-- The relations at the leaves of a join tree, left to right. -/
def treeLeaves : SqlNode → List SqlNode
  | .join _ left right _ _ _ =>
    (match left with
      | some l => treeLeaves l
      | none => []) ++
    (match right with
      | some r => treeLeaves r
      | none => [])
  | node => [node]

/-- Number of Join nodes of a join tree. -/
def joinCount (tree : SqlNode) : Nat :=
  (treeJoinConditions tree).length

/-- Recognises the trivially-true condition `1 = 1`, whatever its source span. -/
def isCartesianCondition : Option SqlNode → Bool
  | some (.call _ (some op) [.literal _ (.int 1) _ _, .literal _ (.int 1) _ _]) =>
    op.Name == "="
  | _ => false

/-- Number of Join nodes of a join tree that carry `1 = 1` (Cartesian fallbacks). -/
def cartesianFallbacks (tree : SqlNode) : Nat :=
  (treeJoinConditions tree).countP isCartesianCondition

def isJoin : SqlNode → Bool
  | .join .. => true
  | _ => false

/-- The predicates the loop of `appendJoinFromConditions` does not skip: those that
name at least two distinct relation keys (`len(tables) >= 2`). -/
def effectiveConditions (joinConditions : List SqlCall) : List SqlCall :=
  joinConditions.filter fun c => decide (2 ≤ (getConditionTables c).length)

/-- The relation key a predicate names first (its `leftTable`). -/
def seedKey (c : SqlCall) : String :=
  (getConditionTables c).headD ""

/-- Stack one INNER join per pair on top of `seed`: the pair's node becomes the right
child, the pair's predicate the ON-condition. -/
def stackJoins (seed : SqlNode) (pairs : List (SqlCall × SqlNode)) : SqlNode :=
  pairs.foldl
    (fun acc p => NewSqlJoin (some acc) (some p.2) JoinInner (some p.1.toNode) zeroPos)
    seed

/-- The node `n` stands for one of the two relation keys the predicate `c` names. -/
def IsSideOf (v : SqlNodeBuilderVisitor) (c : SqlCall) (n : SqlNode) : Prop :=
  ∃ l r rest, getConditionTables c = l :: r :: rest ∧ (n = tableNode v l ∨ n = tableNode v r)

/-- The level of an INNER join with ON-condition `c` and right child `n`. -/
def predicateLevel (p : SqlCall × SqlNode) : JoinLevel :=
  ⟨some p.2, JoinInner, some p.1.toNode⟩

/-- The relation keys of F, in F order, that are named by no predicate of J
(a from-item without a relation key has none to offer). -/
def unreferencedKeys (fromList : List SqlNode) (joinConditions : List SqlCall) :
    List String :=
  (fromList.map fun node => extractTableName (some node)).filter fun k =>
    decide (k ≠ "" ∧ ∀ c ∈ joinConditions, k ∉ getConditionTables c)

/-- The comparison `l = r` between two column identifiers, as `VisitComparison`
builds it (source spans left at zero). -/
def equalsCall (l r : List String) : SqlCall :=
  NewSqlCall (some { Name := "=", Kind := SqlKindEquals, Syntax := .SyntaxBinary })
    [NewSqlIdentifier l zeroPos, NewSqlIdentifier r zeroPos] zeroPos

/-- A builder state holding only the given join predicates. -/
def stateWithJoins (joinConditions : List SqlCall) : SqlNodeBuilderVisitor :=
  { NewSqlNodeBuilderVisitor with joinConditions := joinConditions }

/-- The relation keys of the from-items, in F order (`extractTableName` of each). -/
def relationKeys (fromList : List SqlNode) : List String :=
  fromList.map fun node => extractTableName (some node)

/-- The predicate `c` compares a qualified column of the relation keyed `a` with a
qualified column of a different relation keyed `b`, both keys among `keys`. -/
def JoinsTwoOf (keys : List String) (c : SqlCall) : Prop :=
  ∃ bl a acol arest br b bcol brest,
    c.Operands = [.identifier bl (a :: acol :: arest), .identifier br (b :: bcol :: brest)] ∧
    a ≠ b ∧ a ∈ keys ∧ b ∈ keys

/-- Some predicate of J names exactly the two relation keys `a` and `b`. -/
def Linked (joinConditions : List SqlCall) (a b : String) : Prop :=
  ∃ c ∈ joinConditions, getConditionTables c = [a, b] ∨ getConditionTables c = [b, a]

/-- The predicates of J connect all the relation keys: any two are joined by a chain
of predicates. -/
def Connects (joinConditions : List SqlCall) (keys : List String) : Prop :=
  ∀ a ∈ keys, ∀ b ∈ keys, Relation.ReflTransGen (Linked joinConditions) a b

/-- A registered subquery `(select id from t3) sq`, as `VisitAliasedQuery` records it:
the AS call over the sub-select and the alias identifier (source spans left at zero). -/
def subQueryCall (table aliasText : String) : SqlNode :=
  (NewSqlCall (some { Name := "AS", Kind := SqlKindAs, Syntax := .SyntaxSpecial })
    [.select ⟨SqlKindSelect, zeroPos⟩ [] [] [NewSqlIdentifier ["id"] zeroPos]
        (some (NewSqlIdentifier [table] zeroPos)) none [] none [] [] none none,
      NewSqlIdentifier [aliasText] zeroPos] zeroPos).toNode

/-! ## Example trees -/

/-- A token at the given line and column. -/
def tk (line column : Int) (text : String) : Option Token :=
  some ⟨line, column, text⟩

/-- The empty `tableAlias` of a table written without alias. -/
def noAlias : Option TableAliasContext :=
  some ⟨"", none⟩

/-- The tree of `select t1.k from t1, t2 where t1.id = t2.id`. -/
def implicitJoinTree : SingleStatementContext :=
  ⟨.statementDefault (.mk (.queryTermDefault (.queryPrimaryDefault
    (.regularQuerySpecification (tk 1 0 "select")
      ⟨[], .federatedQueryExpression
        [⟨tk 1 7 "t1",
          .predicated (tk 1 7 "t1")
            (.valueExpressionDefault (.dereference (tk 1 7 "t1") "t1.k")) none,
          none⟩]⟩
      (some (.mk
        [.mk (.tableName (tk 1 17 "t1") "t1" noAlias) [],
          .mk (.tableName (tk 1 21 "t2") "t2" noAlias) []]))
      (some (.predicated (tk 1 30 "t1")
        (.comparison (tk 1 30 "t1")
          (.valueExpressionDefault (.dereference (tk 1 30 "t1") "t1.id"))
          (.valueExpressionDefault (.dereference (tk 1 38 "t2") "t2.id")) "=")
        none))
      none none))))⟩

/-- The comparison `t1.id = t2.id` of `implicitJoinTree`, as built. -/
def implicitJoinCondition : SqlCall :=
  NewSqlCall (some { Name := "=", Kind := SqlKindEquals, Syntax := .SyntaxBinary })
    [NewSqlIdentifier ["t1", "id"] (some ⟨1, 30, 1, 32⟩),
      NewSqlIdentifier ["t2", "id"] (some ⟨1, 38, 1, 40⟩)]
    (some ⟨1, 30, 1, 32⟩)

/-- The tree of `SELECT id, name FROM users WHERE age > 18`. -/
def simpleSelectTree : SingleStatementContext :=
  ⟨.statementDefault (.mk (.queryTermDefault (.queryPrimaryDefault
    (.regularQuerySpecification (tk 1 0 "SELECT")
      ⟨[], .federatedQueryExpression
        [⟨tk 1 7 "id",
          .predicated (tk 1 7 "id")
            (.valueExpressionDefault (.columnReference (tk 1 7 "id") "id")) none,
          none⟩,
        ⟨tk 1 11 "name",
          .predicated (tk 1 11 "name")
            (.valueExpressionDefault (.columnReference (tk 1 11 "name") "name")) none,
          none⟩]⟩
      (some (.mk [.mk (.tableName (tk 1 21 "users") "users" noAlias) []]))
      (some (.predicated (tk 1 33 "age")
        (.comparison (tk 1 33 "age")
          (.valueExpressionDefault (.columnReference (tk 1 33 "age") "age"))
          (.valueExpressionDefault (.constantDefault (.numericLiteral
            (.integerLiteral (tk 1 39 "18") "18")))) ">")
        none))
      none none))))⟩

/-- The comparison `age > 18` of `simpleSelectTree`, as built. -/
def ageFilter : SqlCall :=
  NewSqlCall (some { Name := ">", Kind := SqlKindGreaterThan, Syntax := .SyntaxBinary })
    [NewSqlIdentifier ["age"] (some ⟨1, 33, 1, 36⟩),
      NewSqlLiteral (.int 18) .LiteralInteger (some ⟨1, 39, 1, 41⟩)]
    (some ⟨1, 33, 1, 36⟩)

/-- The tree of
`select plat1.atest.id from plat1.atest, plat2.btest where plat1.atest.id <> plat2.btest.id`. -/
def notEqualsTree : SingleStatementContext :=
  ⟨.statementDefault (.mk (.queryTermDefault (.queryPrimaryDefault
    (.regularQuerySpecification (tk 1 0 "select")
      ⟨[], .federatedQueryExpression
        [⟨tk 1 7 "plat1",
          .predicated (tk 1 7 "plat1")
            (.valueExpressionDefault (.dereference (tk 1 7 "plat1") "plat1.atest.id")) none,
          none⟩]⟩
      (some (.mk
        [.mk (.tableName (tk 1 27 "plat1") "plat1.atest" noAlias) [],
          .mk (.tableName (tk 1 40 "plat2") "plat2.btest" noAlias) []]))
      (some (.predicated (tk 1 58 "plat1")
        (.comparison (tk 1 58 "plat1")
          (.valueExpressionDefault (.dereference (tk 1 58 "plat1") "plat1.atest.id"))
          (.valueExpressionDefault (.dereference (tk 1 76 "plat2") "plat2.btest.id")) "<>")
        none))
      none none))))⟩

/-- The comparison `plat1.atest.id <> plat2.btest.id` of `notEqualsTree`, as built. -/
def notEqualsCondition : SqlCall :=
  NewSqlCall (some { Name := "<>", Kind := SqlKindNotEquals, Syntax := .SyntaxBinary })
    [NewSqlIdentifier ["plat1", "atest", "id"] (some ⟨1, 58, 1, 63⟩),
      NewSqlIdentifier ["plat2", "btest", "id"] (some ⟨1, 76, 1, 81⟩)]
    (some ⟨1, 58, 1, 63⟩)

/-- The from clause `from t1, t2`. -/
def twoTablesFrom : FromClauseContext :=
  .mk [.mk (.tableName (tk 1 17 "t1") "t1" noAlias) [],
    .mk (.tableName (tk 1 21 "t2") "t2" noAlias) []]

/-- The boolean expression of `where t1.a > 1`. -/
def filterOnlyWhere : BooleanExpressionContext :=
  .predicated (tk 1 30 "t1")
    (.comparison (tk 1 30 "t1")
      (.valueExpressionDefault (.dereference (tk 1 30 "t1") "t1.a"))
      (.valueExpressionDefault (.constantDefault (.numericLiteral
        (.integerLiteral (tk 1 37 "1") "1")))) ">")
    none

/-- The select clause `select *`. -/
def selectStar : SelectClauseContext :=
  ⟨[], .federatedQueryExpression
    [⟨tk 1 7 "*", .predicated (tk 1 7 "*") (.valueExpressionDefault (.star (tk 1 7 "*") none))
      none, none⟩]⟩

/-- Descend `n` AND calls along their first operand: the node reached, and the second
operands passed, listed bottom-up. `none` when fewer than `n` AND calls are nested. -/
def andSpine : Nat → SqlNode → Option (SqlNode × List SqlNode)
  | 0, node => some (node, [])
  | n + 1, .call _ (some op) [left, right] =>
    if op.Name = "AND" ∧ op.Kind = SqlKindAnd ∧ op.Syntax = .SyntaxBinary then
      match andSpine n left with
      | some (first, others) => some (first, others ++ [right])
      | none => none
    else none
  | _ + 1, _ => none

/-- The call is a comparison between two identifiers: what `VisitComparison` puts into
the join-predicate list. -/
def isIdentifierComparison (c : SqlCall) : Bool :=
  match c.Operands with
  | [a, b] => isIdentifier a && isIdentifier b
  | _ => false

/-- The two predicate lists hold what the builder puts into them: comparisons between
two identifiers in the join list, every other predicate in the filter list. -/
def WellClassified (v : SqlNodeBuilderVisitor) : Prop :=
  (∀ c ∈ v.joinConditions, isIdentifierComparison c = true) ∧
  (∀ c ∈ v.filterConditions, isIdentifierComparison c = false)

/-- The call `VisitComparison` builds for `left op right` at the span `pos`. -/
def comparisonCall (pos : Option SqlParserPos) (opText : String) (leftNode rightNode : SqlNode) :
    SqlCall :=
  NewSqlCall
    (some { Name := opText, Kind := getOperatorKind opText, Syntax := .SyntaxBinary })
    [leftNode, rightNode] pos

/-- The value expression of a bare column reference. -/
def columnExpression (line column : Int) (name : String) : ValueExpressionContext :=
  .valueExpressionDefault (.columnReference (tk line column name) name)

/-- The AND call `dealFilterConditions` builds over the conjunction so far. -/
def andCall (result : SqlNode) (condition : SqlCall) : SqlNode :=
  (NewSqlCall (some { Name := "AND", Kind := SqlKindAnd, Syntax := .SyntaxBinary })
    [result, condition.toNode] zeroPos).toNode

/-- A builder state with one join predicate and three filter predicates. -/
def classifiedState : SqlNodeBuilderVisitor :=
  { NewSqlNodeBuilderVisitor with
    joinConditions := [implicitJoinCondition]
    filterConditions :=
      [ageFilter,
        comparisonCall zeroPos "<" (NewSqlIdentifier ["t1", "a"] zeroPos)
          (NewSqlLiteral (.int 5) .LiteralInteger zeroPos),
        NewSqlCall (some { Name := "IS NULL", Kind := SqlKindOther, Syntax := .SyntaxPostfix })
          [NewSqlIdentifier ["t2", "b"] zeroPos] zeroPos] }

/-- A builder state for `from t1, t2, (select id from t3) sq` with the join
predicates `t1.id = t2.id` and `sq.id = t2.id`: the subquery is registered under its
alias. -/
def chainState : SqlNodeBuilderVisitor :=
  { NewSqlNodeBuilderVisitor with
    subQueryTables := [("sq", subQueryCall "t3" "sq")]
    joinConditions := [equalsCall ["t1", "id"] ["t2", "id"], equalsCall ["sq", "id"] ["t2", "id"]] }

/-- The from-items of `from t1, t2, (select id from t3) sq`. -/
def chainFrom : List SqlNode :=
  [NewSqlIdentifier ["t1"] zeroPos, NewSqlIdentifier ["t2"] zeroPos, subQueryCall "t3" "sq"]

/-- The from-items of `from t1, t2, t3, t4`, as built. -/
def fourTables : List SqlNode :=
  [NewSqlIdentifier ["t1"] (some ⟨1, 17, 1, 19⟩), NewSqlIdentifier ["t2"] (some ⟨1, 21, 1, 23⟩),
    NewSqlIdentifier ["t3"] (some ⟨1, 25, 1, 27⟩), NewSqlIdentifier ["t4"] (some ⟨1, 29, 1, 31⟩)]

/-- A table written without alias, as a relation of the from clause. -/
def plainTable (line column : Int) (name : String) : RelationContext :=
  .mk (.tableName (tk line column name) name noAlias) []

/-- The value expression of a dotted column reference whose first token is `first`. -/
def dottedColumn (line column : Int) (first text : String) : ValueExpressionContext :=
  .valueExpressionDefault (.dereference (tk line column first) text)

/-- The select item of a dotted column reference, without alias. -/
def dottedItem (line column : Int) (first text : String) : NamedExpressionContext :=
  ⟨tk line column first, .predicated (tk line column first) (dottedColumn line column first text)
    none, none⟩

/-- The tree of
`select t1.k from t1, t2, t3, t4 where t1.a = t2.a and t3.a = t4.a`. -/
def twoPairsTree : SingleStatementContext :=
  ⟨.statementDefault (.mk (.queryTermDefault (.queryPrimaryDefault
    (.regularQuerySpecification (tk 1 0 "select")
      ⟨[], .federatedQueryExpression [dottedItem 1 7 "t1" "t1.k"]⟩
      (some (.mk [plainTable 1 17 "t1", plainTable 1 21 "t2", plainTable 1 25 "t3",
        plainTable 1 29 "t4"]))
      (some (.logicalBinary (tk 1 38 "t1")
        (.predicated (tk 1 38 "t1")
          (.comparison (tk 1 38 "t1") (dottedColumn 1 38 "t1" "t1.a")
            (dottedColumn 1 45 "t2" "t2.a") "=") none)
        (.predicated (tk 1 54 "t3")
          (.comparison (tk 1 54 "t3") (dottedColumn 1 54 "t3" "t3.a")
            (dottedColumn 1 61 "t4" "t4.a") "=") none)
        "and"))
      none none))))⟩

/-- The comparison `t1.a = t2.a` of `twoPairsTree`, as built. -/
def firstPairCondition : SqlCall :=
  comparisonCall (some ⟨1, 38, 1, 40⟩) "="
    (NewSqlIdentifier ["t1", "a"] (some ⟨1, 38, 1, 40⟩))
    (NewSqlIdentifier ["t2", "a"] (some ⟨1, 45, 1, 47⟩))

/-- The comparison `t3.a = t4.a` of `twoPairsTree`, as built. -/
def secondPairCondition : SqlCall :=
  comparisonCall (some ⟨1, 54, 1, 56⟩) "="
    (NewSqlIdentifier ["t3", "a"] (some ⟨1, 54, 1, 56⟩))
    (NewSqlIdentifier ["t4", "a"] (some ⟨1, 61, 1, 63⟩))

/-- The tree of
`select t1.id from t1, t2, (select id from t3) sq where t1.id = t2.id`. -/
def unreferencedSubqueryTree : SingleStatementContext :=
  ⟨.statementDefault (.mk (.queryTermDefault (.queryPrimaryDefault
    (.regularQuerySpecification (tk 1 0 "select")
      ⟨[], .federatedQueryExpression [dottedItem 1 7 "t1" "t1.id"]⟩
      (some (.mk [plainTable 1 18 "t1", plainTable 1 22 "t2",
        .mk (.aliasedQuery (tk 1 26 "(")
          (.mk (.queryTermDefault (.queryPrimaryDefault
            (.regularQuerySpecification (tk 1 27 "select")
              ⟨[], .federatedQueryExpression
                [⟨tk 1 34 "id",
                  .predicated (tk 1 34 "id") (columnExpression 1 34 "id") none, none⟩]⟩
              (some (.mk [plainTable 1 42 "t3"])) none none none))))
          (some ⟨"sq", some "sq"⟩)) []]))
      (some (.predicated (tk 1 55 "t1")
        (.comparison (tk 1 55 "t1") (dottedColumn 1 55 "t1" "t1.id")
          (dottedColumn 1 63 "t2" "t2.id") "=") none))
      none none))))⟩

/-- The sub-select `(select id from t3) sq` of `unreferencedSubqueryTree`, as built and
registered under `sq`. -/
def registeredSubquery : SqlNode :=
  (NewSqlCall (some { Name := "AS", Kind := SqlKindAs, Syntax := .SyntaxSpecial })
    [.select ⟨SqlKindSelect, some ⟨1, 27, 1, 33⟩⟩ [] []
        [NewSqlIdentifier ["id"] (some ⟨1, 34, 1, 36⟩)]
        (some (NewSqlIdentifier ["t3"] (some ⟨1, 42, 1, 44⟩))) none [] none [] [] none none,
      NewSqlIdentifier ["sq"] (some ⟨1, 26, 1, 27⟩)] (some ⟨1, 26, 1, 27⟩)).toNode

/-- No registered subquery node is a Join node. -/
def SubqueriesAreRelations (v : SqlNodeBuilderVisitor) : Prop :=
  ∀ p ∈ v.subQueryTables, isJoin p.2 = false

/-- A property of the builder state kept by every step that writes the predicate
lists or the subquery map, and indifferent to the other fields. -/
structure BuilderInvariant (P : SqlNodeBuilderVisitor → Prop) : Prop where
  of_fields : ∀ {v w : SqlNodeBuilderVisitor}, P v →
    w.subQueryTables = v.subQueryTables → w.joinConditions = v.joinConditions →
    w.filterConditions = v.filterConditions → P w
  classify : ∀ (pos : Option SqlParserPos) (opText : String) (a b : SqlNode)
    (v : SqlNodeBuilderVisitor), P v → P (classifyComparison pos opText a b v).2
  predicate : ∀ (pos : Option SqlParserPos) (predicate : PredicateContext)
    (valueNode : SqlNode) (v : SqlNodeBuilderVisitor), P v →
    P (applyPredicate pos predicate valueNode v).2
  subquery : ∀ (pos : Option SqlParserPos) (sqlNode : SqlNode)
    (tableAlias : Option TableAliasContext) (v : SqlNodeBuilderVisitor), P v →
    P (aliasSubquery pos sqlNode tableAlias v).2

/-- The tree of `select t1.k from t1, t2 where t1.a = t1.b`. -/
def sameRelationTree : SingleStatementContext :=
  ⟨.statementDefault (.mk (.queryTermDefault (.queryPrimaryDefault
    (.regularQuerySpecification (tk 1 0 "select")
      ⟨[], .federatedQueryExpression [dottedItem 1 7 "t1" "t1.k"]⟩
      (some (.mk [plainTable 1 17 "t1", plainTable 1 21 "t2"]))
      (some (.predicated (tk 1 30 "t1")
        (.comparison (tk 1 30 "t1") (dottedColumn 1 30 "t1" "t1.a")
          (dottedColumn 1 37 "t1" "t1.b") "=") none))
      none none))))⟩

/-- The comparison `t1.a = t1.b` of `sameRelationTree`, as built. -/
def sameRelationCondition : SqlCall :=
  comparisonCall (some ⟨1, 30, 1, 32⟩) "="
    (NewSqlIdentifier ["t1", "a"] (some ⟨1, 30, 1, 32⟩))
    (NewSqlIdentifier ["t1", "b"] (some ⟨1, 37, 1, 39⟩))

/-! ## analyzer.go: analysing an AST -/

/-- `strings.Join(names, ".")`, which is also `SqlIdentifier.ToString`. -/
def joinDot (names : List String) : String :=
  ".".intercalate names

/-- `strings.Contains(s, ".")`. -/
def containsDot (s : String) : Bool :=
  s.toList.contains '.'

/-- `SQLAnalysis`; the two maps are association lists, a write going in front, so that
a lookup finds the value written last. -/
structure SQLAnalysis where
  Tables : List String
  Columns : List String
  AggregateFunctions : List String
  JoinTypes : List String
  HasSubquery : Bool
  HasCTE : Bool
  HasWindowFunction : Bool
  TableAliases : List (String × String)
  ColumnAliases : List (String × String)
deriving DecidableEq, Repr

/-- `SQLAnalyzer`: the record being filled and the two sets used to deduplicate. -/
structure SQLAnalyzer where
  Analysis : SQLAnalysis
  tableSet : List String
  columnSet : List String
deriving DecidableEq, Repr

/-- The record `AnalyzeSQL` starts from, which is also the one it returns for a nil
node (a nil slice and an empty slice are both the empty list). -/
def emptyAnalysis : SQLAnalysis :=
  { Tables := [], Columns := [], AggregateFunctions := [], JoinTypes := [],
    HasSubquery := false, HasCTE := false, HasWindowFunction := false,
    TableAliases := [], ColumnAliases := [] }

/-- The analyzer `AnalyzeSQL` creates. -/
def newSQLAnalyzer : SQLAnalyzer :=
  { Analysis := emptyAnalysis, tableSet := [], columnSet := [] }

/-- `isAggregateFunction`. -/
def isAggregateFunction (funcName : String) : Bool :=
  ["COUNT", "SUM", "AVG", "MAX", "MIN", "STDDEV", "VARIANCE", "GROUP_CONCAT", "ARRAY_AGG",
    "STRING_AGG"].contains funcName

/-- `isWindowFunction`. -/
def isWindowFunction (funcName : String) : Bool :=
  ["ROW_NUMBER", "RANK", "DENSE_RANK", "NTILE", "LAG", "LEAD", "FIRST_VALUE", "LAST_VALUE",
    "NTH_VALUE"].contains funcName

/-- The type assertion `node.(*SqlSelect)`. -/
def isSelect : SqlNode → Bool
  | .select .. => true
  | _ => false

/-- `VisitIdentifier`, given the name parts of the identifier. -/
def SQLAnalyzer.VisitIdentifier (a : SQLAnalyzer) (names : List String) : SQLAnalyzer :=
  if 0 < names.length then
    let fullName := joinDot names
    if ¬ a.columnSet.contains fullName ∧ fullName ≠ "*" then
      { a with
        columnSet := setAdd a.columnSet fullName
        Analysis := { a.Analysis with Columns := a.Analysis.Columns ++ [fullName] } }
    else a
  else a

/-- Lines 80-107 of `VisitCall`: what the operator of a call adds to the record,
before the operands are visited. -/
def SQLAnalyzer.visitCallOperator (a : SQLAnalyzer) (operator : Option SqlOperator)
    (operands : List SqlNode) : SQLAnalyzer :=
  match operator with
  | none => a
  | some op =>
    let funcName := toUpper op.Name
    let a1 : SQLAnalyzer :=
      if isAggregateFunction funcName then
        { a with Analysis :=
            { a.Analysis with
              AggregateFunctions := a.Analysis.AggregateFunctions ++ [funcName] } }
      else a
    let a2 : SQLAnalyzer :=
      if isWindowFunction funcName then
        { a1 with Analysis := { a1.Analysis with HasWindowFunction := true } }
      else a1
    if op.Kind = SqlKindAs ∧ 2 ≤ operands.length then
      match operands with
      | .identifier _ tableNames :: .identifier _ aliasNames :: _ =>
        let aliasText := GetSimple aliasNames
        let tableName := joinDot tableNames
        if ¬ containsDot tableName then
          { a2 with Analysis :=
              { a2.Analysis with
                TableAliases := (aliasText, tableName) :: a2.Analysis.TableAliases } }
        else a2
      | _ => a2
    else a2

/-- Lines 155-156 of `VisitJoin`: the join type is recorded. -/
def SQLAnalyzer.visitJoinType (a : SQLAnalyzer) (joinType : JoinType) : SQLAnalyzer :=
  { a with Analysis :=
      { a.Analysis with JoinTypes := a.Analysis.JoinTypes ++ [joinType ++ " JOIN"] } }

/-- Lines 184-195 of `VisitBasicCall`: the alias is recorded, once the operand has been
visited. -/
def SQLAnalyzer.visitBasicCallAlias (a : SQLAnalyzer) (operand : Option SqlNode)
    (aliasText : String) : SQLAnalyzer :=
  if aliasText ≠ "" then
    match operand with
    | some (.identifier _ names) =>
      match names with
      | [name] =>
        if ¬ containsDot name then
          { a with Analysis :=
              { a.Analysis with
                TableAliases := (aliasText, name) :: a.Analysis.TableAliases } }
        else
          { a with Analysis :=
              { a.Analysis with
                ColumnAliases := (aliasText, joinDot names) :: a.Analysis.ColumnAliases } }
      | _ =>
        { a with Analysis :=
            { a.Analysis with
              ColumnAliases := (aliasText, joinDot names) :: a.Analysis.ColumnAliases } }
    | _ => a
  else a

/-- Lines 221-230 of `extractTablesFromNode`: an identifier at a from-position, given
its name parts. -/
def SQLAnalyzer.extractTableIdentifier (a : SQLAnalyzer) (names : List String) :
    SQLAnalyzer :=
  match names with
  | tableName :: _ =>
    if tableName ≠ "*" then
      if ¬ a.tableSet.contains tableName then
        { a with
          tableSet := setAdd a.tableSet tableName
          Analysis := { a.Analysis with Tables := a.Analysis.Tables ++ [tableName] } }
      else a
    else a
  | [] => a

/-- The assignment `a.Analysis.HasSubquery = true`. -/
def SQLAnalyzer.setHasSubquery (a : SQLAnalyzer) : SQLAnalyzer :=
  { a with Analysis := { a.Analysis with HasSubquery := true } }

/-- The test `call.Operator != nil && call.Operator.Kind == SqlKindAs`. -/
def isAsOperator (operator : Option SqlOperator) : Bool :=
  match operator with
  | some op => op.Kind = SqlKindAs
  | none => false

mutual
/-- `node.Accept(a)`: the `Visit...` method of the analyzer for the type of the node,
with `VisitCall`, `VisitSelect`, `VisitJoin`, `VisitBasicCall` and `VisitNodeList` in
its branches. -/
def SQLAnalyzer.Accept : SqlNode → SQLAnalyzer → SQLAnalyzer
  | .identifier _ names, a => a.VisitIdentifier names
  | .literal _ _ _ _, a => a
  | .call _ operator operands, a =>
    SQLAnalyzer.acceptAll operands (a.visitCallOperator operator operands)
  | .hint _, a => a
  | .select _ _ _ selectList from_ where_ groupBy having _ orderBy _ _, a =>
    let a1 := SQLAnalyzer.acceptAll selectList a
    let a2 := SQLAnalyzer.extractTablesFromOption from_ a1
    let a3 := SQLAnalyzer.acceptOption where_ a2
    let a4 := SQLAnalyzer.acceptAll groupBy a3
    let a5 := SQLAnalyzer.acceptOption having a4
    SQLAnalyzer.acceptAll orderBy a5
  | .join _ left right joinType condition _, a =>
    let a1 := SQLAnalyzer.extractTablesFromOption left (a.visitJoinType joinType)
    let a2 := SQLAnalyzer.extractTablesFromOption right a1
    SQLAnalyzer.acceptOption condition a2
  | .basicCall _ operand aliasText, a =>
    (SQLAnalyzer.acceptOption operand a).visitBasicCallAlias operand aliasText
  | .nodeList _ list, a => SQLAnalyzer.acceptAll list a
termination_by structural node => node
/-- The loops `for _, item := range items { item.Accept(a) }`. -/
def SQLAnalyzer.acceptAll : List SqlNode → SQLAnalyzer → SQLAnalyzer
  | [], a => a
  | node :: rest, a => SQLAnalyzer.acceptAll rest (SQLAnalyzer.Accept node a)
termination_by structural nodes => nodes
/-- The guarded visits `if node != nil { node.Accept(a) }`. -/
def SQLAnalyzer.acceptOption : Option SqlNode → SQLAnalyzer → SQLAnalyzer
  | none, a => a
  | some node, a => SQLAnalyzer.Accept node a
termination_by structural node => node
/-- `extractTablesFromNode` on a node that is not nil. Where the source hands a Join,
a Select or a call without alias back to `Accept`, the body of the `Visit...` method is
repeated here. -/
def SQLAnalyzer.extractTablesFromNode : SqlNode → SQLAnalyzer → SQLAnalyzer
  | .identifier _ names, a => a.extractTableIdentifier names
  | .join _ left right joinType condition _, a =>
    let a1 := SQLAnalyzer.extractTablesFromOption left (a.visitJoinType joinType)
    let a2 := SQLAnalyzer.extractTablesFromOption right a1
    SQLAnalyzer.acceptOption condition a2
  | .call _ operator operands, a =>
    if isAsOperator operator then
      match operands with
      | first :: _ =>
        SQLAnalyzer.extractTablesFromNode first
          (if isSelect first then a.setHasSubquery else a)
      | [] => a
    else SQLAnalyzer.acceptAll operands (a.visitCallOperator operator operands)
  | .select _ _ _ selectList from_ where_ groupBy having _ orderBy _ _, a =>
    let a1 := SQLAnalyzer.acceptAll selectList a.setHasSubquery
    let a2 := SQLAnalyzer.extractTablesFromOption from_ a1
    let a3 := SQLAnalyzer.acceptOption where_ a2
    let a4 := SQLAnalyzer.acceptAll groupBy a3
    let a5 := SQLAnalyzer.acceptOption having a4
    SQLAnalyzer.acceptAll orderBy a5
  | .literal _ _ _ _, a => a
  | .hint _, a => a
  | .basicCall _ _ _, a => a
  | .nodeList _ _, a => a
termination_by structural node => node
/-- `extractTablesFromNode` on a node that may be nil (the callers' `!= nil` guards
and its own nil test). -/
def SQLAnalyzer.extractTablesFromOption : Option SqlNode → SQLAnalyzer → SQLAnalyzer
  | none, a => a
  | some node, a => SQLAnalyzer.extractTablesFromNode node a
termination_by structural node => node
end

/-- `AnalyzeSQL`. -/
def AnalyzeSQL (sqlNode : Option SqlNode) : SQLAnalysis :=
  match sqlNode with
  | none => emptyAnalysis
  | some node => (SQLAnalyzer.Accept node newSQLAnalyzer).Analysis

/-- `AnalyzeSQL` of the AST a parse of the tree returns, if it returns one. -/
def analysisOf (tree : SingleStatementContext) : Option SQLAnalysis :=
  (buildSqlNode tree).asNode.map fun node => AnalyzeSQL (some node)

/-- The `Hints` field of a `SqlSelect`. -/
def selectHints : SqlNode → List SqlHint
  | .select _ hints _ _ _ _ _ _ _ _ _ _ => hints
  | _ => []

/-- The `SelectList` field of a `SqlSelect`. -/
def selectSelectList : SqlNode → List SqlNode
  | .select _ _ _ selectList _ _ _ _ _ _ _ _ => selectList
  | _ => []

/-- The `GroupBy` field of a `SqlSelect`. -/
def selectGroupBy : SqlNode → List SqlNode
  | .select _ _ _ _ _ _ groupBy _ _ _ _ _ => groupBy
  | _ => []

/-- The `Name` field of a `SqlHint`. -/
def SqlHint.name : SqlHint → String
  | .mk _ name _ => name

/-- The `Parameters` field of a `SqlHint`. -/
def SqlHint.parameters : SqlHint → List SqlNode
  | .mk _ _ parameters => parameters

/-! ## The steps of an analysis -/

/-- One step of an analysis: the part of a `Visit...` method or of
`extractTablesFromNode` that writes to the record, with what it reads from the node it
is at. -/
inductive AnalysisEvent where
  | identifier (names : List String)
  | call (operator : Option SqlOperator) (operands : List SqlNode)
  | join (joinType : JoinType)
  | basicCall (operand : Option SqlNode) (aliasText : String)
  | table (names : List String)
  | subquery

/-- The analyzer after one step. -/
def SQLAnalyzer.step (a : SQLAnalyzer) : AnalysisEvent → SQLAnalyzer
  | .identifier names => a.VisitIdentifier names
  | .call operator operands => a.visitCallOperator operator operands
  | .join joinType => a.visitJoinType joinType
  | .basicCall operand aliasText => a.visitBasicCallAlias operand aliasText
  | .table names => a.extractTableIdentifier names
  | .subquery => a.setHasSubquery

mutual
/-- The steps of `node.Accept(a)`, in order: one `identifier` step per Identifier
visited, one `call` step per Call visited (before its operands), one `join` step per
Join (before its sides), one `basicCall` step per BasicCall (after its operand), and
the steps of the from-positions below. The hints, window declarations, offset and
fetch of a Select and the using-list of a Join give no step. -/
def visitEvents : SqlNode → List AnalysisEvent
  | .identifier _ names => [.identifier names]
  | .literal _ _ _ _ => []
  | .call _ operator operands => .call operator operands :: visitEventsAll operands
  | .hint _ => []
  | .select _ _ _ selectList from_ where_ groupBy having _ orderBy _ _ =>
    visitEventsAll selectList ++ fromEventsOption from_ ++ visitEventsOption where_ ++
      visitEventsAll groupBy ++ visitEventsOption having ++ visitEventsAll orderBy
  | .join _ left right joinType condition _ =>
    .join joinType :: (fromEventsOption left ++ fromEventsOption right ++
      visitEventsOption condition)
  | .basicCall _ operand aliasText => visitEventsOption operand ++ [.basicCall operand aliasText]
  | .nodeList _ list => visitEventsAll list
termination_by structural node => node
/-- The steps of visiting the nodes of a list in order. -/
def visitEventsAll : List SqlNode → List AnalysisEvent
  | [] => []
  | node :: rest => visitEvents node ++ visitEventsAll rest
termination_by structural nodes => nodes
/-- The steps of visiting a node that may be absent. -/
def visitEventsOption : Option SqlNode → List AnalysisEvent
  | none => []
  | some node => visitEvents node
termination_by structural node => node
/-- The steps of `extractTablesFromNode(node)`, the walk over a from-position: a
`table` step for an Identifier, the steps of a visit for a Join, a Select (after a
`subquery` step) or a call without alias, and for an AS call the steps of its first
operand as a from-position (after a `subquery` step when that operand is a Select).
The other operands of the AS call give no step, nor does a Literal, Hint, BasicCall or
NodeList at a from-position. -/
def fromEvents : SqlNode → List AnalysisEvent
  | .identifier _ names => [.table names]
  | .join _ left right joinType condition _ =>
    .join joinType :: (fromEventsOption left ++ fromEventsOption right ++
      visitEventsOption condition)
  | .call _ operator operands =>
    if isAsOperator operator then
      match operands with
      | first :: _ => (if isSelect first then [.subquery] else []) ++ fromEvents first
      | [] => []
    else .call operator operands :: visitEventsAll operands
  | .select _ _ _ selectList from_ where_ groupBy having _ orderBy _ _ =>
    .subquery :: (visitEventsAll selectList ++ fromEventsOption from_ ++
      visitEventsOption where_ ++ visitEventsAll groupBy ++ visitEventsOption having ++
      visitEventsAll orderBy)
  | .literal _ _ _ _ => []
  | .hint _ => []
  | .basicCall _ _ _ => []
  | .nodeList _ _ => []
termination_by structural node => node
/-- The steps of the walk over a from-position that may be absent. -/
def fromEventsOption : Option SqlNode → List AnalysisEvent
  | none => []
  | some node => fromEvents node
termination_by structural node => node
end

/-- The upper-cased operator name a `call` step reads; a call without operator has
none. -/
def AnalysisEvent.callName : AnalysisEvent → Option String
  | .call (some op) _ => some (toUpper op.Name)
  | _ => none

/-- The rendered dotted name an `identifier` step reads; an identifier without name
part has none. -/
def AnalysisEvent.identifierName : AnalysisEvent → Option String
  | .identifier (name :: names) => some (joinDot (name :: names))
  | _ => none

/-- The table name a `table` step reads: the first name part of the identifier, unless
it is `*`. -/
def AnalysisEvent.tableName : AnalysisEvent → Option String
  | .table (tableName :: _) => if tableName ≠ "*" then some tableName else none
  | _ => none

/-- The upper-cased operator names of the Call nodes an analysis visits (`VisitCall`
runs on them), in visiting order. -/
def visitedCallNames (ast : SqlNode) : List String :=
  (visitEvents ast).filterMap AnalysisEvent.callName

/-- The rendered dotted names of the Identifiers an analysis visits as expressions
(`VisitIdentifier` runs on them), in visiting order. -/
def visitedIdentifierNames (ast : SqlNode) : List String :=
  (visitEvents ast).filterMap AnalysisEvent.identifierName

/-- The table names at the from-positions an analysis walks over, in walking order. -/
def fromPositionTables (ast : SqlNode) : List String :=
  (visitEvents ast).filterMap AnalysisEvent.tableName

/-- A list with one more element at its end, unless it holds the element already. -/
def appendNew (acc : List String) (x : String) : List String :=
  if x ∈ acc then acc else acc ++ [x]

/-- The first occurrences of a list: each element once, where it is first seen. -/
def firstOccurrences : List String → List String
  | [] => []
  | x :: xs => x :: (firstOccurrences xs).filter fun y => y ≠ x

/-! ## Every node of an AST -/

mutual
/-- Every node of an AST, in any position: the node itself, then the nodes of all its
fields in the order of their declaration. -/
def allNodes : SqlNode → List SqlNode
  | .identifier base names => [.identifier base names]
  | .literal base value valueType typeName => [.literal base value valueType typeName]
  | .call base operator operands => .call base operator operands :: allNodesList operands
  | .hint h => allNodesHint h
  | .select base hints keywordList selectList from_ where_ groupBy having windowDecls orderBy
      offset fetch =>
    .select base hints keywordList selectList from_ where_ groupBy having windowDecls orderBy
        offset fetch ::
      (allNodesHints hints ++ allNodesList selectList ++ allNodesOption from_ ++
        allNodesOption where_ ++ allNodesList groupBy ++ allNodesOption having ++
        allNodesList windowDecls ++ allNodesList orderBy ++ allNodesOption offset ++
        allNodesOption fetch)
  | .join base left right joinType condition using_ =>
    .join base left right joinType condition using_ ::
      (allNodesOption left ++ allNodesOption right ++ allNodesOption condition ++
        allNodesList using_)
  | .basicCall base operand aliasText =>
    .basicCall base operand aliasText :: allNodesOption operand
  | .nodeList base list => .nodeList base list :: allNodesList list
termination_by structural node => node
/-- Every node of the ASTs of a list. -/
def allNodesList : List SqlNode → List SqlNode
  | [] => []
  | node :: rest => allNodes node ++ allNodesList rest
termination_by structural nodes => nodes
/-- Every node of an AST that may be absent. -/
def allNodesOption : Option SqlNode → List SqlNode
  | none => []
  | some node => allNodes node
termination_by structural node => node
/-- Every node of a hint: the hint, then the nodes of its parameters. -/
def allNodesHint : SqlHint → List SqlNode
  | .mk base name parameters => .hint (.mk base name parameters) :: allNodesList parameters
termination_by structural h => h
/-- Every node of the hints of a list. -/
def allNodesHints : List SqlHint → List SqlNode
  | [] => []
  | h :: rest => allNodesHint h ++ allNodesHints rest
termination_by structural hints => hints
end

/-- A Call whose operator name, upper-cased, is an aggregate function. -/
def isAggregateCall : SqlNode → Bool
  | .call _ (some op) _ => isAggregateFunction (toUpper op.Name)
  | _ => false

/-- The number of Call nodes anywhere in an AST whose operator name, upper-cased, is
an aggregate function, counting duplicates. -/
def aggregateCallCount (ast : SqlNode) : Nat :=
  ((allNodes ast).filter isAggregateCall).length

/-- The rendered dotted names of every Identifier anywhere in an AST, in the order of
`allNodes`. -/
def allIdentifierNames (ast : SqlNode) : List String :=
  (allNodes ast).filterMap fun
    | .identifier _ names => some (joinDot names)
    | _ => none

/-- The two sets of the analyzer hold what its two deduplicated lists hold. -/
def SetsMatchLists (a : SQLAnalyzer) : Prop :=
  a.columnSet = a.Analysis.Columns ∧ a.tableSet = a.Analysis.Tables

/-! ## Hints, read off the tree -/

/-- A hint statement that has a name, and not the empty one. -/
def HintStatementContext.isNamed (statement : HintStatementContext) : Bool :=
  match statement.hintName with
  | some hintName => hintName ≠ ""
  | none => false

/-- The named hint statements of the hint comments of a select clause, in source
order: the statements of the first comment, then those of the second, and so on. -/
def namedHintStatements (allHint : List HintContext) : List HintStatementContext :=
  (allHint.map fun hintCtx => hintCtx.allHintStatement).flatten.filter
    HintStatementContext.isNamed

/-- The Hint of a hint statement: its name, its parameters in order, its span. -/
def hintOfStatement (statement : HintStatementContext) : SqlHint :=
  NewSqlHint (statement.hintName.getD "")
    (statement.allPrimaryExpression.map visitPrimaryExpressionAsNode)
    (getPositionFromContext statement.start statement.stop)

/-! ## Example trees of the analysis scenarios -/

/-- A select item that is the dotted reference `text`, starting at the given column. -/
def dottedSelectItem (column : Int) (first text : String) : NamedExpressionContext :=
  ⟨tk 1 column first,
    .predicated (tk 1 column first)
      (.valueExpressionDefault (.dereference (tk 1 column first) text)) none,
    none⟩

/-- The tree of
`SELECT u.id, u.name, o.order_id FROM users u JOIN orders o ON u.id = o.user_id`. -/
def explicitJoinTree : SingleStatementContext :=
  ⟨.statementDefault (.mk (.queryTermDefault (.queryPrimaryDefault
    (.regularQuerySpecification (tk 1 0 "SELECT")
      ⟨[], .federatedQueryExpression
        [dottedSelectItem 7 "u" "u.id", dottedSelectItem 13 "u" "u.name",
          dottedSelectItem 21 "o" "o.order_id"]⟩
      (some (.mk
        [.mk (.tableName (tk 1 37 "users") "users" (some ⟨"u", some "u"⟩))
          [.joinRelation ""
            (.tableName (tk 1 50 "orders") "orders" (some ⟨"o", some "o"⟩))
            (some (.predicated (tk 1 62 "u")
              (.comparison (tk 1 62 "u")
                (.valueExpressionDefault (.dereference (tk 1 62 "u") "u.id"))
                (.valueExpressionDefault (.dereference (tk 1 69 "o") "o.user_id")) "=")
              none))]]))
      none none none))))⟩

/-- The expression `COUNT(*)` starting at the given column. -/
def countStar (column : Int) : ValueExpressionContext :=
  .valueExpressionDefault (.functionCall (tk 1 column "COUNT") "COUNT"
    [.predicated (tk 1 (column + 6) "*")
      (.valueExpressionDefault (.star (tk 1 (column + 6) "*") none)) none])

/-- The expression `department` starting at the given column. -/
def departmentColumn (column : Int) : BooleanExpressionContext :=
  .predicated (tk 1 column "department")
    (.valueExpressionDefault (.columnReference (tk 1 column "department") "department")) none

/-- The tree of `SELECT department, COUNT(*) as cnt FROM employees GROUP BY department
HAVING COUNT(*) > 5`. -/
def groupByHavingTree : SingleStatementContext :=
  ⟨.statementDefault (.mk (.queryTermDefault (.queryPrimaryDefault
    (.regularQuerySpecification (tk 1 0 "SELECT")
      ⟨[], .federatedQueryExpression
        [⟨tk 1 7 "department", departmentColumn 7, none⟩,
          ⟨tk 1 19 "COUNT", .predicated (tk 1 19 "COUNT") (countStar 19) none, some "cnt"⟩]⟩
      (some (.mk [.mk (.tableName (tk 1 40 "employees") "employees" noAlias) []]))
      none
      (some ⟨[⟨some (departmentColumn 59)⟩]⟩)
      (some (.predicated (tk 1 77 "COUNT")
        (.comparison (tk 1 77 "COUNT") (countStar 77)
          (.valueExpressionDefault (.constantDefault (.numericLiteral
            (.integerLiteral (tk 1 88 "5") "5")))) ">")
        none))))))⟩

/-- The hint statement `name(TEE)` starting at the given column. -/
def teeHintStatement (column : Int) (name : String) : HintStatementContext :=
  ⟨tk 1 column name, tk 1 (column + 8) ")", some name,
    [⟨tk 1 (column + 5) "TEE", tk 1 (column + 5) "TEE", "TEE", none⟩]⟩

/-- The tree of `select /*+ FUNC(TEE) */ MUL(t1.k,t2.k) from t1, t2`. -/
def hintedProductTree : SingleStatementContext :=
  ⟨.statementDefault (.mk (.queryTermDefault (.queryPrimaryDefault
    (.regularQuerySpecification (tk 1 0 "select")
      ⟨[⟨[teeHintStatement 11 "FUNC"]⟩], .federatedQueryExpression
        [⟨tk 1 24 "MUL",
          .predicated (tk 1 24 "MUL")
            (.valueExpressionDefault (.functionCall (tk 1 24 "MUL") "MUL"
              [.predicated (tk 1 28 "t1")
                (.valueExpressionDefault (.dereference (tk 1 28 "t1") "t1.k")) none,
                .predicated (tk 1 33 "t2")
                  (.valueExpressionDefault (.dereference (tk 1 33 "t2") "t2.k")) none]))
            none,
          none⟩]⟩
      (some (.mk
        [.mk (.tableName (tk 1 44 "t1") "t1" noAlias) [],
          .mk (.tableName (tk 1 48 "t2") "t2" noAlias) []]))
      none none none))))⟩

/-- The select clause of `select /*+ JOIN(TEE), FUNC(TEE) */ *`. -/
def twoHintsClause : SelectClauseContext :=
  ⟨[⟨[teeHintStatement 11 "JOIN", teeHintStatement 22 "FUNC"]⟩],
    .federatedQueryExpression
      [⟨tk 1 34 "*",
        .predicated (tk 1 34 "*") (.valueExpressionDefault (.star (tk 1 34 "*") none)) none,
        none⟩]⟩

/-- The hint parameter `'42'`, an integer between quotes (its text is no float once
the quotes are trimmed off: the integer attempt comes first). -/
def quotedIntegerParameter : HintParameterContext :=
  ⟨tk 1 16 "'42'", tk 1 16 "'42'", "'42'", none⟩

/-- The call `name(id)` at no position. -/
def aggregateOfId (name : String) : SqlNode :=
  (NewSqlCall (some { Name := name, Kind := SqlKindCall, Syntax := .SyntaxFunction })
    [NewSqlIdentifier ["id"] zeroPos] zeroPos).toNode

/-- A Select over `users` with an aggregate call in its window declarations, one as
its offset and one as its fetch. -/
def unvisitedAggregatesSelect : SqlNode :=
  .select ⟨SqlKindSelect, zeroPos⟩ [] [] [NewSqlIdentifier ["id"] zeroPos]
    (some (NewSqlIdentifier ["users"] zeroPos)) none [] none [aggregateOfId "MAX"] []
    (some (aggregateOfId "MIN")) (some (aggregateOfId "COUNT"))

/-- The upper-cased operator name of a Call node; a call without operator, or a node
that is no call, has none. -/
def nodeCallName : SqlNode → Option String
  | .call _ (some op) _ => some (toUpper op.Name)
  | _ => none

/-- The rendered dotted name of an Identifier node with at least one name part. -/
def nodeIdentifierName : SqlNode → Option String
  | .identifier _ (name :: names) => some (joinDot (name :: names))
  | _ => none

/-- The first name part of an Identifier node, unless it is `*`. -/
def nodeTableName : SqlNode → Option String
  | .identifier _ (tableName :: _) => if tableName ≠ "*" then some tableName else none
  | _ => none

/-- What is read from the steps of an analysis (`ofEvent`) is read from nodes of the
AST (`ofNode`): an `identifier` or `table` step reads what its Identifier gives or
nothing, a `call` step what its Call gives or nothing, the other steps nothing. -/
structure ReadsNodes {β : Type} (ofEvent : AnalysisEvent → Option β)
    (ofNode : SqlNode → Option β) : Prop where
  identifier : ∀ base names,
    ofEvent (.identifier names) = none ∨
      ofEvent (.identifier names) = ofNode (.identifier base names)
  table : ∀ base names,
    ofEvent (.table names) = none ∨ ofEvent (.table names) = ofNode (.identifier base names)
  call : ∀ base operator operands,
    ofEvent (.call operator operands) = none ∨
      ofEvent (.call operator operands) = ofNode (.call base operator operands)
  join : ∀ joinType, ofEvent (.join joinType) = none
  basicCall : ∀ operand aliasText, ofEvent (.basicCall operand aliasText) = none
  subquery : ofEvent .subquery = none

/-! ## Joins, subqueries and window functions, read off the steps and the AST -/

/-- The join type a `join` step reads. -/
def AnalysisEvent.joinType : AnalysisEvent → Option JoinType
  | .join joinType => some joinType
  | _ => none

/-- The join types of the Join nodes an analysis visits (`VisitJoin` runs on them), in
visiting order: a Join before the Joins of its left side, those before the Joins of its
right side. -/
def visitedJoinTypes (ast : SqlNode) : List JoinType :=
  (visitEvents ast).filterMap AnalysisEvent.joinType

/-- A `subquery` step. -/
def AnalysisEvent.isSubquery : AnalysisEvent → Bool
  | .subquery => true
  | _ => false

/-- An AS call whose aliased target, its first operand, is a Select. -/
def isAliasedSelect : SqlNode → Bool
  | .call _ operator (first :: _) => isAsOperator operator && isSelect first
  | _ => false

/-- A from-position node that makes a subquery: a Select, or an AS call whose aliased
target is a Select. -/
def isSubqueryFromItem (node : SqlNode) : Bool :=
  isSelect node || isAliasedSelect node

mutual
/-- The from-position nodes an analysis walks over below a node it visits, in walking
order: the from of a Select it visits, the left and right side of a Join it visits,
and what is walked over below them. -/
def visitedFromNodes : SqlNode → List SqlNode
  | .identifier _ _ => []
  | .literal _ _ _ _ => []
  | .call _ _ operands => visitedFromNodesAll operands
  | .hint _ => []
  | .select _ _ _ selectList from_ where_ groupBy having _ orderBy _ _ =>
    visitedFromNodesAll selectList ++ walkedFromNodesOption from_ ++
      visitedFromNodesOption where_ ++ visitedFromNodesAll groupBy ++
      visitedFromNodesOption having ++ visitedFromNodesAll orderBy
  | .join _ left right _ condition _ =>
    walkedFromNodesOption left ++ walkedFromNodesOption right ++
      visitedFromNodesOption condition
  | .basicCall _ operand _ => visitedFromNodesOption operand
  | .nodeList _ list => visitedFromNodesAll list
termination_by structural node => node
/-- The from-position nodes walked over below the nodes of a list that is visited. -/
def visitedFromNodesAll : List SqlNode → List SqlNode
  | [] => []
  | node :: rest => visitedFromNodes node ++ visitedFromNodesAll rest
termination_by structural nodes => nodes
/-- The from-position nodes walked over below a visited node that may be absent. -/
def visitedFromNodesOption : Option SqlNode → List SqlNode
  | none => []
  | some node => visitedFromNodes node
termination_by structural node => node
/-- A node at a from-position, then the from-position nodes walked over below it: for
an AS call its first operand (a from-position too), for a Join its sides, for a Select
or a call without alias what a visit of it walks over. -/
def walkedFromNodes : SqlNode → List SqlNode
  | .identifier base names => [.identifier base names]
  | .join base left right joinType condition using_ =>
    .join base left right joinType condition using_ ::
      (walkedFromNodesOption left ++ walkedFromNodesOption right ++
        visitedFromNodesOption condition)
  | .call base operator operands =>
    .call base operator operands ::
      (if isAsOperator operator then
        match operands with
        | first :: _ => walkedFromNodes first
        | [] => []
      else visitedFromNodesAll operands)
  | .select base hints keywordList selectList from_ where_ groupBy having windowDecls orderBy
      offset fetch =>
    .select base hints keywordList selectList from_ where_ groupBy having windowDecls orderBy
        offset fetch ::
      (visitedFromNodesAll selectList ++ walkedFromNodesOption from_ ++
        visitedFromNodesOption where_ ++ visitedFromNodesAll groupBy ++
        visitedFromNodesOption having ++ visitedFromNodesAll orderBy)
  | .literal base value valueType typeName => [.literal base value valueType typeName]
  | .hint h => [.hint h]
  | .basicCall base operand aliasText => [.basicCall base operand aliasText]
  | .nodeList base list => [.nodeList base list]
termination_by structural node => node
/-- The from-position nodes walked over at a from-position that may be absent. -/
def walkedFromNodesOption : Option SqlNode → List SqlNode
  | none => []
  | some node => walkedFromNodes node
termination_by structural node => node
end

/-- The `From` of every Select anywhere in an AST, in the order of `allNodes`. -/
def allSelectFroms (ast : SqlNode) : List SqlNode :=
  (allNodes ast).filterMap selectFrom

/-- A Call whose operator name, upper-cased, is a window function. -/
def isWindowCall : SqlNode → Bool
  | .call _ (some op) _ => isWindowFunction (toUpper op.Name)
  | _ => false

/-! ## analyzer.go: the entry point kept for old callers -/

/-- `ParseResult` of `node.go`; its `Error` field, which no function of the sources
reads, is left out. -/
structure ParseResult where
  SQL : String
  Statement : Option SqlNode

/-- `AnalyzeSQLFromParseResult`. -/
def AnalyzeSQLFromParseResult (parseResult : Option ParseResult) : SQLAnalysis :=
  match parseResult with
  | none => emptyAnalysis
  | some parseResult =>
    match parseResult.Statement with
    | none => emptyAnalysis
    | some statement => AnalyzeSQL (some statement)

/-! ## parser.go: the name extractors -/

/-- What a call of an extractor comes to: it returns its pair `([]string, error)`
(`err` is `none` for a nil error), or it panics on a nil dereference. -/
inductive ExtractResult where
  | returned (names : List String) (err : Option String)
  | panicked
deriving DecidableEq, Repr

/-- The identifier branch of `TableNameExtractor.VisitBasicCall` (lines 183-186), given
the name parts of the operand. -/
def TableNameExtractor.visitOperandIdentifier (tables : List String) (names : List String) :
    List String :=
  match names with
  | first :: _ => if first ≠ "*" then tables ++ [joinDot names] else tables
  | [] => tables

mutual
/-- `node.Accept(v)` for a `TableNameExtractor` whose `tables` are given: the `tables`
afterwards, or `none` when the call panics. `VisitBasicCall` calls
`node.Operand.Accept(v)` on every operand that is no Identifier, a nil one included. -/
def TableNameExtractor.Accept : SqlNode → List String → Option (List String)
  | .identifier _ _, tables => some tables
  | .literal _ _ _ _, tables => some tables
  | .call _ _ operands, tables => TableNameExtractor.acceptAll operands tables
  | .hint _, tables => some tables
  | .select _ _ _ _ from_ _ _ _ _ _ _ _, tables => TableNameExtractor.acceptOption from_ tables
  | .join _ left right _ _ _, tables =>
    match TableNameExtractor.acceptOption left tables with
    | some tables1 => TableNameExtractor.acceptOption right tables1
    | none => none
  | .basicCall _ operand _, tables =>
    match operand with
    | none => none
    | some node =>
      match node with
      | .identifier _ names => some (TableNameExtractor.visitOperandIdentifier tables names)
      | _ => TableNameExtractor.Accept node tables
  | .nodeList _ list, tables => TableNameExtractor.acceptAll list tables
termination_by structural node => node
/-- The loops `for _, item := range items { item.Accept(v) }` of the extractor. -/
def TableNameExtractor.acceptAll : List SqlNode → List String → Option (List String)
  | [], tables => some tables
  | node :: rest, tables =>
    match TableNameExtractor.Accept node tables with
    | some tables1 => TableNameExtractor.acceptAll rest tables1
    | none => none
termination_by structural nodes => nodes
/-- The guarded visits `if node != nil { node.Accept(v) }` of the extractor. -/
def TableNameExtractor.acceptOption : Option SqlNode → List String → Option (List String)
  | none, tables => some tables
  | some node, tables => TableNameExtractor.Accept node tables
termination_by structural node => node
end

/-- `ExtractTableNames`. Every `Visit...` method of the extractor returns a nil error,
so the error returned with the tables is nil. -/
def ExtractTableNames (sqlNode : Option SqlNode) : ExtractResult :=
  match sqlNode with
  | none => .returned [] (some "SqlNode is nil")
  | some node =>
    match TableNameExtractor.Accept node [] with
    | some tables => .returned tables none
    | none => .panicked

/-- The body of the loop of `ColumnNameExtractor.VisitSelect` (lines 229-239), for one
select item. -/
def ColumnNameExtractor.visitSelectItem (columns : List String) (selectItem : SqlNode) :
    List String :=
  match selectItem with
  | .basicCall _ operand _ =>
    match operand with
    | some (.identifier _ names) => columns ++ [joinDot names]
    | _ => columns
  | .identifier _ names => if joinDot names ≠ "*" then columns ++ [joinDot names] else columns
  | _ => columns

mutual
/-- `node.Accept(v)` for a `ColumnNameExtractor` whose `columns` are given: the
`columns` afterwards. -/
def ColumnNameExtractor.Accept : SqlNode → List String → List String
  | .identifier _ _, columns => columns
  | .literal _ _ _ _, columns => columns
  | .call _ _ operands, columns => ColumnNameExtractor.acceptAll operands columns
  | .hint _, columns => columns
  | .select _ _ _ selectList _ _ _ _ _ _ _ _, columns =>
    selectList.foldl ColumnNameExtractor.visitSelectItem columns
  | .join _ _ _ _ _ _, columns => columns
  | .basicCall _ _ _, columns => columns
  | .nodeList _ list, columns => ColumnNameExtractor.acceptAll list columns
termination_by structural node => node
/-- The loops `for _, item := range items { item.Accept(v) }` of the extractor. -/
def ColumnNameExtractor.acceptAll : List SqlNode → List String → List String
  | [], columns => columns
  | node :: rest, columns =>
    ColumnNameExtractor.acceptAll rest (ColumnNameExtractor.Accept node columns)
termination_by structural nodes => nodes
end

/-- `ExtractColumns`. Every `Visit...` method of the extractor returns a nil error; none
dereferences a node that may be nil. -/
def ExtractColumns (sqlNode : Option SqlNode) : ExtractResult :=
  match sqlNode with
  | none => .returned [] (some "SqlNode is nil")
  | some node => .returned (ColumnNameExtractor.Accept node []) none

/-- The type assertion `node.(*SqlBasicCall)`. -/
def isBasicCall : SqlNode → Bool
  | .basicCall .. => true
  | _ => false

/-- What a select item gives `ExtractColumns`: the rendered name of the Identifier a
BasicCall aliases, or of a direct Identifier other than `*`. -/
def selectItemColumn : SqlNode → Option String
  | .basicCall _ (some (.identifier _ names)) _ => some (joinDot names)
  | .identifier _ names => if joinDot names ≠ "*" then some (joinDot names) else none
  | _ => none

/-! ## parser.go: the entry point of a parse -/

/-- `unicode.IsSpace`: the white space `strings.TrimSpace` trims off. -/
def isSpace (c : Char) : Bool :=
  [9, 10, 11, 12, 13, 32, 0x85, 0xA0, 0x1680, 0x2028, 0x2029, 0x202F, 0x205F, 0x3000].contains
      c.toNat ||
    (0x2000 ≤ c.toNat && c.toNat ≤ 0x200A)

/-- `strings.TrimSpace`. -/
def TrimSpace (s : String) : String :=
  String.mk ((s.toList.dropWhile isSpace).reverse.dropWhile isSpace).reverse

/-- `SQLParserResult`. -/
structure SQLParserResult where
  Success : Bool
  ErrorMessage : String
  SqlNode : Option SqlNode
  AntlrTree : Option SingleStatementContext
  Errors : List String

/-- Modelled from the spec: what the grammar front end gives for a SQL text, steps 1-6
of `ParseSQLWithAntlr` (input stream, lexer, token stream, parser, error listener and
the start rule; the generated `antlr` package is not among the sources): the syntax
errors the listener collected and the tree of the start rule, which the generated
parser always returns as a `SingleStatementContext`. -/
structure FrontEndOutcome where
  Errors : List String
  tree : SingleStatementContext

/-- Steps 7-10 of `ParseSQLWithAntlr`: what is returned once the front end has parsed
the text, as the pair `(*SQLParserResult, error)`. -/
def resultOfFrontEnd (outcome : FrontEndOutcome) : Option SQLParserResult × Option String :=
  if 0 < outcome.Errors.length then
    let errorMessage := "; ".intercalate outcome.Errors
    (some { Success := false, ErrorMessage := errorMessage, SqlNode := none,
            AntlrTree := none, Errors := outcome.Errors },
      some ("解析失败: " ++ errorMessage))
  else
    match buildSqlNode outcome.tree with
    | .nil => (none, some "无法构建 SqlNode")
    | .error _ => (none, some "visitor 返回的不是 SqlNode 类型: *errors.errorString")
    | .node sqlNode =>
      (some { Success := true, ErrorMessage := "", SqlNode := some sqlNode,
              AntlrTree := some outcome.tree, Errors := [] },
        none)

/-- `ParseSQLWithAntlr`, given the grammar front end it calls. -/
def ParseSQLWithAntlr (frontEnd : String → FrontEndOutcome) (sql : String) :
    Option SQLParserResult × Option String :=
  let sql := TrimSpace sql
  if sql = "" then (none, some "SQL语句不能为空")
  else resultOfFrontEnd (frontEnd sql)

/-! ## Example trees of the alias and extractor scenarios -/

/-- The tree of `SELECT u.id AS uid FROM users AS u`. -/
def aliasedColumnTree : SingleStatementContext :=
  ⟨.statementDefault (.mk (.queryTermDefault (.queryPrimaryDefault
    (.regularQuerySpecification (tk 1 0 "SELECT")
      ⟨[], .federatedQueryExpression
        [⟨tk 1 7 "u",
          .predicated (tk 1 7 "u")
            (.valueExpressionDefault (.dereference (tk 1 7 "u") "u.id")) none,
          some "uid"⟩]⟩
      (some (.mk [.mk (.tableName (tk 1 24 "users") "users" (some ⟨"ASu", some "u"⟩)) []]))
      none none none))))⟩

/-- The tree of `SELECT u.id, o.order_id FROM users u JOIN orders o ON u.id = o.user_id`. -/
def extractTablesTestTree : SingleStatementContext :=
  ⟨.statementDefault (.mk (.queryTermDefault (.queryPrimaryDefault
    (.regularQuerySpecification (tk 1 0 "SELECT")
      ⟨[], .federatedQueryExpression
        [dottedSelectItem 7 "u" "u.id", dottedSelectItem 13 "o" "o.order_id"]⟩
      (some (.mk
        [.mk (.tableName (tk 1 29 "users") "users" (some ⟨"u", some "u"⟩))
          [.joinRelation ""
            (.tableName (tk 1 42 "orders") "orders" (some ⟨"o", some "o"⟩))
            (some (.predicated (tk 1 54 "u")
              (.comparison (tk 1 54 "u")
                (.valueExpressionDefault (.dereference (tk 1 54 "u") "u.id"))
                (.valueExpressionDefault (.dereference (tk 1 61 "o") "o.user_id")) "=")
              none))]]))
      none none none))))⟩

/-- A select item that is the column `name`, starting at the given column. -/
def columnSelectItem (column : Int) (name : String) : NamedExpressionContext :=
  ⟨tk 1 column name,
    .predicated (tk 1 column name)
      (.valueExpressionDefault (.columnReference (tk 1 column name) name)) none,
    none⟩

/-- The tree of `SELECT id, name, email FROM users WHERE age > 18`. -/
def extractColumnsTestTree : SingleStatementContext :=
  ⟨.statementDefault (.mk (.queryTermDefault (.queryPrimaryDefault
    (.regularQuerySpecification (tk 1 0 "SELECT")
      ⟨[], .federatedQueryExpression
        [columnSelectItem 7 "id", columnSelectItem 11 "name", columnSelectItem 17 "email"]⟩
      (some (.mk [.mk (.tableName (tk 1 28 "users") "users" noAlias) []]))
      (some (.predicated (tk 1 40 "age")
        (.comparison (tk 1 40 "age")
          (.valueExpressionDefault (.columnReference (tk 1 40 "age") "age"))
          (.valueExpressionDefault (.constantDefault (.numericLiteral
            (.integerLiteral (tk 1 46 "18") "18")))) ">")
        none))
      none none))))⟩

/-- A Select over the table `table` with nothing but the select item `id`. -/
def plainSelect (table : String) : SqlNode :=
  .select ⟨SqlKindSelect, zeroPos⟩ [] [] [NewSqlIdentifier ["id"] zeroPos]
    (some (NewSqlIdentifier [table] zeroPos)) none [] none [] [] none none

/-- A Select over `users` whose offset is a Select over a subquery. -/
def unvisitedSubquerySelect : SqlNode :=
  .select ⟨SqlKindSelect, zeroPos⟩ [] [] [NewSqlIdentifier ["id"] zeroPos]
    (some (NewSqlIdentifier ["users"] zeroPos)) none [] none [] []
    (some (.select ⟨SqlKindSelect, zeroPos⟩ [] [] [NewSqlIdentifier ["id"] zeroPos]
      (some (plainSelect "t")) none [] none [] [] none none))
    none

/-- A Select over `users` with the window call `RANK(id)` in its window
declarations. -/
def unvisitedWindowSelect : SqlNode :=
  .select ⟨SqlKindSelect, zeroPos⟩ [] [] [NewSqlIdentifier ["id"] zeroPos]
    (some (NewSqlIdentifier ["users"] zeroPos)) none [] none [aggregateOfId "RANK"] []
    none none

/-- A BasicCall with the alias `t` and no operand. -/
def emptyBasicCall : SqlNode :=
  .basicCall ⟨SqlKindAs, zeroPos⟩ none "t"

/-- A front end that finds no syntax error and gives the tree of
`SELECT id, name FROM users WHERE age > 18` for every text. -/
def simpleSelectFrontEnd (_ : String) : FrontEndOutcome :=
  ⟨[], simpleSelectTree⟩

/-- A left-deep chain of joins of the given type over tables: `first`, then one Join per
pair of `rights`, with the pair's table as right side and the pair's condition. -/
def joinChain (joinType : JoinType) (first : List String)
    (rights : List (List String × Option SqlNode)) : SqlNode :=
  rights.foldl
    (fun left right =>
      NewSqlJoin (some left) (some (NewSqlIdentifier right.1 zeroPos)) joinType right.2 zeroPos)
    (NewSqlIdentifier first zeroPos)

/-- A Select with the given select list and from, and nothing else. -/
def selectOver (selectList : List SqlNode) (from_ : Option SqlNode) : SqlNode :=
  .select ⟨SqlKindSelect, zeroPos⟩ [] [] selectList from_ none [] none [] [] none none

/-- A Select over `users` whose where is a Select over a subquery. -/
def whereSubquerySelect : SqlNode :=
  .select ⟨SqlKindSelect, zeroPos⟩ [] [] [NewSqlIdentifier ["id"] zeroPos]
    (some (NewSqlIdentifier ["users"] zeroPos))
    (some (.select ⟨SqlKindSelect, zeroPos⟩ [] [] [NewSqlIdentifier ["id"] zeroPos]
      (some (plainSelect "t")) none [] none [] [] none none))
    [] none [] [] none none

/-! ## node.go: rendering and cloning -/

/-- `NewSqlBasicCall`. -/
def NewSqlBasicCall (operand : Option SqlNode) (aliasText : String)
    (pos : Option SqlParserPos) : SqlNode :=
  .basicCall ⟨SqlKindAs, pos⟩ operand aliasText

/-- `NewSqlNodeList`. -/
def NewSqlNodeList (list : List SqlNode) (pos : Option SqlParserPos) : SqlNode :=
  .nodeList ⟨SqlKindOther, pos⟩ list

/-- `strings.Join(parts, sep)`. -/
def joinWith (sep : String) (parts : List String) : String :=
  sep.intercalate parts

/-- `SqlLiteral.ToString`: `NULL` for a nil value, else `fmt.Sprintf("%v", value)`.
Floating point is outside this embedding: `formatFloat` is what `%v` gives for a
`float64`. -/
def formatValue (formatFloat : Float64 → String) : LitValue → String
  | .null => "NULL"
  | .bool b => if b then "true" else "false"
  | .int i => toString i
  | .float f => formatFloat f
  | .string s => s

/-- The function-syntax case of `SqlOperator.Format`, given the renderings of the
operands: `NAME(a, b)`. -/
def formatFunction (name : String) (args : List String) : String :=
  name ++ "(" ++ joinWith ", " args ++ ")"

mutual
/-- `node.ToString()`, `none` when the call panics on a nil dereference (the left or
right side of a Join, the operand of a BasicCall); `SqlOperator.Format` is in the
branch of the Call. -/
def SqlNode.ToString (formatFloat : Float64 → String) : SqlNode → Option String
  | .identifier _ names => some (joinDot names)
  | .literal _ value _ _ => some (formatValue formatFloat value)
  | .call _ operator operands =>
    match operator with
    | none => some "UNKNOWN"
    | some op =>
      match op.Syntax with
      | .SyntaxFunction =>
        (SqlNode.toStringAll formatFloat operands).map (formatFunction op.Name)
      | .SyntaxBinary =>
        match operands with
        | [left, right] =>
          (SqlNode.ToString formatFloat left).bind fun leftText =>
            (SqlNode.ToString formatFloat right).map fun rightText =>
              leftText ++ " " ++ op.Name ++ " " ++ rightText
        | _ => some op.Name
      | .SyntaxPrefix =>
        match operands with
        | [operand] =>
          (SqlNode.ToString formatFloat operand).map fun text => op.Name ++ " " ++ text
        | _ => some op.Name
      | _ => some op.Name
  | .hint h => SqlHint.ToString formatFloat h
  | .select _ hints keywordList selectList from_ where_ groupBy having _ orderBy _ fetch =>
    (SqlHint.toStringAll formatFloat hints).bind fun hintTexts =>
    (SqlNode.toStringAll formatFloat selectList).bind fun itemTexts =>
    (SqlNode.toStringClause formatFloat " FROM " from_).bind fun fromText =>
    (SqlNode.toStringClause formatFloat " WHERE " where_).bind fun whereText =>
    (SqlNode.toStringAll formatFloat groupBy).bind fun groupTexts =>
    (SqlNode.toStringClause formatFloat " HAVING " having).bind fun havingText =>
    (SqlNode.toStringAll formatFloat orderBy).bind fun orderTexts =>
    (SqlNode.toStringClause formatFloat " LIMIT " fetch).map fun fetchText =>
      "SELECT " ++
        String.join (hintTexts.map fun text => text ++ " ") ++
        (if 0 < keywordList.length then joinWith " " keywordList ++ " " else "") ++
        joinWith ", " itemTexts ++ fromText ++ whereText ++
        (if 0 < groupBy.length then " GROUP BY " ++ joinWith ", " groupTexts else "") ++
        havingText ++
        (if 0 < orderBy.length then " ORDER BY " ++ joinWith ", " orderTexts else "") ++
        fetchText
  | .join _ left right joinType condition _ =>
    (SqlNode.toStringOf formatFloat left).bind fun leftText =>
    (SqlNode.toStringOf formatFloat right).bind fun rightText =>
    (SqlNode.toStringClause formatFloat " ON " condition).map fun conditionText =>
      leftText ++ " " ++ joinType ++ " JOIN " ++ rightText ++ conditionText
  | .basicCall _ operand aliasText =>
    (SqlNode.toStringOf formatFloat operand).map fun text =>
      if aliasText ≠ "" then text ++ " AS " ++ aliasText else text
  | .nodeList _ list => (SqlNode.toStringAll formatFloat list).map (joinWith ", ")
termination_by structural node => node
/-- The renderings of the nodes of a list, in order. -/
def SqlNode.toStringAll (formatFloat : Float64 → String) : List SqlNode → Option (List String)
  | [] => some []
  | node :: rest =>
    (SqlNode.ToString formatFloat node).bind fun text =>
      (SqlNode.toStringAll formatFloat rest).map fun texts => text :: texts
termination_by structural nodes => nodes
/-- The call `field.ToString()` on a field that is dereferenced without a nil check:
it panics when the field is nil. -/
def SqlNode.toStringOf (formatFloat : Float64 → String) : Option SqlNode → Option String
  | none => none
  | some node => SqlNode.ToString formatFloat node
termination_by structural node => node
/-- What a clause that may be absent adds to a rendering: nothing, or the keyword and
the rendering of the node (`if node != nil { ... }`). -/
def SqlNode.toStringClause (formatFloat : Float64 → String) (keyword : String) :
    Option SqlNode → Option String
  | none => some ""
  | some node => (SqlNode.ToString formatFloat node).map fun text => keyword ++ text
termination_by structural node => node
/-- `SqlHint.ToString`. -/
def SqlHint.ToString (formatFloat : Float64 → String) : SqlHint → Option String
  | .mk _ name parameters =>
    (SqlNode.toStringAll formatFloat parameters).map fun texts =>
      "/*+ " ++ name ++
        (if 0 < parameters.length then "(" ++ joinWith ", " texts ++ ")" else "") ++ " */"
termination_by structural h => h
/-- The renderings of the hints of a list, in order. -/
def SqlHint.toStringAll (formatFloat : Float64 → String) : List SqlHint → Option (List String)
  | [] => some []
  | h :: rest =>
    (SqlHint.ToString formatFloat h).bind fun text =>
      (SqlHint.toStringAll formatFloat rest).map fun texts => text :: texts
termination_by structural hints => hints
end

mutual
/-- `node.Clone()`, `none` when the call panics on a nil dereference (a side or the
condition of a Join, the operand of a BasicCall). `SqlSelect.Clone` returns the node
itself. -/
def SqlNode.Clone : SqlNode → Option SqlNode
  | .identifier base names => some (NewSqlIdentifier names base.Pos)
  | .literal base value valueType _ => some (NewSqlLiteral value valueType base.Pos)
  | .call base operator operands =>
    (SqlNode.cloneAll operands).map fun clones =>
      (NewSqlCall operator clones base.Pos).toNode
  | .hint (.mk base name parameters) =>
    (SqlNode.cloneAll parameters).map fun clones => .hint (NewSqlHint name clones base.Pos)
  | .select base hints keywordList selectList from_ where_ groupBy having windowDecls orderBy
      offset fetch =>
    some (.select base hints keywordList selectList from_ where_ groupBy having windowDecls
      orderBy offset fetch)
  | .join base left right joinType condition _ =>
    (SqlNode.cloneOf left).bind fun leftClone =>
    (SqlNode.cloneOf right).bind fun rightClone =>
    (SqlNode.cloneOf condition).map fun conditionClone =>
      NewSqlJoin (some leftClone) (some rightClone) joinType (some conditionClone) base.Pos
  | .basicCall base operand aliasText =>
    (SqlNode.cloneOf operand).map fun clone =>
      NewSqlBasicCall (some clone) aliasText base.Pos
  | .nodeList base list =>
    (SqlNode.cloneAll list).map fun clones => NewSqlNodeList clones base.Pos
termination_by structural node => node
/-- The clones of the nodes of a list, in order. -/
def SqlNode.cloneAll : List SqlNode → Option (List SqlNode)
  | [] => some []
  | node :: rest =>
    (SqlNode.Clone node).bind fun clone =>
      (SqlNode.cloneAll rest).map fun clones => clone :: clones
termination_by structural nodes => nodes
/-- The call `field.Clone()` on a field that is dereferenced without a nil check: it
panics when the field is nil. -/
def SqlNode.cloneOf : Option SqlNode → Option SqlNode
  | none => none
  | some node => SqlNode.Clone node
termination_by structural node => node
end

/-! ## Example nodes of the rendering and cloning scenarios -/

/-- The literal `42` with the type name `INTEGER`. -/
def typedLiteral : SqlNode :=
  .literal ⟨SqlKindLiteral, zeroPos⟩ (.int 42) .LiteralInteger "INTEGER"

/-- The join of `t1` and `t2` with the condition `1 = 1` and the using-list `id`. -/
def usingJoin : SqlNode :=
  .join ⟨SqlKindJoin, zeroPos⟩ (some (NewSqlIdentifier ["t1"] zeroPos))
    (some (NewSqlIdentifier ["t2"] zeroPos)) JoinInner (some cartesianCondition)
    [NewSqlIdentifier ["id"] zeroPos]

/-- The join `t1 CROSS JOIN t2`, which has no ON-condition, as `NewSqlJoin` builds it. -/
def joinWithoutCondition : SqlNode :=
  NewSqlJoin (some (NewSqlIdentifier ["t1"] zeroPos)) (some (NewSqlIdentifier ["t2"] zeroPos))
    JoinCross none zeroPos

/-- The call `VisitPredicated` builds over the column `x` for a predicate whose first
token is `NULL`. -/
def isNullCall : SqlNode :=
  (applyPredicate zeroPos ⟨"NULL"⟩ (NewSqlIdentifier ["x"] zeroPos) NewSqlNodeBuilderVisitor).1

/-- The tree of `SELECT a AS b FROM users u`. -/
def aliasRenderTree : SingleStatementContext :=
  ⟨.statementDefault (.mk (.queryTermDefault (.queryPrimaryDefault
    (.regularQuerySpecification (tk 1 0 "SELECT")
      ⟨[], .federatedQueryExpression
        [⟨tk 1 7 "a",
          .predicated (tk 1 7 "a")
            (.valueExpressionDefault (.columnReference (tk 1 7 "a") "a")) none,
          some "b"⟩]⟩
      (some (.mk [.mk (.tableName (tk 1 19 "users") "users" (some ⟨"u", some "u"⟩)) []]))
      none none none))))⟩

/-! ## Example trees of the builder scenarios -/

/-- The query specification with the given select, from and where clauses, as the
tree of a single statement. -/
def statementOf (selectClause : SelectClauseContext) (fromClause : Option FromClauseContext)
    (whereClause : Option BooleanExpressionContext) : SingleStatementContext :=
  ⟨.statementDefault (.mk (.queryTermDefault (.queryPrimaryDefault
    (.regularQuerySpecification (tk 1 0 "select") selectClause fromClause whereClause
      none none))))⟩

/-- The select clause of the single column `id`. -/
def selectId : SelectClauseContext :=
  ⟨[], .federatedQueryExpression [columnSelectItem 7 "id"]⟩

/-- The boolean expression of the comparison `name op value` of a column with an
integer literal. -/
def columnFilter (column : Int) (name op : String) (valueColumn : Int) (value : String) :
    BooleanExpressionContext :=
  .predicated (tk 1 column name)
    (.comparison (tk 1 column name) (columnExpression 1 column name)
      (.valueExpressionDefault (.constantDefault (.numericLiteral
        (.integerLiteral (tk 1 valueColumn value) value)))) op)
    none

/-- The comparison `name op value`, as `VisitComparison` builds it from
`columnFilter`. -/
def columnFilterCall (column : Int) (name op : String) (kind : SqlKind) (valueColumn : Int)
    (value : Int) (valueEnd : Int) : SqlCall :=
  NewSqlCall (some { Name := op, Kind := kind, Syntax := .SyntaxBinary })
    [NewSqlIdentifier [name] (some ⟨1, column, 1, column + name.utf8ByteSize⟩),
      NewSqlLiteral (.int value) .LiteralInteger (some ⟨1, valueColumn, 1, valueEnd⟩)]
    (some ⟨1, column, 1, column + name.utf8ByteSize⟩)

/-- The boolean expression of the comparison `left = right` of two dotted columns. -/
def dottedEquals (column : Int) (first left : String) (rightColumn : Int)
    (rightFirst right : String) : BooleanExpressionContext :=
  .predicated (tk 1 column first)
    (.comparison (tk 1 column first) (dottedColumn 1 column first left)
      (dottedColumn 1 rightColumn rightFirst right) "=")
    none

/-- The comparison `left = right`, as `VisitComparison` builds it from
`dottedEquals`. -/
def dottedEqualsCall (column : Int) (first : String) (left : List String) (rightColumn : Int)
    (rightFirst : String) (right : List String) : SqlCall :=
  NewSqlCall (some { Name := "=", Kind := SqlKindEquals, Syntax := .SyntaxBinary })
    [NewSqlIdentifier left (some ⟨1, column, 1, column + first.utf8ByteSize⟩),
      NewSqlIdentifier right
        (some ⟨1, rightColumn, 1, rightColumn + rightFirst.utf8ByteSize⟩)]
    (some ⟨1, column, 1, column + first.utf8ByteSize⟩)

/-- A table written with an alias, as a relation of the from clause. -/
def aliasedTable (column : Int) (name aliasText : String) : RelationContext :=
  .mk (.tableName (tk 1 column name) name (some ⟨aliasText, some aliasText⟩)) []

/-- The tree of a statement that is no query, such as `drop table users`. -/
def unsupportedStatementTree : SingleStatementContext :=
  ⟨.other⟩

/-- The tree of a query whose term is a set operation, such as
`select id from t1 union select id from t2`. -/
def unsupportedTermTree : SingleStatementContext :=
  ⟨.statementDefault (.mk .other)⟩

/-- The tree of a query whose primary is no query specification, such as
`table users`. -/
def unsupportedPrimaryTree : SingleStatementContext :=
  ⟨.statementDefault (.mk (.queryTermDefault .other))⟩

/-- The tree of a query whose specification is not the regular one, such as
`from users select id`. -/
def unsupportedSpecificationTree : SingleStatementContext :=
  ⟨.statementDefault (.mk (.queryTermDefault (.queryPrimaryDefault .other)))⟩

/-- The select item of a primary expression the builder has no case for, such as
`case when a then b end`. -/
def unsupportedItem (column : Int) (first : String) : NamedExpressionContext :=
  ⟨tk 1 column first, .predicated (tk 1 column first) (.valueExpressionDefault .other) none,
    none⟩

/-- The tree of `select id, case when a then b end from users`. -/
def unsupportedItemTree : SingleStatementContext :=
  statementOf ⟨[], .federatedQueryExpression [columnSelectItem 7 "id", unsupportedItem 11 "case"]⟩
    (some (.mk [plainTable 1 39 "users"])) none

/-- The tree of `unsupportedItemTree` without its second select item. -/
def supportedItemTree : SingleStatementContext :=
  statementOf selectId (some (.mk [plainTable 1 39 "users"])) none

/-- The tree of `select id from users, range(3)`, whose second from-item is a
relation primary the builder has no case for. -/
def unsupportedRelationTree : SingleStatementContext :=
  statementOf selectId (some (.mk [plainTable 1 15 "users", .mk .other []])) none

/-- The tree of `select id from users where age > 18 and age < 65`. -/
def andWhereTree : SingleStatementContext :=
  statementOf selectId (some (.mk [plainTable 1 15 "users"]))
    (some (.logicalBinary (tk 1 27 "age") (columnFilter 27 "age" ">" 33 "18")
      (columnFilter 40 "age" "<" 46 "65") "and"))

/-- The tree of `select id from users where age > 18 or  age < 65`. -/
def orWhereTree : SingleStatementContext :=
  statementOf selectId (some (.mk [plainTable 1 15 "users"]))
    (some (.logicalBinary (tk 1 27 "age") (columnFilter 27 "age" ">" 33 "18")
      (columnFilter 40 "age" "<" 46 "65") "or"))

/-- The tree of `select id from users where not age > 18`. -/
def notWhereTree : SingleStatementContext :=
  statementOf selectId (some (.mk [plainTable 1 15 "users"]))
    (some (.logicalNot (tk 1 27 "not") (columnFilter 31 "age" ">" 37 "18")))

/-- The tree of `select id from users where age > 18`, written at the columns of
`notWhereTree`. -/
def plainWhereTree : SingleStatementContext :=
  statementOf selectId (some (.mk [plainTable 1 15 "users"]))
    (some (columnFilter 31 "age" ">" 37 "18"))

/-- The tree of `select id from (select id from t1 where a > 1) sq where b > 2`. -/
def nestedFilterTree : SingleStatementContext :=
  statementOf selectId
    (some (.mk
      [.mk (.aliasedQuery (tk 1 15 "(")
        (.mk (.queryTermDefault (.queryPrimaryDefault
          (.regularQuerySpecification (tk 1 16 "select")
            ⟨[], .federatedQueryExpression [columnSelectItem 23 "id"]⟩
            (some (.mk [plainTable 1 31 "t1"]))
            (some (columnFilter 40 "a" ">" 44 "1")) none none))))
        (some ⟨"sq", some "sq"⟩)) []]))
    (some (columnFilter 56 "b" ">" 60 "2"))

/-- The tree of
`select sq.id from (select t1.id from t1, t2 where t1.id = t2.id) sq, t3 where sq.id = t3.id`. -/
def nestedJoinTree : SingleStatementContext :=
  statementOf ⟨[], .federatedQueryExpression [dottedItem 1 7 "sq" "sq.id"]⟩
    (some (.mk
      [.mk (.aliasedQuery (tk 1 18 "(")
        (.mk (.queryTermDefault (.queryPrimaryDefault
          (.regularQuerySpecification (tk 1 19 "select")
            ⟨[], .federatedQueryExpression [dottedItem 1 26 "t1" "t1.id"]⟩
            (some (.mk [plainTable 1 37 "t1", plainTable 1 41 "t2"]))
            (some (dottedEquals 50 "t1" "t1.id" 58 "t2" "t2.id")) none none))))
        (some ⟨"sq", some "sq"⟩)) [],
        plainTable 1 69 "t3"]))
    (some (dottedEquals 78 "sq" "sq.id" 86 "t3" "t3.id"))

/-- The tree of
`select plat1.atest.id from plat1.atest, plat1.btest where plat1.atest.id = plat1.btest.id`. -/
def sameSchemaTree : SingleStatementContext :=
  statementOf ⟨[], .federatedQueryExpression [dottedItem 1 7 "plat1" "plat1.atest.id"]⟩
    (some (.mk [plainTable 1 27 "plat1.atest", plainTable 1 40 "plat1.btest"]))
    (some (dottedEquals 58 "plat1" "plat1.atest.id" 75 "plat1" "plat1.btest.id"))

/-- The from-items `plat1.atest, plat1.btest` of `sameSchemaTree`, as built. -/
def sameSchemaFrom : List SqlNode :=
  [NewSqlIdentifier ["plat1", "atest"] (some ⟨1, 27, 1, 38⟩),
    NewSqlIdentifier ["plat1", "btest"] (some ⟨1, 40, 1, 51⟩)]

/-- The tree of `select u.id from users u, orders o where u.id = o.user_id`. -/
def aliasedJoinTree : SingleStatementContext :=
  statementOf ⟨[], .federatedQueryExpression [dottedItem 1 7 "u" "u.id"]⟩
    (some (.mk [aliasedTable 17 "users" "u", aliasedTable 26 "orders" "o"]))
    (some (dottedEquals 41 "u" "u.id" 48 "o" "o.user_id"))

/-- The tree of `select u.id from users u, orders o`. -/
def aliasedProductTree : SingleStatementContext :=
  statementOf ⟨[], .federatedQueryExpression [dottedItem 1 7 "u" "u.id"]⟩
    (some (.mk [aliasedTable 17 "users" "u", aliasedTable 26 "orders" "o"])) none

/-- The from-items `users u, orders o` of `aliasedJoinTree`, as built. -/
def aliasedFrom : List SqlNode :=
  [(NewSqlCall (some { Name := "AS", Kind := SqlKindAs, Syntax := .SyntaxSpecial })
      [NewSqlIdentifier ["users"] (some ⟨1, 17, 1, 22⟩),
        NewSqlIdentifier ["u"] (some ⟨1, 17, 1, 22⟩)] (some ⟨1, 17, 1, 22⟩)).toNode,
    (NewSqlCall (some { Name := "AS", Kind := SqlKindAs, Syntax := .SyntaxSpecial })
      [NewSqlIdentifier ["orders"] (some ⟨1, 26, 1, 32⟩),
        NewSqlIdentifier ["o"] (some ⟨1, 26, 1, 32⟩)] (some ⟨1, 26, 1, 32⟩)).toNode]

/-- The tree of `select id where age > 18`, a query without FROM clause. -/
def noFromTree : SingleStatementContext :=
  statementOf selectId none (some (columnFilter 16 "age" ">" 22 "18"))

/-- The lists of join predicates and of filter predicates of `v` start with those of
`v0`: nothing collected up to `v0` has been taken out or moved. -/
def KeepsPredicates (v0 v : SqlNodeBuilderVisitor) : Prop :=
  List.IsPrefix v0.joinConditions v.joinConditions ∧
    List.IsPrefix v0.filterConditions v.filterConditions

/-- The first operand of a Call, such as the target of an AS call. -/
def firstOperand : SqlNode → Option SqlNode
  | .call _ _ (first :: _) => some first
  | _ => none

mutual
/-- The node is built of Identifiers, Literals and Calls only: no Select, Join,
BasicCall, node list or hint occurs in it. -/
def isExpressionNode : SqlNode → Bool
  | .identifier _ _ => true
  | .literal _ _ _ _ => true
  | .call _ _ operands => areExpressionNodes operands
  | _ => false
termination_by structural node => node
/-- All nodes of the list are built of Identifiers, Literals and Calls only. -/
def areExpressionNodes : List SqlNode → Bool
  | [] => true
  | node :: rest => isExpressionNode node && areExpressionNodes rest
termination_by structural nodes => nodes
end

/-- A front end that finds no syntax error and gives the tree `tree` for every
text. -/
def frontEndOf (tree : SingleStatementContext) (_ : String) : FrontEndOutcome :=
  ⟨[], tree⟩

/-! ## Example trees of a nested predicate and of a subquery without alias -/

/-- The tree of `select t1.k from t1, t2 where (t1.id = t2.id) = true`. -/
def nestedPredicateTree : SingleStatementContext :=
  statementOf ⟨[], .federatedQueryExpression [dottedItem 1 7 "t1" "t1.k"]⟩
    (some (.mk [plainTable 1 17 "t1", plainTable 1 21 "t2"]))
    (some (.predicated (tk 1 30 "(")
      (.comparison (tk 1 30 "(")
        (.valueExpressionDefault
          (.parenthesizedExpression (dottedEquals 31 "t1" "t1.id" 39 "t2" "t2.id")))
        (.valueExpressionDefault (.constantDefault (.booleanLiteral (tk 1 48 "true") "true")))
        "=")
      none))

/-- The comparison `(t1.id = t2.id) = true` of `nestedPredicateTree`, as built. -/
def nestedPredicateFilter : SqlCall :=
  NewSqlCall (some { Name := "=", Kind := SqlKindEquals, Syntax := .SyntaxBinary })
    [(dottedEqualsCall 31 "t1" ["t1", "id"] 39 "t2" ["t2", "id"]).toNode,
      NewSqlLiteral (.bool true) .LiteralBoolean (some ⟨1, 48, 1, 52⟩)]
    (some ⟨1, 30, 1, 31⟩)

/-- The from clause `from t1, t2, (select id from t3)`, whose subquery has no alias. -/
def unaliasedSubqueryFrom : FromClauseContext :=
  .mk [plainTable 1 14 "t1", plainTable 1 18 "t2",
    .mk (.aliasedQuery (tk 1 22 "(")
      (.mk (.queryTermDefault (.queryPrimaryDefault
        (.regularQuerySpecification (tk 1 23 "select")
          ⟨[], .federatedQueryExpression [columnSelectItem 30 "id"]⟩
          (some (.mk [plainTable 1 38 "t3"])) none none none))))
      noAlias) []]

/-- The tree of `select * from t1, t2, (select id from t3) where t1.id = t2.id`. -/
def unaliasedSubqueryTree : SingleStatementContext :=
  statementOf selectStar (some unaliasedSubqueryFrom)
    (some (dottedEquals 48 "t1" "t1.id" 56 "t2" "t2.id"))

/-- The sub-select `(select id from t3)` of `unaliasedSubqueryTree`, as built. -/
def unaliasedSubquery : SqlNode :=
  .select ⟨SqlKindSelect, some ⟨1, 23, 1, 29⟩⟩ [] []
    [NewSqlIdentifier ["id"] (some ⟨1, 30, 1, 32⟩)]
    (some (NewSqlIdentifier ["t3"] (some ⟨1, 38, 1, 40⟩))) none [] none [] [] none none

/-! ## analyzer.go: the analyzer with its panics and returned errors -/

/-- Lines 80-107 of `VisitCall` with the operations that can panic made explicit: the
dereference of `node.Operator` and the indexings `node.Operands[1]` and
`node.Operands[0]`; `none` stands for a panic (nil dereference, index out of
range). -/
def SQLAnalyzer.visitCallOperatorChecked (a : SQLAnalyzer) (operator : Option SqlOperator)
    (operands : List SqlNode) : Option SQLAnalyzer :=
  if operator.isSome then
    operator.bind fun op =>
      let funcName := toUpper op.Name
      let a1 : SQLAnalyzer :=
        if isAggregateFunction funcName then
          { a with Analysis :=
              { a.Analysis with
                AggregateFunctions := a.Analysis.AggregateFunctions ++ [funcName] } }
        else a
      let a2 : SQLAnalyzer :=
        if isWindowFunction funcName then
          { a1 with Analysis := { a1.Analysis with HasWindowFunction := true } }
        else a1
      if op.Kind = SqlKindAs ∧ 2 ≤ operands.length then
        (operands.get? 1).bind fun second =>
          match second with
          | .identifier _ aliasNames =>
            (operands.get? 0).bind fun first =>
              match first with
              | .identifier _ tableNames =>
                let aliasText := GetSimple aliasNames
                let tableName := joinDot tableNames
                if ¬ containsDot tableName then
                  some { a2 with Analysis :=
                    { a2.Analysis with
                      TableAliases := (aliasText, tableName) :: a2.Analysis.TableAliases } }
                else some a2
              | _ => some a2
          | _ => some a2
      else some a2
  else some a

/-- Lines 184-195 of `VisitBasicCall` with the indexing `identifier.Names[0]` made
explicit; `none` stands for a panic. -/
def SQLAnalyzer.visitBasicCallAliasChecked (a : SQLAnalyzer) (operand : Option SqlNode)
    (aliasText : String) : Option SQLAnalyzer :=
  if aliasText ≠ "" then
    match operand with
    | some (.identifier _ names) =>
      if names.length = 1 then
        (names.get? 0).bind fun first =>
          if ¬ containsDot first then
            (names.get? 0).map fun name =>
              { a with Analysis :=
                  { a.Analysis with
                    TableAliases := (aliasText, name) :: a.Analysis.TableAliases } }
          else
            some { a with Analysis :=
              { a.Analysis with
                ColumnAliases := (aliasText, joinDot names) :: a.Analysis.ColumnAliases } }
      else
        some { a with Analysis :=
          { a.Analysis with
            ColumnAliases := (aliasText, joinDot names) :: a.Analysis.ColumnAliases } }
    | _ => some a
  else some a

/-- Lines 221-230 of `extractTablesFromNode` with the indexing `identifier.Names[0]`
made explicit; `none` stands for a panic. -/
def SQLAnalyzer.extractTableIdentifierChecked (a : SQLAnalyzer) (names : List String) :
    Option SQLAnalyzer :=
  if 0 < names.length then
    (names.get? 0).bind fun first =>
      if first ≠ "*" then
        (names.get? 0).map fun tableName =>
          if ¬ a.tableSet.contains tableName then
            { a with
              tableSet := setAdd a.tableSet tableName
              Analysis := { a.Analysis with Tables := a.Analysis.Tables ++ [tableName] } }
          else a
      else some a
  else some a

/-- The test `call.Operator != nil && call.Operator.Kind == SqlKindAs` with the
dereference of `call.Operator` made explicit; `none` stands for a panic. -/
def isAsOperatorChecked (operator : Option SqlOperator) : Option Bool :=
  if operator.isSome then operator.map fun op => decide (op.Kind = SqlKindAs)
  else some false

mutual
/-- `node.Accept(a)` with its outcome: the error of the pair `(interface{}, error)` the
`Visit...` method returns (the value is nil throughout) and the analyzer after it, or
`none` for a panic. Every `!= nil` test and length test of the source is an `if`
here, and every call on a field, dereference and indexing is an operation that
panics on nil or out of range. What a visit of a child returns is dropped, as in the
source. -/
def SQLAnalyzer.AcceptChecked : SqlNode → SQLAnalyzer → Option (Option String × SQLAnalyzer)
  | .identifier _ names, a => some (none, a.VisitIdentifier names)
  | .literal _ _ _ _, a => some (none, a)
  | .call _ operator operands, a =>
    (a.visitCallOperatorChecked operator operands).bind fun a1 =>
      (SQLAnalyzer.acceptAllChecked operands a1).map fun a2 => (none, a2)
  | .hint _, a => some (none, a)
  | .select _ _ _ selectList from_ where_ groupBy having _ orderBy _ _, a =>
    (SQLAnalyzer.acceptAllChecked selectList a).bind fun a1 =>
    (if from_.isSome then SQLAnalyzer.extractTablesChecked from_ a1 else some a1).bind fun a2 =>
    (if where_.isSome then SQLAnalyzer.acceptFieldChecked where_ a2 else some a2).bind fun a3 =>
    (SQLAnalyzer.acceptAllChecked groupBy a3).bind fun a4 =>
    (if having.isSome then SQLAnalyzer.acceptFieldChecked having a4 else some a4).bind fun a5 =>
    (SQLAnalyzer.acceptAllChecked orderBy a5).map fun a6 => (none, a6)
  | .join _ left right joinType condition _, a =>
    (if left.isSome then SQLAnalyzer.extractTablesChecked left (a.visitJoinType joinType)
      else some (a.visitJoinType joinType)).bind fun a1 =>
    (if right.isSome then SQLAnalyzer.extractTablesChecked right a1 else some a1).bind fun a2 =>
    (if condition.isSome then SQLAnalyzer.acceptFieldChecked condition a2
      else some a2).map fun a3 => (none, a3)
  | .basicCall _ operand aliasText, a =>
    (if operand.isSome then SQLAnalyzer.acceptFieldChecked operand a else some a).bind fun a1 =>
      (a1.visitBasicCallAliasChecked operand aliasText).map fun a2 => (none, a2)
  | .nodeList _ list, a =>
    (SQLAnalyzer.acceptAllChecked list a).map fun a1 => (none, a1)
termination_by structural node => node
/-- The loops `for _, item := range items { item.Accept(a) }`, with their outcome. -/
def SQLAnalyzer.acceptAllChecked : List SqlNode → SQLAnalyzer → Option SQLAnalyzer
  | [], a => some a
  | node :: rest, a =>
    (SQLAnalyzer.AcceptChecked node a).bind fun result =>
      SQLAnalyzer.acceptAllChecked rest result.2
termination_by structural nodes => nodes
/-- The call `field.Accept(a)` on a field of a node: it panics when the field is
nil. -/
def SQLAnalyzer.acceptFieldChecked : Option SqlNode → SQLAnalyzer → Option SQLAnalyzer
  | none, _ => none
  | some node, a => (SQLAnalyzer.AcceptChecked node a).map fun result => result.2
termination_by structural node => node
/-- The call `a.extractTablesFromNode(field)`, which returns at once for a nil
node. -/
def SQLAnalyzer.extractTablesChecked : Option SqlNode → SQLAnalyzer → Option SQLAnalyzer
  | none, a => some a
  | some node, a => SQLAnalyzer.extractTablesFromNodeChecked node a
termination_by structural node => node
/-- `extractTablesFromNode` on a node that is not nil, with its outcome. Where the
source hands a Join, a Select or a call without alias back to `Accept`, the body of
the `Visit...` method is repeated here. -/
def SQLAnalyzer.extractTablesFromNodeChecked : SqlNode → SQLAnalyzer → Option SQLAnalyzer
  | .identifier _ names, a => a.extractTableIdentifierChecked names
  | .join _ left right joinType condition _, a =>
    (if left.isSome then SQLAnalyzer.extractTablesChecked left (a.visitJoinType joinType)
      else some (a.visitJoinType joinType)).bind fun a1 =>
    (if right.isSome then SQLAnalyzer.extractTablesChecked right a1 else some a1).bind fun a2 =>
    (if condition.isSome then SQLAnalyzer.acceptFieldChecked condition a2 else some a2)
  | .call _ operator operands, a =>
    (isAsOperatorChecked operator).bind fun isAs =>
      if isAs then
        if 1 ≤ operands.length then
          match operands with
          | first :: _ =>
            SQLAnalyzer.extractTablesFromNodeChecked first
              (if isSelect first then a.setHasSubquery else a)
          | [] => none
        else some a
      else
        (a.visitCallOperatorChecked operator operands).bind fun a1 =>
          SQLAnalyzer.acceptAllChecked operands a1
  | .select _ _ _ selectList from_ where_ groupBy having _ orderBy _ _, a =>
    (SQLAnalyzer.acceptAllChecked selectList a.setHasSubquery).bind fun a1 =>
    (if from_.isSome then SQLAnalyzer.extractTablesChecked from_ a1 else some a1).bind fun a2 =>
    (if where_.isSome then SQLAnalyzer.acceptFieldChecked where_ a2 else some a2).bind fun a3 =>
    (SQLAnalyzer.acceptAllChecked groupBy a3).bind fun a4 =>
    (if having.isSome then SQLAnalyzer.acceptFieldChecked having a4 else some a4).bind fun a5 =>
    SQLAnalyzer.acceptAllChecked orderBy a5
  | .literal _ _ _ _, a => some a
  | .hint _, a => some a
  | .basicCall _ _ _, a => some a
  | .nodeList _ _, a => some a
termination_by structural node => node
end

/-- `AnalyzeSQL` with its outcome: the record it returns, or `none` for a panic. What
`sqlNode.Accept(analyzer)` returns is dropped. -/
def AnalyzeSQLChecked (sqlNode : Option SqlNode) : Option SQLAnalysis :=
  match sqlNode with
  | none => some emptyAnalysis
  | some node =>
    (SQLAnalyzer.AcceptChecked node newSQLAnalyzer).map fun result => result.2.Analysis

/-- A field of a Select or of a Join as the analysis goes to it: a node it visits, or
a from-position it walks over. -/
inductive AnalysisChild where
  | visited (node : SqlNode)
  | fromPosition (node : SqlNode)

/-- The analyzer after it has gone to a field. -/
def SQLAnalyzer.child (a : SQLAnalyzer) : AnalysisChild → SQLAnalyzer
  | .visited node => SQLAnalyzer.Accept node a
  | .fromPosition node => SQLAnalyzer.extractTablesFromNode node a

/-- The fields of a Select that an analysis reads, as the spec words it: the select
list, from, where, group-by, having and order-by in this order, an absent from, where
or having being skipped. -/
def presentSelectFields (selectList : List SqlNode) (from_ where_ : Option SqlNode)
    (groupBy : List SqlNode) (having : Option SqlNode) (orderBy : List SqlNode) :
    List AnalysisChild :=
  selectList.map .visited ++ from_.toList.map .fromPosition ++ where_.toList.map .visited ++
    groupBy.map .visited ++ having.toList.map .visited ++ orderBy.map .visited

/-- The fields of a Join that an analysis reads, as the spec words it: left, right and
condition in this order, an absent one being skipped. -/
def presentJoinFields (left right condition : Option SqlNode) : List AnalysisChild :=
  left.toList.map .fromPosition ++ right.toList.map .fromPosition ++
    condition.toList.map .visited

/-! # Theorems -/

/-! ## Lemmas on the left spine -/

theorem leftSpine_NewSqlJoin (n : Nat) (t : SqlNode) (right : Option SqlNode)
    (joinType : JoinType) (condition : Option SqlNode) (pos : Option SqlParserPos) :
    leftSpine (n + 1) (NewSqlJoin (some t) right joinType condition pos) =
      (leftSpine n t).map fun r => (r.1, r.2 ++ [⟨right, joinType, condition⟩]) := by
  simp only [NewSqlJoin, leftSpine]
  cases leftSpine n t with
  | none => rfl
  | some r => rfl

theorem leftSpine_foldl_join {α : Type} (level : α → JoinLevel) (pos : Option SqlParserPos)
    (xs : List α) (init : SqlNode) :
    leftSpine xs.length
        (xs.foldl (fun acc x =>
          NewSqlJoin (some acc) (level x).Right (level x).JoinType (level x).Condition pos)
          init) =
      some (init, xs.map level) := by
  induction xs using List.reverseRecOn with
  | nil => rfl
  | append_singleton ys y ih =>
    rw [List.foldl_append, List.length_append]
    simp only [List.foldl_cons, List.foldl_nil, List.length_singleton]
    rw [leftSpine_NewSqlJoin, ih]
    simp

theorem leftSpine_foldl_cartesianJoin (extra : List String) (init : SqlNode) :
    leftSpine extra.length (extra.foldl cartesianJoin init) =
      some (init, extra.map fun k => cartesianLevel (NewSqlIdentifier [k] zeroPos)) :=
  leftSpine_foldl_join (fun k => cartesianLevel (NewSqlIdentifier [k] zeroPos)) zeroPos
    extra init

/-! ## C2: no join predicate -/

/-- C2. For every from-item list F = first :: second :: rest (so |F| > 1) and an empty
join-predicate list, `dealJoinList2Node` returns a tree made of exactly |F| - 1 Join
nodes stacked along the left spine, over the leftmost leaf F[0]; counted bottom-up,
the i-th join has right child F[i], kind INNER and condition `1 = 1`. -/
theorem dealJoinList2Node_no_predicate_chain (v : SqlNodeBuilderVisitor)
    (first second : SqlNode) (rest : List SqlNode) (hJ : v.joinConditions = []) :
    ∃ tree, dealJoinList2Node v (first :: second :: rest) = some tree ∧
      leftSpine ((first :: second :: rest).length - 1) tree =
        some (first, (second :: rest).map cartesianLevel) := by
  refine ⟨(second :: rest).foldl
    (fun result item =>
      NewSqlJoin (some result) (some item) JoinInner (some cartesianCondition) zeroPos)
    first, ?_, ?_⟩
  · simp [dealJoinList2Node, hJ, buildCartesianProduct]
  · exact leftSpine_foldl_join cartesianLevel zeroPos (second :: rest) first

/-- C2 at F = [t1, t2, t3] with an empty join-predicate list. -/
theorem dealJoinList2Node_no_predicate_chain_witness :
    ∃ tree, dealJoinList2Node NewSqlNodeBuilderVisitor
        [NewSqlIdentifier ["t1"] none, NewSqlIdentifier ["t2"] none,
          NewSqlIdentifier ["t3"] none] = some tree ∧
      leftSpine 2 tree =
        some (NewSqlIdentifier ["t1"] none,
          [cartesianLevel (NewSqlIdentifier ["t2"] none),
            cartesianLevel (NewSqlIdentifier ["t3"] none)]) :=
  dealJoinList2Node_no_predicate_chain NewSqlNodeBuilderVisitor
    (NewSqlIdentifier ["t1"] none) (NewSqlIdentifier ["t2"] none)
    [NewSqlIdentifier ["t3"] none] rfl

/-! ## The shape of the tree `appendJoinFromConditions` folds -/

theorem appendJoinStep_skip (v : SqlNodeBuilderVisitor) (s : JoinLoop) (c : SqlCall)
    (h : ¬ 2 ≤ (getConditionTables c).length) : appendJoinStep v s c = s := by
  unfold appendJoinStep
  match hc : getConditionTables c with
  | [] => rfl
  | [_] => rfl
  | _ :: _ :: _ => rw [hc] at h; simp at h

theorem appendJoinStep_some (v : SqlNodeBuilderVisitor) (s : JoinLoop) (c : SqlCall)
    (t : SqlNode) (hs : s.joinBuilder = some t) (l r : String) (rest : List String)
    (hc : getConditionTables c = l :: r :: rest) :
    ∃ connect, IsSideOf v c connect ∧
      (appendJoinStep v s c).joinBuilder =
        some (NewSqlJoin (some t) (some connect) JoinInner (some c.toNode) zeroPos) := by
  refine ⟨if s.usedTables.contains r then tableNode v l else tableNode v r, ?_, ?_⟩
  · refine ⟨l, r, rest, hc, ?_⟩
    split
    · exact Or.inl rfl
    · exact Or.inr rfl
  · unfold appendJoinStep
    rw [hc]
    obtain ⟨jb, used⟩ := s
    simp only at hs
    subst hs
    rfl

theorem appendJoinStep_none (v : SqlNodeBuilderVisitor) (s : JoinLoop) (c : SqlCall)
    (hs : s.joinBuilder = none) (l r : String) (rest : List String)
    (hc : getConditionTables c = l :: r :: rest) :
    ∃ connect, IsSideOf v c connect ∧
      (appendJoinStep v s c).joinBuilder =
        some (NewSqlJoin (some (tableNode v l)) (some connect) JoinInner (some c.toNode)
          zeroPos) := by
  refine ⟨if (l :: s.usedTables).contains r then tableNode v l else tableNode v r, ?_, ?_⟩
  · refine ⟨l, r, rest, hc, ?_⟩
    split
    · exact Or.inl rfl
    · exact Or.inr rfl
  · unfold appendJoinStep
    rw [hc]
    obtain ⟨jb, used⟩ := s
    simp only at hs
    subst hs
    rfl

theorem effectiveConditions_cons_skip (c : SqlCall) (cs : List SqlCall)
    (h : ¬ 2 ≤ (getConditionTables c).length) :
    effectiveConditions (c :: cs) = effectiveConditions cs := by
  simp [effectiveConditions, List.filter_cons, h]

theorem effectiveConditions_cons_keep (c : SqlCall) (cs : List SqlCall)
    (h : 2 ≤ (getConditionTables c).length) :
    effectiveConditions (c :: cs) = c :: effectiveConditions cs := by
  simp [effectiveConditions, List.filter_cons, h]

theorem two_le_length_iff {α : Type} (xs : List α) :
    2 ≤ xs.length ↔ ∃ l r rest, xs = l :: r :: rest := by
  match xs with
  | [] => simp
  | [_] => simp
  | l :: r :: rest => simp

/-- Folding from a state that already holds a tree stacks one join per effective
predicate on top of it. -/
theorem foldl_appendJoinStep_some (v : SqlNodeBuilderVisitor) (cs : List SqlCall) :
    ∀ (s : JoinLoop) (t : SqlNode), s.joinBuilder = some t →
      ∃ connects : List SqlNode,
        connects.length = (effectiveConditions cs).length ∧
        (∀ p ∈ (effectiveConditions cs).zip connects, IsSideOf v p.1 p.2) ∧
        (cs.foldl (appendJoinStep v) s).joinBuilder =
          some (stackJoins t ((effectiveConditions cs).zip connects)) := by
  induction cs with
  | nil =>
    intro s t hs
    exact ⟨[], rfl, by simp [effectiveConditions], by simpa [effectiveConditions, stackJoins]⟩
  | cons c cs ih =>
    intro s t hs
    by_cases h : 2 ≤ (getConditionTables c).length
    · obtain ⟨l, r, rest, hc⟩ := (two_le_length_iff _).1 h
      obtain ⟨connect, hside, hstep⟩ := appendJoinStep_some v s c t hs l r rest hc
      obtain ⟨connects, hlen, hsides, hfold⟩ := ih (appendJoinStep v s c) _ hstep
      refine ⟨connect :: connects, ?_, ?_, ?_⟩
      · simp [effectiveConditions_cons_keep c cs h, hlen]
      · rw [effectiveConditions_cons_keep c cs h, List.zip_cons_cons]
        intro p hp
        rcases List.mem_cons.1 hp with rfl | hp
        · exact hside
        · exact hsides p hp
      · rw [List.foldl_cons, hfold, effectiveConditions_cons_keep c cs h, List.zip_cons_cons]
        rfl
    · rw [List.foldl_cons, appendJoinStep_skip v s c h, effectiveConditions_cons_skip c cs h]
      exact ih s t hs

/-- Folding from the initial state: nothing while predicates are skipped, then the
first effective predicate seeds the tree with its left relation. -/
theorem foldl_appendJoinStep_none (v : SqlNodeBuilderVisitor) (cs : List SqlCall) :
    ∀ (s : JoinLoop), s.joinBuilder = none →
      ∃ connects : List SqlNode,
        connects.length = (effectiveConditions cs).length ∧
        (∀ p ∈ (effectiveConditions cs).zip connects, IsSideOf v p.1 p.2) ∧
        (cs.foldl (appendJoinStep v) s).joinBuilder =
          (effectiveConditions cs).head?.map fun c =>
            stackJoins (tableNode v (seedKey c)) ((effectiveConditions cs).zip connects) := by
  induction cs with
  | nil =>
    intro s hs
    exact ⟨[], rfl, by simp [effectiveConditions], by simpa [effectiveConditions]⟩
  | cons c cs ih =>
    intro s hs
    by_cases h : 2 ≤ (getConditionTables c).length
    · obtain ⟨l, r, rest, hc⟩ := (two_le_length_iff _).1 h
      obtain ⟨connect, hside, hstep⟩ := appendJoinStep_none v s c hs l r rest hc
      obtain ⟨connects, hlen, hsides, hfold⟩ :=
        foldl_appendJoinStep_some v cs (appendJoinStep v s c) _ hstep
      refine ⟨connect :: connects, ?_, ?_, ?_⟩
      · simp [effectiveConditions_cons_keep c cs h, hlen]
      · rw [effectiveConditions_cons_keep c cs h, List.zip_cons_cons]
        intro p hp
        rcases List.mem_cons.1 hp with rfl | hp
        · exact hside
        · exact hsides p hp
      · rw [List.foldl_cons, hfold, effectiveConditions_cons_keep c cs h, List.zip_cons_cons]
        simp [seedKey, hc, stackJoins]
    · rw [List.foldl_cons, appendJoinStep_skip v s c h, effectiveConditions_cons_skip c cs h]
      exact ih s hs

/-- The tree `appendJoinFromConditions` returns: none when every predicate is
skipped, else one join per effective predicate over the first one's left relation. -/
theorem appendJoinFromConditions_shape (v : SqlNodeBuilderVisitor) (J : List SqlCall) :
    ∃ connects : List SqlNode,
      connects.length = (effectiveConditions J).length ∧
      (∀ p ∈ (effectiveConditions J).zip connects, IsSideOf v p.1 p.2) ∧
      appendJoinFromConditions v J =
        (effectiveConditions J).head?.map fun c =>
          stackJoins (tableNode v (seedKey c)) ((effectiveConditions J).zip connects) := by
  obtain ⟨connects, hlen, hsides, hfold⟩ := foldl_appendJoinStep_none v J ⟨none, []⟩ rfl
  refine ⟨connects, hlen, hsides, ?_⟩
  unfold appendJoinFromConditions
  split
  · next h =>
    have : J = [] := List.length_eq_zero.1 h
    subst this
    simp [effectiveConditions]
  · exact hfold

theorem leftSpine_stackJoins (seed : SqlNode) (pairs : List (SqlCall × SqlNode)) :
    leftSpine pairs.length (stackJoins seed pairs) = some (seed, pairs.map predicateLevel) :=
  leftSpine_foldl_join predicateLevel zeroPos pairs seed

/-! ## C5: one join per predicate the fold does not skip -/

theorem forall₂_map_zip {α β γ : Type} (f : α × β → γ) (Q : γ → α → Prop) :
    ∀ (cs : List α) (ns : List β), ns.length = cs.length →
      (∀ p ∈ cs.zip ns, Q (f p) p.1) → List.Forall₂ Q ((cs.zip ns).map f) cs := by
  intro cs
  induction cs with
  | nil => intro ns _ _; simp
  | cons c cs ih =>
    intro ns hlen h
    match ns, hlen with
    | n :: ns, hlen =>
      rw [List.zip_cons_cons, List.map_cons]
      refine List.Forall₂.cons (h (c, n) (by simp)) (ih ns (by simpa using hlen) ?_)
      intro p hp
      exact h p (by simp [hp])

/-- C5 (amended). The fold of `appendJoinFromConditions` creates one INNER Join node
per predicate of J that names two distinct relation keys, in order, stacked on the
growing tree with that predicate as ON-condition and one of the predicate's two
relations as right child, also when both sides are already attached; predicates
naming fewer than two distinct keys are skipped. If no predicate is left the fold
returns no tree; otherwise the tree has exactly as many stacked joins as predicates
were not skipped, over the first one's left relation. -/
theorem appendJoinFromConditions_one_join_per_effective_predicate
    (v : SqlNodeBuilderVisitor) (J : List SqlCall) :
    (effectiveConditions J = [] ∧ appendJoinFromConditions v J = none) ∨
    (∃ c rest tree levels, effectiveConditions J = c :: rest ∧
      appendJoinFromConditions v J = some tree ∧
      leftSpine (c :: rest).length tree = some (tableNode v (seedKey c), levels) ∧
      List.Forall₂
        (fun level p => level.JoinType = JoinInner ∧ level.Condition = some p.toNode ∧
          ∃ n, level.Right = some n ∧ IsSideOf v p n)
        levels (c :: rest)) := by
  obtain ⟨connects, hlen, hsides, hres⟩ := appendJoinFromConditions_shape v J
  match hJ : effectiveConditions J with
  | [] =>
    left
    refine ⟨rfl, ?_⟩
    rw [hres, hJ]
    rfl
  | c :: rest =>
    right
    rw [hJ] at hlen hsides hres
    refine ⟨c, rest, stackJoins (tableNode v (seedKey c)) ((c :: rest).zip connects),
      ((c :: rest).zip connects).map predicateLevel, rfl, hres, ?_, ?_⟩
    · have h := leftSpine_stackJoins (tableNode v (seedKey c)) ((c :: rest).zip connects)
      rw [List.length_zip, hlen, Nat.min_self] at h
      exact h
    · refine forall₂_map_zip predicateLevel _ (c :: rest) connects hlen ?_
      intro p hp
      exact ⟨rfl, rfl, p.2, rfl, hsides p hp⟩

/-- C5, counterexample. For `select t1.k from t1, t2 where t1.a = t1.b` the
join-predicate list is J = [t1.a = t1.b], both qualified identifiers naming the
relation t1, and the fold creates no join at all: it returns no tree, and the
Select's from is the bare identifier t2, with 0 Join nodes for |J| = 1 predicate. -/
theorem same_relation_predicate_is_skipped :
    (VisitSingleStatement sameRelationTree NewSqlNodeBuilderVisitor).2.joinConditions =
      [sameRelationCondition] ∧
    appendJoinFromConditions (stateWithJoins [sameRelationCondition])
      [sameRelationCondition] = none ∧
    builtFrom sameRelationTree = some (NewSqlIdentifier ["t2"] zeroPos) ∧
    (builtFrom sameRelationTree).map joinCount = some 0 := by
  decide!

/-! ## C7: relations named by no predicate -/

theorem mem_joinTables (J : List SqlCall) (t : String) :
    t ∈ joinTables J ↔ ∃ c ∈ J, t ∈ getConditionTables c := by
  have key : ∀ init : List String,
      t ∈ J.foldl (fun acc c => acc ++ getConditionTables c) init ↔
        t ∈ init ∨ ∃ c ∈ J, t ∈ getConditionTables c := by
    induction J with
    | nil => intro init; simp
    | cons x xs ih => intro init; simp [ih, or_assoc]
  simpa [joinTables] using key []

theorem extraTables_eq_unreferencedKeys (F : List SqlNode) (J : List SqlCall) :
    extraTables F J = unreferencedKeys F J := by
  unfold extraTables fromTables unreferencedKeys
  rw [List.filter_filter]
  apply List.filter_congr
  intro k _
  rw [Bool.eq_iff_iff]
  simp [mem_joinTables]
  tauto

theorem not_cartesian_of_effective (c : SqlCall) (h : 2 ≤ (getConditionTables c).length) :
    isCartesianCondition (some c.toNode) = false := by
  cases hc : isCartesianCondition (some c.toNode) with
  | false => rfl
  | true =>
    exfalso
    unfold isCartesianCondition at hc
    split at hc
    · next heq =>
      obtain ⟨base, op, operands⟩ := c
      simp only [SqlCall.toNode, Option.some.injEq, SqlNode.call.injEq] at heq
      obtain ⟨_, _, rfl⟩ := heq
      simp [getConditionTables, conditionOperandTables, uniqueTablesLoop] at h
    · simp at hc

/-- For every F with |F| > 1 and every J holding at least one predicate over two
distinct relation keys: the relation keys of F named by no predicate of J are
appended above the folded tree, one INNER Join with condition `1 = 1` per such key,
in original F order, the key's identifier as right child; no key named by a predicate
is among them, and no join of the folded tree below carries `1 = 1`. -/
theorem dealJoinList2Node_appends_unreferenced (v : SqlNodeBuilderVisitor)
    (F : List SqlNode) (hF : 1 < F.length)
    (hJ : ∃ c ∈ v.joinConditions, 2 ≤ (getConditionTables c).length) :
    ∃ folded tree leaf levels,
      appendJoinFromConditions v v.joinConditions = some folded ∧
      dealJoinList2Node v F = some tree ∧
      leftSpine (unreferencedKeys F v.joinConditions).length tree =
        some (folded, (unreferencedKeys F v.joinConditions).map fun k =>
          cartesianLevel (NewSqlIdentifier [k] zeroPos)) ∧
      (∀ k ∈ unreferencedKeys F v.joinConditions,
        ∀ c ∈ v.joinConditions, k ∉ getConditionTables c) ∧
      leftSpine (effectiveConditions v.joinConditions).length folded = some (leaf, levels) ∧
      ∀ level ∈ levels, isCartesianCondition level.Condition = false := by
  obtain ⟨c₀, hc₀, hc₀2⟩ := hJ
  have hmem : c₀ ∈ effectiveConditions v.joinConditions := by
    simp [effectiveConditions, hc₀, hc₀2]
  obtain ⟨connects, hlen, hsides, hres⟩ := appendJoinFromConditions_shape v v.joinConditions
  match hE : effectiveConditions v.joinConditions with
  | [] => rw [hE] at hmem; simp at hmem
  | c :: rest =>
    rw [hE] at hlen hsides hres
    have hne : ¬ v.joinConditions.length = 0 := by
      intro h0
      rw [List.length_eq_zero.1 h0] at hc₀
      simp at hc₀
    refine ⟨stackJoins (tableNode v (seedKey c)) ((c :: rest).zip connects),
      (unreferencedKeys F v.joinConditions).foldl cartesianJoin
        (stackJoins (tableNode v (seedKey c)) ((c :: rest).zip connects)),
      tableNode v (seedKey c), ((c :: rest).zip connects).map predicateLevel,
      hres, ?_, ?_, ?_, ?_, ?_⟩
    · unfold dealJoinList2Node
      rw [if_neg (by omega), if_neg hne]
      simp only [hres, extraTables_eq_unreferencedKeys]
      rfl
    · exact leftSpine_foldl_cartesianJoin _ _
    · intro k hk
      have := (List.mem_filter.1 hk).2
      simp only [decide_eq_true_eq] at this
      exact this.2
    · have h := leftSpine_stackJoins (tableNode v (seedKey c)) ((c :: rest).zip connects)
      rw [List.length_zip, hlen, Nat.min_self] at h
      exact h
    · intro level hlevel
      obtain ⟨p, hp, rfl⟩ := List.mem_map.1 hlevel
      have hp1 : p.1 ∈ effectiveConditions v.joinConditions := by
        rw [hE]
        exact (List.of_mem_zip hp).1
      have : 2 ≤ (getConditionTables p.1).length := by
        simpa [effectiveConditions] using (List.mem_filter.1 hp1).2
      exact not_cartesian_of_effective p.1 this

/-- At F = [t1, t2, t3] and J = [t1.id = t2.id]: t3 is named by no predicate. -/
theorem dealJoinList2Node_appends_unreferenced_witness :
    ∃ folded tree leaf levels,
      appendJoinFromConditions (stateWithJoins [equalsCall ["t1", "id"] ["t2", "id"]])
        [equalsCall ["t1", "id"] ["t2", "id"]] = some folded ∧
      dealJoinList2Node (stateWithJoins [equalsCall ["t1", "id"] ["t2", "id"]])
        [NewSqlIdentifier ["t1"] none, NewSqlIdentifier ["t2"] none,
          NewSqlIdentifier ["t3"] none] = some tree ∧
      leftSpine
          (unreferencedKeys
            [NewSqlIdentifier ["t1"] none, NewSqlIdentifier ["t2"] none,
              NewSqlIdentifier ["t3"] none]
            [equalsCall ["t1", "id"] ["t2", "id"]]).length tree =
        some (folded,
          (unreferencedKeys
            [NewSqlIdentifier ["t1"] none, NewSqlIdentifier ["t2"] none,
              NewSqlIdentifier ["t3"] none]
            [equalsCall ["t1", "id"] ["t2", "id"]]).map fun k =>
              cartesianLevel (NewSqlIdentifier [k] zeroPos)) ∧
      (∀ k ∈ unreferencedKeys
            [NewSqlIdentifier ["t1"] none, NewSqlIdentifier ["t2"] none,
              NewSqlIdentifier ["t3"] none]
            [equalsCall ["t1", "id"] ["t2", "id"]],
        ∀ c ∈ [equalsCall ["t1", "id"] ["t2", "id"]], k ∉ getConditionTables c) ∧
      leftSpine (effectiveConditions [equalsCall ["t1", "id"] ["t2", "id"]]).length folded =
        some (leaf, levels) ∧
      ∀ level ∈ levels, isCartesianCondition level.Condition = false :=
  dealJoinList2Node_appends_unreferenced
    (stateWithJoins [equalsCall ["t1", "id"] ["t2", "id"]])
    [NewSqlIdentifier ["t1"] none, NewSqlIdentifier ["t2"] none, NewSqlIdentifier ["t3"] none]
    (by decide) ⟨equalsCall ["t1", "id"] ["t2", "id"], List.mem_singleton.2 rfl, by decide⟩

/-- The unreferenced keys of the C7 example are exactly [t3]. -/
theorem unreferencedKeys_example :
    unreferencedKeys
      [NewSqlIdentifier ["t1"] none, NewSqlIdentifier ["t2"] none, NewSqlIdentifier ["t3"] none]
      [equalsCall ["t1", "id"] ["t2", "id"]] = ["t3"] := by
  decide

/-! ## C3: connected equi-join chains -/

theorem getConditionTables_of_JoinsTwoOf (keys : List String) (c : SqlCall)
    (h : JoinsTwoOf keys c) :
    ∃ a b, getConditionTables c = [a, b] ∧ a ≠ b ∧ a ∈ keys ∧ b ∈ keys := by
  obtain ⟨bl, a, acol, arest, br, b, bcol, brest, hops, hab, ha, hb⟩ := h
  refine ⟨a, b, ?_, hab, ha, hb⟩
  have hba : ¬ b = a := fun h => hab h.symm
  simp [getConditionTables, hops, conditionOperandTables, uniqueTablesLoop, hba]

theorem treeJoinConditions_of_not_join (n : SqlNode) (h : isJoin n = false) :
    treeJoinConditions n = [] := by
  cases n <;> first | rfl | simp [isJoin] at h

theorem treeJoinConditions_stackJoins (pairs : List (SqlCall × SqlNode)) :
    ∀ seed : SqlNode, (∀ p ∈ pairs, isJoin p.2 = false) →
      treeJoinConditions (stackJoins seed pairs) =
        treeJoinConditions seed ++ pairs.map fun p => some p.1.toNode := by
  induction pairs with
  | nil => intro seed _; simp [stackJoins]
  | cons p ps ih =>
    intro seed h
    have hp := treeJoinConditions_of_not_join p.2 (h p (by simp))
    have := ih (NewSqlJoin (some seed) (some p.2) JoinInner (some p.1.toNode) zeroPos)
      (fun q hq => h q (by simp [hq]))
    simp only [stackJoins, List.foldl_cons] at this ⊢
    rw [this]
    simp [NewSqlJoin, treeJoinConditions, hp]

theorem lookup_mem {β : Type} (k : String) (x : β) :
    ∀ l : List (String × β), l.lookup k = some x → ∃ k', (k', x) ∈ l := by
  intro l
  induction l with
  | nil => intro h; simp [List.lookup] at h
  | cons kv rest ih =>
    intro h
    obtain ⟨k', x'⟩ := kv
    rw [List.lookup_cons] at h
    split at h
    · exact ⟨k', by simp_all⟩
    · obtain ⟨k'', hk⟩ := ih h
      exact ⟨k'', by simp [hk]⟩

theorem isJoin_tableNode (v : SqlNodeBuilderVisitor)
    (hsub : ∀ p ∈ v.subQueryTables, isJoin p.2 = false) (k : String) :
    isJoin (tableNode v k) = false := by
  unfold tableNode
  split
  · next sq hsq =>
    obtain ⟨k', hk⟩ := lookup_mem k sq v.subQueryTables hsq
    exact hsub _ hk
  · rfl

theorem exists_ne_of_nodup (keys : List String) (hnd : keys.Nodup) (hlen : 2 ≤ keys.length)
    (a : String) : ∃ b ∈ keys, b ≠ a := by
  match keys, hnd, hlen with
  | x :: y :: rest, hnd, _ =>
    have hxy : x ≠ y := by
      intro h
      subst h
      simp at hnd
    by_cases hax : x = a
    · exact ⟨y, by simp, fun h => hxy (hax.trans h.symm)⟩
    · exact ⟨x, by simp, hax⟩

theorem named_of_connects (J : List SqlCall) (keys : List String) (hnd : keys.Nodup)
    (hlen : 2 ≤ keys.length) (hconn : Connects J keys) (a : String) (ha : a ∈ keys) :
    ∃ c ∈ J, a ∈ getConditionTables c := by
  obtain ⟨b, hb, hba⟩ := exists_ne_of_nodup keys hnd hlen a
  rcases Relation.ReflTransGen.cases_head (hconn a ha b hb) with h | ⟨m, ⟨c, hc, hcm⟩, _⟩
  · exact absurd h.symm hba
  · refine ⟨c, hc, ?_⟩
    rcases hcm with h | h <;> simp [h]

/-- C3. For every N >= 2, every list F of N from-items with pairwise distinct relation
keys, and every list J of exactly N-1 predicates, each comparing a qualified column of
one relation of F with a qualified column of a different relation of F (whatever the
comparison operator, `=` included), such that the predicates connect all N relations:
the reconstructed join tree has exactly N-1 Join nodes and none of them carries the
trivially-true condition `1 = 1`. Registered subquery nodes are relation leaves, not
Join nodes. -/
theorem dealJoinList2Node_connected_chain (v : SqlNodeBuilderVisitor) (F : List SqlNode)
    (hN : 2 ≤ F.length) (hkeys : (relationKeys F).Nodup)
    (hJlen : v.joinConditions.length = F.length - 1)
    (hJ : ∀ c ∈ v.joinConditions, JoinsTwoOf (relationKeys F) c)
    (hconn : Connects v.joinConditions (relationKeys F))
    (hsub : SubqueriesAreRelations v) :
    ∃ tree, dealJoinList2Node v F = some tree ∧ joinCount tree = F.length - 1 ∧
      cartesianFallbacks tree = 0 := by
  have heff : effectiveConditions v.joinConditions = v.joinConditions := by
    apply List.filter_eq_self.2
    intro c hc
    obtain ⟨a, b, hab, _⟩ := getConditionTables_of_JoinsTwoOf _ c (hJ c hc)
    simp [hab]
  have hextra : unreferencedKeys F v.joinConditions = [] := by
    apply List.filter_eq_nil_iff.2
    intro k hk
    have hk' : k ∈ relationKeys F := hk
    obtain ⟨c, hc, hkc⟩ := named_of_connects v.joinConditions (relationKeys F) hkeys
      (by simpa [relationKeys] using hN) hconn k hk'
    simp only [decide_eq_true_eq, not_and, not_forall]
    intro _
    exact ⟨c, hc, fun h => h hkc⟩
  obtain ⟨connects, hlen, hsides, hres⟩ := appendJoinFromConditions_shape v v.joinConditions
  rw [heff] at hlen hsides hres
  match hcs : v.joinConditions, hJlen with
  | [], hJlen => simp at hJlen; omega
  | c :: rest, hJlen =>
    rw [hcs] at hlen hsides hres
    have hne : ¬ v.joinConditions.length = 0 := by simp [hcs]
    refine ⟨stackJoins (tableNode v (seedKey c)) ((c :: rest).zip connects), ?_, ?_, ?_⟩
    · unfold dealJoinList2Node
      rw [if_neg (by omega), if_neg hne]
      simp only [extraTables_eq_unreferencedKeys, hextra]
      rw [hcs, hres]
      rfl
    all_goals
      have hpairs : ∀ p ∈ (c :: rest).zip connects, isJoin p.2 = false := by
        intro p hp
        obtain ⟨l, r, _, _, h | h⟩ := hsides p hp <;> rw [h] <;>
          exact isJoin_tableNode v hsub _
      have htree := treeJoinConditions_stackJoins ((c :: rest).zip connects)
        (tableNode v (seedKey c)) hpairs
      rw [treeJoinConditions_of_not_join _ (isJoin_tableNode v hsub _), List.nil_append]
        at htree
    · unfold joinCount
      rw [htree, List.length_map, List.length_zip, hlen, Nat.min_self, ← hJlen]
    · unfold cartesianFallbacks
      rw [htree, List.countP_eq_zero]
      intro x hx
      obtain ⟨p, hp, rfl⟩ := List.mem_map.1 hx
      have hp1 : p.1 ∈ v.joinConditions := by
        rw [hcs]
        exact (List.of_mem_zip hp).1
      obtain ⟨a, b, hab, _⟩ := getConditionTables_of_JoinsTwoOf _ p.1 (hJ p.1 hp1)
      rw [not_cartesian_of_effective p.1 (by simp [hab])]
      simp

/-! ## C1: the implicit-join scenario -/

/-- C1. Building `select t1.k from t1, t2 where t1.id = t2.id` yields a Select whose
from is exactly one INNER Join node with left t1, right t2 and ON-condition
`t1.id = t2.id`, and whose where is absent. -/
theorem implicit_join_scenario :
    ∃ select, buildSqlNode implicitJoinTree = .node select ∧
      selectFrom select =
        some (NewSqlJoin (some (NewSqlIdentifier ["t1"] zeroPos))
          (some (NewSqlIdentifier ["t2"] zeroPos)) JoinInner
          (some implicitJoinCondition.toNode) zeroPos) ∧
      selectWhere select = none ∧
      (selectFrom select).map joinCount = some 1 :=
  ⟨_, rfl, rfl, rfl, rfl⟩

/-! ## C4: comparisons the WHERE clause contributes as join predicates -/

theorem dealJoinList2Node_of_no_joins (v : SqlNodeBuilderVisitor) (first second : SqlNode)
    (rest : List SqlNode) (hJ : v.joinConditions = []) :
    dealJoinList2Node v (first :: second :: rest) =
      some ((second :: rest).foldl
        (fun result item =>
          NewSqlJoin (some result) (some item) JoinInner (some cartesianCondition) zeroPos)
        first) := by
  simp [dealJoinList2Node, hJ, buildCartesianProduct]

theorem selectFrom_finishSelect (pos : Option SqlParserPos) (fromNode whereNode : Option SqlNode)
    (selectClause : SelectClauseContext) (aggregationClause : Option AggregationClauseContext)
    (havingClause : Option BooleanExpressionContext) (v : SqlNodeBuilderVisitor) :
    selectFrom (finishSelect pos fromNode whereNode selectClause aggregationClause
      havingClause v).1 = fromNode := rfl

theorem selectWhere_finishSelect (pos : Option SqlParserPos) (fromNode whereNode : Option SqlNode)
    (selectClause : SelectClauseContext) (aggregationClause : Option AggregationClauseContext)
    (havingClause : Option BooleanExpressionContext) (v : SqlNodeBuilderVisitor) :
    selectWhere (finishSelect pos fromNode whereNode selectClause aggregationClause
      havingClause v).1 = whereNode := rfl

/-- C4, counterexample. For
`select plat1.atest.id from plat1.atest, plat2.btest where plat1.atest.id <> plat2.btest.id`
(two relations, no `=` predicate) the reconstructed tree is one INNER join whose
ON-condition is the `<>` comparison: none of its joins carries `1 = 1`. -/
theorem not_equals_comparison_is_join_predicate :
    ∃ select tree, buildSqlNode notEqualsTree = .node select ∧
      selectFrom select = some tree ∧
      tree = NewSqlJoin (some (NewSqlIdentifier ["plat1"] zeroPos))
        (some (NewSqlIdentifier ["plat2"] zeroPos)) JoinInner
        (some notEqualsCondition.toNode) zeroPos ∧
      joinCount tree = 1 ∧ cartesianFallbacks tree = 0 :=
  ⟨_, _, rfl, rfl, rfl, rfl, rfl⟩

/-- C4 (amended). For every query specification whose FROM clause yields N >= 2
from-items and for which the join-predicate list is empty once the WHERE clause
(if any) has been visited (no comparison between two identifiers was collected,
whatever its operator), the Select's from is a left-deep chain of exactly N-1 INNER
joins over the from-items in order, all carrying `1 = 1`. -/
theorem chain_when_no_join_predicate (start : Option Token)
    (selectClause : SelectClauseContext) (fromCtx : FromClauseContext)
    (whereClause : Option BooleanExpressionContext)
    (aggregationClause : Option AggregationClauseContext)
    (havingClause : Option BooleanExpressionContext) (v v1 : SqlNodeBuilderVisitor)
    (first second : SqlNode) (rest : List SqlNode)
    (hF : VisitFromClause fromCtx { v with currentIdentifiers := [] } =
      (first :: second :: rest, v1))
    (hJ : (visitWhereIfPresent whereClause v1).joinConditions = []) :
    ∃ select tree,
      (VisitRegularQuerySpecification start selectClause (some fromCtx) whereClause
        aggregationClause havingClause v).1 = .node select ∧
      selectFrom select = some tree ∧
      leftSpine ((first :: second :: rest).length - 1) tree =
        some (first, (second :: rest).map cartesianLevel) := by
  refine ⟨(finishSelect (getPosition start)
      (buildFromAndWhere (first :: second :: rest) (visitWhereIfPresent whereClause v1)).1
      (buildFromAndWhere (first :: second :: rest) (visitWhereIfPresent whereClause v1)).2
      selectClause aggregationClause havingClause (visitWhereIfPresent whereClause v1)).1,
    (second :: rest).foldl
      (fun result item =>
        NewSqlJoin (some result) (some item) JoinInner (some cartesianCondition) zeroPos)
      first, ?_, ?_, ?_⟩
  · simp only [VisitRegularQuerySpecification, VisitQueryPrimaryDefault, hF]
  · rw [selectFrom_finishSelect]
    simp only [buildFromAndWhere, List.length_cons]
    rw [if_pos (by omega)]
    exact dealJoinList2Node_of_no_joins _ first second rest hJ
  · exact leftSpine_foldl_join cartesianLevel zeroPos (second :: rest) first

/-- C4 (amended) at `select * from t1, t2 where t1.a > 1`. -/
theorem chain_when_no_join_predicate_witness :
    ∃ select tree,
      (VisitRegularQuerySpecification (tk 1 0 "select") selectStar (some twoTablesFrom)
        (some filterOnlyWhere) none none NewSqlNodeBuilderVisitor).1 = .node select ∧
      selectFrom select = some tree ∧
      leftSpine 1 tree =
        some (NewSqlIdentifier ["t1"] (some ⟨1, 17, 1, 19⟩),
          [cartesianLevel (NewSqlIdentifier ["t2"] (some ⟨1, 21, 1, 23⟩))]) :=
  chain_when_no_join_predicate (tk 1 0 "select") selectStar twoTablesFrom
    (some filterOnlyWhere) none none NewSqlNodeBuilderVisitor _ _ _ _ rfl rfl

/-! ## C10: which list a comparison lands in -/

/-- C10, counterexample. The comparison `id = user_id` between two unqualified
(one-part) identifiers is appended to the join-predicate list, not to the
filter-predicate list. -/
theorem unqualified_comparison_is_join_predicate :
    (VisitComparison (tk 1 0 "id") (columnExpression 1 0 "id")
        (columnExpression 1 5 "user_id") "=" NewSqlNodeBuilderVisitor).2.joinConditions =
      [comparisonCall (some ⟨1, 0, 1, 2⟩) "="
        (NewSqlIdentifier ["id"] (some ⟨1, 0, 1, 2⟩))
        (NewSqlIdentifier ["user_id"] (some ⟨1, 5, 1, 12⟩))] ∧
    (VisitComparison (tk 1 0 "id") (columnExpression 1 0 "id")
        (columnExpression 1 5 "user_id") "=" NewSqlNodeBuilderVisitor).2.filterConditions =
      [] :=
  ⟨rfl, rfl⟩

/-- C10 (amended). For every comparison whose two operands are built (to the nodes
`a` and `b`), `VisitComparison` returns the comparison call and appends it to the
join-predicate list if and only if both operands are Identifier nodes, of any number
of name parts; in every other case (an identifier against a literal, or any other
operand shape) it appends it to the filter-predicate list. The comparison lands in
exactly one of the two lists, the other one is left as the operands' visits left
it. -/
theorem VisitComparison_classification (start : Option Token)
    (left right : ValueExpressionContext) (comparisonOperator : String)
    (v v1 v2 : SqlNodeBuilderVisitor) (a b : SqlNode)
    (hl : visitValueExpressionInternal left v = (some a, v1))
    (hr : visitValueExpressionInternal right v1 = (some b, v2)) :
    (VisitComparison start left right comparisonOperator v).1 =
      some (comparisonCall (getPosition start) comparisonOperator a b).toNode ∧
    ((isIdentifier a = true ∧ isIdentifier b = true) →
      (VisitComparison start left right comparisonOperator v).2.joinConditions =
        v2.joinConditions ++ [comparisonCall (getPosition start) comparisonOperator a b] ∧
      (VisitComparison start left right comparisonOperator v).2.filterConditions =
        v2.filterConditions) ∧
    (¬ (isIdentifier a = true ∧ isIdentifier b = true) →
      (VisitComparison start left right comparisonOperator v).2.filterConditions =
        v2.filterConditions ++ [comparisonCall (getPosition start) comparisonOperator a b] ∧
      (VisitComparison start left right comparisonOperator v).2.joinConditions =
        v2.joinConditions) := by
  have hres : VisitComparison start left right comparisonOperator v =
      ((some (classifyComparison (getPosition start) comparisonOperator a b v2).1.toNode),
        (classifyComparison (getPosition start) comparisonOperator a b v2).2) := by
    simp only [VisitComparison, visitValueExpressionInternal, hl, hr]
  rw [hres]
  unfold classifyComparison comparisonCall
  by_cases ha : isIdentifier a = true <;> by_cases hb : isIdentifier b = true <;>
    by_cases hlit : isLiteral b = true <;> simp [ha, hb, hlit]

/-- C10 (amended) at `t1.id = t2.id` visited by a fresh builder. -/
theorem VisitComparison_classification_witness :
    (VisitComparison (tk 1 30 "t1")
        (.valueExpressionDefault (.dereference (tk 1 30 "t1") "t1.id"))
        (.valueExpressionDefault (.dereference (tk 1 38 "t2") "t2.id")) "="
        NewSqlNodeBuilderVisitor).2.joinConditions = [implicitJoinCondition] :=
  ((VisitComparison_classification (tk 1 30 "t1")
    (.valueExpressionDefault (.dereference (tk 1 30 "t1") "t1.id"))
    (.valueExpressionDefault (.dereference (tk 1 38 "t2") "t2.id")) "="
    NewSqlNodeBuilderVisitor _ _ _ _ rfl rfl).2.1 ⟨rfl, rfl⟩).1

/-! ## C9: folding the filter predicates -/

theorem andSpine_andCall (n : Nat) (t : SqlNode) (c : SqlCall) :
    andSpine (n + 1) (andCall t c) =
      (andSpine n t).map fun r => (r.1, r.2 ++ [c.toNode]) := by
  simp only [andCall, NewSqlCall, SqlCall.toNode, andSpine]
  cases andSpine n t with
  | none => simp
  | some r => simp

theorem andSpine_foldl_andCall (rest : List SqlCall) (first : SqlNode) :
    andSpine rest.length (rest.foldl andCall first) =
      some (first, rest.map SqlCall.toNode) := by
  induction rest using List.reverseRecOn with
  | nil => rfl
  | append_singleton ys y ih =>
    rw [List.foldl_append, List.length_append]
    simp only [List.foldl_cons, List.foldl_nil, List.length_singleton]
    rw [andSpine_andCall, ih]
    simp

theorem dealFilterConditions_cons (v : SqlNodeBuilderVisitor) (first : SqlCall)
    (rest : List SqlCall) (h : v.filterConditions = first :: rest) :
    dealFilterConditions v = some (rest.foldl andCall first.toNode) := by
  unfold dealFilterConditions
  rw [h]
  cases rest with
  | nil => rfl
  | cons second others => rfl

theorem SqlCall.toNode_injective (c d : SqlCall) (h : c.toNode = d.toNode) : c = d := by
  obtain ⟨cb, co, cs⟩ := c
  obtain ⟨db, dop, ds⟩ := d
  simp only [SqlCall.toNode, SqlNode.call.injEq] at h
  obtain ⟨rfl, rfl, rfl⟩ := h
  rfl

/-- C9 (amended). `dealFilterConditions` returns: absent for an empty filter-predicate list;
otherwise, for the filter predicates f1, ..., fn in source order, the left-nested AND
conjunction ((f1 AND f2) AND f3 ...) with n-1 AND nodes, which for n = 1 is the
predicate itself. In a state holding what the builder classifies, no predicate of
the join-predicate list is among the conjuncts. For
`SELECT id, name FROM users WHERE age > 18` the Select's where is present and is the
comparison `age > 18`. -/
theorem dealFilterConditions_conjunction (v : SqlNodeBuilderVisitor)
    (hv : WellClassified v) :
    (v.filterConditions = [] → dealFilterConditions v = none) ∧
    (∀ only, v.filterConditions = [only] → dealFilterConditions v = some only.toNode) ∧
    (∀ first rest, v.filterConditions = first :: rest →
      ∃ w, dealFilterConditions v = some w ∧
        andSpine rest.length w = some (first.toNode, rest.map SqlCall.toNode)) ∧
    (∀ j ∈ v.joinConditions, j.toNode ∉ v.filterConditions.map SqlCall.toNode) ∧
    (∃ select, buildSqlNode simpleSelectTree = .node select ∧
      selectWhere select = some ageFilter.toNode) := by
  refine ⟨?_, ?_, ?_, ?_, ⟨_, rfl, rfl⟩⟩
  · intro h
    unfold dealFilterConditions
    rw [h]
  · intro only h
    rw [dealFilterConditions_cons v only [] h]
    rfl
  · intro first rest h
    exact ⟨_, dealFilterConditions_cons v first rest h, andSpine_foldl_andCall rest _⟩
  · intro j hj hmem
    obtain ⟨f, hf, hfj⟩ := List.mem_map.1 hmem
    have hjf : f = j := SqlCall.toNode_injective f j hfj
    subst hjf
    have h1 := hv.1 f hj
    have h2 := hv.2 f hf
    rw [h1] at h2
    exact Bool.noConfusion h2

theorem wellClassified_classifiedState : WellClassified classifiedState := by
  constructor
  · intro c hc
    simp only [classifiedState, List.mem_singleton] at hc
    subst hc
    rfl
  · intro c hc
    simp only [classifiedState, List.mem_cons, List.mem_singleton, List.not_mem_nil,
      or_false] at hc
    rcases hc with rfl | rfl | rfl <;> rfl

/-- C9 (amended) at a state with one join predicate and three filter predicates. -/
theorem dealFilterConditions_conjunction_witness :
    ∃ w, dealFilterConditions classifiedState = some w ∧
      andSpine 2 w =
        some (ageFilter.toNode,
          [(comparisonCall zeroPos "<" (NewSqlIdentifier ["t1", "a"] zeroPos)
              (NewSqlLiteral (.int 5) .LiteralInteger zeroPos)).toNode,
            (NewSqlCall
              (some { Name := "IS NULL", Kind := SqlKindOther, Syntax := .SyntaxPostfix })
              [NewSqlIdentifier ["t2", "b"] zeroPos] zeroPos).toNode]) :=
  (dealFilterConditions_conjunction classifiedState wellClassified_classifiedState).2.2.1
    _ _ rfl

/-! ## The builder keeps its two predicate lists classified -/

theorem WellClassified.of_lists {v w : SqlNodeBuilderVisitor} (h : WellClassified v)
    (hj : w.joinConditions = v.joinConditions)
    (hf : w.filterConditions = v.filterConditions) : WellClassified w := by
  unfold WellClassified
  rw [hj, hf]
  exact h

theorem wellClassified_new : WellClassified NewSqlNodeBuilderVisitor :=
  ⟨fun _ h => absurd h (List.not_mem_nil _), fun _ h => absurd h (List.not_mem_nil _)⟩

theorem wellClassified_classifyComparison (pos : Option SqlParserPos) (opText : String)
    (a b : SqlNode) (v : SqlNodeBuilderVisitor) (h : WellClassified v) :
    WellClassified (classifyComparison pos opText a b v).2 := by
  unfold classifyComparison
  by_cases hab : (isIdentifier a && isIdentifier b) = true
  · simp only [hab, if_true]
    refine ⟨?_, h.2⟩
    intro c hc
    rcases List.mem_append.1 hc with hc | hc
    · exact h.1 c hc
    · rw [List.mem_singleton.1 hc]
      simpa [isIdentifierComparison, NewSqlCall] using hab
  · have hfilter : WellClassified
        { v with filterConditions := v.filterConditions ++
          [NewSqlCall
            (some { Name := opText, Kind := getOperatorKind opText, Syntax := .SyntaxBinary })
            [a, b] pos] } := by
      refine ⟨h.1, ?_⟩
      intro c hc
      rcases List.mem_append.1 hc with hc | hc
      · exact h.2 c hc
      · rw [List.mem_singleton.1 hc]
        simpa [isIdentifierComparison, NewSqlCall] using hab
    simp only
    split
    · next h1 => exact absurd h1 hab
    · split <;> exact hfilter

theorem wellClassified_applyPredicate (pos : Option SqlParserPos)
    (predicate : PredicateContext) (valueNode : SqlNode) (v : SqlNodeBuilderVisitor)
    (h : WellClassified v) : WellClassified (applyPredicate pos predicate valueNode v).2 := by
  unfold applyPredicate
  have hadd : ∀ c : SqlCall, isIdentifierComparison c = false →
      WellClassified { v with filterConditions := v.filterConditions ++ [c] } := by
    intro c hc
    refine ⟨h.1, ?_⟩
    intro d hd
    rcases List.mem_append.1 hd with hd | hd
    · exact h.2 d hd
    · rw [List.mem_singleton.1 hd]
      exact hc
  simp only
  split
  · exact hadd _ rfl
  · split
    · exact hadd _ rfl
    · exact h

theorem wellClassified_aliasSubquery (pos : Option SqlParserPos) (sqlNode : SqlNode)
    (tableAlias : Option TableAliasContext) (v : SqlNodeBuilderVisitor)
    (h : WellClassified v) :
    WellClassified (aliasSubquery pos sqlNode tableAlias v).2 := by
  unfold aliasSubquery
  split
  · simp only
    split
    · exact h.of_lists rfl rfl
    · exact h
  · exact h

/-! ## Invariants of the builder state -/

mutual
theorem invariant_visitBooleanExpressionInternal {P : SqlNodeBuilderVisitor → Prop}
    (hP : BuilderInvariant P) :
    ∀ (ctx : BooleanExpressionContext) (v : SqlNodeBuilderVisitor), P v →
      P (visitBooleanExpressionInternal ctx v).2
  | .logicalBinary _ left right _, v, h => by
    have h2 := invariant_visitBooleanExpressionInternal hP right _
      (invariant_visitBooleanExpressionInternal hP left v h)
    simp only [visitBooleanExpressionInternal]
    rcases hl : visitBooleanExpressionInternal left v with ⟨lr, v1⟩
    rw [hl] at h2
    rcases hr : visitBooleanExpressionInternal right v1 with ⟨rr, v2⟩
    rw [hr] at h2
    cases lr <;> cases rr <;> exact h2
  | .logicalNot _ operand, v, h => by
    have h1 := invariant_visitBooleanExpressionInternal hP operand v h
    simp only [visitBooleanExpressionInternal]
    rcases ho : visitBooleanExpressionInternal operand v with ⟨r, v1⟩
    rw [ho] at h1
    cases r <;> exact h1
  | .predicated _ valueExpression none, v, h => by
    simp only [visitBooleanExpressionInternal]
    exact invariant_visitValueExpressionInternal hP valueExpression v h
  | .predicated start valueExpression (some predicate), v, h => by
    have h1 := invariant_visitValueExpressionInternal hP valueExpression v h
    simp only [visitBooleanExpressionInternal]
    rcases hv : visitValueExpressionInternal valueExpression v with ⟨r, v1⟩
    rw [hv] at h1
    cases r with
    | none => exact h1
    | some valueNode =>
      exact hP.predicate (getPosition start) predicate valueNode v1 h1
  | .other, v, h => by
    simp only [visitBooleanExpressionInternal]
    exact h
theorem invariant_visitValueExpressionInternal {P : SqlNodeBuilderVisitor → Prop}
    (hP : BuilderInvariant P) :
    ∀ (ctx : ValueExpressionContext) (v : SqlNodeBuilderVisitor), P v →
      P (visitValueExpressionInternal ctx v).2
  | .valueExpressionDefault primaryExpression, v, h => by
    simp only [visitValueExpressionInternal]
    exact invariant_visitPrimaryExpressionInternal hP primaryExpression v h
  | .arithmeticBinary _ left right _, v, h => by
    have h2 := invariant_visitValueExpressionInternal hP right _
      (invariant_visitValueExpressionInternal hP left v h)
    simp only [visitValueExpressionInternal]
    rcases hl : visitValueExpressionInternal left v with ⟨lr, v1⟩
    rw [hl] at h2
    rcases hr : visitValueExpressionInternal right v1 with ⟨rr, v2⟩
    rw [hr] at h2
    cases lr <;> cases rr <;> exact h2
  | .arithmeticUnary _ operand _, v, h => by
    have h1 := invariant_visitValueExpressionInternal hP operand v h
    simp only [visitValueExpressionInternal]
    rcases ho : visitValueExpressionInternal operand v with ⟨r, v1⟩
    rw [ho] at h1
    cases r <;> exact h1
  | .comparison start left right op, v, h => by
    have h2 := invariant_visitValueExpressionInternal hP right _
      (invariant_visitValueExpressionInternal hP left v h)
    simp only [visitValueExpressionInternal]
    rcases hl : visitValueExpressionInternal left v with ⟨lr, v1⟩
    rw [hl] at h2
    rcases hr : visitValueExpressionInternal right v1 with ⟨rr, v2⟩
    rw [hr] at h2
    cases lr with
    | none => cases rr <;> exact h2
    | some a =>
      cases rr with
      | none => exact h2
      | some b => exact hP.classify (getPosition start) op a b v2 h2
  | .other, v, h => by
    simp only [visitValueExpressionInternal]
    exact h
theorem invariant_visitPrimaryExpressionInternal {P : SqlNodeBuilderVisitor → Prop}
    (hP : BuilderInvariant P) :
    ∀ (ctx : PrimaryExpressionContext) (v : SqlNodeBuilderVisitor), P v →
      P (visitPrimaryExpressionInternal ctx v).2
  | .star _ _, v, h => by
    simp only [visitPrimaryExpressionInternal]
    exact h
  | .columnReference _ _, v, h => by
    simp only [visitPrimaryExpressionInternal, VisitColumnReference]
    exact (hP.of_fields h rfl rfl rfl)
  | .dereference _ _, v, h => by
    simp only [visitPrimaryExpressionInternal, VisitDereference]
    split
    · exact (hP.of_fields h rfl rfl rfl)
    · exact h
  | .constantDefault _, v, h => by
    simp only [visitPrimaryExpressionInternal]
    exact h
  | .functionCall _ _ allExpression, v, h => by
    have h1 := invariant_visitFunctionArguments hP allExpression v h
    simp only [visitPrimaryExpressionInternal]
    exact h1
  | .parenthesizedExpression expression, v, h => by
    simp only [visitPrimaryExpressionInternal]
    exact invariant_visitBooleanExpressionInternal hP expression v h
  | .other, v, h => by
    simp only [visitPrimaryExpressionInternal]
    exact h
theorem invariant_visitFunctionArguments {P : SqlNodeBuilderVisitor → Prop}
    (hP : BuilderInvariant P) :
    ∀ (args : List BooleanExpressionContext) (v : SqlNodeBuilderVisitor), P v →
      P (visitFunctionArguments args v).2
  | [], v, h => by
    simp only [visitFunctionArguments]
    exact h
  | arg :: rest, v, h => by
    have h2 := invariant_visitFunctionArguments hP rest _
      (invariant_visitBooleanExpressionInternal hP arg v h)
    simp only [visitFunctionArguments]
    exact h2
end

theorem invariant_VisitNamedExpression {P : SqlNodeBuilderVisitor → Prop}
    (hP : BuilderInvariant P) (ctx : NamedExpressionContext)
    (v : SqlNodeBuilderVisitor) (h : P v) :
    P (VisitNamedExpression ctx v).2 := by
  have h1 := invariant_visitBooleanExpressionInternal hP ctx.expression v h
  simp only [VisitNamedExpression, VisitExpression]
  rcases he : visitBooleanExpressionInternal ctx.expression v with ⟨r, v1⟩
  rw [he] at h1
  cases r with
  | none => exact h1
  | some node =>
    simp only
    split
    · split <;> exact h1
    · exact h1

theorem invariant_VisitFederatedQueryExpression {P : SqlNodeBuilderVisitor → Prop}
    (hP : BuilderInvariant P) :
    ∀ (items : List NamedExpressionContext) (v : SqlNodeBuilderVisitor), P v →
      P (VisitFederatedQueryExpression items v).2
  | [], v, h => by
    simp only [VisitFederatedQueryExpression]
    exact h
  | item :: rest, v, h => by
    have h2 := invariant_VisitFederatedQueryExpression hP rest _
      (invariant_VisitNamedExpression hP item v h)
    simp only [VisitFederatedQueryExpression]
    exact h2

theorem invariant_VisitSelectClause {P : SqlNodeBuilderVisitor → Prop}
    (hP : BuilderInvariant P) (ctx : SelectClauseContext)
    (v : SqlNodeBuilderVisitor) (h : P v) :
    P (VisitSelectClause ctx v).2 := by
  unfold VisitSelectClause
  simp only
  split
  · next items _ => exact invariant_VisitFederatedQueryExpression hP items v h
  · exact h

theorem invariant_VisitAggregationClause {P : SqlNodeBuilderVisitor → Prop}
    (hP : BuilderInvariant P) :
    ∀ (clauses : List GroupByClauseContext) (v : SqlNodeBuilderVisitor), P v →
      P (VisitAggregationClause clauses v).2
  | [], v, h => by
    simp only [VisitAggregationClause]
    exact h
  | clause :: rest, v, h => by
    simp only [VisitAggregationClause]
    split
    · next expr _ =>
      exact invariant_VisitAggregationClause hP rest _
        (invariant_visitBooleanExpressionInternal hP expr v h)
    · exact invariant_VisitAggregationClause hP rest v h

theorem invariant_finishSelect {P : SqlNodeBuilderVisitor → Prop}
    (hP : BuilderInvariant P) (pos : Option SqlParserPos)
    (fromNode whereNode : Option SqlNode) (selectClause : SelectClauseContext)
    (aggregationClause : Option AggregationClauseContext)
    (havingClause : Option BooleanExpressionContext) (v : SqlNodeBuilderVisitor)
    (h : P v) :
    P (finishSelect pos fromNode whereNode selectClause aggregationClause
      havingClause v).2 := by
  have h1 := invariant_VisitSelectClause hP selectClause v h
  unfold finishSelect
  simp only
  cases aggregationClause with
  | none =>
    cases havingClause with
    | none => exact h1
    | some havingCtx => exact invariant_visitBooleanExpressionInternal hP havingCtx _ h1
  | some aggClause =>
    have h2 := invariant_VisitAggregationClause hP aggClause.allGroupByClause _ h1
    cases havingClause with
    | none => exact h2
    | some havingCtx => exact invariant_visitBooleanExpressionInternal hP havingCtx _ h2

theorem invariant_VisitTableName {P : SqlNodeBuilderVisitor → Prop}
    (hP : BuilderInvariant P) (start : Option Token) (tableName : String)
    (tableAlias : Option TableAliasContext) (v : SqlNodeBuilderVisitor)
    (h : P v) :
    P (VisitTableName start tableName tableAlias v).2 := by
  have h1 : P
      (match (splitDot tableName).getLast? with
        | some last => { v with currentAssetKey := last }
        | none => v) := by
    split
    · exact (hP.of_fields h rfl rfl rfl)
    · exact h
  unfold VisitTableName
  simp only
  split
  · split
    · exact (hP.of_fields h1 rfl rfl rfl)
    · exact h1
  · exact (hP.of_fields h1 rfl rfl rfl)

theorem invariant_visitWhereIfPresent {P : SqlNodeBuilderVisitor → Prop}
    (hP : BuilderInvariant P) (whereClause : Option BooleanExpressionContext)
    (v : SqlNodeBuilderVisitor) (h : P v) :
    P (visitWhereIfPresent whereClause v) := by
  unfold visitWhereIfPresent
  split
  · next whereCtx => exact invariant_visitBooleanExpressionInternal hP whereCtx v h
  · exact h

mutual
theorem invariant_VisitQuery {P : SqlNodeBuilderVisitor → Prop}
    (hP : BuilderInvariant P) :
    ∀ (ctx : QueryContext) (v : SqlNodeBuilderVisitor), P v →
      P (VisitQuery ctx v).2
  | .mk (.queryTermDefault queryPrimary), v, h => by
    simp only [VisitQuery]
    exact invariant_VisitQueryTermDefault hP queryPrimary v h
  | .mk .other, v, h => by
    simp only [VisitQuery]
    exact h
theorem invariant_VisitQueryTermDefault {P : SqlNodeBuilderVisitor → Prop}
    (hP : BuilderInvariant P) :
    ∀ (ctx : QueryPrimaryContext) (v : SqlNodeBuilderVisitor), P v →
      P (VisitQueryTermDefault ctx v).2
  | .queryPrimaryDefault querySpecification, v, h => by
    simp only [VisitQueryTermDefault]
    exact invariant_VisitQueryPrimaryDefault hP querySpecification v h
  | .other, v, h => by
    simp only [VisitQueryTermDefault]
    exact h
theorem invariant_VisitQueryPrimaryDefault {P : SqlNodeBuilderVisitor → Prop}
    (hP : BuilderInvariant P) :
    ∀ (ctx : QuerySpecificationContext) (v : SqlNodeBuilderVisitor), P v →
      P (VisitQueryPrimaryDefault ctx v).2
  | .regularQuerySpecification _ _ (some fromCtx) whereClause _ _, v, h => by
    have h1 := invariant_VisitFromClause hP fromCtx { v with currentIdentifiers := [] }
      (hP.of_fields h rfl rfl rfl)
    simp only [VisitQueryPrimaryDefault]
    exact invariant_finishSelect hP _ _ _ _ _ _ _
      (invariant_visitWhereIfPresent hP whereClause _ h1)
  | .regularQuerySpecification _ _ none _ _ _, v, h => by
    simp only [VisitQueryPrimaryDefault]
    exact invariant_finishSelect hP _ _ _ _ _ _ _ (hP.of_fields h rfl rfl rfl)
  | .other, v, h => by
    simp only [VisitQueryPrimaryDefault]
    exact h
theorem invariant_VisitFromClause {P : SqlNodeBuilderVisitor → Prop}
    (hP : BuilderInvariant P) :
    ∀ (ctx : FromClauseContext) (v : SqlNodeBuilderVisitor), P v →
      P (VisitFromClause ctx v).2
  | .mk allRelation, v, h => by
    simp only [VisitFromClause]
    exact invariant_visitRelations hP allRelation v h
theorem invariant_visitRelations {P : SqlNodeBuilderVisitor → Prop}
    (hP : BuilderInvariant P) :
    ∀ (relations : List RelationContext) (v : SqlNodeBuilderVisitor), P v →
      P (visitRelations relations v).2
  | [], v, h => by
    simp only [visitRelations]
    exact h
  | relation :: rest, v, h => by
    have h2 := invariant_visitRelations hP rest _ (invariant_VisitRelation hP relation v h)
    simp only [visitRelations]
    exact h2
theorem invariant_VisitRelation {P : SqlNodeBuilderVisitor → Prop}
    (hP : BuilderInvariant P) :
    ∀ (ctx : RelationContext) (v : SqlNodeBuilderVisitor), P v →
      P (VisitRelation ctx v).2
  | .mk relationPrimary _, v, h => by
    simp only [VisitRelation]
    exact invariant_visitRelationPrimaryInternal hP relationPrimary v h
theorem invariant_visitRelationPrimaryInternal {P : SqlNodeBuilderVisitor → Prop}
    (hP : BuilderInvariant P) :
    ∀ (ctx : RelationPrimaryContext) (v : SqlNodeBuilderVisitor), P v →
      P (visitRelationPrimaryInternal ctx v).2
  | .tableName start multipartIdentifier tableAlias, v, h => by
    simp only [visitRelationPrimaryInternal]
    exact invariant_VisitTableName hP start multipartIdentifier tableAlias v h
  | .aliasedQuery start query tableAlias, v, h => by
    have h1 := invariant_VisitQuery hP query v h
    simp only [visitRelationPrimaryInternal]
    rcases hq : VisitQuery query v with ⟨r, v1⟩
    rw [hq] at h1
    simp only
    split
    · exact h1
    · next sqlNode _ =>
      exact hP.subquery (getPosition start) sqlNode tableAlias v1 h1
  | .aliasedRelation relation, v, h => by
    simp only [visitRelationPrimaryInternal]
    exact invariant_VisitRelation hP relation v h
  | .other, v, h => by
    simp only [visitRelationPrimaryInternal]
    exact h
end

/-- An invariant holds of the state on which a query specification reconstructs its
joins and folds its filters, once FROM and WHERE have been visited. -/
theorem invariant_at_reconstruction {P : SqlNodeBuilderVisitor → Prop}
    (hP : BuilderInvariant P) (fromCtx : FromClauseContext)
    (whereClause : Option BooleanExpressionContext) (v : SqlNodeBuilderVisitor)
    (h : P v) :
    P (visitWhereIfPresent whereClause
        (VisitFromClause fromCtx { v with currentIdentifiers := [] }).2) :=
  invariant_visitWhereIfPresent hP whereClause _
    (invariant_VisitFromClause hP fromCtx _ (hP.of_fields h rfl rfl rfl))

/-- An invariant that holds of the fresh builder holds when the parse is over. -/
theorem invariant_VisitSingleStatement {P : SqlNodeBuilderVisitor → Prop}
    (hP : BuilderInvariant P) (h0 : P NewSqlNodeBuilderVisitor)
    (tree : SingleStatementContext) :
    P (VisitSingleStatement tree NewSqlNodeBuilderVisitor).2 := by
  unfold VisitSingleStatement
  split
  · next query _ => exact invariant_VisitQuery hP query _ h0
  · exact h0

theorem wellClassified_invariant : BuilderInvariant WellClassified :=
  ⟨fun h _ hj hf => h.of_lists hj hf, wellClassified_classifyComparison,
    wellClassified_applyPredicate, wellClassified_aliasSubquery⟩

/-- Whatever tree is built, the state on which `dealFilterConditions` folds the WHERE
predicates of a query specification holds classified predicate lists. -/
theorem wellClassified_at_filter_folding (fromCtx : FromClauseContext)
    (whereClause : Option BooleanExpressionContext) (v : SqlNodeBuilderVisitor)
    (h : WellClassified v) :
    WellClassified
      (visitWhereIfPresent whereClause
        (VisitFromClause fromCtx { v with currentIdentifiers := [] }).2) :=
  invariant_at_reconstruction wellClassified_invariant fromCtx whereClause v h

/-- A parse leaves the builder with classified predicate lists. -/
theorem wellClassified_VisitSingleStatement (tree : SingleStatementContext) :
    WellClassified (VisitSingleStatement tree NewSqlNodeBuilderVisitor).2 :=
  invariant_VisitSingleStatement wellClassified_invariant wellClassified_new tree

theorem subqueriesAreRelations_invariant : BuilderInvariant SubqueriesAreRelations := by
  refine ⟨?_, ?_, ?_, ?_⟩
  · intro v w h hs _ _
    unfold SubqueriesAreRelations
    rw [hs]
    exact h
  · intro pos opText a b v h
    unfold classifyComparison
    simp only
    split
    · exact h
    · split <;> exact h
  · intro pos predicate valueNode v h
    unfold applyPredicate
    simp only
    split
    · exact h
    · split <;> exact h
  · intro pos sqlNode tableAlias v h
    unfold aliasSubquery
    split
    · simp only
      split
      · intro p hp
        rcases List.mem_cons.1 hp with rfl | hp
        · rfl
        · exact h p hp
      · exact h
    · exact h

/-- Whatever tree is built, no subquery node registered when `dealJoinList2Node` runs
is a Join node: the subqueries are AS calls. -/
theorem subqueriesAreRelations_at_reconstruction (fromCtx : FromClauseContext)
    (whereClause : Option BooleanExpressionContext) (v : SqlNodeBuilderVisitor)
    (h : SubqueriesAreRelations v) :
    SubqueriesAreRelations
      (visitWhereIfPresent whereClause
        (VisitFromClause fromCtx { v with currentIdentifiers := [] }).2) :=
  invariant_at_reconstruction subqueriesAreRelations_invariant fromCtx whereClause v h

/-- A parse registers no Join node as a subquery. -/
theorem subqueriesAreRelations_VisitSingleStatement (tree : SingleStatementContext) :
    SubqueriesAreRelations (VisitSingleStatement tree NewSqlNodeBuilderVisitor).2 :=
  invariant_VisitSingleStatement subqueriesAreRelations_invariant
    (fun _ h => absurd h (List.not_mem_nil _)) tree

/-- C3 at F = [t1, t2, (select id from t3) sq] and
J = [t1.id = t2.id, sq.id = t2.id]. -/
theorem dealJoinList2Node_connected_chain_witness :
    ∃ tree, dealJoinList2Node chainState chainFrom = some tree ∧ joinCount tree = 2 ∧
      cartesianFallbacks tree = 0 := by
  have h12 : Linked chainState.joinConditions "t1" "t2" :=
    ⟨equalsCall ["t1", "id"] ["t2", "id"], by simp [chainState], Or.inl rfl⟩
  have h21 : Linked chainState.joinConditions "t2" "t1" :=
    ⟨equalsCall ["t1", "id"] ["t2", "id"], by simp [chainState], Or.inr rfl⟩
  have hs2 : Linked chainState.joinConditions "sq" "t2" :=
    ⟨equalsCall ["sq", "id"] ["t2", "id"], by simp [chainState], Or.inl rfl⟩
  have h2s : Linked chainState.joinConditions "t2" "sq" :=
    ⟨equalsCall ["sq", "id"] ["t2", "id"], by simp [chainState], Or.inr rfl⟩
  have hkeys : relationKeys chainFrom = ["t1", "t2", "sq"] := rfl
  have toHub : ∀ a ∈ relationKeys chainFrom,
      Relation.ReflTransGen (Linked chainState.joinConditions) a "t2" := by
    intro a ha
    rw [hkeys] at ha
    simp only [List.mem_cons, List.mem_singleton, List.not_mem_nil, or_false] at ha
    rcases ha with rfl | rfl | rfl
    · exact Relation.ReflTransGen.single h12
    · exact Relation.ReflTransGen.refl
    · exact Relation.ReflTransGen.single hs2
  have fromHub : ∀ b ∈ relationKeys chainFrom,
      Relation.ReflTransGen (Linked chainState.joinConditions) "t2" b := by
    intro b hb
    rw [hkeys] at hb
    simp only [List.mem_cons, List.mem_singleton, List.not_mem_nil, or_false] at hb
    rcases hb with rfl | rfl | rfl
    · exact Relation.ReflTransGen.single h21
    · exact Relation.ReflTransGen.refl
    · exact Relation.ReflTransGen.single h2s
  refine dealJoinList2Node_connected_chain chainState chainFrom (by decide)
    (by rw [hkeys]; decide) rfl ?_ (fun a ha b hb => (toHub a ha).trans (fromHub b hb)) ?_
  · intro c hc
    simp only [chainState, List.mem_cons, List.mem_singleton, List.not_mem_nil, or_false]
      at hc
    rcases hc with rfl | rfl
    · exact ⟨_, "t1", "id", [], _, "t2", "id", [], rfl, by decide, by rw [hkeys]; decide,
        by rw [hkeys]; decide⟩
    · exact ⟨_, "sq", "id", [], _, "t2", "id", [], rfl, by decide, by rw [hkeys]; decide,
        by rw [hkeys]; decide⟩
  · intro p hp
    simp only [chainState, List.mem_singleton] at hp
    subst hp
    rfl

/-! ## C6: a predicate neither side of which is attached yet -/

/-- C6, the code at
`select t1.k from t1, t2, t3, t4 where t1.a = t2.a and t3.a = t4.a`. Both predicates
compare qualified columns of two distinct relations of F and the second one names
t3, yet the leaves of the reconstructed tree are t1, t2 and t4: the fold attaches t4,
marks t3 as used and never places it. -/
theorem unattached_left_side_is_lost :
    builtFrom twoPairsTree =
      some (NewSqlJoin
        (some (NewSqlJoin (some (NewSqlIdentifier ["t1"] zeroPos))
          (some (NewSqlIdentifier ["t2"] zeroPos)) JoinInner
          (some firstPairCondition.toNode) zeroPos))
        (some (NewSqlIdentifier ["t4"] zeroPos)) JoinInner
        (some secondPairCondition.toNode) zeroPos) ∧
    (builtFrom twoPairsTree).map treeLeaves =
      some [NewSqlIdentifier ["t1"] zeroPos, NewSqlIdentifier ["t2"] zeroPos,
        NewSqlIdentifier ["t4"] zeroPos] ∧
    getConditionTables secondPairCondition = ["t3", "t4"] ∧
    relationKeys fourTables = ["t1", "t2", "t3", "t4"] ∧
    (VisitSingleStatement twoPairsTree NewSqlNodeBuilderVisitor).2.joinConditions =
      [firstPairCondition, secondPairCondition] := by
  decide!

/-! ## C8: registered subqueries among the relations -/

/-- C8, the code at
`select t1.id from t1, t2, (select id from t3) sq where t1.id = t2.id`. The subquery
is registered under `sq` and no predicate names it: it is appended as an "extra"
relation by a `1 = 1` join whose right child is the bare identifier `sq`, not the
registered subquery node. -/
theorem extra_subquery_is_bare_identifier :
    builtFrom unreferencedSubqueryTree =
      some (NewSqlJoin
        (some (NewSqlJoin (some (NewSqlIdentifier ["t1"] zeroPos))
          (some (NewSqlIdentifier ["t2"] zeroPos)) JoinInner
          (some (comparisonCall (some ⟨1, 55, 1, 57⟩) "="
            (NewSqlIdentifier ["t1", "id"] (some ⟨1, 55, 1, 57⟩))
            (NewSqlIdentifier ["t2", "id"] (some ⟨1, 63, 1, 65⟩))).toNode) zeroPos))
        (some (NewSqlIdentifier ["sq"] zeroPos)) JoinInner (some cartesianCondition)
        zeroPos) ∧
    (VisitSingleStatement unreferencedSubqueryTree
      NewSqlNodeBuilderVisitor).2.subQueryTables = [("sq", registeredSubquery)] ∧
    isIdentifier registeredSubquery = false := by
  decide!

/-! ## C11: at most one from-item -/

/-- C11. For every from-item list F with at most one item and every builder state
(hence every join-predicate list J), the relation tree is F[0] itself, or absent when F
is empty: `buildFromAndWhere` and `dealJoinList2Node` both return the head of F, and
that head is the `From` of the finished Select. -/
theorem relation_tree_of_at_most_one_item (F : List SqlNode) (v : SqlNodeBuilderVisitor)
    (h : F.length ≤ 1) :
    (buildFromAndWhere F v).1 = F.head? ∧ dealJoinList2Node v F = F.head? ∧
      ∀ pos selectClause aggregationClause havingClause,
        selectFrom (finishSelect pos (buildFromAndWhere F v).1 (buildFromAndWhere F v).2
          selectClause aggregationClause havingClause v).1 = F.head? := by
  have h1 : (buildFromAndWhere F v).1 = F.head? := by
    match F, h with
    | [], _ => rfl
    | [_], _ => rfl
  refine ⟨h1, ?_, ?_⟩
  · simp [dealJoinList2Node, h]
  · intro pos selectClause aggregationClause havingClause
    rw [selectFrom_finishSelect, h1]

theorem relation_tree_of_at_most_one_item_witness :
    [NewSqlIdentifier ["users"] zeroPos].length ≤ 1 ∧
      (buildFromAndWhere [NewSqlIdentifier ["users"] zeroPos]
        (stateWithJoins [implicitJoinCondition])).1 = some (NewSqlIdentifier ["users"] zeroPos) :=
  ⟨by decide,
    (relation_tree_of_at_most_one_item [NewSqlIdentifier ["users"] zeroPos]
      (stateWithJoins [implicitJoinCondition]) (by decide)).1⟩

/-! ## C12: the analysis of a simple select -/

/-- C12. The AST of `SELECT id, name FROM users WHERE age > 18` has the select list
[id, name], from = Identifier users and where = `age > 18`, and `AnalyzeSQL` of it
returns Tables = [users], Columns = [id, name, age], no join type, no aggregate
function, no alias, and HasSubquery = false. -/
theorem simple_select_analysis :
    (buildSqlNode simpleSelectTree).asNode.map selectSelectList =
        some [NewSqlIdentifier ["id"] (some ⟨1, 7, 1, 9⟩),
          NewSqlIdentifier ["name"] (some ⟨1, 11, 1, 15⟩)] ∧
      builtFrom simpleSelectTree = some (NewSqlIdentifier ["users"] (some ⟨1, 21, 1, 26⟩)) ∧
      builtWhere simpleSelectTree = some ageFilter.toNode ∧
      analysisOf simpleSelectTree =
        some { Tables := ["users"], Columns := ["id", "name", "age"],
               AggregateFunctions := [], JoinTypes := [], HasSubquery := false,
               HasCTE := false, HasWindowFunction := false, TableAliases := [],
               ColumnAliases := [] } := by
  decide!

/-! ## The analysis as a sequence of steps -/

mutual
theorem Accept_eq_steps : ∀ (node : SqlNode) (a : SQLAnalyzer),
    SQLAnalyzer.Accept node a = (visitEvents node).foldl SQLAnalyzer.step a
  | .identifier _ _, a => by
    simp only [SQLAnalyzer.Accept, visitEvents, List.foldl_cons, List.foldl_nil,
      SQLAnalyzer.step]
  | .literal _ _ _ _, a => by
    simp only [SQLAnalyzer.Accept, visitEvents, List.foldl_nil]
  | .call _ operator operands, a => by
    simp only [SQLAnalyzer.Accept, visitEvents, List.foldl_cons, SQLAnalyzer.step]
    rw [acceptAll_eq_steps operands]
  | .hint _, a => by
    simp only [SQLAnalyzer.Accept, visitEvents, List.foldl_nil]
  | .select _ _ _ selectList from_ where_ groupBy having _ orderBy _ _, a => by
    simp only [SQLAnalyzer.Accept, visitEvents, List.foldl_append]
    rw [acceptAll_eq_steps selectList, extractTablesFromOption_eq_steps from_,
      acceptOption_eq_steps where_, acceptAll_eq_steps groupBy,
      acceptOption_eq_steps having, acceptAll_eq_steps orderBy]
  | .join _ left right joinType condition _, a => by
    simp only [SQLAnalyzer.Accept, visitEvents, List.foldl_cons, List.foldl_append,
      SQLAnalyzer.step]
    rw [extractTablesFromOption_eq_steps left, extractTablesFromOption_eq_steps right,
      acceptOption_eq_steps condition]
  | .basicCall _ operand aliasText, a => by
    simp only [SQLAnalyzer.Accept, visitEvents, List.foldl_cons, List.foldl_append,
      List.foldl_nil, SQLAnalyzer.step]
    rw [acceptOption_eq_steps operand]
  | .nodeList _ list, a => by
    simp only [SQLAnalyzer.Accept, visitEvents]
    rw [acceptAll_eq_steps list]
termination_by structural node => node
theorem acceptAll_eq_steps : ∀ (nodes : List SqlNode) (a : SQLAnalyzer),
    SQLAnalyzer.acceptAll nodes a = (visitEventsAll nodes).foldl SQLAnalyzer.step a
  | [], a => by simp only [SQLAnalyzer.acceptAll, visitEventsAll, List.foldl_nil]
  | node :: rest, a => by
    simp only [SQLAnalyzer.acceptAll, visitEventsAll, List.foldl_append]
    rw [Accept_eq_steps node, acceptAll_eq_steps rest]
termination_by structural nodes => nodes
theorem acceptOption_eq_steps : ∀ (node : Option SqlNode) (a : SQLAnalyzer),
    SQLAnalyzer.acceptOption node a = (visitEventsOption node).foldl SQLAnalyzer.step a
  | none, a => by simp only [SQLAnalyzer.acceptOption, visitEventsOption, List.foldl_nil]
  | some node, a => by
    simp only [SQLAnalyzer.acceptOption, visitEventsOption]
    rw [Accept_eq_steps node]
termination_by structural node => node
theorem extractTablesFromNode_eq_steps : ∀ (node : SqlNode) (a : SQLAnalyzer),
    SQLAnalyzer.extractTablesFromNode node a = (fromEvents node).foldl SQLAnalyzer.step a
  | .identifier _ _, a => by
    simp only [SQLAnalyzer.extractTablesFromNode, fromEvents, List.foldl_cons,
      List.foldl_nil, SQLAnalyzer.step]
  | .join _ left right joinType condition _, a => by
    simp only [SQLAnalyzer.extractTablesFromNode, fromEvents, List.foldl_cons,
      List.foldl_append, SQLAnalyzer.step]
    rw [extractTablesFromOption_eq_steps left, extractTablesFromOption_eq_steps right,
      acceptOption_eq_steps condition]
  | .call _ operator [], a => by
    simp only [SQLAnalyzer.extractTablesFromNode, fromEvents, SQLAnalyzer.acceptAll,
      visitEventsAll]
    split <;> simp only [List.foldl_cons, List.foldl_nil, SQLAnalyzer.step]
  | .call _ operator (first :: rest), a => by
    simp only [SQLAnalyzer.extractTablesFromNode, fromEvents]
    split
    · rw [extractTablesFromNode_eq_steps first, List.foldl_append]
      split <;> simp only [List.foldl_cons, List.foldl_nil, SQLAnalyzer.step]
    · simp only [List.foldl_cons, SQLAnalyzer.step]
      rw [acceptAll_eq_steps (first :: rest)]
  | .select _ _ _ selectList from_ where_ groupBy having _ orderBy _ _, a => by
    simp only [SQLAnalyzer.extractTablesFromNode, fromEvents, List.foldl_cons,
      List.foldl_append, SQLAnalyzer.step]
    rw [acceptAll_eq_steps selectList, extractTablesFromOption_eq_steps from_,
      acceptOption_eq_steps where_, acceptAll_eq_steps groupBy,
      acceptOption_eq_steps having, acceptAll_eq_steps orderBy]
  | .literal _ _ _ _, a => by
    simp only [SQLAnalyzer.extractTablesFromNode, fromEvents, List.foldl_nil]
  | .hint _, a => by
    simp only [SQLAnalyzer.extractTablesFromNode, fromEvents, List.foldl_nil]
  | .basicCall _ _ _, a => by
    simp only [SQLAnalyzer.extractTablesFromNode, fromEvents, List.foldl_nil]
  | .nodeList _ _, a => by
    simp only [SQLAnalyzer.extractTablesFromNode, fromEvents, List.foldl_nil]
termination_by structural node => node
theorem extractTablesFromOption_eq_steps : ∀ (node : Option SqlNode) (a : SQLAnalyzer),
    SQLAnalyzer.extractTablesFromOption node a =
      (fromEventsOption node).foldl SQLAnalyzer.step a
  | none, a => by
    simp only [SQLAnalyzer.extractTablesFromOption, fromEventsOption, List.foldl_nil]
  | some node, a => by
    simp only [SQLAnalyzer.extractTablesFromOption, fromEventsOption]
    rw [extractTablesFromNode_eq_steps node]
termination_by structural node => node
end

/-- `AnalyzeSQL` of a present AST is the fresh analyzer after the steps of the visit. -/
theorem AnalyzeSQL_eq_steps (ast : SqlNode) :
    AnalyzeSQL (some ast) = ((visitEvents ast).foldl SQLAnalyzer.step newSQLAnalyzer).Analysis := by
  simp only [AnalyzeSQL, Accept_eq_steps]

/-! ## First occurrences -/

theorem foldl_appendNew (l acc : List String) :
    l.foldl appendNew acc = acc ++ (firstOccurrences l).filter fun y => y ∉ acc := by
  induction l generalizing acc with
  | nil => simp [firstOccurrences]
  | cons x xs ih =>
    rw [List.foldl_cons, ih]
    by_cases hx : x ∈ acc
    · simp only [appendNew, hx, if_true, firstOccurrences, List.filter_cons, decide_not,
        decide_True, Bool.not_true, Bool.false_eq_true, if_false, List.filter_filter]
      congr 1
      apply List.filter_congr
      intro y _
      by_cases hy : y ∈ acc
      · simp [hy]
      · have : y ≠ x := fun h => hy (h ▸ hx)
        simp [hy, this]
    · simp only [appendNew, hx, if_false, firstOccurrences, List.filter_cons, decide_not,
        decide_False, Bool.not_false, if_true, List.filter_filter, List.append_assoc,
        List.singleton_append]
      congr 2
      apply List.filter_congr
      intro y _
      by_cases hy : y ∈ acc <;> by_cases hyx : y = x <;> simp [hy, hyx]

theorem foldl_appendNew_nil (l : List String) : l.foldl appendNew [] = firstOccurrences l := by
  rw [foldl_appendNew]
  simp

theorem mem_firstOccurrences (l : List String) (x : String) :
    x ∈ firstOccurrences l ↔ x ∈ l := by
  induction l with
  | nil => simp [firstOccurrences]
  | cons y ys ih =>
    simp only [firstOccurrences, List.mem_cons, List.mem_filter, ih]
    by_cases h : x = y <;> simp [h]

theorem nodup_firstOccurrences (l : List String) : (firstOccurrences l).Nodup := by
  induction l with
  | nil => simp [firstOccurrences]
  | cons y ys ih =>
    simp only [firstOccurrences, List.nodup_cons, List.mem_filter]
    exact ⟨fun h => by simp at h, ih.filter _⟩

/-! ## What the steps of an analysis write -/

/-- A field of the analyzer that every step updates in a way that depends only on the
field and the step, as long as a property of the analyzer that every step keeps holds,
is the fold of that update over the steps. -/
theorem foldl_step_field {β : Type} (proj : SQLAnalyzer → β) (Inv : SQLAnalyzer → Prop)
    (upd : β → AnalysisEvent → β)
    (hInv : ∀ a e, Inv a → Inv (a.step e))
    (hstep : ∀ a e, Inv a → proj (a.step e) = upd (proj a) e) :
    ∀ (es : List AnalysisEvent) (a : SQLAnalyzer), Inv a →
      proj (es.foldl SQLAnalyzer.step a) = es.foldl upd (proj a) ∧
        Inv (es.foldl SQLAnalyzer.step a)
  | [], _, h => ⟨rfl, h⟩
  | e :: es, a, h => by
    have ih := foldl_step_field proj Inv upd hInv hstep es (a.step e) (hInv a e h)
    simp only [List.foldl_cons]
    rw [ih.1, hstep a e h]
    exact ⟨rfl, ih.2⟩

theorem setsMatchLists_new : SetsMatchLists newSQLAnalyzer := ⟨rfl, rfl⟩

theorem visitCallOperator_lists (a : SQLAnalyzer) (operator : Option SqlOperator)
    (operands : List SqlNode) :
    (a.visitCallOperator operator operands).columnSet = a.columnSet ∧
      (a.visitCallOperator operator operands).tableSet = a.tableSet ∧
      (a.visitCallOperator operator operands).Analysis.Columns = a.Analysis.Columns ∧
      (a.visitCallOperator operator operands).Analysis.Tables = a.Analysis.Tables := by
  unfold SQLAnalyzer.visitCallOperator
  cases operator with
  | none => exact ⟨rfl, rfl, rfl, rfl⟩
  | some op =>
    simp only
    repeat' split
    all_goals exact ⟨rfl, rfl, rfl, rfl⟩

theorem visitBasicCallAlias_lists (a : SQLAnalyzer) (operand : Option SqlNode)
    (aliasText : String) :
    (a.visitBasicCallAlias operand aliasText).columnSet = a.columnSet ∧
      (a.visitBasicCallAlias operand aliasText).tableSet = a.tableSet ∧
      (a.visitBasicCallAlias operand aliasText).Analysis.Columns = a.Analysis.Columns ∧
      (a.visitBasicCallAlias operand aliasText).Analysis.Tables = a.Analysis.Tables ∧
      (a.visitBasicCallAlias operand aliasText).Analysis.AggregateFunctions =
        a.Analysis.AggregateFunctions := by
  unfold SQLAnalyzer.visitBasicCallAlias
  repeat' split
  all_goals exact ⟨rfl, rfl, rfl, rfl, rfl⟩

theorem step_setsMatchLists (a : SQLAnalyzer) (e : AnalysisEvent) (h : SetsMatchLists a) :
    SetsMatchLists (a.step e) := by
  obtain ⟨hc, ht⟩ := h
  cases e with
  | identifier names =>
    simp only [SQLAnalyzer.step, SQLAnalyzer.VisitIdentifier, SetsMatchLists]
    repeat' split
    all_goals first
      | exact ⟨hc, ht⟩
      | (refine ⟨?_, ht⟩
         simp_all [setAdd])
  | call operator operands =>
    obtain ⟨h1, h2, h3, h4⟩ := visitCallOperator_lists a operator operands
    simp only [SQLAnalyzer.step, SetsMatchLists, h1, h2, h3, h4]
    exact ⟨hc, ht⟩
  | join joinType => exact ⟨hc, ht⟩
  | basicCall operand aliasText =>
    obtain ⟨h1, h2, h3, h4, _⟩ := visitBasicCallAlias_lists a operand aliasText
    simp only [SQLAnalyzer.step, SetsMatchLists, h1, h2, h3, h4]
    exact ⟨hc, ht⟩
  | table names =>
    simp only [SQLAnalyzer.step, SQLAnalyzer.extractTableIdentifier, SetsMatchLists]
    repeat' split
    all_goals first
      | exact ⟨hc, ht⟩
      | (refine ⟨hc, ?_⟩
         simp_all [setAdd])
  | subquery => exact ⟨hc, ht⟩

theorem step_aggregateFunctions (a : SQLAnalyzer) (e : AnalysisEvent) :
    (a.step e).Analysis.AggregateFunctions =
      a.Analysis.AggregateFunctions ++ e.callName.toList.filter isAggregateFunction := by
  cases e with
  | identifier names =>
    simp only [SQLAnalyzer.step, SQLAnalyzer.VisitIdentifier, AnalysisEvent.callName,
      Option.toList, List.filter_nil, List.append_nil]
    repeat' split
    all_goals rfl
  | call operator operands =>
    cases operator with
    | none =>
      simp [SQLAnalyzer.step, SQLAnalyzer.visitCallOperator, AnalysisEvent.callName]
    | some op =>
      simp only [SQLAnalyzer.step, SQLAnalyzer.visitCallOperator, AnalysisEvent.callName,
        Option.toList, List.filter_cons, List.filter_nil]
      by_cases hagg : isAggregateFunction (toUpper op.Name) = true
      · simp only [hagg, if_true]
        repeat' split
        all_goals rfl
      · simp only [hagg, if_false, Bool.false_eq_true, List.append_nil]
        repeat' split
        all_goals rfl
  | join joinType => simp [SQLAnalyzer.step, SQLAnalyzer.visitJoinType, AnalysisEvent.callName]
  | basicCall operand aliasText =>
    obtain ⟨_, _, _, _, h5⟩ := visitBasicCallAlias_lists a operand aliasText
    simp [SQLAnalyzer.step, AnalysisEvent.callName, h5]
  | table names =>
    simp only [SQLAnalyzer.step, SQLAnalyzer.extractTableIdentifier, AnalysisEvent.callName,
      Option.toList, List.filter_nil, List.append_nil]
    repeat' split
    all_goals rfl
  | subquery => simp [SQLAnalyzer.step, SQLAnalyzer.setHasSubquery, AnalysisEvent.callName]

theorem step_columns (a : SQLAnalyzer) (e : AnalysisEvent) (h : SetsMatchLists a) :
    (a.step e).Analysis.Columns =
      (e.identifierName.toList.filter fun name => name ≠ "*").foldl appendNew
        a.Analysis.Columns := by
  obtain ⟨hc, _⟩ := h
  cases e with
  | identifier names =>
    cases names with
    | nil => simp [SQLAnalyzer.step, SQLAnalyzer.VisitIdentifier, AnalysisEvent.identifierName]
    | cons name names =>
      simp only [SQLAnalyzer.step, SQLAnalyzer.VisitIdentifier, AnalysisEvent.identifierName,
        Option.toList, List.filter_cons, List.filter_nil, List.length_cons,
        Nat.zero_lt_succ, if_true, hc]
      by_cases hstar : joinDot (name :: names) = "*"
      · simp [hstar]
      · by_cases hmem : joinDot (name :: names) ∈ a.Analysis.Columns
        · simp [hstar, hmem, appendNew]
        · simp [hstar, hmem, appendNew]
  | call operator operands =>
    obtain ⟨_, _, h3, _⟩ := visitCallOperator_lists a operator operands
    simp [SQLAnalyzer.step, AnalysisEvent.identifierName, h3]
  | join joinType =>
    simp [SQLAnalyzer.step, SQLAnalyzer.visitJoinType, AnalysisEvent.identifierName]
  | basicCall operand aliasText =>
    obtain ⟨_, _, h3, _, _⟩ := visitBasicCallAlias_lists a operand aliasText
    simp [SQLAnalyzer.step, AnalysisEvent.identifierName, h3]
  | table names =>
    simp only [SQLAnalyzer.step, SQLAnalyzer.extractTableIdentifier,
      AnalysisEvent.identifierName, Option.toList, List.filter_nil, List.foldl_nil]
    repeat' split
    all_goals rfl
  | subquery =>
    simp [SQLAnalyzer.step, SQLAnalyzer.setHasSubquery, AnalysisEvent.identifierName]

theorem step_tables (a : SQLAnalyzer) (e : AnalysisEvent) (h : SetsMatchLists a) :
    (a.step e).Analysis.Tables = e.tableName.toList.foldl appendNew a.Analysis.Tables := by
  obtain ⟨_, ht⟩ := h
  cases e with
  | identifier names =>
    simp only [SQLAnalyzer.step, SQLAnalyzer.VisitIdentifier, AnalysisEvent.tableName,
      Option.toList, List.foldl_nil]
    repeat' split
    all_goals rfl
  | call operator operands =>
    obtain ⟨_, _, _, h4⟩ := visitCallOperator_lists a operator operands
    simp [SQLAnalyzer.step, AnalysisEvent.tableName, h4]
  | join joinType =>
    simp [SQLAnalyzer.step, SQLAnalyzer.visitJoinType, AnalysisEvent.tableName]
  | basicCall operand aliasText =>
    obtain ⟨_, _, _, h4, _⟩ := visitBasicCallAlias_lists a operand aliasText
    simp [SQLAnalyzer.step, AnalysisEvent.tableName, h4]
  | table names =>
    cases names with
    | nil => simp [SQLAnalyzer.step, SQLAnalyzer.extractTableIdentifier, AnalysisEvent.tableName]
    | cons tableName names =>
      simp only [SQLAnalyzer.step, SQLAnalyzer.extractTableIdentifier,
        AnalysisEvent.tableName, ht]
      by_cases hstar : tableName = "*"
      · simp [hstar]
      · by_cases hmem : tableName ∈ a.Analysis.Tables
        · simp [hstar, hmem, appendNew]
        · simp [hstar, hmem, appendNew]
  | subquery =>
    simp [SQLAnalyzer.step, SQLAnalyzer.setHasSubquery, AnalysisEvent.tableName]

theorem foldl_append_toList_filter {α β : Type} (f : α → Option β) (p : β → Bool)
    (es : List α) (acc : List β) :
    es.foldl (fun acc e => acc ++ (f e).toList.filter p) acc =
      acc ++ (es.filterMap f).filter p := by
  induction es generalizing acc with
  | nil => simp
  | cons e es ih =>
    rw [List.foldl_cons, ih, List.filterMap_cons]
    cases f e with
    | none => simp
    | some b => simp [← List.filter_append]

theorem foldl_foldl_toList_filter {α β γ : Type} (f : α → Option β) (p : β → Bool)
    (g : γ → β → γ) (es : List α) (acc : γ) :
    es.foldl (fun acc e => ((f e).toList.filter p).foldl g acc) acc =
      ((es.filterMap f).filter p).foldl g acc := by
  induction es generalizing acc with
  | nil => simp
  | cons e es ih =>
    rw [List.foldl_cons, ih, List.filterMap_cons]
    cases hfe : f e with
    | none => simp
    | some b =>
      by_cases hp : p b = true <;> simp [hp]

theorem foldl_foldl_toList {α β γ : Type} (f : α → Option β) (g : γ → β → γ) (es : List α)
    (acc : γ) :
    es.foldl (fun acc e => (f e).toList.foldl g acc) acc = (es.filterMap f).foldl g acc := by
  induction es generalizing acc with
  | nil => simp
  | cons e es ih =>
    rw [List.foldl_cons, ih, List.filterMap_cons]
    cases hfe : f e <;> simp

/-- The aggregate-function list after the steps of a visit. -/
theorem aggregateFunctions_foldl_step (es : List AnalysisEvent) (a : SQLAnalyzer) :
    (es.foldl SQLAnalyzer.step a).Analysis.AggregateFunctions =
      a.Analysis.AggregateFunctions ++
        (es.filterMap AnalysisEvent.callName).filter isAggregateFunction := by
  have h := (foldl_step_field (fun a => a.Analysis.AggregateFunctions) (fun _ => True)
    (fun acc e => acc ++ e.callName.toList.filter isAggregateFunction)
    (fun _ _ _ => trivial) (fun a e _ => step_aggregateFunctions a e) es a trivial).1
  rw [h, foldl_append_toList_filter]

/-- The column list after the steps of a visit. -/
theorem columns_foldl_step (es : List AnalysisEvent) (a : SQLAnalyzer)
    (ha : SetsMatchLists a) :
    (es.foldl SQLAnalyzer.step a).Analysis.Columns =
      ((es.filterMap AnalysisEvent.identifierName).filter fun name => name ≠ "*").foldl
        appendNew a.Analysis.Columns := by
  have h := (foldl_step_field (fun a => a.Analysis.Columns) SetsMatchLists
    (fun acc e => (e.identifierName.toList.filter fun name => name ≠ "*").foldl appendNew acc)
    step_setsMatchLists step_columns es a ha).1
  rw [h, foldl_foldl_toList_filter]

/-- The table list after the steps of a visit. -/
theorem tables_foldl_step (es : List AnalysisEvent) (a : SQLAnalyzer)
    (ha : SetsMatchLists a) :
    (es.foldl SQLAnalyzer.step a).Analysis.Tables =
      (es.filterMap AnalysisEvent.tableName).foldl appendNew a.Analysis.Tables := by
  have h := (foldl_step_field (fun a => a.Analysis.Tables) SetsMatchLists
    (fun acc e => e.tableName.toList.foldl appendNew acc)
    step_setsMatchLists step_tables es a ha).1
  rw [h, foldl_foldl_toList]

/-! ## The steps of an analysis read nodes of the AST -/

theorem filterMap_cons_sublist {α β γ : Type} (f : α → Option γ) (g : β → Option γ) (e : α)
    (n : β) (es : List α) (ns : List β) (h : f e = none ∨ f e = g n)
    (hs : List.Sublist (es.filterMap f) (ns.filterMap g)) :
    List.Sublist ((e :: es).filterMap f) ((n :: ns).filterMap g) := by
  rw [List.filterMap_cons, List.filterMap_cons]
  rcases h with h | h
  · rw [h]
    cases g n with
    | none => exact hs
    | some b => exact hs.cons b
  · rw [h]
    cases g n with
    | none => exact hs
    | some b => exact hs.cons₂ b

theorem filterMap_none_cons_sublist {α γ : Type} (f : α → Option γ) (e : α) (es : List α)
    (l : List γ) (h : f e = none) (hs : List.Sublist (es.filterMap f) l) :
    List.Sublist ((e :: es).filterMap f) l := by
  rw [List.filterMap_cons, h]
  exact hs

theorem sublist_filterMap_cons {β γ : Type} (g : β → Option γ) (n : β) (l : List γ)
    (ns : List β) (hs : List.Sublist l (ns.filterMap g)) :
    List.Sublist l ((n :: ns).filterMap g) := by
  rw [List.filterMap_cons]
  cases g n with
  | none => exact hs
  | some b => exact hs.cons b

theorem select_fields_sublist {γ : Type}
    (selectList from_ where_ groupBy having orderBy : List γ)
    (hints selectList' from' where' groupBy' having' windowDecls orderBy' offset
      fetch : List γ)
    (h1 : List.Sublist selectList selectList') (h2 : List.Sublist from_ from')
    (h3 : List.Sublist where_ where') (h4 : List.Sublist groupBy groupBy')
    (h5 : List.Sublist having having') (h6 : List.Sublist orderBy orderBy') :
    List.Sublist (selectList ++ from_ ++ where_ ++ groupBy ++ having ++ orderBy)
      (hints ++ selectList' ++ from' ++ where' ++ groupBy' ++ having' ++ windowDecls ++
        orderBy' ++ offset ++ fetch) := by
  simp only [List.append_assoc]
  exact List.sublist_append_of_sublist_right
    (h1.append (h2.append (h3.append (h4.append (h5.append
      (List.sublist_append_of_sublist_right
        (List.sublist_append_of_sublist_left h6)))))))

theorem join_fields_sublist {γ : Type} (left right condition : List γ)
    (left' right' condition' using_ : List γ)
    (h1 : List.Sublist left left') (h2 : List.Sublist right right')
    (h3 : List.Sublist condition condition') :
    List.Sublist (left ++ right ++ condition) (left' ++ right' ++ condition' ++ using_) := by
  simp only [List.append_assoc]
  exact h1.append (h2.append (List.sublist_append_of_sublist_left h3))

mutual
theorem visitEvents_sublist {β : Type} (f : AnalysisEvent → Option β) (g : SqlNode → Option β)
    (h : ReadsNodes f g) :
    ∀ node : SqlNode,
      List.Sublist ((visitEvents node).filterMap f) ((allNodes node).filterMap g)
  | .identifier base names => by
    simp only [visitEvents, allNodes]
    exact filterMap_cons_sublist f g _ _ [] [] (h.identifier base names) (List.Sublist.refl _)
  | .literal _ _ _ _ => by
    simp only [visitEvents, List.filterMap_nil]
    exact List.nil_sublist _
  | .call base operator operands => by
    simp only [visitEvents, allNodes]
    exact filterMap_cons_sublist f g _ _ _ _ (h.call base operator operands)
      (visitEventsAll_sublist f g h operands)
  | .hint _ => by
    simp only [visitEvents, List.filterMap_nil]
    exact List.nil_sublist _
  | .select _ _ _ selectList from_ where_ groupBy having _ orderBy _ _ => by
    simp only [visitEvents, allNodes]
    apply sublist_filterMap_cons
    simp only [List.filterMap_append]
    exact select_fields_sublist _ _ _ _ _ _ _ _ _ _ _ _ _ _ _ _
      (visitEventsAll_sublist f g h selectList) (fromEventsOption_sublist f g h from_)
      (visitEventsOption_sublist f g h where_) (visitEventsAll_sublist f g h groupBy)
      (visitEventsOption_sublist f g h having) (visitEventsAll_sublist f g h orderBy)
  | .join _ left right joinType condition _ => by
    simp only [visitEvents, allNodes]
    apply filterMap_none_cons_sublist f _ _ _ (h.join joinType)
    apply sublist_filterMap_cons
    simp only [List.filterMap_append]
    exact join_fields_sublist _ _ _ _ _ _ _ (fromEventsOption_sublist f g h left)
      (fromEventsOption_sublist f g h right) (visitEventsOption_sublist f g h condition)
  | .basicCall _ operand aliasText => by
    simp only [visitEvents, allNodes]
    apply sublist_filterMap_cons
    simp only [List.filterMap_append, List.filterMap_cons, h.basicCall, List.filterMap_nil,
      List.append_nil]
    exact visitEventsOption_sublist f g h operand
  | .nodeList _ list => by
    simp only [visitEvents, allNodes]
    apply sublist_filterMap_cons
    exact visitEventsAll_sublist f g h list
termination_by structural node => node
theorem visitEventsAll_sublist {β : Type} (f : AnalysisEvent → Option β)
    (g : SqlNode → Option β) (h : ReadsNodes f g) :
    ∀ nodes : List SqlNode,
      List.Sublist ((visitEventsAll nodes).filterMap f) ((allNodesList nodes).filterMap g)
  | [] => by
    simp only [visitEventsAll, List.filterMap_nil]
    exact List.nil_sublist _
  | node :: rest => by
    simp only [visitEventsAll, allNodesList, List.filterMap_append]
    exact (visitEvents_sublist f g h node).append (visitEventsAll_sublist f g h rest)
termination_by structural nodes => nodes
theorem visitEventsOption_sublist {β : Type} (f : AnalysisEvent → Option β)
    (g : SqlNode → Option β) (h : ReadsNodes f g) :
    ∀ node : Option SqlNode,
      List.Sublist ((visitEventsOption node).filterMap f) ((allNodesOption node).filterMap g)
  | none => by
    simp only [visitEventsOption, List.filterMap_nil]
    exact List.nil_sublist _
  | some node => by
    simp only [visitEventsOption, allNodesOption]
    exact visitEvents_sublist f g h node
termination_by structural node => node
theorem fromEvents_sublist {β : Type} (f : AnalysisEvent → Option β) (g : SqlNode → Option β)
    (h : ReadsNodes f g) :
    ∀ node : SqlNode,
      List.Sublist ((fromEvents node).filterMap f) ((allNodes node).filterMap g)
  | .identifier base names => by
    simp only [fromEvents, allNodes]
    exact filterMap_cons_sublist f g _ _ [] [] (h.table base names) (List.Sublist.refl _)
  | .join _ left right joinType condition _ => by
    simp only [fromEvents, allNodes]
    apply filterMap_none_cons_sublist f _ _ _ (h.join joinType)
    apply sublist_filterMap_cons
    simp only [List.filterMap_append]
    exact join_fields_sublist _ _ _ _ _ _ _ (fromEventsOption_sublist f g h left)
      (fromEventsOption_sublist f g h right) (visitEventsOption_sublist f g h condition)
  | .call base operator [] => by
    simp only [fromEvents, allNodes]
    split
    · simp only [List.filterMap_nil]
      exact List.nil_sublist _
    · exact filterMap_cons_sublist f g _ _ _ _ (h.call base operator [])
        (visitEventsAll_sublist f g h [])
  | .call base operator (first :: rest) => by
    simp only [fromEvents, allNodes]
    split
    · apply sublist_filterMap_cons
      simp only [allNodesList, List.filterMap_append]
      have hflag : (if isSelect first = true then [AnalysisEvent.subquery] else []).filterMap f
          = [] := by
        split
        · simp only [List.filterMap_cons, h.subquery, List.filterMap_nil]
        · rfl
      rw [hflag, List.nil_append]
      exact List.sublist_append_of_sublist_left (fromEvents_sublist f g h first)
    · exact filterMap_cons_sublist f g _ _ _ _ (h.call base operator (first :: rest))
        (visitEventsAll_sublist f g h (first :: rest))
  | .select _ _ _ selectList from_ where_ groupBy having _ orderBy _ _ => by
    simp only [fromEvents, allNodes]
    apply filterMap_none_cons_sublist f _ _ _ h.subquery
    apply sublist_filterMap_cons
    simp only [List.filterMap_append]
    exact select_fields_sublist _ _ _ _ _ _ _ _ _ _ _ _ _ _ _ _
      (visitEventsAll_sublist f g h selectList) (fromEventsOption_sublist f g h from_)
      (visitEventsOption_sublist f g h where_) (visitEventsAll_sublist f g h groupBy)
      (visitEventsOption_sublist f g h having) (visitEventsAll_sublist f g h orderBy)
  | .literal _ _ _ _ => by
    simp only [fromEvents, List.filterMap_nil]
    exact List.nil_sublist _
  | .hint _ => by
    simp only [fromEvents, List.filterMap_nil]
    exact List.nil_sublist _
  | .basicCall _ _ _ => by
    simp only [fromEvents, List.filterMap_nil]
    exact List.nil_sublist _
  | .nodeList _ _ => by
    simp only [fromEvents, List.filterMap_nil]
    exact List.nil_sublist _
termination_by structural node => node
theorem fromEventsOption_sublist {β : Type} (f : AnalysisEvent → Option β)
    (g : SqlNode → Option β) (h : ReadsNodes f g) :
    ∀ node : Option SqlNode,
      List.Sublist ((fromEventsOption node).filterMap f) ((allNodesOption node).filterMap g)
  | none => by
    simp only [fromEventsOption, List.filterMap_nil]
    exact List.nil_sublist _
  | some node => by
    simp only [fromEventsOption, allNodesOption]
    exact fromEvents_sublist f g h node
termination_by structural node => node
end

theorem callName_readsNodes : ReadsNodes AnalysisEvent.callName nodeCallName where
  identifier := fun _ _ => Or.inl rfl
  table := fun _ _ => Or.inl rfl
  call := fun _ operator _ => by
    cases operator with
    | none => exact Or.inl rfl
    | some op => exact Or.inr rfl
  join := fun _ => rfl
  basicCall := fun _ _ => rfl
  subquery := rfl

theorem identifierName_readsNodes :
    ReadsNodes AnalysisEvent.identifierName nodeIdentifierName where
  identifier := fun _ names => by
    cases names with
    | nil => exact Or.inl rfl
    | cons name names => exact Or.inr rfl
  table := fun _ _ => Or.inl rfl
  call := fun _ _ _ => Or.inl rfl
  join := fun _ => rfl
  basicCall := fun _ _ => rfl
  subquery := rfl

theorem tableName_readsNodes : ReadsNodes AnalysisEvent.tableName nodeTableName where
  identifier := fun _ _ => Or.inl rfl
  table := fun _ names => by
    cases names with
    | nil => exact Or.inl rfl
    | cons name names => exact Or.inr rfl
  call := fun _ _ _ => Or.inl rfl
  join := fun _ => rfl
  basicCall := fun _ _ => rfl
  subquery := rfl

theorem length_filter_isAggregateCall (nodes : List SqlNode) :
    (nodes.filter isAggregateCall).length =
      ((nodes.filterMap nodeCallName).filter isAggregateFunction).length := by
  induction nodes with
  | nil => rfl
  | cons node rest ih =>
    rw [List.filter_cons, List.filterMap_cons]
    cases node with
    | call base operator operands =>
      cases operator with
      | none => simpa [isAggregateCall, nodeCallName] using ih
      | some op =>
        simp only [isAggregateCall, nodeCallName, List.filter_cons]
        split <;> simp [ih]
    | _ => simpa [isAggregateCall, nodeCallName] using ih

/-! ## C13: an explicit JOIN -/

/-- C13, the divergence. For
`SELECT u.id, u.name, o.order_id FROM users u JOIN orders o ON u.id = o.user_id` the
builder leaves the JOIN extension of the relation unread: the from of the AST is the
aliased table `users AS u` alone, and the analysis records no join type and no table
alias (and `users` as the only table). -/
theorem explicit_join_is_not_built :
    builtFrom explicitJoinTree =
        some (NewSqlCall (some { Name := "AS", Kind := SqlKindAs, Syntax := .SyntaxSpecial })
          [NewSqlIdentifier ["users"] (some ⟨1, 37, 1, 42⟩),
            NewSqlIdentifier ["u"] (some ⟨1, 37, 1, 42⟩)] (some ⟨1, 37, 1, 42⟩)).toNode ∧
      builtWhere explicitJoinTree = none ∧
      analysisOf explicitJoinTree =
        some { Tables := ["users"], Columns := ["u.id", "u.name", "o.order_id"],
               AggregateFunctions := [], JoinTypes := [], HasSubquery := false,
               HasCTE := false, HasWindowFunction := false, TableAliases := [],
               ColumnAliases := [] } := by
  decide!

/-! ## C14: GROUP BY and HAVING -/

/-- C14. For `SELECT department, COUNT(*) as cnt FROM employees GROUP BY department
HAVING COUNT(*) > 5` the built Select has the one GROUP BY node `department`, and
`AnalyzeSQL` returns AggregateFunctions = [COUNT, COUNT]: one entry from the select
list and one from HAVING. -/
theorem group_by_having_analysis :
    (buildSqlNode groupByHavingTree).asNode.map selectGroupBy =
        some [NewSqlIdentifier ["department"] (some ⟨1, 59, 1, 69⟩)] ∧
      (analysisOf groupByHavingTree).map (fun analysis => analysis.AggregateFunctions) =
        some ["COUNT", "COUNT"] := by
  decide!

/-! ## C15: a hinted query -/

/-- C15. For `select /*+ FUNC(TEE) */ MUL(t1.k,t2.k) from t1, t2` the hints of the
Select are exactly one Hint named FUNC whose single parameter is the Identifier TEE,
and `AnalyzeSQL` of the built AST returns no aggregate function. -/
theorem hinted_product_analysis :
    (buildSqlNode hintedProductTree).asNode.map selectHints =
        some [NewSqlHint "FUNC" [NewSqlIdentifier ["TEE"] (some ⟨1, 16, 1, 19⟩)]
          (some ⟨1, 11, 1, 20⟩)] ∧
      (analysisOf hintedProductTree).map (fun analysis => analysis.AggregateFunctions) =
        some [] := by
  decide!

/-! ## C16: the literal attempts on a hint parameter -/

/-- C16, counterexample. The hint parameter `'42'` does not parse as an integer as it
stands, and yet `visitPrimaryExpressionAsNode` returns the integer literal 42 rather
than the Identifier `42`: the quotes are trimmed off before the first attempt, not
only for the identifier. -/
theorem quoted_integer_is_integer_literal :
    ParseInt quotedIntegerParameter.text = none ∧
      visitPrimaryExpressionAsNode quotedIntegerParameter =
        NewSqlLiteral (.int 42) .LiteralInteger (some ⟨1, 16, 1, 20⟩) ∧
      visitPrimaryExpressionAsNode quotedIntegerParameter ≠
        NewSqlIdentifier ["42"] (some ⟨1, 16, 1, 20⟩) := by
  decide!

/-- C16, amended. The attempts of `visitPrimaryExpressionAsNode` are all made on the
text with its surrounding quote characters trimmed off, in this order: an integer
literal if the trimmed text parses as a base-10 64-bit integer; otherwise a decimal
literal if it parses as a float; otherwise a boolean literal if, lower-cased, it is
`true` or `false`; otherwise a null literal if, upper-cased, it is `NULL`; otherwise an
Identifier whose single part is the trimmed text. -/
theorem visitPrimaryExpressionAsNode_attempts (ctx : HintParameterContext) :
    (∀ intVal, ParseInt (trim ctx.text ['\'', '"']) = some intVal →
      visitPrimaryExpressionAsNode ctx =
        NewSqlLiteral (.int intVal) .LiteralInteger
          (getPositionFromContext ctx.start ctx.stop)) ∧
    (ParseInt (trim ctx.text ['\'', '"']) = none →
      (∀ floatVal, ctx.parseFloat = some floatVal →
        visitPrimaryExpressionAsNode ctx =
          NewSqlLiteral (.float floatVal) .LiteralDecimal
            (getPositionFromContext ctx.start ctx.stop)) ∧
      (ctx.parseFloat = none →
        (toLower (trim ctx.text ['\'', '"']) = "true" →
          visitPrimaryExpressionAsNode ctx =
            NewSqlLiteral (.bool true) .LiteralBoolean
              (getPositionFromContext ctx.start ctx.stop)) ∧
        (toLower (trim ctx.text ['\'', '"']) = "false" →
          visitPrimaryExpressionAsNode ctx =
            NewSqlLiteral (.bool false) .LiteralBoolean
              (getPositionFromContext ctx.start ctx.stop)) ∧
        (toLower (trim ctx.text ['\'', '"']) ≠ "true" →
          toLower (trim ctx.text ['\'', '"']) ≠ "false" →
          (toUpper (trim ctx.text ['\'', '"']) = "NULL" →
            visitPrimaryExpressionAsNode ctx =
              NewSqlLiteral .null .LiteralNull
                (getPositionFromContext ctx.start ctx.stop)) ∧
          (toUpper (trim ctx.text ['\'', '"']) ≠ "NULL" →
            visitPrimaryExpressionAsNode ctx =
              NewSqlIdentifier [trim ctx.text ['\'', '"']]
                (getPositionFromContext ctx.start ctx.stop))))) := by
  refine ⟨fun intVal hInt => ?_, fun hInt => ⟨fun floatVal hFloat => ?_, fun hFloat =>
    ⟨fun hTrue => ?_, fun hFalse => ?_, fun hTrue hFalse => ⟨fun hNull => ?_, fun hNull => ?_⟩⟩⟩⟩
  · simp only [visitPrimaryExpressionAsNode, hInt]
  · simp only [visitPrimaryExpressionAsNode, hInt, hFloat]
  · simp [visitPrimaryExpressionAsNode, hInt, hFloat, hTrue]
  · simp [visitPrimaryExpressionAsNode, hInt, hFloat, hFalse]
  · simp [visitPrimaryExpressionAsNode, hInt, hFloat, hTrue, hFalse, hNull]
  · simp [visitPrimaryExpressionAsNode, hInt, hFloat, hTrue, hFalse, hNull]

/-! ## C17: the hints of a select clause -/

theorem foldl_append_eq_flatten {α β : Type} (f : α → List β) (l : List α) (acc : List β) :
    l.foldl (fun acc x => acc ++ f x) acc = acc ++ (l.map f).flatten := by
  induction l generalizing acc with
  | nil => simp
  | cons x xs ih => simp [ih]

theorem filterMap_VisitHintStatement (statements : List HintStatementContext) :
    statements.filterMap VisitHintStatement =
      (statements.filter HintStatementContext.isNamed).map hintOfStatement := by
  induction statements with
  | nil => rfl
  | cons statement rest ih =>
    rw [List.filterMap_cons, List.filter_cons, ih]
    unfold VisitHintStatement HintStatementContext.isNamed hintOfStatement
    cases hname : statement.hintName with
    | none => simp
    | some hintName =>
      by_cases hempty : hintName = "" <;> simp [hempty, hname]

theorem VisitSelectClause_hints (ctx : SelectClauseContext) (v : SqlNodeBuilderVisitor) :
    (VisitSelectClause ctx v).1.Hints = (namedHintStatements ctx.allHint).map hintOfStatement := by
  have h : (VisitSelectClause ctx v).1.Hints =
      ctx.allHint.foldl (fun acc hintCtx => acc ++ VisitHint hintCtx) [] := by
    unfold VisitSelectClause
    cases ctx.namedExpressionSeq <;> rfl
  rw [h, foldl_append_eq_flatten, List.nil_append, namedHintStatements,
    ← filterMap_VisitHintStatement]
  induction ctx.allHint with
  | nil => rfl
  | cons hintCtx rest ih =>
    simp only [List.map_cons, List.flatten_cons, List.filterMap_append, ih, VisitHint]

/-- C17. The hints of the finished Select are one Hint per named hint statement of the
select clause, in source order: the statements of the first hint comment, then those of
the next (concatenated, nothing deduplicated), each Hint with the name of its statement
and the statement's parameters in order. `/*+ JOIN(TEE), FUNC(TEE) */` gives the two
hints JOIN and FUNC. -/
theorem hints_in_source_order (pos : Option SqlParserPos) (fromNode whereNode : Option SqlNode)
    (selectClause : SelectClauseContext) (aggregationClause : Option AggregationClauseContext)
    (havingClause : Option BooleanExpressionContext) (v : SqlNodeBuilderVisitor) :
    selectHints (finishSelect pos fromNode whereNode selectClause aggregationClause
        havingClause v).1 = (namedHintStatements selectClause.allHint).map hintOfStatement ∧
      (selectHints (finishSelect pos fromNode whereNode selectClause aggregationClause
        havingClause v).1).map SqlHint.name =
          (namedHintStatements selectClause.allHint).map
            (fun statement => statement.hintName.getD "") ∧
      (∀ first second : List HintContext,
        namedHintStatements (first ++ second) =
          namedHintStatements first ++ namedHintStatements second) ∧
      selectHints (finishSelect pos fromNode whereNode twoHintsClause aggregationClause
        havingClause v).1 =
          [NewSqlHint "JOIN" [NewSqlIdentifier ["TEE"] (some ⟨1, 16, 1, 19⟩)]
              (some ⟨1, 11, 1, 20⟩),
            NewSqlHint "FUNC" [NewSqlIdentifier ["TEE"] (some ⟨1, 27, 1, 30⟩)]
              (some ⟨1, 22, 1, 31⟩)] := by
  have hfinish : ∀ clause : SelectClauseContext,
      selectHints (finishSelect pos fromNode whereNode clause aggregationClause
        havingClause v).1 = (VisitSelectClause clause v).1.Hints := fun _ => rfl
  refine ⟨?_, ?_, ?_, ?_⟩
  · rw [hfinish, VisitSelectClause_hints]
  · rw [hfinish, VisitSelectClause_hints, List.map_map]
    apply List.map_congr_left
    intro statement _
    rfl
  · intro first second
    simp [namedHintStatements]
  · rw [hfinish, VisitSelectClause_hints]
    decide!

/-! ## C18: the aggregate functions of an analysis -/

/-- C18, counterexample. A Select over `users` with the aggregate calls `MAX(id)` in
its window declarations, `MIN(id)` as its offset and `COUNT(id)` as its fetch holds
three aggregate Call nodes, and `AnalyzeSQL` lists none: `VisitSelect` does not visit
these three fields. -/
theorem unvisited_aggregates_are_not_listed :
    aggregateCallCount unvisitedAggregatesSelect = 3 ∧
      (AnalyzeSQL (some unvisitedAggregatesSelect)).AggregateFunctions = [] := by
  decide!

/-- C18, amended. For every AST, the aggregate-function list of `AnalyzeSQL` is the
list of the upper-cased operator names of the Call nodes the analysis visits, in
visiting order, that are aggregate functions, duplicates kept; its length is their
number, and never more than the number of aggregate Call nodes of the AST. The upper
case is that of `strings.ToUpper`: the calls `sum(id)` and `ſum(id)` (with the long s,
U+017F) are both listed as `SUM`, and `mın(id)` (with the dotless i, U+0131) as
`MIN`. -/
theorem aggregateFunctions_are_visited_calls (ast : SqlNode) :
    (AnalyzeSQL (some ast)).AggregateFunctions =
        (visitedCallNames ast).filter isAggregateFunction ∧
      (AnalyzeSQL (some ast)).AggregateFunctions.length =
        (visitedCallNames ast).countP isAggregateFunction ∧
      (AnalyzeSQL (some ast)).AggregateFunctions.length ≤ aggregateCallCount ast ∧
      (AnalyzeSQL (some (aggregateOfId "sum"))).AggregateFunctions = ["SUM"] ∧
      (AnalyzeSQL (some (aggregateOfId "ſum"))).AggregateFunctions = ["SUM"] ∧
      (AnalyzeSQL (some (aggregateOfId "mın"))).AggregateFunctions = ["MIN"] ∧
      (AnalyzeSQL (some (aggregateOfId "ßum"))).AggregateFunctions = [] := by
  have h : (AnalyzeSQL (some ast)).AggregateFunctions =
      (visitedCallNames ast).filter isAggregateFunction := by
    rw [AnalyzeSQL_eq_steps, aggregateFunctions_foldl_step]
    rfl
  refine ⟨h, by rw [h, List.countP_eq_length_filter], ?_, by decide!, by decide!, by decide!,
    by decide!⟩
  rw [h, aggregateCallCount, length_filter_isAggregateCall]
  exact ((visitEvents_sublist _ _ callName_readsNodes ast).filter _).length_le

/-! ## C19: the columns of an analysis -/

/-- C19, counterexample. The AST of `SELECT id, name FROM users WHERE age > 18` holds
the Identifier `users`, whose rendered name is not `*`; the first-seen deduplication
of the names of all its identifiers is [id, name, users, age], and the column list of
`AnalyzeSQL` is [id, name, age]: an identifier at a from-position is a table, not a
column. -/
theorem from_identifier_is_no_column :
    (buildSqlNode simpleSelectTree).asNode.map
        (fun ast => firstOccurrences ((allIdentifierNames ast).filter fun name => name ≠ "*")) =
        some ["id", "name", "users", "age"] ∧
      (analysisOf simpleSelectTree).map (fun analysis => analysis.Columns) =
        some ["id", "name", "age"] := by
  decide!

/-- C19, amended. For every AST, the column list of `AnalyzeSQL` is the first-seen-order
deduplication of the rendered dotted names, other than `*`, of the Identifiers the
analysis visits as expressions; it has no duplicates, and each of its entries is the
rendered name of an Identifier of the AST. -/
theorem columns_are_visited_identifiers (ast : SqlNode) :
    (AnalyzeSQL (some ast)).Columns =
        firstOccurrences ((visitedIdentifierNames ast).filter fun name => name ≠ "*") ∧
      (AnalyzeSQL (some ast)).Columns.Nodup ∧
      ∀ column, column ∈ (AnalyzeSQL (some ast)).Columns →
        column ≠ "*" ∧ column ∈ allIdentifierNames ast := by
  have h : (AnalyzeSQL (some ast)).Columns =
      firstOccurrences ((visitedIdentifierNames ast).filter fun name => name ≠ "*") := by
    rw [AnalyzeSQL_eq_steps, columns_foldl_step _ _ setsMatchLists_new]
    exact foldl_appendNew_nil _
  refine ⟨h, h ▸ nodup_firstOccurrences _, fun column hcolumn => ?_⟩
  rw [h, mem_firstOccurrences, List.mem_filter] at hcolumn
  refine ⟨by simpa using hcolumn.2, ?_⟩
  have hnode := (visitEvents_sublist _ _ identifierName_readsNodes ast).subset hcolumn.1
  obtain ⟨node, hmem, hname⟩ := List.mem_filterMap.mp hnode
  refine List.mem_filterMap.mpr ⟨node, hmem, ?_⟩
  cases node with
  | identifier base names =>
    cases names with
    | nil => simp [nodeIdentifierName] at hname
    | cons name names => simpa [nodeIdentifierName] using hname
  | _ => simp [nodeIdentifierName] at hname

/-! ## C20: the tables of an analysis -/

/-- C20. For every AST, the table list of `AnalyzeSQL` has no duplicates and lists the
table names at the from-positions the analysis walks over, each once, in the order of
its first occurrence; each of its entries is the first name part of an Identifier of
the AST. -/
theorem tables_are_first_occurrences (ast : SqlNode) :
    (AnalyzeSQL (some ast)).Tables.Nodup ∧
      (AnalyzeSQL (some ast)).Tables = firstOccurrences (fromPositionTables ast) ∧
      (∀ tableName, tableName ∈ (AnalyzeSQL (some ast)).Tables ↔
        tableName ∈ fromPositionTables ast) ∧
      ∀ tableName, tableName ∈ (AnalyzeSQL (some ast)).Tables →
        tableName ∈ (allNodes ast).filterMap nodeTableName := by
  have h : (AnalyzeSQL (some ast)).Tables = firstOccurrences (fromPositionTables ast) := by
    rw [AnalyzeSQL_eq_steps, tables_foldl_step _ _ setsMatchLists_new]
    exact foldl_appendNew_nil _
  refine ⟨h ▸ nodup_firstOccurrences _, h, fun tableName => by
    rw [h, mem_firstOccurrences], fun tableName htable => ?_⟩
  rw [h, mem_firstOccurrences] at htable
  exact (visitEvents_sublist _ _ tableName_readsNodes ast).subset htable

/-! ## C21: the join types of an analysis -/

theorem step_joinTypes (a : SQLAnalyzer) (e : AnalysisEvent) :
    (a.step e).Analysis.JoinTypes =
      a.Analysis.JoinTypes ++ e.joinType.toList.map (fun joinType => joinType ++ " JOIN") := by
  cases e with
  | identifier names =>
    simp only [SQLAnalyzer.step, SQLAnalyzer.VisitIdentifier, AnalysisEvent.joinType,
      Option.toList, List.map_nil, List.append_nil]
    repeat' split
    all_goals rfl
  | call operator operands =>
    simp only [SQLAnalyzer.step, SQLAnalyzer.visitCallOperator, AnalysisEvent.joinType,
      Option.toList, List.map_nil, List.append_nil]
    repeat' split
    all_goals rfl
  | join joinType =>
    simp [SQLAnalyzer.step, SQLAnalyzer.visitJoinType, AnalysisEvent.joinType]
  | basicCall operand aliasText =>
    simp only [SQLAnalyzer.step, SQLAnalyzer.visitBasicCallAlias, AnalysisEvent.joinType,
      Option.toList, List.map_nil, List.append_nil]
    repeat' split
    all_goals rfl
  | table names =>
    simp only [SQLAnalyzer.step, SQLAnalyzer.extractTableIdentifier, AnalysisEvent.joinType,
      Option.toList, List.map_nil, List.append_nil]
    repeat' split
    all_goals rfl
  | subquery => simp [SQLAnalyzer.step, SQLAnalyzer.setHasSubquery, AnalysisEvent.joinType]

theorem foldl_append_toList_map {α β γ : Type} (f : α → Option β) (g : β → γ) (es : List α)
    (acc : List γ) :
    es.foldl (fun acc e => acc ++ (f e).toList.map g) acc = acc ++ (es.filterMap f).map g := by
  induction es generalizing acc with
  | nil => simp
  | cons e es ih =>
    rw [List.foldl_cons, ih, List.filterMap_cons]
    cases f e <;> simp

/-- The join-type list after the steps of a visit. -/
theorem joinTypes_foldl_step (es : List AnalysisEvent) (a : SQLAnalyzer) :
    (es.foldl SQLAnalyzer.step a).Analysis.JoinTypes =
      a.Analysis.JoinTypes ++
        (es.filterMap AnalysisEvent.joinType).map (fun joinType => joinType ++ " JOIN") := by
  have h := (foldl_step_field (fun a => a.Analysis.JoinTypes) (fun _ => True)
    (fun acc e => acc ++ e.joinType.toList.map (fun joinType => joinType ++ " JOIN"))
    (fun _ _ _ => trivial) (fun a e _ => step_joinTypes a e) es a trivial).1
  rw [h, foldl_append_toList_map]

theorem AnalyzeSQL_joinTypes (ast : SqlNode) :
    (AnalyzeSQL (some ast)).JoinTypes =
      (visitedJoinTypes ast).map (fun joinType => joinType ++ " JOIN") := by
  rw [AnalyzeSQL_eq_steps, joinTypes_foldl_step]
  rfl

theorem visitedJoinTypes_of_no_joinTypes (ast : SqlNode)
    (h : (AnalyzeSQL (some ast)).JoinTypes = []) :
    (visitEvents ast).filterMap AnalysisEvent.joinType = [] := by
  rw [AnalyzeSQL_joinTypes] at h
  exact List.map_eq_nil_iff.mp h

theorem visitEventsAll_joinTypes_nil (nodes : List SqlNode)
    (h : ∀ node ∈ nodes, (AnalyzeSQL (some node)).JoinTypes = []) :
    (visitEventsAll nodes).filterMap AnalysisEvent.joinType = [] := by
  induction nodes with
  | nil => rfl
  | cons node rest ih =>
    rw [visitEventsAll, List.filterMap_append,
      visitedJoinTypes_of_no_joinTypes node (h node (List.mem_cons_self _ _)),
      ih fun n hn => h n (List.mem_cons_of_mem _ hn)]
    rfl

theorem fromEvents_joinChain (joinType : JoinType) (first : List String)
    (rights : List (List String × Option SqlNode))
    (h : ∀ right ∈ rights, ∀ condition, right.2 = some condition →
      (AnalyzeSQL (some condition)).JoinTypes = []) :
    (fromEvents (joinChain joinType first rights)).filterMap AnalysisEvent.joinType =
      List.replicate rights.length joinType := by
  have key : ∀ (rights : List (List String × Option SqlNode)) (left : SqlNode),
      (∀ right ∈ rights, ∀ condition, right.2 = some condition →
        (AnalyzeSQL (some condition)).JoinTypes = []) →
      (fromEvents (rights.foldl
        (fun left right =>
          NewSqlJoin (some left) (some (NewSqlIdentifier right.1 zeroPos)) joinType right.2
            zeroPos) left)).filterMap AnalysisEvent.joinType =
        List.replicate rights.length joinType ++
          (fromEvents left).filterMap AnalysisEvent.joinType := by
    intro rights
    induction rights with
    | nil => intro left _; rfl
    | cons right rest ih =>
      intro left h
      rw [List.foldl_cons, ih _ fun r hr => h r (List.mem_cons_of_mem _ hr)]
      have hcond : (visitEventsOption right.2).filterMap AnalysisEvent.joinType = [] := by
        cases hc : right.2 with
        | none => rfl
        | some condition =>
          exact visitedJoinTypes_of_no_joinTypes condition
            (h right (List.mem_cons_self _ _) condition hc)
      simp only [NewSqlJoin, NewSqlIdentifier, fromEvents, fromEventsOption,
        List.filterMap_cons, List.filterMap_append, AnalysisEvent.joinType, hcond,
        List.filterMap_nil, List.append_nil, List.length_cons, List.replicate_succ']
      simp
  have h0 := key rights (NewSqlIdentifier first zeroPos) h
  simpa [joinChain, NewSqlIdentifier, fromEvents, AnalysisEvent.joinType] using h0

/-- C21. For every AST, the join-type list of `AnalyzeSQL` has one entry per Join node
the analysis visits, the join type of the node followed by ` JOIN`, in visiting order
and with duplicates kept: the entry of a Join comes first, then those of the Joins of
its left side, of its right side and of its condition. For a left-deep chain of k inner
joins over tables at the from-position of a Select it is k times `INNER JOIN` (the
select items and the conditions holding no Join of their own). -/
theorem joinTypes_one_per_visited_join (ast : SqlNode) :
    (AnalyzeSQL (some ast)).JoinTypes =
        (visitedJoinTypes ast).map (fun joinType => joinType ++ " JOIN") ∧
      (∀ base left right joinType condition using_,
        visitedJoinTypes (.join base left right joinType condition using_) =
          joinType :: ((fromEventsOption left).filterMap AnalysisEvent.joinType ++
            (fromEventsOption right).filterMap AnalysisEvent.joinType ++
            (visitEventsOption condition).filterMap AnalysisEvent.joinType)) ∧
      (∀ (selectList : List SqlNode) (first : List String)
          (rights : List (List String × Option SqlNode)),
        (∀ item ∈ selectList, (AnalyzeSQL (some item)).JoinTypes = []) →
        (∀ right ∈ rights, ∀ condition, right.2 = some condition →
          (AnalyzeSQL (some condition)).JoinTypes = []) →
        (AnalyzeSQL (some (selectOver selectList
          (some (joinChain JoinInner first rights))))).JoinTypes =
            List.replicate rights.length "INNER JOIN") ∧
      (AnalyzeSQL (some (selectOver [NewSqlIdentifier ["id"] zeroPos]
        (some (joinChain JoinLeft ["a"]
          [(["b"], some cartesianCondition), (["c"], none)]))))).JoinTypes =
            ["LEFT JOIN", "LEFT JOIN"] := by
  refine ⟨AnalyzeSQL_joinTypes ast, ?_, ?_, by decide!⟩
  · intro base left right joinType condition using_
    simp only [visitedJoinTypes, visitEvents, List.filterMap_cons, List.filterMap_append,
      AnalysisEvent.joinType]
  · intro selectList first rights hitems hconditions
    rw [AnalyzeSQL_joinTypes]
    simp only [visitedJoinTypes, selectOver, visitEvents, visitEventsOption, visitEventsAll,
      fromEventsOption, List.filterMap_append, List.filterMap_nil, List.append_nil,
      visitEventsAll_joinTypes_nil selectList hitems, List.nil_append,
      fromEvents_joinChain JoinInner first rights hconditions, List.map_replicate]
    rfl

/-! ## C23: the subquery flag of an analysis -/

theorem step_hasSubquery (a : SQLAnalyzer) (e : AnalysisEvent) :
    (a.step e).Analysis.HasSubquery = (a.Analysis.HasSubquery || e.isSubquery) := by
  cases e with
  | identifier names =>
    simp only [SQLAnalyzer.step, SQLAnalyzer.VisitIdentifier, AnalysisEvent.isSubquery,
      Bool.or_false]
    repeat' split
    all_goals rfl
  | call operator operands =>
    simp only [SQLAnalyzer.step, SQLAnalyzer.visitCallOperator, AnalysisEvent.isSubquery,
      Bool.or_false]
    repeat' split
    all_goals rfl
  | join joinType =>
    simp [SQLAnalyzer.step, SQLAnalyzer.visitJoinType, AnalysisEvent.isSubquery]
  | basicCall operand aliasText =>
    simp only [SQLAnalyzer.step, SQLAnalyzer.visitBasicCallAlias, AnalysisEvent.isSubquery,
      Bool.or_false]
    repeat' split
    all_goals rfl
  | table names =>
    simp only [SQLAnalyzer.step, SQLAnalyzer.extractTableIdentifier,
      AnalysisEvent.isSubquery, Bool.or_false]
    repeat' split
    all_goals rfl
  | subquery => simp [SQLAnalyzer.step, SQLAnalyzer.setHasSubquery, AnalysisEvent.isSubquery]

theorem foldl_or_eq_any {α : Type} (p : α → Bool) (es : List α) (acc : Bool) :
    es.foldl (fun acc e => acc || p e) acc = (acc || es.any p) := by
  induction es generalizing acc with
  | nil => simp
  | cons e es ih => rw [List.foldl_cons, ih, List.any_cons, Bool.or_assoc]

/-- The subquery flag after the steps of a visit. -/
theorem hasSubquery_foldl_step (es : List AnalysisEvent) (a : SQLAnalyzer) :
    (es.foldl SQLAnalyzer.step a).Analysis.HasSubquery =
      (a.Analysis.HasSubquery || es.any AnalysisEvent.isSubquery) := by
  have h := (foldl_step_field (fun a => a.Analysis.HasSubquery) (fun _ => True)
    (fun acc e => acc || e.isSubquery)
    (fun _ _ _ => trivial) (fun a e _ => step_hasSubquery a e) es a trivial).1
  rw [h, foldl_or_eq_any]

mutual
theorem visitEvents_any_subquery : ∀ node : SqlNode,
    (visitEvents node).any AnalysisEvent.isSubquery =
      (visitedFromNodes node).any isSubqueryFromItem
  | .identifier _ _ => rfl
  | .literal _ _ _ _ => rfl
  | .call _ _ operands => by
    simp only [visitEvents, visitedFromNodes, List.any_cons, AnalysisEvent.isSubquery,
      Bool.false_or]
    exact visitEventsAll_any_subquery operands
  | .hint _ => rfl
  | .select _ _ _ selectList from_ where_ groupBy having _ orderBy _ _ => by
    simp only [visitEvents, visitedFromNodes, List.any_append]
    rw [visitEventsAll_any_subquery selectList, fromEventsOption_any_subquery from_,
      visitEventsOption_any_subquery where_, visitEventsAll_any_subquery groupBy,
      visitEventsOption_any_subquery having, visitEventsAll_any_subquery orderBy]
  | .join _ left right _ condition _ => by
    simp only [visitEvents, visitedFromNodes, List.any_cons, List.any_append,
      AnalysisEvent.isSubquery, Bool.false_or]
    rw [fromEventsOption_any_subquery left, fromEventsOption_any_subquery right,
      visitEventsOption_any_subquery condition]
  | .basicCall _ operand _ => by
    simp only [visitEvents, visitedFromNodes, List.any_append, List.any_cons, List.any_nil,
      AnalysisEvent.isSubquery, Bool.or_false]
    exact visitEventsOption_any_subquery operand
  | .nodeList _ list => by
    simp only [visitEvents, visitedFromNodes]
    exact visitEventsAll_any_subquery list
termination_by structural node => node
theorem visitEventsAll_any_subquery : ∀ nodes : List SqlNode,
    (visitEventsAll nodes).any AnalysisEvent.isSubquery =
      (visitedFromNodesAll nodes).any isSubqueryFromItem
  | [] => rfl
  | node :: rest => by
    simp only [visitEventsAll, visitedFromNodesAll, List.any_append]
    rw [visitEvents_any_subquery node, visitEventsAll_any_subquery rest]
termination_by structural nodes => nodes
theorem visitEventsOption_any_subquery : ∀ node : Option SqlNode,
    (visitEventsOption node).any AnalysisEvent.isSubquery =
      (visitedFromNodesOption node).any isSubqueryFromItem
  | none => rfl
  | some node => by
    simp only [visitEventsOption, visitedFromNodesOption]
    exact visitEvents_any_subquery node
termination_by structural node => node
theorem fromEvents_any_subquery : ∀ node : SqlNode,
    (fromEvents node).any AnalysisEvent.isSubquery =
      (walkedFromNodes node).any isSubqueryFromItem
  | .identifier _ _ => rfl
  | .join _ left right _ condition _ => by
    simp only [fromEvents, walkedFromNodes, List.any_cons, List.any_append,
      AnalysisEvent.isSubquery, isSubqueryFromItem, isSelect, isAliasedSelect, Bool.false_or,
      Bool.or_self]
    rw [fromEventsOption_any_subquery left, fromEventsOption_any_subquery right,
      visitEventsOption_any_subquery condition]
  | .call _ operator [] => by
    simp only [fromEvents, walkedFromNodes, visitEventsAll, visitedFromNodesAll]
    split <;> rfl
  | .call base operator (first :: rest) => by
    simp only [fromEvents, walkedFromNodes]
    split
    · next hAs =>
      have hself :
          isSubqueryFromItem (.call base operator (first :: rest)) = isSelect first := by
        simp only [isSubqueryFromItem, isAliasedSelect, hAs, Bool.true_and]
        rfl
      rw [List.any_cons, hself, List.any_append, fromEvents_any_subquery first]
      cases isSelect first <;> rfl
    · next hAs =>
      simp only [List.any_cons, AnalysisEvent.isSubquery, isSubqueryFromItem, isSelect,
        isAliasedSelect, hAs, Bool.false_and, Bool.false_or, Bool.or_self]
      exact visitEventsAll_any_subquery (first :: rest)
  | .select _ _ _ selectList from_ where_ groupBy having _ orderBy _ _ => by
    simp only [fromEvents, walkedFromNodes, List.any_cons, AnalysisEvent.isSubquery,
      isSubqueryFromItem, isSelect, Bool.true_or]
  | .literal _ _ _ _ => rfl
  | .hint _ => rfl
  | .basicCall _ _ _ => rfl
  | .nodeList _ _ => rfl
termination_by structural node => node
theorem fromEventsOption_any_subquery : ∀ node : Option SqlNode,
    (fromEventsOption node).any AnalysisEvent.isSubquery =
      (walkedFromNodesOption node).any isSubqueryFromItem
  | none => rfl
  | some node => by
    simp only [fromEventsOption, walkedFromNodesOption]
    exact fromEvents_any_subquery node
termination_by structural node => node
end

/-- C23, counterexample. In a Select over `users` whose offset is a Select over a
subquery, the from of a Select is a Select, and `AnalyzeSQL` leaves HasSubquery false:
the offset of a Select is not visited. With the same inner Select as its where, the
from of the outer Select is still the table `users`, and HasSubquery is true: the
where is visited, and the from of the Select found there is walked over. -/
theorem unvisited_subquery_is_not_flagged :
    (allSelectFroms unvisitedSubquerySelect).any isSelect = true ∧
      (AnalyzeSQL (some unvisitedSubquerySelect)).HasSubquery = false ∧
      selectFrom whereSubquerySelect = some (NewSqlIdentifier ["users"] zeroPos) ∧
      (AnalyzeSQL (some whereSubquerySelect)).HasSubquery = true := by
  decide!

/-- C23, amended. For every AST, HasSubquery of `AnalyzeSQL` is true if and only if one
of the from-position nodes the analysis walks over (the from of a Select it visits, a
side of a Join it visits, the first operand of an AS call at a from-position) is a
Select, or is an AS call whose first operand is a Select. -/
theorem hasSubquery_iff_walked_subquery (ast : SqlNode) :
    (AnalyzeSQL (some ast)).HasSubquery = (visitedFromNodes ast).any isSubqueryFromItem ∧
      ((AnalyzeSQL (some ast)).HasSubquery = true ↔
        ∃ node ∈ visitedFromNodes ast, isSelect node = true ∨ isAliasedSelect node = true) := by
  have h : (AnalyzeSQL (some ast)).HasSubquery =
      (visitedFromNodes ast).any isSubqueryFromItem := by
    rw [AnalyzeSQL_eq_steps, hasSubquery_foldl_step, visitEvents_any_subquery]
    rfl
  refine ⟨h, ?_⟩
  rw [h, List.any_eq_true]
  simp only [isSubqueryFromItem, Bool.or_eq_true]

/-! ## C24: the window-function flag of an analysis -/

theorem step_hasWindowFunction (a : SQLAnalyzer) (e : AnalysisEvent) :
    (a.step e).Analysis.HasWindowFunction =
      (a.Analysis.HasWindowFunction || e.callName.toList.any isWindowFunction) := by
  cases e with
  | identifier names =>
    simp only [SQLAnalyzer.step, SQLAnalyzer.VisitIdentifier, AnalysisEvent.callName,
      Option.toList, List.any_nil, Bool.or_false]
    repeat' split
    all_goals rfl
  | call operator operands =>
    cases operator with
    | none =>
      simp [SQLAnalyzer.step, SQLAnalyzer.visitCallOperator, AnalysisEvent.callName]
    | some op =>
      simp only [SQLAnalyzer.step, SQLAnalyzer.visitCallOperator, AnalysisEvent.callName,
        Option.toList, List.any_cons, List.any_nil, Bool.or_false]
      by_cases hwin : isWindowFunction (toUpper op.Name) = true
      · simp only [hwin, if_true, Bool.or_true]
        repeat' split
        all_goals rfl
      · simp only [hwin, if_false, Bool.false_eq_true, Bool.or_false]
        repeat' split
        all_goals rfl
  | join joinType =>
    simp [SQLAnalyzer.step, SQLAnalyzer.visitJoinType, AnalysisEvent.callName]
  | basicCall operand aliasText =>
    simp only [SQLAnalyzer.step, SQLAnalyzer.visitBasicCallAlias, AnalysisEvent.callName,
      Option.toList, List.any_nil, Bool.or_false]
    repeat' split
    all_goals rfl
  | table names =>
    simp only [SQLAnalyzer.step, SQLAnalyzer.extractTableIdentifier, AnalysisEvent.callName,
      Option.toList, List.any_nil, Bool.or_false]
    repeat' split
    all_goals rfl
  | subquery => simp [SQLAnalyzer.step, SQLAnalyzer.setHasSubquery, AnalysisEvent.callName]

theorem foldl_or_toList_any {α β : Type} (f : α → Option β) (p : β → Bool) (es : List α)
    (acc : Bool) :
    es.foldl (fun acc e => acc || (f e).toList.any p) acc = (acc || (es.filterMap f).any p) := by
  induction es generalizing acc with
  | nil => simp
  | cons e es ih =>
    rw [List.foldl_cons, ih, List.filterMap_cons]
    cases f e with
    | none => simp
    | some b => simp [Bool.or_assoc]

/-- The window-function flag after the steps of a visit. -/
theorem hasWindowFunction_foldl_step (es : List AnalysisEvent) (a : SQLAnalyzer) :
    (es.foldl SQLAnalyzer.step a).Analysis.HasWindowFunction =
      (a.Analysis.HasWindowFunction ||
        (es.filterMap AnalysisEvent.callName).any isWindowFunction) := by
  have h := (foldl_step_field (fun a => a.Analysis.HasWindowFunction) (fun _ => True)
    (fun acc e => acc || e.callName.toList.any isWindowFunction)
    (fun _ _ _ => trivial) (fun a e _ => step_hasWindowFunction a e) es a trivial).1
  rw [h, foldl_or_toList_any]

/-- C24, counterexample. A Select over `users` with the window call `RANK(id)` in its
window declarations contains a window-function Call, and `AnalyzeSQL` leaves
HasWindowFunction false: the window declarations of a Select are not visited. -/
theorem unvisited_window_call_is_not_flagged :
    (allNodes unvisitedWindowSelect).any isWindowCall = true ∧
      (AnalyzeSQL (some unvisitedWindowSelect)).HasWindowFunction = false := by
  decide!

/-- C24, amended. For every AST, HasWindowFunction of `AnalyzeSQL` is true if and only
if the analysis visits at least one Call whose operator name, upper-cased, is a window
function; the AST then contains such a Call. Once the flag is set, no later step of an
analysis clears it. The upper case is that of `strings.ToUpper`: the calls
`dense_rank(id)` and `denſe_rank(id)` (with the long s, U+017F) both set the flag, and
so does `ntıle(id)` (with the dotless i, U+0131). -/
theorem hasWindowFunction_iff_visited_window_call (ast : SqlNode) :
    (AnalyzeSQL (some ast)).HasWindowFunction =
        (visitedCallNames ast).any isWindowFunction ∧
      ((AnalyzeSQL (some ast)).HasWindowFunction = true ↔
        ∃ name ∈ visitedCallNames ast, isWindowFunction name = true) ∧
      ((AnalyzeSQL (some ast)).HasWindowFunction = true →
        ∃ node ∈ allNodes ast, isWindowCall node = true) ∧
      (∀ (a : SQLAnalyzer) (steps : List AnalysisEvent),
        a.Analysis.HasWindowFunction = true →
          (steps.foldl SQLAnalyzer.step a).Analysis.HasWindowFunction = true) ∧
      (AnalyzeSQL (some (aggregateOfId "dense_rank"))).HasWindowFunction = true ∧
      (AnalyzeSQL (some (aggregateOfId "denſe_rank"))).HasWindowFunction = true ∧
      (AnalyzeSQL (some (aggregateOfId "ntıle"))).HasWindowFunction = true ∧
      (AnalyzeSQL (some (aggregateOfId "denße_rank"))).HasWindowFunction = false := by
  have h : (AnalyzeSQL (some ast)).HasWindowFunction =
      (visitedCallNames ast).any isWindowFunction := by
    rw [AnalyzeSQL_eq_steps, hasWindowFunction_foldl_step]
    rfl
  refine ⟨h, by rw [h, List.any_eq_true], fun hflag => ?_, fun a steps ha => ?_, by decide!,
    by decide!, by decide!, by decide!⟩
  · rw [h, List.any_eq_true] at hflag
    obtain ⟨name, hmem, hwin⟩ := hflag
    have hnode := (visitEvents_sublist _ _ callName_readsNodes ast).subset hmem
    obtain ⟨node, hnodeMem, hname⟩ := List.mem_filterMap.mp hnode
    refine ⟨node, hnodeMem, ?_⟩
    cases node with
    | call base operator operands =>
      cases operator with
      | none => simp [nodeCallName] at hname
      | some op =>
        simp only [nodeCallName, Option.some.injEq] at hname
        simp only [isWindowCall, hname, hwin]
    | _ => simp [nodeCallName] at hname
  · rw [hasWindowFunction_foldl_step, ha, Bool.true_or]

/-! ## C22: the alias maps of an analysis -/

/-- C22, the divergence. For `SELECT u.id AS uid FROM users AS u` the select item is
the AS call over `u.id` and the from is the AS call over `users`, and `AnalyzeSQL`
leaves both alias maps empty: `VisitCall` records an alias only for a target without
dot, and the AS call at the from-position does not reach `VisitCall`. The BasicCall
that aliases `u.id` as `uid` does give the column alias. -/
theorem as_call_aliases_are_not_recorded :
    (buildSqlNode aliasedColumnTree).asNode.map selectSelectList =
        some [(NewSqlCall (some { Name := "AS", Kind := SqlKindAs, Syntax := .SyntaxSpecial })
          [NewSqlIdentifier ["u", "id"] (some ⟨1, 7, 1, 8⟩),
            NewSqlIdentifier ["uid"] (some ⟨1, 7, 1, 8⟩)] (some ⟨1, 7, 1, 8⟩)).toNode] ∧
      builtFrom aliasedColumnTree =
        some (NewSqlCall (some { Name := "AS", Kind := SqlKindAs, Syntax := .SyntaxSpecial })
          [NewSqlIdentifier ["users"] (some ⟨1, 24, 1, 29⟩),
            NewSqlIdentifier ["u"] (some ⟨1, 24, 1, 29⟩)] (some ⟨1, 24, 1, 29⟩)).toNode ∧
      analysisOf aliasedColumnTree =
        some { Tables := ["users"], Columns := ["u.id", "uid"],
               AggregateFunctions := [], JoinTypes := [], HasSubquery := false,
               HasCTE := false, HasWindowFunction := false, TableAliases := [],
               ColumnAliases := [] } ∧
      (AnalyzeSQL (some (.basicCall ⟨SqlKindAs, zeroPos⟩
        (some (NewSqlIdentifier ["u", "id"] zeroPos)) "uid"))).ColumnAliases =
          [("uid", "u.id")] := by
  decide!

/-! ## C25: the analysis of an absent AST -/

/-- C25. `AnalyzeSQL` of an absent AST returns the record with empty Tables, Columns,
AggregateFunctions and JoinTypes, the three flags false and both alias maps empty, and
`AnalyzeSQLFromParseResult` returns the same record for an absent parse result and for
a parse result whose statement is absent. -/
theorem analysis_of_absent_ast :
    AnalyzeSQL none =
        { Tables := [], Columns := [], AggregateFunctions := [], JoinTypes := [],
          HasSubquery := false, HasCTE := false, HasWindowFunction := false,
          TableAliases := [], ColumnAliases := [] } ∧
      AnalyzeSQLFromParseResult none = AnalyzeSQL none ∧
      ∀ sql : String, AnalyzeSQLFromParseResult (some ⟨sql, none⟩) = AnalyzeSQL none :=
  ⟨rfl, rfl, fun _ => rfl⟩

/-! ## C27: the table extractor -/

mutual
theorem TableNameExtractor.Accept_of_no_basicCall : ∀ (node : SqlNode) (tables : List String),
    (∀ n ∈ allNodes node, isBasicCall n = false) →
      TableNameExtractor.Accept node tables = some tables
  | .identifier _ _, _, _ => by simp only [TableNameExtractor.Accept]
  | .literal _ _ _ _, _, _ => by simp only [TableNameExtractor.Accept]
  | .call _ _ operands, tables, h => by
    simp only [TableNameExtractor.Accept]
    exact TableNameExtractor.acceptAll_of_no_basicCall operands tables fun n hn =>
      h n (by simp only [allNodes, List.mem_cons]; exact Or.inr hn)
  | .hint _, _, _ => by simp only [TableNameExtractor.Accept]
  | .select _ _ _ _ from_ _ _ _ _ _ _ _, tables, h => by
    simp only [TableNameExtractor.Accept]
    exact TableNameExtractor.acceptOption_of_no_basicCall from_ tables fun n hn =>
      h n (by simp only [allNodes, List.mem_cons, List.mem_append]; tauto)
  | .join _ left right _ _ _, tables, h => by
    simp only [TableNameExtractor.Accept]
    rw [TableNameExtractor.acceptOption_of_no_basicCall left tables fun n hn =>
      h n (by simp only [allNodes, List.mem_cons, List.mem_append]; tauto)]
    exact TableNameExtractor.acceptOption_of_no_basicCall right tables fun n hn =>
      h n (by simp only [allNodes, List.mem_cons, List.mem_append]; tauto)
  | .basicCall base operand aliasText, _, h => by
    have := h (.basicCall base operand aliasText)
      (by simp only [allNodes, List.mem_cons, true_or])
    simp [isBasicCall] at this
  | .nodeList _ list, tables, h => by
    simp only [TableNameExtractor.Accept]
    exact TableNameExtractor.acceptAll_of_no_basicCall list tables fun n hn =>
      h n (by simp only [allNodes, List.mem_cons]; exact Or.inr hn)
termination_by structural node => node
theorem TableNameExtractor.acceptAll_of_no_basicCall :
    ∀ (nodes : List SqlNode) (tables : List String),
      (∀ n ∈ allNodesList nodes, isBasicCall n = false) →
        TableNameExtractor.acceptAll nodes tables = some tables
  | [], _, _ => by simp only [TableNameExtractor.acceptAll]
  | node :: rest, tables, h => by
    simp only [TableNameExtractor.acceptAll]
    rw [TableNameExtractor.Accept_of_no_basicCall node tables fun n hn =>
      h n (by simp only [allNodesList, List.mem_append]; exact Or.inl hn)]
    exact TableNameExtractor.acceptAll_of_no_basicCall rest tables fun n hn =>
      h n (by simp only [allNodesList, List.mem_append]; exact Or.inr hn)
termination_by structural nodes => nodes
theorem TableNameExtractor.acceptOption_of_no_basicCall :
    ∀ (node : Option SqlNode) (tables : List String),
      (∀ n ∈ allNodesOption node, isBasicCall n = false) →
        TableNameExtractor.acceptOption node tables = some tables
  | none, _, _ => by simp only [TableNameExtractor.acceptOption]
  | some node, tables, h => by
    simp only [TableNameExtractor.acceptOption]
    exact TableNameExtractor.Accept_of_no_basicCall node tables fun n hn =>
      h n (by simpa only [allNodesOption] using hn)
termination_by structural node => node
end

/-- C27, the divergence. For
`SELECT u.id, o.order_id FROM users u JOIN orders o ON u.id = o.user_id` the from of
the built AST is the AS call over `users`, and `ExtractTableNames` returns the empty
list; so it does for a Select over the bare table `users`, and for every AST that holds
no BasicCall node: the extractor takes a table name from the operand of a BasicCall
only, and its `VisitIdentifier` records nothing. -/
theorem table_extractor_finds_no_table :
    builtFrom extractTablesTestTree =
        some (NewSqlCall (some { Name := "AS", Kind := SqlKindAs, Syntax := .SyntaxSpecial })
          [NewSqlIdentifier ["users"] (some ⟨1, 29, 1, 34⟩),
            NewSqlIdentifier ["u"] (some ⟨1, 29, 1, 34⟩)] (some ⟨1, 29, 1, 34⟩)).toNode ∧
      ExtractTableNames (buildSqlNode extractTablesTestTree).asNode = .returned [] none ∧
      ExtractTableNames (some (plainSelect "users")) = .returned [] none ∧
      ∀ ast : SqlNode, (∀ n ∈ allNodes ast, isBasicCall n = false) →
        ExtractTableNames (some ast) = .returned [] none := by
  refine ⟨by decide!, by decide!, by decide!, fun ast h => ?_⟩
  simp only [ExtractTableNames, TableNameExtractor.Accept_of_no_basicCall ast [] h]

/-! ## C28: the column extractor -/

theorem foldl_visitSelectItem (selectList : List SqlNode) (columns : List String) :
    selectList.foldl ColumnNameExtractor.visitSelectItem columns =
      columns ++ selectList.filterMap selectItemColumn := by
  induction selectList generalizing columns with
  | nil => simp
  | cons item rest ih =>
    rw [List.foldl_cons, ih, List.filterMap_cons]
    cases item with
    | identifier base names =>
      simp only [ColumnNameExtractor.visitSelectItem, selectItemColumn]
      split <;> simp
    | basicCall base operand aliasText =>
      cases operand with
      | none => simp [ColumnNameExtractor.visitSelectItem, selectItemColumn]
      | some node =>
        cases node <;> simp [ColumnNameExtractor.visitSelectItem, selectItemColumn]
    | _ => simp [ColumnNameExtractor.visitSelectItem, selectItemColumn]

/-- C28, the divergence. For `SELECT u.id AS uid FROM users AS u` the select item is
the AS call over the Identifier `u.id`, and `ExtractColumns` returns the empty list:
the extractor reads the target of a BasicCall item and a direct Identifier item, and
the builder wraps an aliased item in an AS call. For every Select it returns, in
select-list order and with duplicates, the names of the direct Identifier items other
than `*` and of the Identifier targets of the BasicCall items, whatever the other
clauses hold; for `SELECT id, name, email FROM users WHERE age > 18` that is
[id, name, email]. -/
theorem aliased_select_item_gives_no_column :
    ExtractColumns (buildSqlNode aliasedColumnTree).asNode = .returned [] none ∧
      ExtractColumns (buildSqlNode extractColumnsTestTree).asNode =
        .returned ["id", "name", "email"] none ∧
      ∀ base hints keywordList selectList from_ where_ groupBy having windowDecls orderBy
          offset fetch,
        ExtractColumns (some (.select base hints keywordList selectList from_ where_ groupBy
            having windowDecls orderBy offset fetch)) =
          .returned (selectList.filterMap selectItemColumn) none := by
  refine ⟨by decide!, by decide!, ?_⟩
  intros
  simp only [ExtractColumns, ColumnNameExtractor.Accept, foldl_visitSelectItem,
    List.nil_append]

/-! ## C29: the errors of the extractors -/

/-- C29, the divergence. On a BasicCall without operand `ExtractTableNames` neither
returns a list nor an error: `VisitBasicCall` calls `Accept` on the nil operand and the
call panics. On an absent AST both extractors return the error `SqlNode is nil`; on a
present AST `ExtractColumns` always returns a list and no error, and
`ExtractTableNames` returns a list and no error unless it panics. -/
theorem table_extractor_panics_without_operand :
    ExtractTableNames (some emptyBasicCall) = .panicked ∧
      ExtractTableNames none = .returned [] (some "SqlNode is nil") ∧
      ExtractColumns none = .returned [] (some "SqlNode is nil") ∧
      (∀ ast : SqlNode, ∃ columns, ExtractColumns (some ast) = .returned columns none) ∧
      ∀ ast : SqlNode, ExtractTableNames (some ast) = .panicked ∨
        ∃ tables, ExtractTableNames (some ast) = .returned tables none := by
  refine ⟨by decide!, rfl, rfl, fun ast => ⟨_, rfl⟩, fun ast => ?_⟩
  simp only [ExtractTableNames]
  cases TableNameExtractor.Accept ast [] with
  | none => exact Or.inl rfl
  | some tables => exact Or.inr ⟨tables, rfl⟩

/-! ## C30: empty input -/

theorem dropWhile_head_not {α : Type} (p : α → Bool) (l : List α) (x : α) (xs : List α)
    (h : l.dropWhile p = x :: xs) : p x = false := by
  induction l with
  | nil => simp at h
  | cons y ys ih =>
    rw [List.dropWhile_cons] at h
    split at h
    · exact ih h
    · next hy =>
      simp only [List.cons.injEq] at h
      rw [← h.1]
      simpa using hy

theorem trimmed_parts {α : Type} (p : α → Bool) (l : List α) :
    ∃ before after : List α,
      l = before ++ ((l.dropWhile p).reverse.dropWhile p).reverse ++ after ∧
        (∀ c ∈ before, p c = true) ∧ (∀ c ∈ after, p c = true) ∧
        (∀ c, ((l.dropWhile p).reverse.dropWhile p).reverse.head? = some c → p c = false) ∧
        (∀ c, ((l.dropWhile p).reverse.dropWhile p).reverse.getLast? = some c →
          p c = false) := by
  refine ⟨l.takeWhile p, ((l.dropWhile p).reverse.takeWhile p).reverse, ?_, ?_, ?_, ?_, ?_⟩
  · rw [List.append_assoc, ← List.reverse_append, List.takeWhile_append_dropWhile,
      List.reverse_reverse, List.takeWhile_append_dropWhile]
  · intro c hc
    exact List.mem_takeWhile_imp hc
  · intro c hc
    exact List.mem_takeWhile_imp (List.mem_reverse.mp hc)
  · intro c hc
    cases hdrop : l.dropWhile p with
    | nil =>
      rw [hdrop] at hc
      simp at hc
    | cons x xs =>
      have hx := dropWhile_head_not p _ x xs hdrop
      rw [hdrop] at hc
      have hne : ((x :: xs).reverse.dropWhile p) ≠ [] := by
        intro hnil
        have := List.dropWhile_eq_nil_iff.mp hnil x (by simp)
        rw [hx] at this
        exact Bool.false_ne_true this
      obtain ⟨front, hfront⟩ := List.dropWhile_suffix p (l := (x :: xs).reverse)
      have hrev := congrArg List.reverse hfront
      rw [List.reverse_append, List.reverse_reverse] at hrev
      cases hd : ((x :: xs).reverse.dropWhile p).reverse with
      | nil => exact absurd (List.reverse_eq_nil_iff.mp hd) hne
      | cons y ys =>
        rw [hd] at hrev hc
        simp only [List.cons_append, List.cons.injEq] at hrev
        simp only [List.head?_cons, Option.some.injEq] at hc
        rw [← hc, hrev.1]
        exact hx
  · intro c hc
    rw [List.getLast?_reverse] at hc
    cases hd : (l.dropWhile p).reverse.dropWhile p with
    | nil =>
      rw [hd] at hc
      simp at hc
    | cons y ys =>
      rw [hd] at hc
      simp only [List.head?_cons, Option.some.injEq] at hc
      rw [← hc]
      exact dropWhile_head_not p _ y ys hd

theorem TrimSpace_toList (sql : String) :
    (TrimSpace sql).toList =
      ((sql.toList.dropWhile isSpace).reverse.dropWhile isSpace).reverse := rfl

theorem TrimSpace_of_all_space (sql : String) (h : ∀ c ∈ sql.toList, isSpace c = true) :
    TrimSpace sql = "" := by
  have h1 : sql.toList.dropWhile isSpace = [] := List.dropWhile_eq_nil_iff.mpr h
  apply String.ext
  show (TrimSpace sql).toList = []
  rw [TrimSpace_toList, h1]
  rfl

theorem TrimSpace_ne_empty (sql : String) (h : ¬ ∀ c ∈ sql.toList, isSpace c = true) :
    TrimSpace sql ≠ "" := by
  intro hempty
  have hlist : (TrimSpace sql).toList = [] := by rw [hempty]; rfl
  rw [TrimSpace_toList, List.reverse_eq_nil_iff, List.dropWhile_eq_nil_iff] at hlist
  cases hdrop : sql.toList.dropWhile isSpace with
  | nil => exact h (List.dropWhile_eq_nil_iff.mp hdrop)
  | cons x xs =>
    have hx := dropWhile_head_not isSpace _ x xs hdrop
    have := hlist x (by rw [hdrop]; simp)
    rw [hx] at this
    exact Bool.false_ne_true this

/-- C30. For every input that is empty or holds only white space, `ParseSQLWithAntlr`
returns no result and the empty-input error, whatever the front end is (it is not
called); for every other input it returns what steps 7-10 make of the front end's
outcome for the trimmed input, which is the input without its leading and trailing
white space. -/
theorem empty_input_is_rejected (sql : String) :
    ((∀ c ∈ sql.toList, isSpace c = true) →
      ∀ frontEnd, ParseSQLWithAntlr frontEnd sql = (none, some "SQL语句不能为空")) ∧
    (¬ (∀ c ∈ sql.toList, isSpace c = true) →
      ∀ frontEnd,
        ParseSQLWithAntlr frontEnd sql = resultOfFrontEnd (frontEnd (TrimSpace sql))) ∧
    (∃ before after : List Char,
      sql.toList = before ++ (TrimSpace sql).toList ++ after ∧
        (∀ c ∈ before, isSpace c = true) ∧ (∀ c ∈ after, isSpace c = true) ∧
        (∀ c, (TrimSpace sql).toList.head? = some c → isSpace c = false) ∧
        (∀ c, (TrimSpace sql).toList.getLast? = some c → isSpace c = false)) ∧
    (ParseSQLWithAntlr simpleSelectFrontEnd "").2 = some "SQL语句不能为空" ∧
    (ParseSQLWithAntlr simpleSelectFrontEnd "   ").2 = some "SQL语句不能为空" ∧
    TrimSpace "  SELECT id, name FROM users WHERE age > 18 " =
      "SELECT id, name FROM users WHERE age > 18" := by
  refine ⟨fun h frontEnd => ?_, fun h frontEnd => ?_, trimmed_parts isSpace sql.toList,
    by decide!, by decide!, by decide!⟩
  · simp only [ParseSQLWithAntlr, TrimSpace_of_all_space sql h, if_true]
  · simp only [ParseSQLWithAntlr, TrimSpace_ne_empty sql h, if_false]

/-! ## C39: rendering a call by the syntax of its operator -/

/-- C39. `SqlOperator.Format` renders a call of function syntax as `NAME(a, b)`, a
call of prefix syntax with one operand as `op x` and a call of binary syntax with two
operands as `x op y`; it has no case for postfix syntax, so a postfix call renders as
the operator name alone, whatever its operands: the call `VisitPredicated` builds
over the column `x` renders as `IS NULL`, not `x IS NULL`. -/
theorem postfix_call_renders_operator_only (formatFloat : Float64 → String) :
    (∀ (base : BaseSqlNode) (op : SqlOperator) (operands : List SqlNode),
      op.Syntax = .SyntaxFunction →
        SqlNode.ToString formatFloat (.call base (some op) operands) =
          (SqlNode.toStringAll formatFloat operands).map fun args =>
            op.Name ++ "(" ++ ", ".intercalate args ++ ")") ∧
    (∀ (base : BaseSqlNode) (op : SqlOperator) (x : SqlNode),
      op.Syntax = .SyntaxPrefix →
        SqlNode.ToString formatFloat (.call base (some op) [x]) =
          (SqlNode.ToString formatFloat x).map fun text => op.Name ++ " " ++ text) ∧
    (∀ (base : BaseSqlNode) (op : SqlOperator) (x y : SqlNode),
      op.Syntax = .SyntaxBinary →
        SqlNode.ToString formatFloat (.call base (some op) [x, y]) =
          (SqlNode.ToString formatFloat x).bind fun left =>
            (SqlNode.ToString formatFloat y).map fun right =>
              left ++ " " ++ op.Name ++ " " ++ right) ∧
    (∀ (base : BaseSqlNode) (op : SqlOperator) (operands : List SqlNode),
      op.Syntax = .SyntaxPostfix →
        SqlNode.ToString formatFloat (.call base (some op) operands) = some op.Name) ∧
    isNullCall =
      .call ⟨SqlKindOther, zeroPos⟩
        (some { Name := "IS NULL", Kind := SqlKindOther, Syntax := .SyntaxPostfix })
        [NewSqlIdentifier ["x"] zeroPos] ∧
    SqlNode.ToString formatFloat (NewSqlIdentifier ["x"] zeroPos) = some "x" ∧
    SqlNode.ToString formatFloat isNullCall = some "IS NULL" := by
  refine ⟨?_, ?_, ?_, ?_, by decide!, rfl, rfl⟩
  · intro base op operands h
    obtain ⟨name, kind, opSyntax, leftPrec, rightPrec⟩ := op
    simp only at h
    subst h
    rfl
  · intro base op x h
    simp only [SqlNode.ToString, h]
  · intro base op x y h
    simp only [SqlNode.ToString, h]
  · intro base op operands h
    obtain ⟨name, kind, opSyntax, leftPrec, rightPrec⟩ := op
    simp only at h
    subst h
    rfl

/-! ## C40: rendering an alias -/

/-- C40. A Call whose operator has special syntax renders as the operator name alone,
whatever its operands; the AS calls the builder creates for an aliased select item, an
aliased table and an aliased subquery render as `AS`; the AST of
`SELECT a AS b FROM users u` renders as `SELECT AS FROM AS`; a BasicCall with an
alias renders as `target AS alias`. -/
theorem alias_call_renders_as_operator_name (formatFloat : Float64 → String) :
    (∀ (base : BaseSqlNode) (op : SqlOperator) (operands : List SqlNode),
      op.Syntax = .SyntaxSpecial →
        SqlNode.ToString formatFloat (.call base (some op) operands) = some op.Name) ∧
    (∀ (ctx : NamedExpressionContext) (v : SqlNodeBuilderVisitor) (aliasText : String)
        (node : SqlNode),
      ctx.aliasText = some aliasText → aliasText ≠ "" →
        (VisitNamedExpression ctx v).1 = some node →
          SqlNode.ToString formatFloat node = some "AS") ∧
    (∀ (start : Option Token) (tableName aliasText : String) (tableAlias : TableAliasContext)
        (v : SqlNodeBuilderVisitor),
      tableAlias.strictIdentifier = some aliasText → aliasText ≠ "" →
        SqlNode.ToString formatFloat (VisitTableName start tableName (some tableAlias) v).1 =
          some "AS") ∧
    (∀ (pos : Option SqlParserPos) (sqlNode : SqlNode) (tableAlias : TableAliasContext)
        (v : SqlNodeBuilderVisitor),
      tableAlias.text ≠ "" →
        SqlNode.ToString formatFloat (aliasSubquery pos sqlNode (some tableAlias) v).1 =
          some "AS") ∧
    (buildSqlNode aliasRenderTree).asNode.bind (SqlNode.ToString formatFloat) =
      some "SELECT AS FROM AS" ∧
    (∀ (operand : SqlNode) (text aliasText : String) (pos : Option SqlParserPos),
      SqlNode.ToString formatFloat operand = some text → aliasText ≠ "" →
        SqlNode.ToString formatFloat (NewSqlBasicCall (some operand) aliasText pos) =
          some (text ++ " AS " ++ aliasText)) ∧
    SqlNode.ToString formatFloat
      (NewSqlBasicCall (some (NewSqlIdentifier ["a"] zeroPos)) "b" zeroPos) =
        some "a AS b" := by
  refine ⟨?_, ?_, ?_, ?_, rfl, ?_, rfl⟩
  · intro base op operands h
    obtain ⟨name, kind, opSyntax, leftPrec, rightPrec⟩ := op
    simp only at h
    subst h
    rfl
  · intro ctx v aliasText node halias hne hnode
    unfold VisitNamedExpression at hnode
    rcases hvisit : VisitExpression ctx.expression v with ⟨result, v1⟩
    rw [hvisit] at hnode
    cases result with
    | none => simp at hnode
    | some sqlNode =>
      simp only [halias, hne, ne_eq, not_false_eq_true, if_true, Option.some.injEq] at hnode
      rw [← hnode]
      rfl
  · intro start tableName aliasText tableAlias v halias hne
    unfold VisitTableName
    simp only [Option.bind, halias, hne, ne_eq, not_false_eq_true, if_true]
    rfl
  · intro pos sqlNode tableAlias v hne
    unfold aliasSubquery
    simp only [hne, ne_eq, not_false_eq_true, if_true]
    rfl
  · intro operand text aliasText pos htext hne
    simp only [NewSqlBasicCall, SqlNode.ToString, SqlNode.toStringOf, htext, hne, ne_eq,
      not_false_eq_true, if_true, Option.map_some']

/-! ## C32: what a clone keeps -/

theorem toStringAll_congr (formatFloat : Float64 → String) {ms ns : List SqlNode}
    (h : List.Forall₂
      (fun m n => SqlNode.ToString formatFloat m = SqlNode.ToString formatFloat n) ms ns) :
    SqlNode.toStringAll formatFloat ms = SqlNode.toStringAll formatFloat ns := by
  induction h with
  | nil => rfl
  | cons hhead _ ih => simp only [SqlNode.toStringAll, hhead, ih]

theorem call_ToString_congr (formatFloat : Float64 → String) (base base2 : BaseSqlNode)
    (operator : Option SqlOperator) {ms ns : List SqlNode}
    (h : List.Forall₂
      (fun m n => SqlNode.ToString formatFloat m = SqlNode.ToString formatFloat n) ms ns) :
    SqlNode.ToString formatFloat (.call base operator ms) =
      SqlNode.ToString formatFloat (.call base2 operator ns) := by
  have hall := toStringAll_congr formatFloat h
  cases operator with
  | none => rfl
  | some op =>
    obtain ⟨name, kind, opSyntax, leftPrec, rightPrec⟩ := op
    cases opSyntax with
    | SyntaxFunction =>
      show (SqlNode.toStringAll formatFloat ms).map (formatFunction name) =
        (SqlNode.toStringAll formatFloat ns).map (formatFunction name)
      rw [hall]
    | SyntaxPostfix => rfl
    | SyntaxSpecial => rfl
    | SyntaxPrefix =>
      cases h with
      | nil => rfl
      | cons h1 hrest =>
        cases hrest with
        | nil => simp only [SqlNode.ToString, h1]
        | cons h2 hrest2 => rfl
    | SyntaxBinary =>
      cases h with
      | nil => rfl
      | cons h1 hrest =>
        cases hrest with
        | nil => rfl
        | cons h2 hrest2 =>
          cases hrest2 with
          | nil => simp only [SqlNode.ToString, h1, h2]
          | cons h3 hrest3 => rfl

mutual
theorem ToString_Clone (formatFloat : Float64 → String) :
    (n : SqlNode) → (m : SqlNode) → SqlNode.Clone n = some m →
      SqlNode.ToString formatFloat m = SqlNode.ToString formatFloat n
  | .identifier base names, m, h => by
    simp only [SqlNode.Clone, Option.some.injEq] at h
    rw [← h]; rfl
  | .literal base value valueType typeName, m, h => by
    simp only [SqlNode.Clone, Option.some.injEq] at h
    rw [← h]; rfl
  | .call base operator operands, m, h => by
    simp only [SqlNode.Clone, Option.map_eq_some'] at h
    obtain ⟨clones, hclones, h⟩ := h
    rw [← h]
    exact call_ToString_congr formatFloat _ _ operator
      (ToString_cloneAll formatFloat operands clones hclones)
  | .hint (.mk base name parameters), m, h => by
    simp only [SqlNode.Clone, Option.map_eq_some'] at h
    obtain ⟨clones, hclones, h⟩ := h
    have hall := ToString_cloneAll formatFloat parameters clones hclones
    rw [← h]
    simp only [NewSqlHint, SqlNode.ToString, SqlHint.ToString,
      toStringAll_congr formatFloat hall, hall.length_eq]
  | .select base hints keywordList selectList from_ where_ groupBy having windowDecls orderBy
      offset fetch, m, h => by
    simp only [SqlNode.Clone, Option.some.injEq] at h
    rw [← h]
  | .join base left right joinType condition usingList, m, h => by
    simp only [SqlNode.Clone, Option.bind_eq_some, Option.map_eq_some'] at h
    obtain ⟨leftClone, hleft, rightClone, hright, conditionClone, hcondition, h⟩ := h
    cases left with
    | none => simp [SqlNode.cloneOf] at hleft
    | some leftNode =>
      cases right with
      | none => simp [SqlNode.cloneOf] at hright
      | some rightNode =>
        cases condition with
        | none => simp [SqlNode.cloneOf] at hcondition
        | some conditionNode =>
          simp only [SqlNode.cloneOf] at hleft hright hcondition
          rw [← h]
          simp only [NewSqlJoin, SqlNode.ToString, SqlNode.toStringOf, SqlNode.toStringClause,
            ToString_Clone formatFloat leftNode leftClone hleft,
            ToString_Clone formatFloat rightNode rightClone hright,
            ToString_Clone formatFloat conditionNode conditionClone hcondition]
  | .basicCall base operand aliasText, m, h => by
    simp only [SqlNode.Clone, Option.map_eq_some'] at h
    obtain ⟨clone, hoperand, h⟩ := h
    cases operand with
    | none => simp [SqlNode.cloneOf] at hoperand
    | some operandNode =>
      simp only [SqlNode.cloneOf] at hoperand
      rw [← h]
      simp only [NewSqlBasicCall, SqlNode.ToString, SqlNode.toStringOf,
        ToString_Clone formatFloat operandNode clone hoperand]
  | .nodeList base list, m, h => by
    simp only [SqlNode.Clone, Option.map_eq_some'] at h
    obtain ⟨clones, hclones, h⟩ := h
    rw [← h]
    simp only [NewSqlNodeList, SqlNode.ToString,
      toStringAll_congr formatFloat (ToString_cloneAll formatFloat list clones hclones)]
termination_by structural n => n
theorem ToString_cloneAll (formatFloat : Float64 → String) :
    (l : List SqlNode) → (ms : List SqlNode) → SqlNode.cloneAll l = some ms →
      List.Forall₂
        (fun m n => SqlNode.ToString formatFloat m = SqlNode.ToString formatFloat n) ms l
  | [], ms, h => by
    simp only [SqlNode.cloneAll, Option.some.injEq] at h
    rw [← h]
    exact List.Forall₂.nil
  | node :: rest, ms, h => by
    simp only [SqlNode.cloneAll, Option.bind_eq_some, Option.map_eq_some'] at h
    obtain ⟨clone, hnode, clones, hrest, h⟩ := h
    rw [← h]
    exact List.Forall₂.cons (ToString_Clone formatFloat node clone hnode)
      (ToString_cloneAll formatFloat rest clones hrest)
termination_by structural l => l
end

/-- C32. A clone renders as the node it was taken from, but it is not always equal to
it: `SqlLiteral.Clone` leaves the type name out (the clone of the literal `42` of
type name `INTEGER` has the empty type name) and `SqlJoin.Clone` leaves the
using-list out (the clone of a join with the using-list `id` has an empty one). -/
theorem clone_drops_type_name_and_using :
    SqlNode.Clone typedLiteral = some (NewSqlLiteral (.int 42) .LiteralInteger zeroPos) ∧
    NewSqlLiteral (.int 42) .LiteralInteger zeroPos ≠ typedLiteral ∧
    SqlNode.Clone usingJoin =
      some (NewSqlJoin (some (NewSqlIdentifier ["t1"] zeroPos))
        (some (NewSqlIdentifier ["t2"] zeroPos)) JoinInner (some cartesianCondition) zeroPos) ∧
    NewSqlJoin (some (NewSqlIdentifier ["t1"] zeroPos))
      (some (NewSqlIdentifier ["t2"] zeroPos)) JoinInner (some cartesianCondition) zeroPos ≠
        usingJoin ∧
    (∀ (base : BaseSqlNode) (value : LitValue) (valueType : SqlLiteralType) (typeName : String),
      SqlNode.Clone (.literal base value valueType typeName) =
        some (.literal ⟨SqlKindLiteral, base.Pos⟩ value valueType "")) ∧
    (∀ (base : BaseSqlNode) (left right condition leftClone rightClone conditionClone : SqlNode)
        (joinType : JoinType) (usingList : List SqlNode),
      SqlNode.Clone left = some leftClone → SqlNode.Clone right = some rightClone →
        SqlNode.Clone condition = some conditionClone →
          SqlNode.Clone
              (.join base (some left) (some right) joinType (some condition) usingList) =
            some (.join ⟨SqlKindJoin, base.Pos⟩ (some leftClone) (some rightClone) joinType
              (some conditionClone) [])) ∧
    (∀ (formatFloat : Float64 → String) (n m : SqlNode),
      SqlNode.Clone n = some m →
        SqlNode.ToString formatFloat m = SqlNode.ToString formatFloat n) := by
  refine ⟨by decide!, by decide!, by decide!, by decide!, ?_, ?_, ?_⟩
  · intro base value valueType typeName
    rfl
  · intro base left right condition leftClone rightClone conditionClone joinType usingList
      hleft hright hcondition
    simp only [SqlNode.Clone, SqlNode.cloneOf, hleft, hright, hcondition, Option.some_bind,
      Option.map_some', NewSqlJoin]
  · intro formatFloat n m h
    exact ToString_Clone formatFloat n m h

/-! ## C33: a join without ON-condition -/

/-- C33. `SqlJoin.Clone` dereferences the ON-condition without the nil guard that
`SqlJoin.ToString` and the analyzer have: on every Join without condition the
clone panics, although `NewSqlJoin` builds such a Join, it renders
(`t1 CROSS JOIN t2`) and the analyzer reads its tables and its join type. -/
theorem clone_panics_without_condition :
    (∀ (base : BaseSqlNode) (left right : Option SqlNode) (joinType : JoinType)
        (usingList : List SqlNode),
      SqlNode.Clone (.join base left right joinType none usingList) = none) ∧
    SqlNode.Clone joinWithoutCondition = none ∧
    (∀ formatFloat : Float64 → String,
      SqlNode.ToString formatFloat joinWithoutCondition = some "t1 CROSS JOIN t2") ∧
    (AnalyzeSQL (some joinWithoutCondition)).Tables = ["t1", "t2"] ∧
    (AnalyzeSQL (some joinWithoutCondition)).JoinTypes = ["CROSS JOIN"] ∧
    SqlNode.Clone
      (NewSqlJoin (some (NewSqlIdentifier ["t1"] zeroPos))
        (some (NewSqlIdentifier ["t2"] zeroPos)) JoinCross (some cartesianCondition) zeroPos) =
      some (NewSqlJoin (some (NewSqlIdentifier ["t1"] zeroPos))
        (some (NewSqlIdentifier ["t2"] zeroPos)) JoinCross (some cartesianCondition)
        zeroPos) := by
  refine ⟨?_, by decide!, fun formatFloat => rfl, by decide!, by decide!, by decide!⟩
  intro base left right joinType usingList
  simp only [SqlNode.Clone, SqlNode.cloneOf]
  cases SqlNode.cloneOf left with
  | none => rfl
  | some leftClone => cases SqlNode.cloneOf right <;> rfl

/-! ## C31: productions the builder has no case for -/

/-- C31. The tree of `select id, case when a then b end from users` holds a primary
expression the builder has no case for; the parse does not fail: it succeeds without
error and returns the Select of `select id from users`, the second select item being
left out. Likewise the unsupported second from-item of
`select id from users, range(3)` is left out. -/
theorem unsupported_select_item_is_omitted :
    buildSqlNode unsupportedItemTree = buildSqlNode supportedItemTree ∧
    (buildSqlNode unsupportedItemTree).asNode.map selectSelectList =
      some [NewSqlIdentifier ["id"] (some ⟨1, 7, 1, 9⟩)] ∧
    (ParseSQLWithAntlr (frontEndOf unsupportedItemTree)
      "select id, case when a then b end from users").2 = none ∧
    (ParseSQLWithAntlr (frontEndOf unsupportedItemTree)
      "select id, case when a then b end from users").1.map (fun r => r.Success) =
        some true ∧
    (ParseSQLWithAntlr (frontEndOf unsupportedItemTree)
      "select id, case when a then b end from users").1.bind (fun r => r.SqlNode) =
        (buildSqlNode supportedItemTree).asNode ∧
    builtFrom unsupportedRelationTree = some (NewSqlIdentifier ["users"] (some ⟨1, 15, 1, 20⟩)) ∧
    (ParseSQLWithAntlr (frontEndOf unsupportedRelationTree)
      "select id from users, range(3)").2 = none := by
  refine ⟨by decide!, by decide!, by decide!, by decide!, by decide!, by decide!, by decide!⟩

/-- What the builder makes of a production it has no case for. A statement, or the
query term, query primary or query
specification of the statement's query, for which the builder has no case makes the
parse fail: the builder returns an error value, which `ParseSQLWithAntlr` reports as
`visitor 返回的不是 SqlNode 类型: *errors.errorString`, with no result. A boolean,
value or primary expression or a relation primary for which the builder has no case
builds nothing and raises no error, and so does a sub-select whose query term is
unsupported; a select item or a from-item that builds nothing is left out of the
list. Every regular query specification is built to a Select, whatever it holds. -/
theorem unsupported_production_outcomes :
    (∀ v, VisitSingleStatement ⟨.other⟩ v = (.error "不支持的语句类型", v)) ∧
    (∀ v, VisitQuery (.mk .other) v = (.error "不支持的查询项类型", v)) ∧
    (∀ v, VisitQueryTermDefault .other v = (.error "不支持的查询主体类型", v)) ∧
    (∀ v, VisitQueryPrimaryDefault .other v = (.error "不支持的查询规范类型", v)) ∧
    (∀ (outcome : FrontEndOutcome) (message : String),
      outcome.Errors = [] → buildSqlNode outcome.tree = .error message →
        resultOfFrontEnd outcome =
          (none, some "visitor 返回的不是 SqlNode 类型: *errors.errorString")) ∧
    buildSqlNode unsupportedStatementTree = .error "不支持的语句类型" ∧
    buildSqlNode unsupportedTermTree = .error "不支持的查询项类型" ∧
    buildSqlNode unsupportedPrimaryTree = .error "不支持的查询主体类型" ∧
    buildSqlNode unsupportedSpecificationTree = .error "不支持的查询规范类型" ∧
    (∀ v, visitBooleanExpressionInternal .other v = (none, v)) ∧
    (∀ v, visitValueExpressionInternal .other v = (none, v)) ∧
    (∀ v, visitPrimaryExpressionInternal .other v = (none, v)) ∧
    (∀ v, visitRelationPrimaryInternal .other v = (none, v)) ∧
    (∀ start tableAlias v,
      visitRelationPrimaryInternal (.aliasedQuery start (.mk .other) tableAlias) v =
        (none, v)) ∧
    (∀ item rest v, (VisitNamedExpression item v).1 = none →
      VisitFederatedQueryExpression (item :: rest) v =
        VisitFederatedQueryExpression rest (VisitNamedExpression item v).2) ∧
    (∀ relation rest v, (VisitRelation relation v).1 = none →
      visitRelations (relation :: rest) v =
        visitRelations rest (VisitRelation relation v).2) ∧
    (∀ start selectClause fromClause whereClause aggregationClause havingClause,
      ∃ node,
        buildSqlNode
            ⟨.statementDefault (.mk (.queryTermDefault (.queryPrimaryDefault
              (.regularQuerySpecification start selectClause fromClause whereClause
                aggregationClause havingClause))))⟩ = .node node ∧
          isSelect node = true) := by
  refine ⟨fun v => rfl, fun v => ?_, fun v => ?_, fun v => ?_, ?_, by decide!, by decide!,
    by decide!, by decide!, fun v => ?_, fun v => ?_, fun v => ?_, fun v => ?_, ?_, ?_, ?_, ?_⟩
  · simp only [VisitQuery]
  · simp only [VisitQueryTermDefault]
  · simp only [VisitQueryPrimaryDefault]
  · intro outcome message herrors hbuild
    simp only [resultOfFrontEnd, herrors, hbuild, List.length_nil, Nat.lt_irrefl, if_false]
  · simp only [visitBooleanExpressionInternal]
  · simp only [visitValueExpressionInternal]
  · simp only [visitPrimaryExpressionInternal]
  · simp only [visitRelationPrimaryInternal]
  · intro start tableAlias v
    simp only [visitRelationPrimaryInternal, VisitQuery, VisitResult.asNode]
  · intro item rest v h
    simp only [VisitFederatedQueryExpression]
    rcases hitem : VisitNamedExpression item v with ⟨node, v1⟩
    rw [hitem] at h
    simp only at h
    subst h
    rfl
  · intro relation rest v h
    simp only [visitRelations]
    rcases hrel : VisitRelation relation v with ⟨node, v1⟩
    rw [hrel] at h
    simp only at h
    subst h
    rfl
  · intro start selectClause fromClause whereClause aggregationClause havingClause
    simp only [buildSqlNode, VisitSingleStatement, VisitQuery, VisitQueryTermDefault]
    cases fromClause with
    | none =>
      simp only [VisitQueryPrimaryDefault, finishSelect]
      exact ⟨_, rfl, rfl⟩
    | some fromCtx =>
      simp only [VisitQueryPrimaryDefault, finishSelect]
      exact ⟨_, rfl, rfl⟩

/-! ## C34: the combinators of the WHERE clause -/

theorem state_logicalBinary (start : Option Token) (left right : BooleanExpressionContext)
    (operator : String) (v : SqlNodeBuilderVisitor) :
    (visitBooleanExpressionInternal (.logicalBinary start left right operator) v).2 =
      (visitBooleanExpressionInternal right (visitBooleanExpressionInternal left v).2).2 := by
  simp only [visitBooleanExpressionInternal]
  rcases hl : visitBooleanExpressionInternal left v with ⟨lr, v1⟩
  rcases hr : visitBooleanExpressionInternal right v1 with ⟨rr, v2⟩
  simp only [hr]
  cases lr <;> cases rr <;> rfl

theorem state_logicalNot (start : Option Token) (operand : BooleanExpressionContext)
    (v : SqlNodeBuilderVisitor) :
    (visitBooleanExpressionInternal (.logicalNot start operand) v).2 =
      (visitBooleanExpressionInternal operand v).2 := by
  simp only [visitBooleanExpressionInternal]
  rcases ho : visitBooleanExpressionInternal operand v with ⟨r, v1⟩
  cases r <;> rfl

theorem VisitQueryPrimaryDefault_of_where_state (start : Option Token)
    (selectClause : SelectClauseContext) (fromCtx : FromClauseContext)
    (whereA whereB : Option BooleanExpressionContext)
    (aggregationClause : Option AggregationClauseContext)
    (havingClause : Option BooleanExpressionContext) (v : SqlNodeBuilderVisitor)
    (h : ∀ w, visitWhereIfPresent whereA w = visitWhereIfPresent whereB w) :
    VisitRegularQuerySpecification start selectClause (some fromCtx) whereA aggregationClause
        havingClause v =
      VisitRegularQuerySpecification start selectClause (some fromCtx) whereB
        aggregationClause havingClause v := by
  simp only [VisitRegularQuerySpecification, VisitQueryPrimaryDefault, h]

/-- C34. The Select built for a query specification does not depend on the
combinators of its WHERE clause: a logical binary expression leaves the builder in the
state its two operands leave it in, whatever its operator, and `NOT` in the state of
its operand, and `Select.where` is `dealFilterConditions` of the state after FROM and
WHERE. So `age > 18 OR age < 65` and `age > 18 AND age < 65` both give the where
`age > 18 AND age < 65`, and `NOT age > 18` gives the where `age > 18`; the OR and NOT
calls built on the way are not part of the Select. -/
theorem where_ignores_combinators :
    (∀ start left right operator v,
      (visitBooleanExpressionInternal (.logicalBinary start left right operator) v).2 =
        (visitBooleanExpressionInternal right (visitBooleanExpressionInternal left v).2).2) ∧
    (∀ start operand v,
      (visitBooleanExpressionInternal (.logicalNot start operand) v).2 =
        (visitBooleanExpressionInternal operand v).2) ∧
    (∀ start selectClause fromCtx aggregationClause havingClause v tokenA tokenB left right
        operatorA operatorB,
      VisitRegularQuerySpecification start selectClause (some fromCtx)
          (some (.logicalBinary tokenA left right operatorA)) aggregationClause havingClause v =
        VisitRegularQuerySpecification start selectClause (some fromCtx)
          (some (.logicalBinary tokenB left right operatorB)) aggregationClause havingClause
          v) ∧
    (∀ start selectClause fromCtx aggregationClause havingClause v token operand,
      VisitRegularQuerySpecification start selectClause (some fromCtx)
          (some (.logicalNot token operand)) aggregationClause havingClause v =
        VisitRegularQuerySpecification start selectClause (some fromCtx) (some operand)
          aggregationClause havingClause v) ∧
    (∀ start selectClause fromCtx whereClause aggregationClause havingClause v,
      (VisitRegularQuerySpecification start selectClause (some fromCtx) whereClause
          aggregationClause havingClause v).1.asNode.bind selectWhere =
        dealFilterConditions
          (visitWhereIfPresent whereClause
            (VisitFromClause fromCtx { v with currentIdentifiers := [] }).2)) ∧
    builtWhere andWhereTree =
      some (andCall (columnFilterCall 27 "age" ">" SqlKindGreaterThan 33 18 35).toNode
        (columnFilterCall 40 "age" "<" SqlKindLessThan 46 65 48)) ∧
    builtWhere orWhereTree =
      some (andCall (columnFilterCall 27 "age" ">" SqlKindGreaterThan 33 18 35).toNode
        (columnFilterCall 40 "age" "<" SqlKindLessThan 46 65 48)) ∧
    buildSqlNode orWhereTree = buildSqlNode andWhereTree ∧
    builtWhere notWhereTree =
      some (columnFilterCall 31 "age" ">" SqlKindGreaterThan 37 18 39).toNode ∧
    buildSqlNode notWhereTree = buildSqlNode plainWhereTree ∧
    (visitBooleanExpressionInternal
        (.logicalBinary (tk 1 27 "age") (columnFilter 27 "age" ">" 33 "18")
          (columnFilter 40 "age" "<" 46 "65") "or") NewSqlNodeBuilderVisitor).1 =
      some (NewSqlCall (some { Name := "OR", Kind := SqlKindOr, Syntax := .SyntaxBinary })
        [(columnFilterCall 27 "age" ">" SqlKindGreaterThan 33 18 35).toNode,
          (columnFilterCall 40 "age" "<" SqlKindLessThan 46 65 48).toNode]
        (some ⟨1, 27, 1, 30⟩)).toNode := by
  refine ⟨state_logicalBinary, state_logicalNot, ?_, ?_, ?_, by decide!, by decide!,
    by decide!, by decide!, by decide!, by decide!⟩
  · intro start selectClause fromCtx aggregationClause havingClause v tokenA tokenB left right
      operatorA operatorB
    apply VisitQueryPrimaryDefault_of_where_state
    intro w
    simp only [visitWhereIfPresent, VisitWhereClause, state_logicalBinary]
  · intro start selectClause fromCtx aggregationClause havingClause v token operand
    apply VisitQueryPrimaryDefault_of_where_state
    intro w
    simp only [visitWhereIfPresent, VisitWhereClause, state_logicalNot]
  · intro start selectClause fromCtx whereClause aggregationClause havingClause v
    simp only [VisitRegularQuerySpecification, VisitQueryPrimaryDefault, finishSelect,
      buildFromAndWhere, VisitResult.asNode, Option.bind, selectWhere]

/-! ## C35: the predicate lists across query specifications -/

theorem keepsPredicates_refl (v : SqlNodeBuilderVisitor) : KeepsPredicates v v :=
  ⟨List.prefix_refl _, List.prefix_refl _⟩

theorem keepsPredicates_invariant (v0 : SqlNodeBuilderVisitor) :
    BuilderInvariant (KeepsPredicates v0) := by
  refine ⟨?_, ?_, ?_, ?_⟩
  · intro v w h _ hj hf
    unfold KeepsPredicates
    rw [hj, hf]
    exact h
  · intro pos opText a b v h
    unfold classifyComparison
    simp only
    split
    · exact ⟨h.1.trans (List.prefix_append _ _), h.2⟩
    · split <;> exact ⟨h.1, h.2.trans (List.prefix_append _ _)⟩
  · intro pos predicate valueNode v h
    unfold applyPredicate
    simp only
    split
    · exact ⟨h.1, h.2.trans (List.prefix_append _ _)⟩
    · split
      · exact ⟨h.1, h.2.trans (List.prefix_append _ _)⟩
      · exact h
  · intro pos sqlNode tableAlias v h
    unfold aliasSubquery
    split
    · simp only
      split
      · exact h
      · exact h
    · exact h

/-- C35. No step of the builder takes a predicate out of the join-predicate list or
the filter-predicate list: after a query is built, and when a query specification
folds its FROM and WHERE, both lists start with what they held before. So for
`select id from (select id from t1 where a > 1) sq where b > 2` the inner where is
`a > 1` and the outer where is `a > 1 AND b > 2`, and for
`select sq.id from (select t1.id from t1, t2 where t1.id = t2.id) sq, t3 where
sq.id = t3.id` the inner from is the join of t1 and t2 on `t1.id = t2.id` and the
outer from is that same join, joined with t3 on `sq.id = t3.id`. -/
theorem predicate_lists_are_never_reset :
    (∀ (query : QueryContext) (v : SqlNodeBuilderVisitor),
      KeepsPredicates v (VisitQuery query v).2) ∧
    (∀ (fromCtx : FromClauseContext) (whereClause : Option BooleanExpressionContext)
        (v : SqlNodeBuilderVisitor),
      KeepsPredicates v
        (visitWhereIfPresent whereClause
          (VisitFromClause fromCtx { v with currentIdentifiers := [] }).2)) ∧
    ((builtFrom nestedFilterTree).bind firstOperand).bind selectWhere =
      some (columnFilterCall 40 "a" ">" SqlKindGreaterThan 44 1 45).toNode ∧
    builtWhere nestedFilterTree =
      some (andCall (columnFilterCall 40 "a" ">" SqlKindGreaterThan 44 1 45).toNode
        (columnFilterCall 56 "b" ">" SqlKindGreaterThan 60 2 61)) ∧
    (VisitSingleStatement nestedJoinTree NewSqlNodeBuilderVisitor).2.subQueryTables.lookup "sq" =
      some
        ((NewSqlCall (some { Name := "AS", Kind := SqlKindAs, Syntax := .SyntaxSpecial })
          [.select ⟨SqlKindSelect, some ⟨1, 19, 1, 25⟩⟩ [] []
              [NewSqlIdentifier ["t1", "id"] (some ⟨1, 26, 1, 28⟩)]
              (some (stackJoins (NewSqlIdentifier ["t1"] zeroPos)
                [(dottedEqualsCall 50 "t1" ["t1", "id"] 58 "t2" ["t2", "id"],
                  NewSqlIdentifier ["t2"] zeroPos)]))
              none [] none [] [] none none,
            NewSqlIdentifier ["sq"] (some ⟨1, 18, 1, 19⟩)] (some ⟨1, 18, 1, 19⟩)).toNode) ∧
    builtFrom nestedJoinTree =
      some (stackJoins (NewSqlIdentifier ["t1"] zeroPos)
        [(dottedEqualsCall 50 "t1" ["t1", "id"] 58 "t2" ["t2", "id"],
            NewSqlIdentifier ["t2"] zeroPos),
          (dottedEqualsCall 78 "sq" ["sq", "id"] 86 "t3" ["t3", "id"],
            NewSqlIdentifier ["t3"] zeroPos)]) := by
  refine ⟨fun query v => invariant_VisitQuery (keepsPredicates_invariant v) query v
      (keepsPredicates_refl v),
    fun fromCtx whereClause v =>
      invariant_at_reconstruction (keepsPredicates_invariant v) fromCtx whereClause v
        (keepsPredicates_refl v),
    by decide!, by decide!, by decide!, by decide!⟩

/-! ## C36: predicates that name one relation key only -/

theorem appendJoinFromConditions_none_of_no_effective (v : SqlNodeBuilderVisitor)
    (J : List SqlCall) (h : ∀ c ∈ J, (getConditionTables c).length < 2) :
    appendJoinFromConditions v J = none := by
  obtain ⟨connects, _, _, hres⟩ := appendJoinFromConditions_shape v J
  have hE : effectiveConditions J = [] := by
    unfold effectiveConditions
    rw [List.filter_eq_nil_iff]
    intro c hc
    have := h c hc
    simp only [decide_eq_true_eq]
    omega
  rw [hres, hE]
  rfl

theorem extraTables_eq_nil (F : List SqlNode) (J : List SqlCall)
    (h : ∀ k ∈ fromTables F, k ∈ joinTables J) : extraTables F J = [] := by
  unfold extraTables
  rw [List.filter_eq_nil_iff]
  intro k hk
  simp [h k hk]

theorem uniqueTablesLoop_nodup :
    ∀ (tables result : List String), result.Nodup → (uniqueTablesLoop tables result).Nodup := by
  intro tables
  induction tables with
  | nil => intro result h; exact h
  | cons table rest ih =>
    intro result h
    unfold uniqueTablesLoop
    split
    · exact ih result h
    · next hnew =>
      apply ih
      rw [List.nodup_append]
      refine ⟨h, List.nodup_singleton _, ?_⟩
      intro a ha hb
      rw [List.mem_singleton] at hb
      subst hb
      exact hnew (by simpa using ha)

theorem getConditionTables_nodup (c : SqlCall) : (getConditionTables c).Nodup := by
  unfold getConditionTables
  split
  · exact List.nodup_nil
  · exact uniqueTablesLoop_nodup _ _ List.nodup_nil

/-- C36. The relation key of a table identifier is its first name part, and so is
the key a predicate names by a column: the from-items `plat1.atest` and `plat1.btest`
both have the key `plat1`, which is the only key `plat1.atest.id = plat1.btest.id`
names. When F has more than one from-item, J is not empty, no predicate of J names two
distinct keys (the keys a predicate names are listed without repetition) and every key
of F is named by some predicate of J,
`dealJoinList2Node` gives no relation tree; the Select of
`select plat1.atest.id from plat1.atest, plat1.btest where
plat1.atest.id = plat1.btest.id` has neither from nor where. -/
theorem same_key_relations_give_no_tree :
    (∀ (v : SqlNodeBuilderVisitor) (fromList : List SqlNode),
      1 < fromList.length → v.joinConditions ≠ [] →
        (∀ c ∈ v.joinConditions, (getConditionTables c).length < 2) →
          (∀ k ∈ fromTables fromList, k ∈ joinTables v.joinConditions) →
            dealJoinList2Node v fromList = none) ∧
    (∀ c : SqlCall, (getConditionTables c).Nodup) ∧
    (∀ (base : BaseSqlNode) (first : String) (rest : List String),
      extractTableName (some (.identifier base (first :: rest))) = first) ∧
    relationKeys sameSchemaFrom = ["plat1", "plat1"] ∧
    getConditionTables
      (dottedEqualsCall 58 "plat1" ["plat1", "atest", "id"] 75 "plat1"
        ["plat1", "btest", "id"]) = ["plat1"] ∧
    (VisitFromClause (.mk [plainTable 1 27 "plat1.atest", plainTable 1 40 "plat1.btest"])
      NewSqlNodeBuilderVisitor).1 = sameSchemaFrom ∧
    (VisitSingleStatement sameSchemaTree NewSqlNodeBuilderVisitor).2.joinConditions =
      [dottedEqualsCall 58 "plat1" ["plat1", "atest", "id"] 75 "plat1"
        ["plat1", "btest", "id"]] ∧
    (VisitSingleStatement sameSchemaTree NewSqlNodeBuilderVisitor).2.filterConditions = [] ∧
    dealJoinList2Node
      (stateWithJoins
        [dottedEqualsCall 58 "plat1" ["plat1", "atest", "id"] 75 "plat1"
          ["plat1", "btest", "id"]]) sameSchemaFrom = none ∧
    (buildSqlNode sameSchemaTree).asNode.map isSelect = some true ∧
    builtFrom sameSchemaTree = none ∧
    builtWhere sameSchemaTree = none := by
  refine ⟨?_, getConditionTables_nodup, fun base first rest => rfl, by decide!, by decide!,
    by decide!, by decide!, by decide!, by decide!, by decide!, by decide!, by decide!⟩
  intro v fromList hF hJ hkeys hnamed
  have hne : ¬ v.joinConditions.length = 0 := fun h0 => hJ (List.length_eq_zero.1 h0)
  unfold dealJoinList2Node
  rw [if_neg (by omega), if_neg hne]
  simp only [appendJoinFromConditions_none_of_no_effective v v.joinConditions hkeys,
    extraTables_eq_nil fromList v.joinConditions hnamed]

/-! ## C37: the leaves of a reconstructed tree -/

theorem treeLeaves_of_not_join (n : SqlNode) (h : isJoin n = false) : treeLeaves n = [n] := by
  cases n <;> first | rfl | simp [isJoin] at h

theorem treeLeaves_stackJoins (pairs : List (SqlCall × SqlNode)) :
    ∀ seed : SqlNode, (∀ p ∈ pairs, isJoin p.2 = false) →
      treeLeaves (stackJoins seed pairs) = treeLeaves seed ++ pairs.map fun p => p.2 := by
  induction pairs with
  | nil => intro seed _; simp [stackJoins]
  | cons p ps ih =>
    intro seed h
    have hp := treeLeaves_of_not_join p.2 (h p (by simp))
    have := ih (NewSqlJoin (some seed) (some p.2) JoinInner (some p.1.toNode) zeroPos)
      (fun q hq => h q (by simp [hq]))
    simp only [stackJoins, List.foldl_cons] at this ⊢
    rw [this]
    simp [NewSqlJoin, treeLeaves, hp]

theorem treeLeaves_foldl_cartesianJoin (keys : List String) :
    ∀ tree : SqlNode,
      treeLeaves (keys.foldl cartesianJoin tree) =
        treeLeaves tree ++ keys.map fun k => NewSqlIdentifier [k] zeroPos := by
  induction keys with
  | nil => intro tree; simp
  | cons k ks ih =>
    intro tree
    rw [List.foldl_cons, ih]
    simp [cartesianJoin, NewSqlJoin, NewSqlIdentifier, treeLeaves]

theorem seedKey_mem (c : SqlCall) (h : 2 ≤ (getConditionTables c).length) :
    seedKey c ∈ getConditionTables c := by
  obtain ⟨l, r, rest, hc⟩ := (two_le_length_iff _).1 h
  simp [seedKey, hc]

/-- With a predicate over two relation keys, every leaf of the reconstructed tree
stands for a relation key: a key some predicate names, through `tableNode`, or a key of
F no predicate names, through a fresh identifier. -/
theorem dealJoinList2Node_leaves (v : SqlNodeBuilderVisitor) (F : List SqlNode)
    (hF : 1 < F.length)
    (hJ : ∃ c ∈ v.joinConditions, 2 ≤ (getConditionTables c).length)
    (hsub : SubqueriesAreRelations v) :
    ∃ tree, dealJoinList2Node v F = some tree ∧
      ∀ leaf ∈ treeLeaves tree,
        (∃ key, (∃ c ∈ v.joinConditions, key ∈ getConditionTables c) ∧
          leaf = tableNode v key) ∨
        (∃ key ∈ unreferencedKeys F v.joinConditions, leaf = NewSqlIdentifier [key] zeroPos) := by
  obtain ⟨c₀, hc₀, hc₀2⟩ := hJ
  have hmem : c₀ ∈ effectiveConditions v.joinConditions := by
    simp [effectiveConditions, hc₀, hc₀2]
  obtain ⟨connects, hlen, hsides, hres⟩ := appendJoinFromConditions_shape v v.joinConditions
  have heff : ∀ c ∈ effectiveConditions v.joinConditions,
      c ∈ v.joinConditions ∧ 2 ≤ (getConditionTables c).length := by
    intro c hc
    have := List.mem_filter.1 hc
    exact ⟨this.1, by simpa using this.2⟩
  match hE : effectiveConditions v.joinConditions with
  | [] => rw [hE] at hmem; simp at hmem
  | c :: rest =>
    rw [hE] at hlen hsides hres
    have hne : ¬ v.joinConditions.length = 0 := by
      intro h0
      rw [List.length_eq_zero.1 h0] at hc₀
      simp at hc₀
    have hc : c ∈ v.joinConditions ∧ 2 ≤ (getConditionTables c).length :=
      heff c (by rw [hE]; simp)
    have hnotJoin : ∀ p ∈ (c :: rest).zip connects, isJoin p.2 = false := by
      intro p hp
      obtain ⟨l, r, _, _, hside⟩ := hsides p hp
      rcases hside with h | h <;> rw [h] <;> exact isJoin_tableNode v hsub _
    refine ⟨(unreferencedKeys F v.joinConditions).foldl cartesianJoin
        (stackJoins (tableNode v (seedKey c)) ((c :: rest).zip connects)), ?_, ?_⟩
    · unfold dealJoinList2Node
      rw [if_neg (by omega), if_neg hne]
      simp only [hres, extraTables_eq_unreferencedKeys]
      rfl
    · intro leaf hleaf
      rw [treeLeaves_foldl_cartesianJoin, treeLeaves_stackJoins _ _ hnotJoin,
        treeLeaves_of_not_join _ (isJoin_tableNode v hsub _)] at hleaf
      simp only [List.mem_append, List.mem_singleton, List.mem_map] at hleaf
      rcases hleaf with (hseed | ⟨p, hp, hpleaf⟩) | ⟨k, hk, hkleaf⟩
      · exact Or.inl ⟨seedKey c, ⟨c, hc.1, seedKey_mem c hc.2⟩, hseed⟩
      · have hp1 : p.1 ∈ effectiveConditions v.joinConditions := by
          rw [hE]
          exact (List.of_mem_zip hp).1
        obtain ⟨l, r, others, htables, hside⟩ := hsides p hp
        rcases hside with h | h
        · exact Or.inl ⟨l, ⟨p.1, (heff p.1 hp1).1, by simp [htables]⟩, by rw [← hpleaf, h]⟩
        · exact Or.inl ⟨r, ⟨p.1, (heff p.1 hp1).1, by simp [htables]⟩, by rw [← hpleaf, h]⟩
      · exact Or.inr ⟨k, hk, hkleaf.symm⟩

theorem unreferencedKeys_subset_fromTables (F : List SqlNode) (J : List SqlCall) (k : String)
    (h : k ∈ unreferencedKeys F J) : k ∈ fromTables F := by
  unfold unreferencedKeys at h
  unfold fromTables
  have := List.mem_filter.1 h
  refine List.mem_filter.2 ⟨this.1, ?_⟩
  have h2 := this.2
  simp only [decide_eq_true_eq] at h2
  simpa using h2.1

/-- C37. When some predicate of J names two distinct relation keys, every leaf of the
tree `dealJoinList2Node` builds is either a subquery node registered under a relation
key or a fresh Identifier whose only name part is a relation key (one a predicate
names or one of F), at the zero span; the from-items of F are not what the tree
holds. For `select u.id from users u, orders o where u.id = o.user_id` the from is
the INNER join of the Identifiers `u` and `o` on `u.id = o.user_id`, in which neither
`users` nor `orders` occurs, and `AnalyzeSQL` reports the tables `u` and `o`; without
the WHERE clause the leaves are the two from-items and the tables are `users` and
`orders`. -/
theorem reconstructed_leaves_are_fresh_identifiers :
    (∀ (v : SqlNodeBuilderVisitor) (fromList : List SqlNode),
      1 < fromList.length →
        (∃ c ∈ v.joinConditions, 2 ≤ (getConditionTables c).length) →
          SubqueriesAreRelations v →
            ∃ tree, dealJoinList2Node v fromList = some tree ∧
              ∀ leaf ∈ treeLeaves tree,
                (∃ key, v.subQueryTables.lookup key = some leaf) ∨
                (∃ key, (key ∈ joinTables v.joinConditions ∨ key ∈ fromTables fromList) ∧
                  leaf = NewSqlIdentifier [key] zeroPos)) ∧
    (∀ (fromCtx : FromClauseContext) (whereClause : Option BooleanExpressionContext),
      SubqueriesAreRelations
        (visitWhereIfPresent whereClause
          (VisitFromClause fromCtx
            { NewSqlNodeBuilderVisitor with currentIdentifiers := [] }).2)) ∧
    (VisitFromClause (.mk [aliasedTable 17 "users" "u", aliasedTable 26 "orders" "o"])
      NewSqlNodeBuilderVisitor).1 = aliasedFrom ∧
    relationKeys aliasedFrom = ["u", "o"] ∧
    builtFrom aliasedJoinTree =
      some (NewSqlJoin (some (NewSqlIdentifier ["u"] zeroPos))
        (some (NewSqlIdentifier ["o"] zeroPos)) JoinInner
        (some (dottedEqualsCall 41 "u" ["u", "id"] 48 "o" ["o", "user_id"]).toNode) zeroPos) ∧
    (builtFrom aliasedJoinTree).map allIdentifierNames = some ["u", "o", "u.id", "o.user_id"] ∧
    (analysisOf aliasedJoinTree).map (fun analysis => analysis.Tables) = some ["u", "o"] ∧
    (builtFrom aliasedProductTree).map treeLeaves = some aliasedFrom ∧
    (analysisOf aliasedProductTree).map (fun analysis => analysis.Tables) =
      some ["users", "orders"] := by
  refine ⟨?_, ?_, by decide!, by decide!, by decide!, by decide!, by decide!, by decide!,
    by decide!⟩
  · intro v fromList hF hJ hsub
    obtain ⟨tree, htree, hleaves⟩ := dealJoinList2Node_leaves v fromList hF hJ hsub
    refine ⟨tree, htree, fun leaf hleaf => ?_⟩
    rcases hleaves leaf hleaf with ⟨key, ⟨c, hc, hkey⟩, hnode⟩ | ⟨key, hkey, hnode⟩
    · unfold tableNode at hnode
      cases hlookup : v.subQueryTables.lookup key with
      | some subQuery =>
        rw [hlookup] at hnode
        exact Or.inl ⟨key, by rw [hlookup, hnode]⟩
      | none =>
        rw [hlookup] at hnode
        exact Or.inr ⟨key, Or.inl ((mem_joinTables _ _).2 ⟨c, hc, hkey⟩), hnode⟩
    · exact Or.inr ⟨key, Or.inr (unreferencedKeys_subset_fromTables _ _ _ hkey), hnode⟩
  · intro fromCtx whereClause
    exact invariant_at_reconstruction subqueriesAreRelations_invariant fromCtx whereClause
      NewSqlNodeBuilderVisitor (fun _ h => absurd h (List.not_mem_nil _))

/-! ## C38: a query specification without FROM -/

theorem isExpressionNode_VisitConstantDefault (constant : ConstantContext) (n : SqlNode)
    (h : VisitConstantDefault constant = some n) : isExpressionNode n = true := by
  cases constant with
  | stringLiteral start allStringLit =>
    simp only [VisitConstantDefault, VisitStringLiteral] at h
    split at h
    · simp at h
    · simp only [Option.some.injEq] at h
      rw [← h]; rfl
  | numericLiteral number =>
    cases number with
    | integerLiteral start text =>
      simp only [VisitConstantDefault, VisitNumericLiteral, VisitIntegerLiteral] at h
      split at h
      · simp only [Option.some.injEq] at h
        rw [← h]; rfl
      · simp at h
    | decimalLiteral start text parseFloat =>
      simp only [VisitConstantDefault, VisitNumericLiteral, VisitDecimalLiteral] at h
      split at h
      · simp only [Option.some.injEq] at h
        rw [← h]; rfl
      · simp at h
    | other => simp [VisitConstantDefault, VisitNumericLiteral] at h
  | booleanLiteral start booleanValue =>
    simp only [VisitConstantDefault, Option.some.injEq] at h
    rw [← h]; rfl
  | nullLiteral start =>
    simp only [VisitConstantDefault, Option.some.injEq] at h
    rw [← h]; rfl
  | other => simp [VisitConstantDefault] at h

theorem isExpressionNode_call (base : BaseSqlNode) (operator : Option SqlOperator)
    (operands : List SqlNode) :
    isExpressionNode (.call base operator operands) = areExpressionNodes operands := by
  simp only [isExpressionNode]

theorem areExpressionNodes_cons (node : SqlNode) (rest : List SqlNode) :
    areExpressionNodes (node :: rest) = (isExpressionNode node && areExpressionNodes rest) := by
  simp only [areExpressionNodes]

theorem isExpressionNode_applyPredicate (pos : Option SqlParserPos)
    (predicate : PredicateContext) (valueNode : SqlNode) (v : SqlNodeBuilderVisitor)
    (h : isExpressionNode valueNode = true) :
    isExpressionNode (applyPredicate pos predicate valueNode v).1 = true := by
  unfold applyPredicate
  simp only
  split
  · simp [NewSqlCall, SqlCall.toNode, isExpressionNode_call, areExpressionNodes, h]
  · split
    · simp [NewSqlCall, SqlCall.toNode, isExpressionNode_call, areExpressionNodes, h]
    · exact h

theorem isExpressionNode_classifyComparison (pos : Option SqlParserPos) (opText : String)
    (a b : SqlNode) (v : SqlNodeBuilderVisitor) (ha : isExpressionNode a = true)
    (hb : isExpressionNode b = true) :
    isExpressionNode (classifyComparison pos opText a b v).1.toNode = true := by
  have h : (classifyComparison pos opText a b v).1 =
      NewSqlCall (some { Name := opText, Kind := getOperatorKind opText, Syntax := .SyntaxBinary })
        [a, b] pos := by
    unfold classifyComparison
    simp only
    split
    · rfl
    · split <;> rfl
  rw [h]
  simp [NewSqlCall, SqlCall.toNode, isExpressionNode_call, areExpressionNodes, ha, hb]

mutual
theorem isExpressionNode_visitBooleanExpressionInternal :
    ∀ (ctx : BooleanExpressionContext) (v : SqlNodeBuilderVisitor) (n : SqlNode),
      (visitBooleanExpressionInternal ctx v).1 = some n → isExpressionNode n = true
  | .logicalBinary _ left right _, v, n, h => by
    simp only [visitBooleanExpressionInternal] at h
    rcases hl : visitBooleanExpressionInternal left v with ⟨lr, v1⟩
    rcases hr : visitBooleanExpressionInternal right v1 with ⟨rr, v2⟩
    rw [hl] at h
    simp only [hr] at h
    cases lr with
    | none => simp at h
    | some leftNode =>
      cases rr with
      | none => simp at h
      | some rightNode =>
        simp only [Option.some.injEq] at h
        have h1 := isExpressionNode_visitBooleanExpressionInternal left v leftNode
          (by rw [hl])
        have h2 := isExpressionNode_visitBooleanExpressionInternal right v1 rightNode
          (by rw [hr])
        rw [← h]
        simp [NewSqlCall, SqlCall.toNode, isExpressionNode_call, areExpressionNodes, h1, h2]
  | .logicalNot _ operand, v, n, h => by
    simp only [visitBooleanExpressionInternal] at h
    rcases ho : visitBooleanExpressionInternal operand v with ⟨r, v1⟩
    rw [ho] at h
    cases r with
    | none => simp at h
    | some operandNode =>
      simp only [Option.some.injEq] at h
      have h1 := isExpressionNode_visitBooleanExpressionInternal operand v operandNode
        (by rw [ho])
      rw [← h]
      simp [NewSqlCall, SqlCall.toNode, isExpressionNode_call, areExpressionNodes, h1]
  | .predicated _ valueExpression none, v, n, h => by
    simp only [visitBooleanExpressionInternal] at h
    exact isExpressionNode_visitValueExpressionInternal valueExpression v n h
  | .predicated start valueExpression (some predicate), v, n, h => by
    simp only [visitBooleanExpressionInternal] at h
    rcases hv : visitValueExpressionInternal valueExpression v with ⟨r, v1⟩
    rw [hv] at h
    cases r with
    | none => simp at h
    | some valueNode =>
      simp only [Option.some.injEq] at h
      have h1 := isExpressionNode_visitValueExpressionInternal valueExpression v valueNode
        (by rw [hv])
      rw [← h]
      exact isExpressionNode_applyPredicate _ _ _ _ h1
  | .other, v, n, h => by
    simp [visitBooleanExpressionInternal] at h
theorem isExpressionNode_visitValueExpressionInternal :
    ∀ (ctx : ValueExpressionContext) (v : SqlNodeBuilderVisitor) (n : SqlNode),
      (visitValueExpressionInternal ctx v).1 = some n → isExpressionNode n = true
  | .valueExpressionDefault primaryExpression, v, n, h => by
    simp only [visitValueExpressionInternal] at h
    exact isExpressionNode_visitPrimaryExpressionInternal primaryExpression v n h
  | .arithmeticBinary _ left right _, v, n, h => by
    simp only [visitValueExpressionInternal] at h
    rcases hl : visitValueExpressionInternal left v with ⟨lr, v1⟩
    rcases hr : visitValueExpressionInternal right v1 with ⟨rr, v2⟩
    rw [hl] at h
    simp only [hr] at h
    cases lr with
    | none => simp at h
    | some leftNode =>
      cases rr with
      | none => simp at h
      | some rightNode =>
        simp only [Option.some.injEq] at h
        have h1 := isExpressionNode_visitValueExpressionInternal left v leftNode (by rw [hl])
        have h2 := isExpressionNode_visitValueExpressionInternal right v1 rightNode
          (by rw [hr])
        rw [← h]
        simp [NewSqlCall, SqlCall.toNode, isExpressionNode_call, areExpressionNodes, h1, h2]
  | .arithmeticUnary _ operand _, v, n, h => by
    simp only [visitValueExpressionInternal] at h
    rcases ho : visitValueExpressionInternal operand v with ⟨r, v1⟩
    rw [ho] at h
    cases r with
    | none => simp at h
    | some operandNode =>
      simp only [Option.some.injEq] at h
      have h1 := isExpressionNode_visitValueExpressionInternal operand v operandNode
        (by rw [ho])
      rw [← h]
      simp [NewSqlCall, SqlCall.toNode, isExpressionNode_call, areExpressionNodes, h1]
  | .comparison start left right op, v, n, h => by
    simp only [visitValueExpressionInternal] at h
    rcases hl : visitValueExpressionInternal left v with ⟨lr, v1⟩
    rcases hr : visitValueExpressionInternal right v1 with ⟨rr, v2⟩
    rw [hl] at h
    simp only [hr] at h
    cases lr with
    | none => simp at h
    | some leftNode =>
      cases rr with
      | none => simp at h
      | some rightNode =>
        simp only [Option.some.injEq] at h
        have h1 := isExpressionNode_visitValueExpressionInternal left v leftNode (by rw [hl])
        have h2 := isExpressionNode_visitValueExpressionInternal right v1 rightNode
          (by rw [hr])
        rw [← h]
        exact isExpressionNode_classifyComparison _ _ _ _ _ h1 h2
  | .other, v, n, h => by
    simp [visitValueExpressionInternal] at h
theorem isExpressionNode_visitPrimaryExpressionInternal :
    ∀ (ctx : PrimaryExpressionContext) (v : SqlNodeBuilderVisitor) (n : SqlNode),
      (visitPrimaryExpressionInternal ctx v).1 = some n → isExpressionNode n = true
  | .star start qualifiedName, v, n, h => by
    simp only [visitPrimaryExpressionInternal, Option.some.injEq] at h
    rw [← h]
    cases qualifiedName <;> rfl
  | .columnReference _ _, v, n, h => by
    simp only [visitPrimaryExpressionInternal, VisitColumnReference, Option.some.injEq] at h
    rw [← h]; rfl
  | .dereference _ _, v, n, h => by
    simp only [visitPrimaryExpressionInternal, VisitDereference, Option.some.injEq] at h
    rw [← h]; rfl
  | .constantDefault constant, v, n, h => by
    simp only [visitPrimaryExpressionInternal] at h
    exact isExpressionNode_VisitConstantDefault constant n h
  | .functionCall _ _ allExpression, v, n, h => by
    simp only [visitPrimaryExpressionInternal, Option.some.injEq] at h
    have h1 := areExpressionNodes_visitFunctionArguments allExpression v
    rw [← h]
    simp [NewSqlCall, SqlCall.toNode, isExpressionNode_call, h1]
  | .parenthesizedExpression expression, v, n, h => by
    simp only [visitPrimaryExpressionInternal] at h
    exact isExpressionNode_visitBooleanExpressionInternal expression v n h
  | .other, v, n, h => by
    simp [visitPrimaryExpressionInternal] at h
theorem areExpressionNodes_visitFunctionArguments :
    ∀ (args : List BooleanExpressionContext) (v : SqlNodeBuilderVisitor),
      areExpressionNodes (visitFunctionArguments args v).1 = true
  | [], v => by
    simp only [visitFunctionArguments]
    rfl
  | arg :: rest, v => by
    simp only [visitFunctionArguments]
    rcases ha : visitBooleanExpressionInternal arg v with ⟨r, v1⟩
    have h2 := areExpressionNodes_visitFunctionArguments rest v1
    cases r with
    | none => exact h2
    | some argNode =>
      have h1 := isExpressionNode_visitBooleanExpressionInternal arg v argNode (by rw [ha])
      simp [areExpressionNodes_cons, h1, h2]
end

theorem isExpressionNode_VisitNamedExpression (ctx : NamedExpressionContext)
    (v : SqlNodeBuilderVisitor) (n : SqlNode) (h : (VisitNamedExpression ctx v).1 = some n) :
    isExpressionNode n = true := by
  unfold VisitNamedExpression VisitExpression at h
  rcases he : visitBooleanExpressionInternal ctx.expression v with ⟨r, v1⟩
  rw [he] at h
  cases r with
  | none => simp at h
  | some sqlNode =>
    have h1 := isExpressionNode_visitBooleanExpressionInternal ctx.expression v sqlNode
      (by rw [he])
    simp only at h
    split at h
    · split at h
      · simp only [Option.some.injEq] at h
        rw [← h]
        simp [NewSqlCall, SqlCall.toNode, isExpressionNode_call, areExpressionNodes,
          NewSqlIdentifier, isExpressionNode, h1]
      · simp only [Option.some.injEq] at h
        rw [← h]; exact h1
    · simp only [Option.some.injEq] at h
      rw [← h]; exact h1

theorem areExpressionNodes_VisitFederatedQueryExpression :
    ∀ (items : List NamedExpressionContext) (v : SqlNodeBuilderVisitor),
      areExpressionNodes (VisitFederatedQueryExpression items v).1 = true
  | [], v => by
    simp only [VisitFederatedQueryExpression]
    rfl
  | item :: rest, v => by
    simp only [VisitFederatedQueryExpression]
    rcases hi : VisitNamedExpression item v with ⟨r, v1⟩
    have h2 := areExpressionNodes_VisitFederatedQueryExpression rest v1
    cases r with
    | none => exact h2
    | some node =>
      have h1 := isExpressionNode_VisitNamedExpression item v node (by rw [hi])
      simp [areExpressionNodes_cons, h1, h2]

theorem areExpressionNodes_VisitSelectClause (ctx : SelectClauseContext)
    (v : SqlNodeBuilderVisitor) :
    areExpressionNodes (VisitSelectClause ctx v).1.SelectList = true := by
  unfold VisitSelectClause
  simp only
  split
  · next items _ => exact areExpressionNodes_VisitFederatedQueryExpression items v
  · rfl

theorem areExpressionNodes_VisitAggregationClause :
    ∀ (clauses : List GroupByClauseContext) (v : SqlNodeBuilderVisitor),
      areExpressionNodes (VisitAggregationClause clauses v).1 = true
  | [], v => by
    simp only [VisitAggregationClause]
    rfl
  | clause :: rest, v => by
    simp only [VisitAggregationClause]
    split
    · next expr _ =>
      simp only [VisitExpression]
      rcases he : visitBooleanExpressionInternal expr v with ⟨r, v1⟩
      have h2 := areExpressionNodes_VisitAggregationClause rest v1
      cases r with
      | none => exact h2
      | some node =>
        have h1 := isExpressionNode_visitBooleanExpressionInternal expr v node (by rw [he])
        simp [areExpressionNodes_cons, h1, h2]
    · exact areExpressionNodes_VisitAggregationClause rest v

mutual
theorem tableEvents_of_expression :
    ∀ n : SqlNode, isExpressionNode n = true →
      (visitEvents n).filterMap AnalysisEvent.tableName = []
  | .identifier _ _, _ => by simp [visitEvents, AnalysisEvent.tableName]
  | .literal _ _ _ _, _ => by simp [visitEvents]
  | .call _ operator operands, h => by
    rw [isExpressionNode_call] at h
    simp [visitEvents, AnalysisEvent.tableName, tableEvents_of_expressions operands h]
  | .hint _, h => by simp [isExpressionNode] at h
  | .select _ _ _ _ _ _ _ _ _ _ _ _, h => by simp [isExpressionNode] at h
  | .join _ _ _ _ _ _, h => by simp [isExpressionNode] at h
  | .basicCall _ _ _, h => by simp [isExpressionNode] at h
  | .nodeList _ _, h => by simp [isExpressionNode] at h
termination_by structural n => n
theorem tableEvents_of_expressions :
    ∀ l : List SqlNode, areExpressionNodes l = true →
      (visitEventsAll l).filterMap AnalysisEvent.tableName = []
  | [], _ => by simp [visitEventsAll]
  | node :: rest, h => by
    rw [areExpressionNodes_cons, Bool.and_eq_true] at h
    simp [visitEventsAll, tableEvents_of_expression node h.1,
      tableEvents_of_expressions rest h.2]
termination_by structural l => l
end

theorem tableEvents_of_option (node : Option SqlNode)
    (h : ∀ n, node = some n → isExpressionNode n = true) :
    (visitEventsOption node).filterMap AnalysisEvent.tableName = [] := by
  cases node with
  | none => simp [visitEventsOption]
  | some n =>
    simp only [visitEventsOption]
    exact tableEvents_of_expression n (h n rfl)

/-- A Select over one table whose select list, GROUP BY list and HAVING are
expressions and which has no where names that table only. -/
theorem fromPositionTables_select_over (base : BaseSqlNode) (hints : List SqlHint)
    (selectList groupBy : List SqlNode) (having : Option SqlNode) (table : String)
    (pos : Option SqlParserPos) (htable : table ≠ "*")
    (hselect : (visitEventsAll selectList).filterMap AnalysisEvent.tableName = [])
    (hgroup : (visitEventsAll groupBy).filterMap AnalysisEvent.tableName = [])
    (hhaving : (visitEventsOption having).filterMap AnalysisEvent.tableName = []) :
    fromPositionTables
        (.select base hints [] selectList (some (NewSqlIdentifier [table] pos)) none groupBy
          having [] [] none none) = [table] := by
  unfold fromPositionTables
  simp only [visitEvents, List.filterMap_append, hselect, hgroup, hhaving, fromEventsOption,
    fromEvents, NewSqlIdentifier, visitEventsOption, visitEventsAll, List.filterMap_nil,
    List.nil_append, List.append_nil, List.filterMap_cons, AnalysisEvent.tableName, htable,
    ne_eq, not_false_eq_true, if_true]

/-- The Select `finishSelect` builds over `DUAL` names no other table. -/
theorem fromPositionTables_finishSelect_dual (pos : Option SqlParserPos)
    (selectClause : SelectClauseContext) (aggregationClause : Option AggregationClauseContext)
    (havingClause : Option BooleanExpressionContext) (v : SqlNodeBuilderVisitor) :
    fromPositionTables
        (finishSelect pos (some (NewSqlIdentifier ["DUAL"] pos)) none selectClause
          aggregationClause havingClause v).1 = ["DUAL"] := by
  unfold finishSelect
  simp only
  apply fromPositionTables_select_over
  · decide
  · exact tableEvents_of_expressions _ (areExpressionNodes_VisitSelectClause selectClause v)
  · cases aggregationClause with
    | none => rfl
    | some aggClause =>
      exact tableEvents_of_expressions _ (areExpressionNodes_VisitAggregationClause _ _)
  · cases havingClause with
    | none => rfl
    | some havingCtx =>
      exact tableEvents_of_option _
        (fun n hn => isExpressionNode_visitBooleanExpressionInternal havingCtx _ n hn)

/-- C38. A query specification without FROM clause is built to a Select whose from is
the Identifier `DUAL` at the span of the query's first token and whose where is
absent; the WHERE clause is not visited, so the Select and the builder's state are
those of the query without its WHERE clause; `AnalyzeSQL` of the Select reports the
one table `DUAL`. So it is for `select id where age > 18`, whose analysis has the
column `id` and not `age`. -/
theorem select_without_from_is_over_dual :
    (∀ start selectClause whereClause aggregationClause havingClause v,
      VisitRegularQuerySpecification start selectClause none whereClause aggregationClause
          havingClause v =
        VisitRegularQuerySpecification start selectClause none none aggregationClause
          havingClause v) ∧
    (∀ start selectClause whereClause aggregationClause havingClause v,
      ∃ node,
        (VisitRegularQuerySpecification start selectClause none whereClause aggregationClause
          havingClause v).1 = .node node ∧
        isSelect node = true ∧
        selectFrom node = some (NewSqlIdentifier ["DUAL"] (getPosition start)) ∧
        selectWhere node = none ∧
        (AnalyzeSQL (some node)).Tables = ["DUAL"]) ∧
    builtFrom noFromTree = some (NewSqlIdentifier ["DUAL"] (some ⟨1, 0, 1, 6⟩)) ∧
    builtWhere noFromTree = none ∧
    (VisitSingleStatement noFromTree NewSqlNodeBuilderVisitor).2.filterConditions = [] ∧
    (analysisOf noFromTree).map (fun analysis => analysis.Tables) = some ["DUAL"] ∧
    (analysisOf noFromTree).map (fun analysis => analysis.Columns) = some ["id"] := by
  refine ⟨?_, ?_, by decide!, by decide!, by decide!, by decide!, by decide!⟩
  · intro start selectClause whereClause aggregationClause havingClause v
    simp only [VisitRegularQuerySpecification, VisitQueryPrimaryDefault]
  · intro start selectClause whereClause aggregationClause havingClause v
    refine ⟨(finishSelect (getPosition start)
      (some (NewSqlIdentifier ["DUAL"] (getPosition start))) none selectClause
      aggregationClause havingClause { v with currentIdentifiers := [] }).1, ?_, ?_, ?_, ?_, ?_⟩
    · simp only [VisitRegularQuerySpecification, VisitQueryPrimaryDefault]
    · simp only [finishSelect, isSelect]
    · simp only [finishSelect, selectFrom]
    · simp only [finishSelect, selectWhere]
    · rw [AnalyzeSQL_eq_steps, tables_foldl_step _ _ setsMatchLists_new]
      have h := fromPositionTables_finishSelect_dual (getPosition start) selectClause
        aggregationClause havingClause { v with currentIdentifiers := [] }
      unfold fromPositionTables at h
      rw [h]
      rfl


/-! ## C9: a join predicate inside a filter predicate -/

/-- C9 (counterexample). For `select t1.k from t1, t2 where (t1.id = t2.id) = true`
the comparison `t1.id = t2.id` is in the join-predicate list and is the ON-condition
of the from, and it occurs in the Select's where as well, as the first operand of the
one filter predicate `(t1.id = t2.id) = true`. -/
theorem join_predicate_inside_filter_predicate :
    (VisitSingleStatement nestedPredicateTree NewSqlNodeBuilderVisitor).2.joinConditions =
      [dottedEqualsCall 31 "t1" ["t1", "id"] 39 "t2" ["t2", "id"]] ∧
    (VisitSingleStatement nestedPredicateTree NewSqlNodeBuilderVisitor).2.filterConditions =
      [nestedPredicateFilter] ∧
    builtFrom nestedPredicateTree =
      some (stackJoins (NewSqlIdentifier ["t1"] zeroPos)
        [(dottedEqualsCall 31 "t1" ["t1", "id"] 39 "t2" ["t2", "id"],
          NewSqlIdentifier ["t2"] zeroPos)]) ∧
    builtWhere nestedPredicateTree = some nestedPredicateFilter.toNode ∧
    (builtWhere nestedPredicateTree).bind firstOperand =
      some (dottedEqualsCall 31 "t1" ["t1", "id"] 39 "t2" ["t2", "id"]).toNode ∧
    (dottedEqualsCall 31 "t1" ["t1", "id"] 39 "t2" ["t2", "id"]).toNode ∈
      ((builtWhere nestedPredicateTree).map allNodes).getD [] := by
  refine ⟨by decide!, by decide!, by decide!, by decide!, by decide!, by decide!⟩

/-! ## C7: a from-item without relation key -/

/-- C7. For `select * from t1, t2, (select id from t3) where t1.id = t2.id` the from
clause gives three from-items, the third being the bare Select of the subquery, which
has no alias and so the empty relation key; no predicate names it, and the from of
the Select is the join of t1 and t2 alone: the subquery is appended by no `1 = 1`
join and is part of no node of the AST. In general what is appended above the folded
tree is one `1 = 1` join per relation key of F that no predicate names, and none of
these keys is empty. -/
theorem unkeyed_relation_is_dropped :
    (VisitFromClause unaliasedSubqueryFrom NewSqlNodeBuilderVisitor).1 =
      [NewSqlIdentifier ["t1"] (some ⟨1, 14, 1, 16⟩),
        NewSqlIdentifier ["t2"] (some ⟨1, 18, 1, 20⟩), unaliasedSubquery] ∧
    relationKeys (VisitFromClause unaliasedSubqueryFrom NewSqlNodeBuilderVisitor).1 =
      ["t1", "t2", ""] ∧
    (VisitSingleStatement unaliasedSubqueryTree NewSqlNodeBuilderVisitor).2.joinConditions =
      [dottedEqualsCall 48 "t1" ["t1", "id"] 56 "t2" ["t2", "id"]] ∧
    (VisitSingleStatement unaliasedSubqueryTree NewSqlNodeBuilderVisitor).2.subQueryTables =
      [] ∧
    builtFrom unaliasedSubqueryTree =
      some (stackJoins (NewSqlIdentifier ["t1"] zeroPos)
        [(dottedEqualsCall 48 "t1" ["t1", "id"] 56 "t2" ["t2", "id"],
          NewSqlIdentifier ["t2"] zeroPos)]) ∧
    (builtFrom unaliasedSubqueryTree).map treeLeaves =
      some [NewSqlIdentifier ["t1"] zeroPos, NewSqlIdentifier ["t2"] zeroPos] ∧
    (((buildSqlNode unaliasedSubqueryTree).asNode.map allNodes).getD []).countP isSelect = 1 ∧
    unaliasedSubquery ∉ ((buildSqlNode unaliasedSubqueryTree).asNode.map allNodes).getD [] ∧
    (∀ (v : SqlNodeBuilderVisitor) (fromList : List SqlNode),
      1 < fromList.length →
        (∃ c ∈ v.joinConditions, 2 ≤ (getConditionTables c).length) →
          ∃ folded tree,
            appendJoinFromConditions v v.joinConditions = some folded ∧
            dealJoinList2Node v fromList = some tree ∧
            leftSpine (unreferencedKeys fromList v.joinConditions).length tree =
              some (folded, (unreferencedKeys fromList v.joinConditions).map fun k =>
                cartesianLevel (NewSqlIdentifier [k] zeroPos)) ∧
            ∀ k ∈ unreferencedKeys fromList v.joinConditions, k ≠ "") := by
  refine ⟨by decide!, by decide!, by decide!, by decide!, by decide!, by decide!, by decide!,
    by decide!, ?_⟩
  intro v fromList hF hJ
  obtain ⟨folded, tree, _, _, hfolded, htree, hspine, _, _, _⟩ :=
    dealJoinList2Node_appends_unreferenced v fromList hF hJ
  refine ⟨folded, tree, hfolded, htree, hspine, fun k hk => ?_⟩
  have h := (List.mem_filter.1 hk).2
  simp only [decide_eq_true_eq] at h
  exact h.1

/-! ## C26: the analyzer neither panics nor returns an error -/

theorem visitCallOperatorChecked_eq (a : SQLAnalyzer) (operator : Option SqlOperator)
    (operands : List SqlNode) :
    a.visitCallOperatorChecked operator operands =
      some (a.visitCallOperator operator operands) := by
  unfold SQLAnalyzer.visitCallOperatorChecked SQLAnalyzer.visitCallOperator
  cases operator with
  | none => rfl
  | some op =>
    simp only [Option.isSome_some, if_true, Option.some_bind]
    split
    · next hguard =>
      match operands, hguard.2 with
      | first :: second :: rest, _ =>
        simp only [List.get?_cons_succ, List.get?_cons_zero, Option.some_bind]
        cases second <;> cases first <;> (simp only []; first | done | (split <;> rfl))
    · rfl

theorem visitBasicCallAliasChecked_eq (a : SQLAnalyzer) (operand : Option SqlNode)
    (aliasText : String) :
    a.visitBasicCallAliasChecked operand aliasText =
      some (a.visitBasicCallAlias operand aliasText) := by
  unfold SQLAnalyzer.visitBasicCallAliasChecked SQLAnalyzer.visitBasicCallAlias
  split
  · cases operand with
    | none => rfl
    | some node =>
      cases node with
      | identifier base names =>
        match names with
        | [] => rfl
        | [name] =>
          simp only [List.length_singleton, if_true, List.get?_cons_zero, Option.some_bind,
            Option.map_some']
          split <;> rfl
        | first :: second :: rest =>
          simp only [List.length_cons]
          rw [if_neg (by omega)]
      | _ => rfl
  · rfl

theorem extractTableIdentifierChecked_eq (a : SQLAnalyzer) (names : List String) :
    a.extractTableIdentifierChecked names = some (a.extractTableIdentifier names) := by
  unfold SQLAnalyzer.extractTableIdentifierChecked SQLAnalyzer.extractTableIdentifier
  cases names with
  | nil => rfl
  | cons first rest =>
    simp only [List.length_cons, Nat.zero_lt_succ, if_true, List.get?_cons_zero,
      Option.some_bind, Option.map_some']
    split <;> rfl

theorem isAsOperatorChecked_eq (operator : Option SqlOperator) :
    isAsOperatorChecked operator = some (isAsOperator operator) := by
  cases operator <;> rfl

mutual
theorem AcceptChecked_eq :
    ∀ (node : SqlNode) (a : SQLAnalyzer),
      SQLAnalyzer.AcceptChecked node a = some (none, SQLAnalyzer.Accept node a)
  | .identifier _ _, a => by simp only [SQLAnalyzer.AcceptChecked, SQLAnalyzer.Accept]
  | .literal _ _ _ _, a => by simp only [SQLAnalyzer.AcceptChecked, SQLAnalyzer.Accept]
  | .call _ operator operands, a => by
    simp only [SQLAnalyzer.AcceptChecked, SQLAnalyzer.Accept, visitCallOperatorChecked_eq,
      Option.some_bind, acceptAllChecked_eq operands, Option.map_some']
  | .hint _, a => by simp only [SQLAnalyzer.AcceptChecked, SQLAnalyzer.Accept]
  | .select _ _ _ selectList from_ where_ groupBy having _ orderBy _ _, a => by
    simp only [SQLAnalyzer.AcceptChecked, SQLAnalyzer.Accept, acceptAllChecked_eq selectList,
      acceptAllChecked_eq groupBy, acceptAllChecked_eq orderBy, guarded_extract_eq from_,
      guarded_accept_eq where_, guarded_accept_eq having, Option.some_bind, Option.map_some']
  | .join _ left right joinType condition _, a => by
    simp only [SQLAnalyzer.AcceptChecked, SQLAnalyzer.Accept, guarded_extract_eq left,
      guarded_extract_eq right, guarded_accept_eq condition, Option.some_bind,
      Option.map_some']
  | .basicCall _ operand aliasText, a => by
    simp only [SQLAnalyzer.AcceptChecked, SQLAnalyzer.Accept, guarded_accept_eq operand,
      visitBasicCallAliasChecked_eq, Option.some_bind, Option.map_some']
  | .nodeList _ list, a => by
    simp only [SQLAnalyzer.AcceptChecked, SQLAnalyzer.Accept, acceptAllChecked_eq list,
      Option.map_some']
termination_by structural node => node
theorem acceptAllChecked_eq :
    ∀ (nodes : List SqlNode) (a : SQLAnalyzer),
      SQLAnalyzer.acceptAllChecked nodes a = some (SQLAnalyzer.acceptAll nodes a)
  | [], a => by simp only [SQLAnalyzer.acceptAllChecked, SQLAnalyzer.acceptAll]
  | node :: rest, a => by
    simp only [SQLAnalyzer.acceptAllChecked, SQLAnalyzer.acceptAll, AcceptChecked_eq node,
      Option.some_bind, acceptAllChecked_eq rest]
termination_by structural nodes => nodes
theorem guarded_accept_eq :
    ∀ (field : Option SqlNode) (a : SQLAnalyzer),
      (if field.isSome then SQLAnalyzer.acceptFieldChecked field a else some a) =
        some (SQLAnalyzer.acceptOption field a)
  | none, a => by simp only [Option.isSome_none, Bool.false_eq_true, if_false,
      SQLAnalyzer.acceptOption]
  | some node, a => by
    simp only [Option.isSome_some, if_true, SQLAnalyzer.acceptFieldChecked,
      SQLAnalyzer.acceptOption, AcceptChecked_eq node, Option.map_some']
termination_by structural field => field
theorem guarded_extract_eq :
    ∀ (field : Option SqlNode) (a : SQLAnalyzer),
      (if field.isSome then SQLAnalyzer.extractTablesChecked field a else some a) =
        some (SQLAnalyzer.extractTablesFromOption field a)
  | none, a => by simp only [Option.isSome_none, Bool.false_eq_true, if_false,
      SQLAnalyzer.extractTablesFromOption]
  | some node, a => by
    simp only [Option.isSome_some, if_true, SQLAnalyzer.extractTablesChecked,
      SQLAnalyzer.extractTablesFromOption, extractTablesFromNodeChecked_eq node]
termination_by structural field => field
theorem extractTablesFromNodeChecked_eq :
    ∀ (node : SqlNode) (a : SQLAnalyzer),
      SQLAnalyzer.extractTablesFromNodeChecked node a =
        some (SQLAnalyzer.extractTablesFromNode node a)
  | .identifier _ names, a => by
    simp only [SQLAnalyzer.extractTablesFromNodeChecked, SQLAnalyzer.extractTablesFromNode,
      extractTableIdentifierChecked_eq]
  | .join _ left right joinType condition _, a => by
    simp only [SQLAnalyzer.extractTablesFromNodeChecked, SQLAnalyzer.extractTablesFromNode,
      guarded_extract_eq left, guarded_extract_eq right, guarded_accept_eq condition,
      Option.some_bind]
  | .call _ operator [], a => by
    simp only [SQLAnalyzer.extractTablesFromNodeChecked, SQLAnalyzer.extractTablesFromNode,
      isAsOperatorChecked_eq, Option.some_bind, visitCallOperatorChecked_eq,
      acceptAllChecked_eq []]
    cases isAsOperator operator <;> simp
  | .call _ operator (first :: rest), a => by
    simp only [SQLAnalyzer.extractTablesFromNodeChecked, SQLAnalyzer.extractTablesFromNode,
      isAsOperatorChecked_eq, Option.some_bind, visitCallOperatorChecked_eq,
      acceptAllChecked_eq (first :: rest), extractTablesFromNodeChecked_eq first]
    cases isAsOperator operator <;> simp
  | .select _ _ _ selectList from_ where_ groupBy having _ orderBy _ _, a => by
    simp only [SQLAnalyzer.extractTablesFromNodeChecked, SQLAnalyzer.extractTablesFromNode,
      acceptAllChecked_eq selectList, acceptAllChecked_eq groupBy, acceptAllChecked_eq orderBy,
      guarded_extract_eq from_, guarded_accept_eq where_, guarded_accept_eq having,
      Option.some_bind]
  | .literal _ _ _ _, a => by
    simp only [SQLAnalyzer.extractTablesFromNodeChecked, SQLAnalyzer.extractTablesFromNode]
  | .hint _, a => by
    simp only [SQLAnalyzer.extractTablesFromNodeChecked, SQLAnalyzer.extractTablesFromNode]
  | .basicCall _ _ _, a => by
    simp only [SQLAnalyzer.extractTablesFromNodeChecked, SQLAnalyzer.extractTablesFromNode]
  | .nodeList _ _, a => by
    simp only [SQLAnalyzer.extractTablesFromNodeChecked, SQLAnalyzer.extractTablesFromNode]
termination_by structural node => node
end

theorem foldl_child_visited (nodes : List SqlNode) :
    ∀ a : SQLAnalyzer,
      (nodes.map AnalysisChild.visited).foldl SQLAnalyzer.child a =
        SQLAnalyzer.acceptAll nodes a := by
  induction nodes with
  | nil => intro a; simp only [List.map_nil, List.foldl_nil, SQLAnalyzer.acceptAll]
  | cons node rest ih =>
    intro a
    simp only [List.map_cons, List.foldl_cons, SQLAnalyzer.acceptAll, SQLAnalyzer.child, ih]

theorem foldl_child_visited_field (field : Option SqlNode) (a : SQLAnalyzer) :
    (field.toList.map AnalysisChild.visited).foldl SQLAnalyzer.child a =
      SQLAnalyzer.acceptOption field a := by
  cases field <;>
    simp only [Option.toList, List.map_nil, List.map_cons, List.foldl_nil, List.foldl_cons,
      SQLAnalyzer.acceptOption, SQLAnalyzer.child]

theorem foldl_child_fromPosition (field : Option SqlNode) (a : SQLAnalyzer) :
    (field.toList.map AnalysisChild.fromPosition).foldl SQLAnalyzer.child a =
      SQLAnalyzer.extractTablesFromOption field a := by
  cases field <;>
    simp only [Option.toList, List.map_nil, List.map_cons, List.foldl_nil, List.foldl_cons,
      SQLAnalyzer.extractTablesFromOption, SQLAnalyzer.child]

/-- C26. For every AST, `AnalyzeSQL` completes: no dereference, no call on a field and
no indexing of the analyzer panics, every optional field (from, where, having of a
Select; left, right, condition of a Join; the operand of a BasicCall) being tested
before it is used, where an untested visit of an absent field would panic; and every
`Visit...` method returns the nil error. The record of a Select is the one the
analysis gets by going, in this order, to the select list, from, where, group-by,
having and order-by that are present, and the record of a Join the one it gets from
the join type and the left, right and condition that are present: an absent field
contributes nothing. So a Select without from, where and having gives the empty
record, a Join without sides and condition its join type only, and a predicate gives
the same record as where of a Select without having and as having of a Select
without where. -/
theorem analysis_skips_absent_fields :
    (∀ (node : SqlNode) (a : SQLAnalyzer),
      SQLAnalyzer.AcceptChecked node a = some (none, SQLAnalyzer.Accept node a)) ∧
    (∀ sqlNode : Option SqlNode, AnalyzeSQLChecked sqlNode = some (AnalyzeSQL sqlNode)) ∧
    (∀ a : SQLAnalyzer, SQLAnalyzer.acceptFieldChecked none a = none) ∧
    (∀ base hints keywordList selectList from_ where_ groupBy having windowDecls orderBy
        offset fetch,
      AnalyzeSQL (some (.select base hints keywordList selectList from_ where_ groupBy having
          windowDecls orderBy offset fetch)) =
        ((presentSelectFields selectList from_ where_ groupBy having orderBy).foldl
          SQLAnalyzer.child newSQLAnalyzer).Analysis) ∧
    (∀ base left right joinType condition usingList,
      AnalyzeSQL (some (.join base left right joinType condition usingList)) =
        ((presentJoinFields left right condition).foldl SQLAnalyzer.child
          (newSQLAnalyzer.visitJoinType joinType)).Analysis) ∧
    (∀ base hints keywordList selectList (predicate : SqlNode) orderBy,
      AnalyzeSQL (some (.select base hints keywordList selectList none (some predicate) []
          none [] orderBy none none)) =
        AnalyzeSQL (some (.select base hints keywordList selectList none none []
          (some predicate) [] orderBy none none))) ∧
    AnalyzeSQLChecked (some (selectOver [] none)) = some emptyAnalysis ∧
    AnalyzeSQLChecked (some (NewSqlJoin none none JoinLeft none zeroPos)) =
      some { emptyAnalysis with JoinTypes := ["LEFT JOIN"] } ∧
    AnalyzeSQLChecked (some joinWithoutCondition) =
      some { emptyAnalysis with Tables := ["t1", "t2"], JoinTypes := ["CROSS JOIN"] } ∧
    AnalyzeSQLChecked (some emptyBasicCall) = some emptyAnalysis := by
  have hselect : ∀ base hints keywordList selectList from_ where_ groupBy having windowDecls
      orderBy offset fetch,
      AnalyzeSQL (some (.select base hints keywordList selectList from_ where_ groupBy having
          windowDecls orderBy offset fetch)) =
        ((presentSelectFields selectList from_ where_ groupBy having orderBy).foldl
          SQLAnalyzer.child newSQLAnalyzer).Analysis := by
    intros
    simp only [AnalyzeSQL, SQLAnalyzer.Accept, presentSelectFields, List.foldl_append,
      foldl_child_visited_field, foldl_child_fromPosition]
    simp only [foldl_child_visited]
  refine ⟨AcceptChecked_eq, ?_, fun a => ?_, hselect, ?_, ?_, by decide!, by decide!,
    by decide!, by decide!⟩
  · intro sqlNode
    cases sqlNode with
    | none => rfl
    | some node => simp only [AnalyzeSQLChecked, AnalyzeSQL, AcceptChecked_eq, Option.map_some']
  · simp only [SQLAnalyzer.acceptFieldChecked]
  · intros
    simp only [AnalyzeSQL, SQLAnalyzer.Accept, presentJoinFields, List.foldl_append,
      foldl_child_visited_field, foldl_child_fromPosition]
  · intros
    rw [hselect, hselect]
    simp only [presentSelectFields, Option.toList, List.map_nil, List.map_cons,
      List.append_nil, List.nil_append, List.append_assoc]

end SqlParser
